import Mathlib

/-!
# Neurite mechanics: `neuroscience/neurite_element.h`

A shallow embedding of the class `NeuriteElement` of
`src/src/neuroscience/neurite_element.h` and of the objects it talks to.

* `double` is modelled by the real numbers, `std::sqrt`, `std::cos`,
  `std::sin`, `std::atan2` by their real counterparts.
* A `SoPointer` is an optional uid (`none` is `nullptr`); the objects of the
  simulation live in a store indexed by uid.
* A member function that only touches the fields of `this` is a function on
  `NeuriteElement`; one that reads or writes other objects is a function on
  `Simulation` taking the uid of `this`, with a `Result` that tells a normal
  return from `Fatal(...)` and from the dereference of a pointer that refers
  to no object.
-/

noncomputable section

namespace bdm

/-- A `std::array<double, 3>`. -/
@[ext] structure Vec3 where
  x : ℝ
  y : ℝ
  z : ℝ

/-- A `std::array<double, 4>`: a force and, last, the part of it that is transmitted to
the proximal end. -/
@[ext] structure Vec4 where
  x : ℝ
  y : ℝ
  z : ℝ
  w : ℝ

namespace Math

/-- Modelled from the spec: `Math::kPi` of core/util/math.h, which is not under src/. -/
def kPi : ℝ := Real.pi

/-- Modelled from the spec: `Math::Add` of core/util/math.h, which is not under src/. -/
def Add (a b : Vec3) : Vec3 := ⟨a.x + b.x, a.y + b.y, a.z + b.z⟩

/-- Modelled from the spec: `Math::Subtract` of core/util/math.h, which is not under src/. -/
def Subtract (a b : Vec3) : Vec3 := ⟨a.x - b.x, a.y - b.y, a.z - b.z⟩

/-- Modelled from the spec: `Math::ScalarMult` of core/util/math.h, which is not under src/. -/
def ScalarMult (k : ℝ) (a : Vec3) : Vec3 := ⟨k * a.x, k * a.y, k * a.z⟩

/-- Modelled from the spec: `Math::Dot` of core/util/math.h, which is not under src/. -/
def Dot (a b : Vec3) : ℝ := a.x * b.x + a.y * b.y + a.z * b.z

/-- Modelled from the spec: `Math::Norm` of core/util/math.h, which is not under src/:
the Euclidean norm the spec writes `‖·‖`. -/
def Norm (a : Vec3) : ℝ := Real.sqrt (a.x * a.x + a.y * a.y + a.z * a.z)

/-- Modelled from the spec: `Math::Normalize` of core/util/math.h, which is not under src/:
the vector divided by its norm. -/
def Normalize (a : Vec3) : Vec3 := ⟨a.x / Norm a, a.y / Norm a, a.z / Norm a⟩

/-- Modelled from the spec: `Math::CrossProduct` of core/util/math.h, which is not under src/. -/
def CrossProduct (a b : Vec3) : Vec3 :=
  ⟨a.y * b.z - a.z * b.y, a.z * b.x - a.x * b.z, a.x * b.y - a.y * b.x⟩

/-- Modelled from the spec: `Math::AngleRadian` of core/util/math.h, which is not under src/:
the angle between two vectors. -/
def AngleRadian (a b : Vec3) : ℝ := Real.arccos (Dot a b / (Norm a * Norm b))

/-- Modelled from the spec: `Math::ProjectionOnto` of core/util/math.h, which is not under src/:
the projection of `a` onto `b`. -/
def ProjectionOnto (a b : Vec3) : Vec3 := ScalarMult (Dot a b / Dot b b) b

/-- Modelled from the spec: `Math::ScalarMult` of core/util/math.h on a
`std::array<double, 4>`. -/
def ScalarMult4 (k : ℝ) (a : Vec4) : Vec4 := ⟨k * a.x, k * a.y, k * a.z, k * a.w⟩

end Math

/-- Modelled from the spec: `std::atan2`, the angle in `(-π, π]` of the point `(x, y)`,
`0` at the origin. -/
def atan2 (y x : ℝ) : ℝ := Complex.arg ⟨x, y⟩

/-- Modelled from the spec: `std::round`, the nearest whole number, halfway cases away from
zero. The conversion of that whole number to `int` is taken to be exact. -/
def std_round (x : ℝ) : Int := if 0 ≤ x then ⌊x + 1 / 2⌋ else ⌈x - 1 / 2⌉

/-- The data members of `Range` (core/multi_simulation/util.h, lines 131-136). -/
structure Range where
  lower_bound : ℝ
  upper_bound : ℝ
  stride : ℝ

namespace Range

/-- `Range::GetValue` (lines 120-123). -/
def GetValue (self : Range) (n : Int) : ℝ :=
  let curr := self.lower_bound + n * self.stride
  if curr > self.upper_bound then self.upper_bound else curr

/-- `Range::GetNumElements` (lines 127-129). -/
def GetNumElements (self : Range) : Int :=
  std_round (((self.upper_bound - self.lower_bound) + self.stride) / self.stride)

end Range

/-- Modelled from the spec: the uniform random source (core/util/random.h is not under
src/), as the sequence of values its successive draws `Uniform(0, 1)` return. -/
structure Random where
  draws : Nat → ℝ

/-- One draw: the value, and the source after the draw. -/
def Random.Uniform (r : Random) : ℝ × Random := (r.draws 0, ⟨fun n => r.draws (n + 1)⟩)

/-- The parameters read through `Simulation::GetActive()->GetParam()` (core/param.h and
neuroscience/param.h are not under src/): only the members this header reads. -/
structure Param where
  neurite_default_tension : ℝ
  neurite_default_diameter : ℝ
  neurite_default_actual_length : ℝ
  neurite_default_density : ℝ
  neurite_default_spring_constant : ℝ
  neurite_default_adherence : ℝ
  neurite_minimial_bifurcation_length : ℝ
  neurite_max_length : ℝ
  neurite_min_length : ℝ
  simulation_time_step : ℝ
  simulation_max_displacement : ℝ

/-- What a run fixes once and for all: the parameters, `Math::Perp3` (core/util/math.h is
not under src/; the spec only says it returns a vector perpendicular to its argument,
from a random scalar), and the indeterminate value the default member initializer of
`resting_length_` computes from members that are not initialized yet. -/
structure Env where
  param : Param
  Perp3 : Vec3 → ℝ → Vec3
  indeterminate : ℝ

/-- The data members of `NeuriteElement` (lines 1108-1158). -/
structure NeuriteElement where
  mass_location : Vec3
  volume : ℝ
  diameter : ℝ
  density : ℝ
  adherence : ℝ
  x_axis : Vec3
  y_axis : Vec3
  z_axis : Vec3
  is_axon : Bool
  mother : Option Nat
  daughter_left : Option Nat
  daughter_right : Option Nat
  branch_order : Int
  force_to_transmit_to_proximal_mass : Vec3
  spring_axis : Vec3
  actual_length : ℝ
  tension : ℝ
  spring_constant : ℝ
  resting_length : ℝ

namespace NeuriteElement

/-- `UpdateVolume` (lines 809-812). -/
def UpdateVolume (self : NeuriteElement) : NeuriteElement :=
  { self with volume := Math.kPi / 4 * self.diameter * self.diameter * self.actual_length }

/-- `UpdateDiameter` (lines 803-806). -/
def UpdateDiameter (self : NeuriteElement) : NeuriteElement :=
  { self with diameter := Real.sqrt (4 / Math.kPi * self.volume / self.actual_length) }

/-- The default constructor `NeuriteElement()` (lines 71-80) after the default member
initializers (lines 1108-1158). -/
def new (env : Env) : NeuriteElement :=
  UpdateVolume
    { mass_location := ⟨0, 0, 0⟩
      volume := 0
      diameter := env.param.neurite_default_diameter
      density := env.param.neurite_default_density
      adherence := env.param.neurite_default_adherence
      x_axis := ⟨1, 0, 0⟩
      y_axis := ⟨0, 1, 0⟩
      z_axis := ⟨0, 0, 1⟩
      is_axon := false
      mother := none
      daughter_left := none
      daughter_right := none
      branch_order := 0
      force_to_transmit_to_proximal_mass := ⟨0, 0, 0⟩
      spring_axis := ⟨0, 0, 0⟩
      actual_length := env.param.neurite_default_actual_length
      tension := env.param.neurite_default_tension
      spring_constant := env.param.neurite_default_spring_constant
      resting_length := env.indeterminate }

/-- `SetDiameter` (lines 170-173). -/
def SetDiameter (self : NeuriteElement) (diameter : ℝ) : NeuriteElement :=
  UpdateVolume { self with diameter := diameter }

/-- `SetPosition` (lines 184-187). -/
def SetPosition (self : NeuriteElement) (position : Vec3) : NeuriteElement :=
  { self with mass_location := Math.Add position (Math.ScalarMult 0.5 self.spring_axis) }

/-- `SetMassLocation` (lines 194-196). -/
def SetMassLocation (self : NeuriteElement) (mass_location : Vec3) : NeuriteElement :=
  { self with mass_location := mass_location }

/-- `SetRestingLengthForDesiredTension` (lines 578-587). -/
def SetRestingLengthForDesiredTension (self : NeuriteElement) (tension : ℝ) : NeuriteElement :=
  if tension = 0 then
    { self with tension := tension, resting_length := self.actual_length }
  else
    { self with
      tension := tension
      resting_length := self.spring_constant * self.actual_length /
        (tension + self.spring_constant) }

/-- `ChangeVolume` (lines 591-602). -/
def ChangeVolume (env : Env) (self : NeuriteElement) (speed : ℝ) : NeuriteElement :=
  let delta := speed * env.param.simulation_time_step
  let volume := self.volume + delta
  UpdateDiameter
    { self with volume := if volume < 5.2359877e-7 then 5.2359877e-7 else volume }

/-- `ChangeDiameter` (lines 606-612). -/
def ChangeDiameter (env : Env) (self : NeuriteElement) (speed : ℝ) : NeuriteElement :=
  let delta := speed * env.param.simulation_time_step
  UpdateVolume { self with diameter := self.diameter + delta }

/-- `UpdateLocalCoordinateAxis` (lines 783-800): the new element and the random source,
which is drawn from only on the fallback path. -/
def UpdateLocalCoordinateAxis (env : Env) (self : NeuriteElement) (random : Random) :
    NeuriteElement × Random :=
  let x_axis := Math.Normalize self.spring_axis
  let z_axis := Math.CrossProduct x_axis self.y_axis
  let norm_of_z := Math.Norm z_axis
  if norm_of_z < 1e-10 then
    let z_axis := env.Perp3 x_axis random.Uniform.1
    ({ self with x_axis := x_axis, z_axis := z_axis, y_axis := Math.CrossProduct z_axis x_axis },
      random.Uniform.2)
  else
    let z_axis := Math.ScalarMult (1 / norm_of_z) z_axis
    ({ self with x_axis := x_axis, z_axis := z_axis, y_axis := Math.CrossProduct z_axis x_axis },
      random)

/-- `ProximalEnd` (lines 996-998). -/
def ProximalEnd (self : NeuriteElement) : Vec3 :=
  Math.Subtract self.mass_location self.spring_axis

/-- `TransformCoordinatesGlobalToLocal` (lines 848-853). -/
def TransformCoordinatesGlobalToLocal (self : NeuriteElement) (position : Vec3) : Vec3 :=
  let pos := Math.Subtract position self.ProximalEnd
  ⟨Math.Dot pos self.x_axis, Math.Dot pos self.y_axis, Math.Dot pos self.z_axis⟩

/-- `TransformCoordinatesLocalToGlobal` (lines 860-870). -/
def TransformCoordinatesLocalToGlobal (self : NeuriteElement) (position : Vec3) : Vec3 :=
  let glob : Vec3 :=
    ⟨position.x * self.x_axis.x + position.y * self.y_axis.x + position.z * self.z_axis.x,
     position.x * self.x_axis.y + position.y * self.y_axis.y + position.z * self.z_axis.y,
     position.x * self.x_axis.z + position.y * self.y_axis.z + position.z * self.z_axis.z⟩
  Math.Add glob self.ProximalEnd

/-- `TransformCoordinatesLocalToPolar` (lines 876-880); a polar triple is `(h, θ, r)`. -/
def TransformCoordinatesLocalToPolar (position : Vec3) : Vec3 :=
  ⟨position.x, atan2 position.z position.y,
   Real.sqrt (position.y * position.y + position.z * position.z)⟩

/-- `TransformCoordinatesPolarToLocal` (lines 886-890). -/
def TransformCoordinatesPolarToLocal (position : Vec3) : Vec3 :=
  ⟨position.x, position.z * Real.cos position.y, position.z * Real.sin position.y⟩

/-- `Copy` (lines 1088-1101). -/
def Copy (self rhs : NeuriteElement) : NeuriteElement :=
  { (SetDiameter { self with adherence := rhs.adherence } rhs.diameter) with
    x_axis := rhs.x_axis
    y_axis := rhs.y_axis
    z_axis := rhs.z_axis
    spring_axis := rhs.spring_axis
    branch_order := rhs.branch_order
    spring_constant := rhs.spring_constant }

/-- The body of `UpdateDependentPhysicalVariables` (lines 1035-1046) once
`relative_ml = mother_->OriginOf(Base::GetUid())` has been read (line 1034). -/
def UpdateDependentPhysicalVariables (self : NeuriteElement) (relative_ml : Vec3) :
    NeuriteElement :=
  let spring_axis := Math.Subtract self.mass_location relative_ml
  let actual_length := Real.sqrt (Math.Dot spring_axis spring_axis)
  UpdateVolume
    { self with
      spring_axis := spring_axis
      actual_length := actual_length
      tension :=
        if |actual_length - self.resting_length| > 1e-13 then
          self.spring_constant * (actual_length - self.resting_length) / self.resting_length
        else 0 }

/-- `RemoveDaughter` (lines 449-463) on the fields of `this`; `none` is the path that
ends in `Fatal("NeuriteElement", "Given object is not a daughter!")`. -/
def RemoveDaughter (self : NeuriteElement) (daughter : Nat) : Option NeuriteElement :=
  if some daughter = self.daughter_right then
    some { self with daughter_right := none }
  else if some daughter = self.daughter_left then
    some { self with daughter_left := self.daughter_right, daughter_right := none }
  else none

/-- `UpdateRelative` (lines 466-478); both relatives are neurite elements at every call
of this header, and are given by their uid. -/
def UpdateRelative (self : NeuriteElement) (old_relative new_relative : Nat) :
    NeuriteElement :=
  if self.mother = some old_relative then
    { self with mother := some new_relative }
  else if self.daughter_left = some old_relative then
    { self with daughter_left := some new_relative }
  else if self.daughter_right = some old_relative then
    { self with daughter_right := some new_relative }
  else self

/-- `ForceTransmittedFromDaugtherToMother` (lines 483-499) on the fields of `this`, the
mother being given by its uid; `none` is the path that ends in
`Fatal("NeuriteElement", "Given object is not the mother!")`. -/
def ForceTransmittedFromDaugtherToMother (self : NeuriteElement) (mother : Nat) :
    Option Vec3 :=
  if self.mother ≠ some mother then none
  else
    let factor := self.tension / self.actual_length
    let factor := if factor < 0 then 0 else factor
    some (Math.Add (Math.ScalarMult factor self.spring_axis)
      self.force_to_transmit_to_proximal_mass)

/-- `BranchPermitted` (lines 303-305). -/
def BranchPermitted (self : NeuriteElement) : Bool :=
  self.daughter_left != none && self.daughter_right == none

/-- The six assignments from the module parameters that open every `Initialize...`
function (lines 1231-1237, 1276-1282, 1322-1328, 1353-1359). -/
def SetDefaults (env : Env) (self : NeuriteElement) : NeuriteElement :=
  { self with
    tension := env.param.neurite_default_tension
    diameter := env.param.neurite_default_diameter
    actual_length := env.param.neurite_default_actual_length
    density := env.param.neurite_default_density
    spring_constant := env.param.neurite_default_spring_constant
    adherence := env.param.neurite_default_adherence }

end NeuriteElement

/-- Modelled from the spec: the soma (neuroscience/neuron_soma.h is not under src/): a
position, a diameter, an orthonormal frame, the daughters attached to it and the point
where each is attached. -/
structure NeuronSoma where
  position : Vec3
  diameter : ℝ
  kXAxis : Vec3
  kYAxis : Vec3
  kZAxis : Vec3
  daughters : List Nat
  attachment : Nat → Vec3

namespace NeuronSoma

/-- Modelled from the spec: `NeuronSoma::OriginOf`, the attachment point of a daughter. -/
def OriginOf (self : NeuronSoma) (daughter_uid : Nat) : Vec3 := self.attachment daughter_uid

/-- Modelled from the spec: `NeuronSoma::RemoveDaughter`; `none` when the object is not
a daughter (the spec makes the reference to a non-daughter during removal fatal). -/
def RemoveDaughter (self : NeuronSoma) (daughter : Nat) : Option NeuronSoma :=
  if daughter ∈ self.daughters then
    some { self with daughters := self.daughters.erase daughter }
  else none

/-- Modelled from the spec: `NeuronSoma::UpdateRelative`; the new relative takes the
place and the attachment point of the old one. -/
def UpdateRelative (self : NeuronSoma) (old_relative new_relative : Nat) : NeuronSoma :=
  { self with
    daughters := self.daughters.map (fun d => if d = old_relative then new_relative else d)
    attachment := Function.update self.attachment new_relative (self.attachment old_relative) }

end NeuronSoma

/-- The two classes behind a `SoPointer<NeuronOrNeurite>`. -/
inductive SimObject where
  | soma (s : NeuronSoma)
  | neurite (n : NeuriteElement)

/-- The simulation state this header reads and writes: the simulation objects by uid
(committed and staged alike), the next uid `GetInstance` hands out, and the random
source. -/
structure Simulation where
  objects : Nat → Option SimObject
  next_uid : Nat
  random : Random

/-- The calls of `Fatal` in this header. -/
inductive FatalError where
  | bifurcation_not_terminal
  | not_a_daughter
  | not_the_mother
  | daughter_right_not_null
  deriving DecidableEq

/-- How a member function ends: it returns; or it calls `Fatal`, which aborts the run in
the state reached (Modelled from the spec: core/util/log.h is not under src/); or it
dereferences a pointer that refers to no object; or the recursion of the model has used
up its fuel. -/
inductive Result (α : Type) where
  | ok (value : α) (sim : Simulation)
  | fatal (error : FatalError) (sim : Simulation)
  | fault
  | out_of_fuel

/-- A member function that reads and writes the simulation. -/
def Op (α : Type) : Type := Simulation → Result α

namespace Op

/-- Return a value. -/
protected def pure {α : Type} (a : α) : Op α := fun sim => Result.ok a sim

/-- Sequencing: what follows runs only after a normal return. -/
protected def bind {α β : Type} (m : Op α) (f : α → Op β) : Op β := fun sim =>
  match m sim with
  | Result.ok a sim1 => f a sim1
  | Result.fatal e sim1 => Result.fatal e sim1
  | Result.fault => Result.fault
  | Result.out_of_fuel => Result.out_of_fuel

instance : Monad Op where
  pure := Op.pure
  bind := Op.bind

/-- `Fatal(...)`. -/
def Fatal {α : Type} (e : FatalError) : Op α := fun sim => Result.fatal e sim

/-- The dereference of a pointer that refers to no object. -/
def fault {α : Type} : Op α := fun _ => Result.fault

/-- The model has no fuel left for a recursive call. -/
def out_of_fuel {α : Type} : Op α := fun _ => Result.out_of_fuel

/-- Dereference a `SoPointer<NeuronOrNeurite>`. -/
def deref (ptr : Option Nat) : Op (Nat × SimObject) := fun sim =>
  match ptr with
  | none => Result.fault
  | some uid =>
    match sim.objects uid with
    | none => Result.fault
    | some o => Result.ok (uid, o) sim

/-- Dereference a pointer to a `NeuriteElement`, given by its uid. -/
def getNeurite (uid : Nat) : Op NeuriteElement := fun sim =>
  match sim.objects uid with
  | some (SimObject.neurite n) => Result.ok n sim
  | _ => Result.fault

/-- Write the fields of the object `uid`. -/
def setObject (uid : Nat) (o : SimObject) : Op Unit := fun sim =>
  Result.ok () { sim with objects := Function.update sim.objects uid (some o) }

/-- Write the fields of the neurite element `uid`. -/
def setNeurite (uid : Nat) (n : NeuriteElement) : Op Unit :=
  setObject uid (SimObject.neurite n)

/-- Run a member function that only touches the fields of the neurite element `uid`. -/
def modify (uid : Nat) (f : NeuriteElement → NeuriteElement) : Op Unit := do
  let n ← getNeurite uid
  setNeurite uid (f n)

/-- `GetInstance()`: a default-constructed neurite element under a fresh uid. The model
stores it at once; `ctxt->push_back`, which follows the event constructor in the source,
has nothing left to do. -/
def GetInstance (env : Env) : Op Nat := fun sim =>
  Result.ok sim.next_uid
    { sim with
      objects := Function.update sim.objects sim.next_uid
        (some (SimObject.neurite (NeuriteElement.new env)))
      next_uid := sim.next_uid + 1 }

/-- `RemoveFromSimulation()` of the object `uid`. -/
def RemoveFromSimulation (uid : Nat) : Op Unit := fun sim =>
  Result.ok () { sim with objects := Function.update sim.objects uid none }

/-- `ptr->OriginOf(daughter_uid)` (lines 218-220 for a neurite element). -/
def OriginOf (ptr : Option Nat) (daughter_uid : Nat) : Op Vec3 := do
  let (_, o) ← deref ptr
  match o with
  | SimObject.neurite n => pure n.mass_location
  | SimObject.soma s => pure (s.OriginOf daughter_uid)

/-- `ptr->RemoveDaughter(daughter)` (lines 449-463 for a neurite element). -/
def RemoveDaughter (ptr : Option Nat) (daughter : Nat) : Op Unit := do
  let (uid, o) ← deref ptr
  match o with
  | SimObject.neurite n =>
    match n.RemoveDaughter daughter with
    | some n1 => setNeurite uid n1
    | none => Fatal FatalError.not_a_daughter
  | SimObject.soma s =>
    match s.RemoveDaughter daughter with
    | some s1 => setObject uid (SimObject.soma s1)
    | none => Fatal FatalError.not_a_daughter

/-- `ptr->UpdateRelative(old_relative, new_relative)` (lines 466-478 for a neurite
element). -/
def UpdateRelative (ptr : Option Nat) (old_relative new_relative : Nat) : Op Unit := do
  let (uid, o) ← deref ptr
  match o with
  | SimObject.neurite n => setNeurite uid (n.UpdateRelative old_relative new_relative)
  | SimObject.soma s => setObject uid (SimObject.soma (s.UpdateRelative old_relative new_relative))

/-- `UpdateDependentPhysicalVariables` (lines 1033-1047) of the neurite element `uid`. -/
def UpdateDependentPhysicalVariables (uid : Nat) : Op Unit := do
  let self ← getNeurite uid
  let relative_ml ← OriginOf self.mother uid
  setNeurite uid (self.UpdateDependentPhysicalVariables relative_ml)

/-- `UpdateLocalCoordinateAxis` (lines 783-800) of the neurite element `uid`, drawing
from the random source of the simulation. -/
def UpdateLocalCoordinateAxis (env : Env) (uid : Nat) : Op Unit := do
  let self ← getNeurite uid
  fun sim =>
    Result.ok ()
      { sim with
        objects := Function.update sim.objects uid
          (some (SimObject.neurite (self.UpdateLocalCoordinateAxis env sim.random).1))
        random := (self.UpdateLocalCoordinateAxis env sim.random).2 }

/-- `InitializeNewNeuriteExtension` (lines 1230-1272) run on the new element `this`, as
the event constructor does for a `NewNeuriteExtensionEvent` (lines 87-90); `other` is cast
to a soma and dereferenced. -/
def InitializeNewNeuriteExtension (env : Env) (this other : Nat) (diameter phi theta : ℝ) :
    Op Unit := do
  let (_, o) ← deref (some other)
  match o with
  | SimObject.neurite _ => fault
  | SimObject.soma soma => do
    modify this (fun n => NeuriteElement.SetDefaults env n)
    let radius := 0.5 * soma.diameter
    let new_length := env.param.neurite_default_actual_length
    let x_coord := Real.sin theta * Real.cos phi
    let y_coord := Real.sin theta * Real.sin phi
    let z_coord := Real.cos theta
    let axis_direction : Vec3 :=
      ⟨x_coord * soma.kXAxis.x + y_coord * soma.kYAxis.x + z_coord * soma.kZAxis.x,
       x_coord * soma.kXAxis.y + y_coord * soma.kYAxis.y + z_coord * soma.kZAxis.y,
       x_coord * soma.kXAxis.z + y_coord * soma.kYAxis.z + z_coord * soma.kZAxis.z⟩
    let new_begin_location := Math.Add soma.position (Math.ScalarMult radius axis_direction)
    let new_spring_axis := Math.ScalarMult new_length axis_direction
    let new_mass_location := Math.Add new_begin_location new_spring_axis
    modify this (fun n =>
      let n1 := NeuriteElement.UpdateVolume { n with diameter := diameter }
      let n2 := { n1 with spring_axis := new_spring_axis }
      let n3 := n2.SetMassLocation new_mass_location
      NeuriteElement.SetRestingLengthForDesiredTension { n3 with actual_length := new_length }
        env.param.neurite_default_tension)
    UpdateLocalCoordinateAxis env this
    modify this (fun n => { n with mother := some other })

/-- `InitializeNeuriteBifurcation` (lines 1275-1315) run on the new element `this`. -/
def InitializeNeuriteBifurcation (env : Env) (this mother : Nat) (length diameter : ℝ)
    (direction : Vec3) : Op Unit := do
  let m ← getNeurite mother
  modify this (fun n =>
    { (NeuriteElement.Copy (NeuriteElement.SetDefaults env n) m) with mother := some mother })
  let mother_spring_axis := m.spring_axis
  let dir_1 :=
    if Math.AngleRadian mother_spring_axis direction > Math.kPi / 2 then
      Math.Add direction
        (Math.ScalarMult (-1) (Math.ProjectionOnto direction mother_spring_axis))
    else direction
  let mother_ml := m.mass_location
  modify this (fun n =>
    let n1 := { n with spring_axis := Math.ScalarMult length (Math.Normalize dir_1) }
    n1.SetMassLocation (Math.Add mother_ml n1.spring_axis))
  UpdateLocalCoordinateAxis env this
  modify this (fun n =>
    NeuriteElement.SetRestingLengthForDesiredTension { n with actual_length := length }
      env.param.neurite_default_tension)
  UpdateLocalCoordinateAxis env this
  modify this (fun n => { n with diameter := diameter, branch_order := m.branch_order + 1 })
  UpdateDependentPhysicalVariables this

/-- `InitializeSplitOrBranching` (lines 1321-1347) run on the new element `this`. -/
def InitializeSplitOrBranching (env : Env) (this other : Nat) (distal_portion : ℝ) :
    Op Unit := do
  let o ← getNeurite other
  let other_ml := o.mass_location
  let other_sa := o.spring_axis
  let other_rl := o.resting_length
  let new_position := Math.Subtract other_ml (Math.ScalarMult distal_portion other_sa)
  modify this (fun n =>
    NeuriteElement.Copy (NeuriteElement.SetPosition (NeuriteElement.SetDefaults env n)
      new_position) o)
  let (m, _) ← deref o.mother
  modify this (fun n =>
    { n with
      mother := some m
      daughter_left := some other
      resting_length := (1 - distal_portion) * other_rl })

/-- `InitializeSideExtensionOrBranching` (lines 1352-1393) run on the new element `this`.
The corrected direction `dir` of lines 1363-1372 is computed and not used afterwards. -/
def InitializeSideExtensionOrBranching (env : Env) (this mother : Nat)
    (length diameter : ℝ) (direction : Vec3) : Op Unit := do
  let m ← getNeurite mother
  modify this (fun n => NeuriteElement.Copy (NeuriteElement.SetDefaults env n) m)
  let mother_spring_axis := m.spring_axis
  let angle_with_side_branch := Math.AngleRadian mother_spring_axis direction
  let _dir :=
    if angle_with_side_branch < 0.78 ∨ angle_with_side_branch > 2.35 then
      Math.Add (Math.Normalize direction)
        (Math.Normalize
          (Math.CrossProduct (Math.CrossProduct mother_spring_axis direction)
            mother_spring_axis))
    else direction
  let new_spring_axis := Math.ScalarMult length (Math.Normalize direction)
  let mother_ml := m.mass_location
  modify this (fun n =>
    NeuriteElement.SetDiameter
      (NeuriteElement.SetRestingLengthForDesiredTension
        { n with
          mass_location := Math.Add mother_ml new_spring_axis
          spring_axis := new_spring_axis
          actual_length := length }
        env.param.neurite_default_tension)
      env.param.neurite_default_diameter)
  UpdateLocalCoordinateAxis env this
  modify this (fun n =>
    { n with
      mother := some mother
      branch_order := m.branch_order + 1
      diameter := diameter })
  UpdateDependentPhysicalVariables this

/-- The lines the event handlers of `SplitNeuriteElementEvent` (137-146) and of
`NeuriteBranchingEvent` (157-164) share. -/
def HandleSplit (env : Env) (this proximal : Nat) (distal_portion : ℝ) : Op Unit := do
  modify this (fun n => { n with resting_length := n.resting_length * distal_portion })
  let self ← getNeurite this
  UpdateRelative self.mother this proximal
  modify this (fun n => { n with mother := some proximal })
  UpdateDependentPhysicalVariables this
  UpdateDependentPhysicalVariables proximal
  UpdateLocalCoordinateAxis env proximal

/-- `SplitNeuriteElement` (lines 1163-1171), with the event constructor (lines 110-113)
and the event handler (lines 134-146) it runs; returns the new proximal element. -/
def SplitNeuriteElement (env : Env) (this : Nat) (distal_portion : ℝ) : Op Nat := do
  let new_proximal_element ← GetInstance env
  InitializeSplitOrBranching env new_proximal_element this distal_portion
  HandleSplit env this new_proximal_element distal_portion
  pure new_proximal_element

/-- `Branch(new_branch_diameter, direction, length)` (lines 310-326), with the event
constructors (lines 114-121) and the event handler (lines 147-165) it runs; returns the
new side branch. -/
def Branch (env : Env) (this : Nat) (new_branch_diameter : ℝ) (direction : Vec3)
    (length : ℝ) : Op Nat := do
  let proximal ← GetInstance env
  InitializeSplitOrBranching env proximal this 0.5
  let branch ← GetInstance env
  InitializeSideExtensionOrBranching env branch proximal length new_branch_diameter direction
  modify proximal (fun n => { n with daughter_right := some branch })
  HandleSplit env this proximal 0.5
  pure branch

/-- `Bifurcate(length, diameter_1, diameter_2, direction_1, direction_2)` (lines
377-398), with the event constructors (lines 91-105) and the event handler (lines
129-131) it runs; returns the two new branches. -/
def Bifurcate (env : Env) (this : Nat) (length diameter_1 diameter_2 : ℝ)
    (direction_1 direction_2 : Vec3) : Op (Nat × Nat) := do
  let self ← getNeurite this
  if self.daughter_left ≠ none then
    Fatal FatalError.bifurcation_not_terminal
  else do
    let new_branch_l ← GetInstance env
    InitializeNeuriteBifurcation env new_branch_l this length diameter_1 direction_1
    let new_branch_r ← GetInstance env
    InitializeNeuriteBifurcation env new_branch_r this length diameter_2 direction_2
    modify this (fun n =>
      { n with daughter_left := some new_branch_l, daughter_right := some new_branch_r })
    pure (new_branch_l, new_branch_r)

/-- `RemoveProximalNeuriteElement` (lines 1175-1207). -/
def RemoveProximalNeuriteElement (env : Env) (this : Nat) : Op Unit := do
  let self ← getNeurite this
  let (proximal_ne, mo) ← deref self.mother
  match mo with
  | SimObject.soma _ => pure ()
  | SimObject.neurite mother_neurite =>
    if mother_neurite.daughter_right ≠ none then
      pure ()
    else do
      UpdateRelative mother_neurite.mother proximal_ne this
      let mother_neurite ← getNeurite proximal_ne
      let (grandmother, _) ← deref mother_neurite.mother
      modify this (fun n => { n with mother := some grandmother })
      let self ← getNeurite this
      let origin ← OriginOf self.mother this
      modify this (fun n =>
        let n1 := { n with spring_axis := Math.Subtract n.mass_location origin }
        let n2 := { n1 with actual_length := Math.Norm n1.spring_axis }
        NeuriteElement.UpdateVolume
          { n2 with
            resting_length := n2.spring_constant * n2.actual_length /
              (n2.tension + n2.spring_constant) })
      UpdateLocalCoordinateAxis env this
      RemoveFromSimulation proximal_ne

/-- `RetractTerminalEnd` (lines 238-283); `fuel` bounds the depth of the recursion of
line 274. -/
def RetractTerminalEnd (env : Env) : Nat → Nat → ℝ → Op Unit
  | 0, _, _ => out_of_fuel
  | fuel + 1, this, speed => do
    let self ← getNeurite this
    if self.daughter_left ≠ none then
      pure ()
    else do
      let speed := speed * env.param.simulation_time_step
      let (_, mo) ← deref self.mother
      if self.actual_length > speed + 0.1 then do
        let new_actual_length := self.actual_length - speed
        let factor := new_actual_length / self.actual_length
        let origin ← OriginOf self.mother this
        modify this (fun n =>
          let n1 := { n with actual_length := new_actual_length }
          let n2 := { n1 with
            resting_length := n1.spring_constant * n1.actual_length /
              (n1.tension + n1.spring_constant) }
          let n3 := { n2 with spring_axis := Math.ScalarMult factor n2.spring_axis }
          NeuriteElement.UpdateVolume { n3 with mass_location := Math.Add origin n3.spring_axis })
      else
        match mo with
        | SimObject.soma _ => do
          RemoveDaughter self.mother this
          RemoveFromSimulation this
        | SimObject.neurite mother_neurite =>
          if mother_neurite.daughter_right = none then do
            RemoveProximalNeuriteElement env this
            RetractTerminalEnd env fuel this (speed / env.param.simulation_time_step)
          else do
            RemoveDaughter self.mother this
            RemoveFromSimulation this
            match self.mother with
            | some m => UpdateDependentPhysicalVariables m
            | none => fault

/-- `RunDiscretization` (lines 510-539). -/
def RunDiscretization (env : Env) (this : Nat) : Op Unit := do
  let self ← getNeurite this
  if self.daughter_left ≠ none then
    pure ()
  else do
    let (proximal_ne, mo) ← deref self.mother
    let mother_is_soma : Bool := match mo with
      | SimObject.soma _ => true
      | SimObject.neurite _ => false
    if self.actual_length > env.param.neurite_max_length then
      if self.daughter_left = none then do
        let _ ← SplitNeuriteElement env this 0.1
      else if mother_is_soma then do
        let _ ← SplitNeuriteElement env this 0.9
      else do
        let _ ← SplitNeuriteElement env this 0.5
    else
      match mo with
      | SimObject.soma _ => pure ()
      | SimObject.neurite mother_neurite =>
        if self.actual_length < env.param.neurite_min_length ∧
            mother_neurite.resting_length <
              env.param.neurite_max_length - self.resting_length - 1 ∧
            mother_neurite.daughter_right = none ∧ self.daughter_left ≠ none then do
          RemoveFromSimulation proximal_ne
          RemoveProximalNeuriteElement env this
        else pure ()

/-- `MovePointMass` (lines 552-576). -/
def MovePointMass (env : Env) (this : Nat) (speed : ℝ) (direction : Vec3) : Op Unit := do
  let self ← getNeurite this
  if self.daughter_left ≠ none then
    pure ()
  else do
    let length := speed * env.param.simulation_time_step
    let displacement := Math.ScalarMult length (Math.Normalize direction)
    let new_mass_location := Math.Add displacement self.mass_location
    let relative_ml ← OriginOf self.mother this
    modify this (fun n =>
      let n1 := { n with spring_axis := Math.Subtract new_mass_location relative_ml }
      let n2 := { n1 with mass_location := new_mass_location }
      let n3 := { n2 with
        actual_length := Real.sqrt (Math.Dot n2.spring_axis n2.spring_axis) }
      NeuriteElement.UpdateVolume (NeuriteElement.SetRestingLengthForDesiredTension n3 0))
    UpdateLocalCoordinateAxis env this

/-- `ElongateTerminalEnd` (lines 293-299). -/
def ElongateTerminalEnd (env : Env) (this : Nat) (speed : ℝ) (direction : Vec3) :
    Op Unit := do
  let self ← getNeurite this
  let temp := Math.Dot direction self.spring_axis
  if temp > 0 then MovePointMass env this speed direction else pure ()

/-- `ApplyDisplacement` (lines 753-776). -/
def ApplyDisplacement (env : Env) (this : Nat) (displacement : Vec3) : Op Unit := do
  modify this (fun n => n.SetMassLocation (Math.Add n.mass_location displacement))
  UpdateDependentPhysicalVariables this
  UpdateLocalCoordinateAxis env this
  let self ← getNeurite this
  match self.daughter_left with
  | some daughter_left => do
    UpdateDependentPhysicalVariables daughter_left
    UpdateLocalCoordinateAxis env daughter_left
  | none => pure ()
  let self ← getNeurite this
  match self.daughter_right with
  | some daughter_right => do
    UpdateDependentPhysicalVariables daughter_right
    UpdateLocalCoordinateAxis env daughter_right
  | none => pure ()

/-- The event handler (lines 126-166) for a `SideNeuriteExtensionEvent` (lines 132-133):
`SetDaughterRight(other2->GetSoPtr<NeuriteElement>())`, which dereferences `other2`. -/
def HandleSideNeuriteExtension (this : Nat) (other2 : Option Nat) : Op Unit := do
  let (branch, _) ← deref other2
  modify this (fun n => { n with daughter_right := some branch })

/-- `ExtendSideNeuriteElement` (lines 1212-1227). Both calls of `EventHandler` pass one
object only, so that `other2` is the default `nullptr` of line 126: the first call is
`new_branch->EventHandler(event, this)`, the second `EventHandler(event, new_branch)`. -/
def ExtendSideNeuriteElement (env : Env) (this : Nat) (_length _diameter : ℝ)
    (_direction : Vec3) : Op Nat := do
  let self ← getNeurite this
  if self.daughter_right ≠ none then
    Fatal FatalError.daughter_right_not_null
  else do
    let new_branch ← GetInstance env
    HandleSideNeuriteExtension new_branch none
    HandleSideNeuriteExtension this none
    pure new_branch

/-- `daughter->ForceTransmittedFromDaugtherToMother(*this)` (lines 483-499). -/
def ForceTransmittedFromDaugtherToMother (daughter mother : Nat) : Op Vec3 := do
  let d ← getNeurite daughter
  match d.ForceTransmittedFromDaugtherToMother mother with
  | some force => pure force
  | none => Fatal FatalError.not_the_mother

/-- What the visits of the neighbours accumulate in `CalculateDisplacement`: the locals
`force_from_neighbors` (line 647), `force_on_my_mothers_point_mass` (line 621) and
`has_neurite_neighbor` (line 654). -/
structure NeighborForces where
  force_from_neighbors : Vec3
  force_on_my_mothers_point_mass : Vec3
  has_neurite_neighbor : Bool

/-- The test of lines 661-677: the neighbour is a direct relative the lambda returns for.
A neighbour that is a neurite element is compared with the two daughters and with the
mother when that is a neurite element; a neighbour that is a soma with the mother when
that is a soma. -/
def IsExcludedRelative (self : NeuriteElement) (neighbor : Nat) (nb : SimObject) : Op Bool :=
  match nb with
  | SimObject.neurite _ =>
    if self.daughter_left = some neighbor ∨ self.daughter_right = some neighbor then
      pure true
    else do
      let (m, mo) ← deref self.mother
      match mo with
      | SimObject.neurite _ => pure (decide (m = neighbor))
      | SimObject.soma _ => pure false
  | SimObject.soma _ => do
    let (m, mo) ← deref self.mother
    match mo with
    | SimObject.soma _ => pure (decide (m = neighbor))
    | SimObject.neurite _ => pure false

/-- The lambda `calculate_neighbor_forces` (lines 656-710) of `CalculateDisplacement`, for
one neighbour. The call of `force.GetForce` is commented out in the source (lines
680-682): the force from a neighbour is the constant `{0, 0, 0, 0}`. -/
def calculate_neighbor_forces (self : NeuriteElement) (acc : NeighborForces)
    (neighbor : Nat) : Op NeighborForces := do
  let h_over_m : ℝ := 0.01
  let (_, nb) ← deref (some neighbor)
  let excluded ← IsExcludedRelative self neighbor nb
  if excluded then
    pure acc
  else
    let force_from_neighbor : Vec4 := ⟨0, 0, 0, 0⟩
    let scaled : Vec4 × Bool :=
      match nb with
      | SimObject.neurite _ => (Math.ScalarMult4 h_over_m force_from_neighbor, true)
      | SimObject.soma _ => (force_from_neighbor, acc.has_neurite_neighbor)
    let force_from_neighbor := scaled.1
    if |force_from_neighbor.w| < 1e-10 then
      pure
        { force_from_neighbors :=
            ⟨acc.force_from_neighbors.x + force_from_neighbor.x,
             acc.force_from_neighbors.y + force_from_neighbor.y,
             acc.force_from_neighbors.z + force_from_neighbor.z⟩
          force_on_my_mothers_point_mass := acc.force_on_my_mothers_point_mass
          has_neurite_neighbor := scaled.2 }
    else
      let part_for_point_mass := 1.0 - force_from_neighbor.w
      pure
        { force_from_neighbors :=
            ⟨acc.force_from_neighbors.x + force_from_neighbor.x * part_for_point_mass,
             acc.force_from_neighbors.y + force_from_neighbor.y * part_for_point_mass,
             acc.force_from_neighbors.z + force_from_neighbor.z * part_for_point_mass⟩
          force_on_my_mothers_point_mass :=
            ⟨acc.force_on_my_mothers_point_mass.x +
               force_from_neighbor.x * force_from_neighbor.w,
             acc.force_on_my_mothers_point_mass.y +
               force_from_neighbor.y * force_from_neighbor.w,
             acc.force_on_my_mothers_point_mass.z +
               force_from_neighbor.z * force_from_neighbor.w⟩
          has_neurite_neighbor := scaled.2 }

/-- The visits of the neighbours, one after the other (lines 712-715). -/
def visit_neighbors (self : NeuriteElement) :
    List Nat → NeighborForces → Op NeighborForces
  | [], acc => pure acc
  | neighbor :: rest, acc => do
    let acc1 ← calculate_neighbor_forces self acc neighbor
    visit_neighbors self rest acc1

/-- Lines 619-725 of `CalculateDisplacement`: the total force on the point mass of `this`
and the force for the point mass of its mother. `ForEachNeighborWithinRadius` belongs to
the execution context, which is not under src/: it is the parameter of that name
(Modelled from the spec: the injected neighbour query), which gives the neighbours it
visits for `this` and `squared_radius`, in the order of the visits. -/
def ForceOnPointMass (ForEachNeighborWithinRadius : Nat → ℝ → List Nat) (this : Nat)
    (squared_radius : ℝ) : Op (Vec3 × Vec3) := do
  let self ← getNeurite this
  let force_on_my_point_mass : Vec3 := ⟨0, 0, 0⟩
  let force_on_my_mothers_point_mass : Vec3 := ⟨0, 0, 0⟩
  let factor := -self.tension / self.actual_length
  let force_on_my_point_mass :=
    Math.Add force_on_my_point_mass (Math.ScalarMult factor self.spring_axis)
  let force_on_my_point_mass ←
    match self.daughter_left with
    | some daughter_left => do
      let force_from_daughter ← ForceTransmittedFromDaugtherToMother daughter_left this
      pure (Math.Add force_on_my_point_mass force_from_daughter)
    | none => pure force_on_my_point_mass
  let force_on_my_point_mass ←
    match self.daughter_right with
    | some daughter_right => do
      let force_from_daughter ← ForceTransmittedFromDaugtherToMother daughter_right this
      pure (Math.Add force_on_my_point_mass force_from_daughter)
    | none => pure force_on_my_point_mass
  let h_over_m : ℝ := 0.01
  let acc ← visit_neighbors self (ForEachNeighborWithinRadius this squared_radius)
    { force_from_neighbors := ⟨0, 0, 0⟩
      force_on_my_mothers_point_mass := force_on_my_mothers_point_mass
      has_neurite_neighbor := false }
  let force_on_my_point_mass :=
    if acc.has_neurite_neighbor then Math.ScalarMult h_over_m force_on_my_point_mass
    else force_on_my_point_mass
  let force_on_my_point_mass := Math.Add force_on_my_point_mass acc.force_from_neighbors
  pure (force_on_my_point_mass, acc.force_on_my_mothers_point_mass)

/-- Lines 730-749 of `CalculateDisplacement`: the displacement for the total force
`force_on_my_point_mass`, given the `adherence_` of the segment. -/
def DisplacementOfForce (env : Env) (adherence : ℝ) (force_on_my_point_mass : Vec3) : Vec3 :=
  let force_norm := Math.Norm force_on_my_point_mass
  if force_norm < adherence then
    ⟨0, 0, 0⟩
  else if force_norm > env.param.simulation_max_displacement then
    Math.ScalarMult (env.param.simulation_max_displacement / force_norm)
      force_on_my_point_mass
  else force_on_my_point_mass

/-- `CalculateDisplacement(squared_radius)` (lines 618-750). -/
def CalculateDisplacement (env : Env) (ForEachNeighborWithinRadius : Nat → ℝ → List Nat)
    (this : Nat) (squared_radius : ℝ) : Op Vec3 := do
  let forces ← ForceOnPointMass ForEachNeighborWithinRadius this squared_radius
  modify this (fun n => { n with force_to_transmit_to_proximal_mass := forces.2 })
  let self ← getNeurite this
  pure (DisplacementOfForce env self.adherence forces.1)

end Op

/-! ## Predicates of the specification and example inputs -/

/-- The local axes of a neurite element are pairwise orthogonal and of unit norm. -/
def NeuriteElement.Orthonormal (self : NeuriteElement) : Prop :=
  Math.Norm self.x_axis = 1 ∧ Math.Norm self.y_axis = 1 ∧ Math.Norm self.z_axis = 1 ∧
    Math.Dot self.x_axis self.y_axis = 0 ∧ Math.Dot self.x_axis self.z_axis = 0 ∧
    Math.Dot self.y_axis self.z_axis = 0

/-- The spec's "no single-daughter node": the left daughter is unset exactly when the
right one is. -/
def NeuriteElement.NoSingleDaughter (self : NeuriteElement) : Prop :=
  self.daughter_left = none ↔ self.daughter_right = none

/-- The invariant of the class documentation (line 48): "If there is only one daughter,
it is the left one", that is, a right daughter comes with a left one. -/
def NeuriteElement.SingleIsLeft (self : NeuriteElement) : Prop :=
  self.daughter_left = none → self.daughter_right = none

/-- The neurite element a uid refers to, if any. -/
def Simulation.neurite (sim : Simulation) (uid : Nat) : Option NeuriteElement :=
  match sim.objects uid with
  | some (SimObject.neurite n) => some n
  | _ => none

/-- The uids `GetInstance` has not handed out yet refer to no object. -/
def Simulation.Fresh (sim : Simulation) : Prop :=
  ∀ uid, sim.next_uid ≤ uid → sim.objects uid = none

/-- An example environment: every default parameter is 1, `Perp3` returns `(0, 0, 1)`. -/
def exampleEnv : Env :=
  { param :=
      { neurite_default_tension := 0
        neurite_default_diameter := 1
        neurite_default_actual_length := 1
        neurite_default_density := 1
        neurite_default_spring_constant := 1
        neurite_default_adherence := 1
        neurite_minimial_bifurcation_length := 0
        neurite_max_length := 15
        neurite_min_length := 2
        simulation_time_step := 1
        simulation_max_displacement := 3 }
    Perp3 := fun _ _ => ⟨0, 0, 1⟩
    indeterminate := 0 }

/-- An example soma at the origin with the neurite element 1 attached at `(0, 0, 0)`. -/
def exampleSoma : NeuronSoma :=
  { position := ⟨0, 0, 0⟩
    diameter := 0
    kXAxis := ⟨1, 0, 0⟩
    kYAxis := ⟨0, 1, 0⟩
    kZAxis := ⟨0, 0, 1⟩
    daughters := [1]
    attachment := fun _ => ⟨0, 0, 0⟩ }

/-- An example terminal segment: mother 0, from the origin to `(1, 0, 0)`, resting length
1, spring constant 1, diameter 1. -/
def exampleSegment : NeuriteElement :=
  { NeuriteElement.new exampleEnv with
    mass_location := ⟨1, 0, 0⟩
    mother := some 0
    spring_axis := ⟨1, 0, 0⟩
    actual_length := 1
    resting_length := 1 }

/-- An example simulation: the soma 0 and its one daughter, the terminal segment 1. -/
def exampleSim : Simulation :=
  { objects := fun uid =>
      if uid = 0 then some (SimObject.soma exampleSoma)
      else if uid = 1 then some (SimObject.neurite exampleSegment)
      else none
    next_uid := 2
    random := ⟨fun _ => 0⟩ }

/-- An example internal segment: mother the soma 0, left daughter 2, from the origin to
`(1, 0, 0)`. -/
def exampleMother : NeuriteElement :=
  { exampleSegment with daughter_left := some 2 }

/-- An example short terminal segment: mother the segment 1, from `(1, 0, 0)` to
`(2, 0, 0)`, length and resting length 1. -/
def exampleTip : NeuriteElement :=
  { exampleSegment with
    mass_location := ⟨2, 0, 0⟩
    mother := some 1 }

/-- An example chain: the soma 0, its daughter 1 and the terminal segment 2, the only
daughter of 1. With `exampleEnv` the segment 2 is shorter than `neurite_min_length`. -/
def exampleChain : Simulation :=
  { objects := fun uid =>
      if uid = 0 then some (SimObject.soma exampleSoma)
      else if uid = 1 then some (SimObject.neurite exampleMother)
      else if uid = 2 then some (SimObject.neurite exampleTip)
      else none
    next_uid := 3
    random := ⟨fun _ => 0⟩ }

/-- An example fully forked segment: mother the soma 0, daughters 2 and 3, from the origin
to `(1, 0, 0)`. -/
def exampleForked : NeuriteElement :=
  { exampleSegment with daughter_left := some 2, daughter_right := some 3 }

/-- An example side branch: mother the segment 1, from `(1, 0, 0)` to `(1, 1, 0)`. -/
def exampleSide : NeuriteElement :=
  { exampleSegment with
    mass_location := ⟨1, 1, 0⟩
    mother := some 1
    spring_axis := ⟨0, 1, 0⟩ }

/-- An example fork: the soma 0, its daughter 1 and the two terminal daughters of 1, the
segment 2 (left) and the side branch 3 (right). -/
def exampleFork : Simulation :=
  { objects := fun uid =>
      if uid = 0 then some (SimObject.soma exampleSoma)
      else if uid = 1 then some (SimObject.neurite exampleForked)
      else if uid = 2 then some (SimObject.neurite exampleTip)
      else if uid = 3 then some (SimObject.neurite exampleSide)
      else none
    next_uid := 4
    random := ⟨fun _ => 0⟩ }

/-- An example stretched terminal segment: the example tip with the resting length `1/3`
and the tension `2 = k · (L − R) / R` of its length 1 and spring constant 1. -/
def exampleStretched : NeuriteElement :=
  { exampleTip with tension := 2, resting_length := 1 / 3 }

/-- An example fork under tension: the example fork with the stretched segment as the
left daughter 2 of the segment 1; its sibling is the side branch 3. -/
def exampleStretchedFork : Simulation :=
  { objects := fun uid =>
      if uid = 0 then some (SimObject.soma exampleSoma)
      else if uid = 1 then some (SimObject.neurite exampleForked)
      else if uid = 2 then some (SimObject.neurite exampleStretched)
      else if uid = 3 then some (SimObject.neurite exampleSide)
      else none
    next_uid := 4
    random := ⟨fun _ => 0⟩ }

/-- The axes `kXAxis`, `kYAxis`, `kZAxis` of a soma are pairwise orthogonal and of unit
norm. -/
def NeuronSoma.Orthonormal (self : NeuronSoma) : Prop :=
  Math.Dot self.kXAxis self.kXAxis = 1 ∧ Math.Dot self.kYAxis self.kYAxis = 1 ∧
    Math.Dot self.kZAxis self.kZAxis = 1 ∧ Math.Dot self.kXAxis self.kYAxis = 0 ∧
    Math.Dot self.kXAxis self.kZAxis = 0 ∧ Math.Dot self.kYAxis self.kZAxis = 0

/-- The unit vector with the spherical angles `(phi, theta)` in the axes of a soma: the
direction `(sin θ cos φ, sin θ sin φ, cos θ)` expressed in `kXAxis`, `kYAxis`, `kZAxis`. -/
def NeuronSoma.Direction (self : NeuronSoma) (phi theta : ℝ) : Vec3 :=
  Math.Add
    (Math.Add (Math.ScalarMult (Real.sin theta * Real.cos phi) self.kXAxis)
      (Math.ScalarMult (Real.sin theta * Real.sin phi) self.kYAxis))
    (Math.ScalarMult (Real.cos theta) self.kZAxis)

/-- An example simulation before an extension: the soma 0 (diameter 2) and the
default-constructed neurite element 1 that `GetInstance` has just handed out. -/
def exampleBud : Simulation :=
  { objects := fun uid =>
      if uid = 0 then some (SimObject.soma { exampleSoma with diameter := 2, daughters := [] })
      else if uid = 1 then some (SimObject.neurite (NeuriteElement.new exampleEnv))
      else none
    next_uid := 2
    random := ⟨fun _ => 0⟩ }

/-- `UpdateDependentPhysicalVariables` then `UpdateLocalCoordinateAxis` on each segment of
a list, in order. -/
def Op.UpdateEach (env : Env) : List Nat → Op Unit
  | [] => pure ()
  | uid :: rest => do
    Op.UpdateDependentPhysicalVariables uid
    Op.UpdateLocalCoordinateAxis env uid
    Op.UpdateEach env rest

/-- The spec's words for `ApplyDisplacement`: add the displacement to `mass_location`;
call `UpdateDependentPhysicalVariables` then `UpdateLocalCoordinateAxis` on self, and on
each existing daughter. -/
def Op.ApplyDisplacementSpec (env : Env) (this : Nat) (displacement : Vec3) : Op Unit := do
  let self ← Op.getNeurite this
  Op.setNeurite this { self with mass_location := Math.Add self.mass_location displacement }
  Op.UpdateEach env (this :: (self.daughter_left.toList ++ self.daughter_right.toList))

/-- The neighbour `neighbor` of the segment `self` is a neurite element that the test of
lines 664-667 does not exclude: it is neither a daughter nor the mother of the segment. -/
def Simulation.ForeignNeurite (sim : Simulation) (self : NeuriteElement) (neighbor : Nat) :
    Prop :=
  (∃ nn, sim.objects neighbor = some (SimObject.neurite nn)) ∧
    self.daughter_left ≠ some neighbor ∧ self.daughter_right ≠ some neighbor ∧
    self.mother ≠ some neighbor

/-- The segment `uid` hangs on a soma through a chain of mothers with `n` neurite
elements between it and the soma. -/
def Simulation.Depth (sim : Simulation) : Nat → Nat → Prop
  | 0, uid => ∃ s m so, sim.objects uid = some (SimObject.neurite s) ∧ s.mother = some m ∧
      sim.objects m = some (SimObject.soma so)
  | n + 1, uid => ∃ s m, sim.objects uid = some (SimObject.neurite s) ∧ s.mother = some m ∧
      Simulation.Depth sim n m

/-- The spec's words for a direct relative of the segment `this` (with the fields `self`):
its parent, its daughters, and its sibling via the shared parent, that is, another
daughter of its mother. -/
def Simulation.DirectRelative (sim : Simulation) (this : Nat) (self : NeuriteElement)
    (neighbor : Nat) : Prop :=
  self.mother = some neighbor ∨ self.daughter_left = some neighbor ∨
    self.daughter_right = some neighbor ∨
    (neighbor ≠ this ∧ ∃ m, self.mother = some m ∧
      ((∃ mn, sim.objects m = some (SimObject.neurite mn) ∧
          (mn.daughter_left = some neighbor ∨ mn.daughter_right = some neighbor)) ∨
        ∃ so, sim.objects m = some (SimObject.soma so) ∧ neighbor ∈ so.daughters))

/-- The call of `m` in the state `sim` writes nothing: it returns in the state `sim` with
a value that satisfies `Q`, or it ends in `Fatal` in the state `sim`, or it dereferences
a pointer that refers to no object. -/
def Op.Reads {α : Type} (m : Op α) (sim : Simulation) (Q : α → Prop) : Prop :=
  (∃ a, m sim = Result.ok a sim ∧ Q a) ∨ (∃ e, m sim = Result.fatal e sim) ∨
    m sim = Result.fault

/-- Partial correctness: from a state that satisfies `P`, a normal return of `m` gives a
value and a state that satisfy `Q`. -/
def Op.Triple {α : Type} (P : Simulation → Prop) (m : Op α)
    (Q : α → Simulation → Prop) : Prop :=
  ∀ sim a sim1, P sim → m sim = Result.ok a sim1 → Q a sim1

/-- The state predicate `I` still holds after a normal return of `m`. -/
def Op.Keeps {α : Type} (I : Simulation → Prop) (m : Op α) : Prop :=
  Op.Triple I m (fun _ => I)

/-- Every neurite element of the simulation satisfies `φ` (which may look at its uid). -/
def Simulation.All (φ : Nat → NeuriteElement → Prop) (sim : Simulation) : Prop :=
  ∀ uid n, sim.objects uid = some (SimObject.neurite n) → φ uid n

/-- Every segment of the simulation satisfies the spec's "no single-daughter node". -/
def Simulation.NoSingleDaughter (sim : Simulation) : Prop :=
  sim.All (fun _ n => n.NoSingleDaughter)

/-- Every segment of the simulation satisfies "a single daughter is the left one". -/
def Simulation.SingleIsLeft (sim : Simulation) : Prop :=
  sim.All (fun _ n => n.SingleIsLeft)

/-- The geometric invariant of the spec for the segment `uid`: its mother can be
dereferenced, `spring_axis = mass_location − mother.OriginOf(uid)` and
`actual_length = ‖spring_axis‖`. -/
def Simulation.Geometric (sim : Simulation) (uid : Nat) : Prop :=
  ∃ n origin, sim.objects uid = some (SimObject.neurite n) ∧
    Op.OriginOf n.mother uid sim = Result.ok origin sim ∧
    n.spring_axis = Math.Subtract n.mass_location origin ∧
    n.actual_length = Math.Norm n.spring_axis

/-! # Theorems -/

set_option linter.unusedTactic false
set_option linter.unreachableTactic false

/-! ## Vector algebra -/

namespace Math

theorem Dot_self_nonneg (a : Vec3) : 0 ≤ Dot a a := by
  unfold Dot
  nlinarith [mul_self_nonneg a.x, mul_self_nonneg a.y, mul_self_nonneg a.z]

theorem Norm_eq_sqrt_Dot (a : Vec3) : Norm a = Real.sqrt (Dot a a) := rfl

theorem Norm_nonneg (a : Vec3) : 0 ≤ Norm a := Real.sqrt_nonneg _

theorem Norm_mul_self (a : Vec3) : Norm a * Norm a = Dot a a := by
  rw [Norm_eq_sqrt_Dot, Real.mul_self_sqrt (Dot_self_nonneg a)]

theorem Norm_eq_one_iff (a : Vec3) : Norm a = 1 ↔ Dot a a = 1 := by
  rw [Norm_eq_sqrt_Dot, Real.sqrt_eq_one]

theorem Dot_self_pos {a : Vec3} (h : a ≠ ⟨0, 0, 0⟩) : 0 < Dot a a := by
  rcases lt_or_eq_of_le (Dot_self_nonneg a) with h1 | h1
  · exact h1
  · exfalso
    apply h
    unfold Dot at h1
    have hx : a.x = 0 := by nlinarith [mul_self_nonneg a.x, mul_self_nonneg a.y, mul_self_nonneg a.z]
    have hy : a.y = 0 := by nlinarith [mul_self_nonneg a.x, mul_self_nonneg a.y, mul_self_nonneg a.z]
    have hz : a.z = 0 := by nlinarith [mul_self_nonneg a.x, mul_self_nonneg a.y, mul_self_nonneg a.z]
    ext <;> assumption

theorem Norm_pos {a : Vec3} (h : a ≠ ⟨0, 0, 0⟩) : 0 < Norm a := by
  rw [Norm_eq_sqrt_Dot]
  exact Real.sqrt_pos.mpr (Dot_self_pos h)

theorem Normalize_eq (a : Vec3) : Normalize a = ScalarMult (1 / Norm a) a := by
  unfold Normalize ScalarMult
  ext <;> simp <;> ring

theorem Dot_ScalarMult (k l : ℝ) (a b : Vec3) :
    Dot (ScalarMult k a) (ScalarMult l b) = k * l * Dot a b := by
  unfold Dot ScalarMult
  simp only
  ring

theorem Dot_ScalarMult_left (k : ℝ) (a b : Vec3) :
    Dot (ScalarMult k a) b = k * Dot a b := by
  unfold Dot ScalarMult
  simp only
  ring

theorem Dot_comm (a b : Vec3) : Dot a b = Dot b a := by
  unfold Dot
  ring

theorem Dot_Normalize_self {a : Vec3} (h : a ≠ ⟨0, 0, 0⟩) :
    Dot (Normalize a) (Normalize a) = 1 := by
  have hn : Norm a ≠ 0 := (Norm_pos h).ne'
  rw [Normalize_eq, Dot_ScalarMult, ← Norm_mul_self]
  field_simp

theorem Dot_Cross_left (a b : Vec3) : Dot (CrossProduct a b) a = 0 := by
  unfold Dot CrossProduct
  simp only
  ring

theorem Dot_Cross_right (a b : Vec3) : Dot (CrossProduct a b) b = 0 := by
  unfold Dot CrossProduct
  simp only
  ring

theorem Dot_Cross_self (a b : Vec3) :
    Dot (CrossProduct a b) (CrossProduct a b) = Dot a a * Dot b b - Dot a b * Dot a b := by
  unfold Dot CrossProduct
  simp only
  ring

/-- A unit vector `x`, a unit vector `z` orthogonal to it and `y = z × x` form an
orthonormal frame. -/
theorem frame_of_unit_pair {x z : Vec3} (hx : Dot x x = 1) (hz : Dot z z = 1)
    (hzx : Dot z x = 0) :
    Norm x = 1 ∧ Norm (CrossProduct z x) = 1 ∧ Norm z = 1 ∧
      Dot x (CrossProduct z x) = 0 ∧ Dot x z = 0 ∧ Dot (CrossProduct z x) z = 0 := by
  refine ⟨(Norm_eq_one_iff x).2 hx, (Norm_eq_one_iff _).2 ?_, (Norm_eq_one_iff z).2 hz, ?_, ?_, ?_⟩
  · rw [Dot_Cross_self, hx, hz, hzx]
    norm_num
  · rw [Dot_comm, Dot_Cross_right]
  · rw [Dot_comm, hzx]
  · exact Dot_Cross_left z x

end Math

/-- Claim C7. For a segment with a non-zero spring axis and any previous y axis, after
`UpdateLocalCoordinateAxis` the three axes are pairwise orthogonal and of unit norm, and
the x axis is the spring axis divided by its norm. On the fallback path (the cross
product of the new x axis and the old y axis has norm below 1e-10) the third axis is the
vector `Math::Perp3` returns, taken here to be a unit vector perpendicular to its
argument. -/
theorem C7_UpdateLocalCoordinateAxis_orthonormal (env : Env) (self : NeuriteElement)
    (random : Random) (hsa : self.spring_axis ≠ ⟨0, 0, 0⟩)
    (hperp : Math.Dot (env.Perp3 (Math.Normalize self.spring_axis) random.Uniform.1)
        (Math.Normalize self.spring_axis) = 0 ∧
      Math.Norm (env.Perp3 (Math.Normalize self.spring_axis) random.Uniform.1) = 1) :
    (self.UpdateLocalCoordinateAxis env random).1.Orthonormal ∧
      (self.UpdateLocalCoordinateAxis env random).1.x_axis =
        Math.ScalarMult (1 / Math.Norm self.spring_axis) self.spring_axis := by
  have hx := Math.Dot_Normalize_self hsa
  unfold NeuriteElement.Orthonormal NeuriteElement.UpdateLocalCoordinateAxis
  by_cases hz : Math.Norm (Math.CrossProduct (Math.Normalize self.spring_axis) self.y_axis) < 1e-10
  · simp only [hz, if_true]
    exact ⟨Math.frame_of_unit_pair hx ((Math.Norm_eq_one_iff _).1 hperp.2) hperp.1,
      Math.Normalize_eq _⟩
  · simp only [hz, if_false]
    have hpos : 0 < Math.Norm (Math.CrossProduct (Math.Normalize self.spring_axis) self.y_axis) :=
      lt_of_lt_of_le (by norm_num) (not_lt.1 hz)
    refine ⟨Math.frame_of_unit_pair hx ?_ ?_, Math.Normalize_eq _⟩
    · rw [Math.Dot_ScalarMult, ← Math.Norm_mul_self]
      field_simp
    · rw [Math.Dot_ScalarMult_left, Math.Dot_Cross_left, mul_zero]

/-- Claim C7, witness: spring axis `(2, 0, 0)` and previous y axis `(1, 0, 0)`, parallel
to the new x axis, so that the fallback path is taken. -/
theorem C7_UpdateLocalCoordinateAxis_orthonormal_witness :
    ({ NeuriteElement.new ⟨⟨0, 0, 0, 0, 0, 0, 0, 0, 0, 0, 0⟩, fun _ _ => ⟨0, 0, 1⟩, 0⟩ with
        spring_axis := ⟨2, 0, 0⟩, y_axis := ⟨1, 0, 0⟩ } : NeuriteElement).spring_axis ≠
        ⟨0, 0, 0⟩ ∧
      (NeuriteElement.UpdateLocalCoordinateAxis
        ⟨⟨0, 0, 0, 0, 0, 0, 0, 0, 0, 0, 0⟩, fun _ _ => ⟨0, 0, 1⟩, 0⟩
        { NeuriteElement.new ⟨⟨0, 0, 0, 0, 0, 0, 0, 0, 0, 0, 0⟩, fun _ _ => ⟨0, 0, 1⟩, 0⟩ with
          spring_axis := ⟨2, 0, 0⟩, y_axis := ⟨1, 0, 0⟩ }
        ⟨fun _ => 0⟩).1.Orthonormal := by
  have hsa : ({ NeuriteElement.new ⟨⟨0, 0, 0, 0, 0, 0, 0, 0, 0, 0, 0⟩, fun _ _ => ⟨0, 0, 1⟩, 0⟩ with
        spring_axis := ⟨2, 0, 0⟩, y_axis := ⟨1, 0, 0⟩ } : NeuriteElement).spring_axis ≠
        ⟨0, 0, 0⟩ := by
    intro h
    have := congrArg Vec3.x h
    norm_num at this
  refine ⟨hsa, (C7_UpdateLocalCoordinateAxis_orthonormal _ _ _ hsa ⟨?_, ?_⟩).1⟩
  · simp [Math.Dot, Math.Normalize]
  · simp [Math.Norm]


/-! ## The member functions that leave the family relations alone -/

namespace NeuriteElement

@[simp] theorem UpdateVolume_mother (self : NeuriteElement) :
    (self.UpdateVolume).mother = self.mother := by
  unfold UpdateVolume
  rfl

@[simp] theorem UpdateVolume_daughter_left (self : NeuriteElement) :
    (self.UpdateVolume).daughter_left = self.daughter_left := by
  unfold UpdateVolume
  rfl

@[simp] theorem UpdateVolume_daughter_right (self : NeuriteElement) :
    (self.UpdateVolume).daughter_right = self.daughter_right := by
  unfold UpdateVolume
  rfl

@[simp] theorem UpdateVolume_branch_order (self : NeuriteElement) :
    (self.UpdateVolume).branch_order = self.branch_order := by
  unfold UpdateVolume
  rfl

@[simp] theorem UpdateDiameter_mother (self : NeuriteElement) :
    (self.UpdateDiameter).mother = self.mother := by
  unfold UpdateDiameter
  rfl

@[simp] theorem UpdateDiameter_daughter_left (self : NeuriteElement) :
    (self.UpdateDiameter).daughter_left = self.daughter_left := by
  unfold UpdateDiameter
  rfl

@[simp] theorem UpdateDiameter_daughter_right (self : NeuriteElement) :
    (self.UpdateDiameter).daughter_right = self.daughter_right := by
  unfold UpdateDiameter
  rfl

@[simp] theorem UpdateDiameter_branch_order (self : NeuriteElement) :
    (self.UpdateDiameter).branch_order = self.branch_order := by
  unfold UpdateDiameter
  rfl

@[simp] theorem SetDiameter_mother (self : NeuriteElement) (d : ℝ) :
    (self.SetDiameter d).mother = self.mother := by
  unfold SetDiameter
  rfl

@[simp] theorem SetDiameter_daughter_left (self : NeuriteElement) (d : ℝ) :
    (self.SetDiameter d).daughter_left = self.daughter_left := by
  unfold SetDiameter
  rfl

@[simp] theorem SetDiameter_daughter_right (self : NeuriteElement) (d : ℝ) :
    (self.SetDiameter d).daughter_right = self.daughter_right := by
  unfold SetDiameter
  rfl

@[simp] theorem SetDiameter_branch_order (self : NeuriteElement) (d : ℝ) :
    (self.SetDiameter d).branch_order = self.branch_order := by
  unfold SetDiameter
  rfl

@[simp] theorem SetPosition_mother (self : NeuriteElement) (p : Vec3) :
    (self.SetPosition p).mother = self.mother := by
  unfold SetPosition
  rfl

@[simp] theorem SetPosition_daughter_left (self : NeuriteElement) (p : Vec3) :
    (self.SetPosition p).daughter_left = self.daughter_left := by
  unfold SetPosition
  rfl

@[simp] theorem SetPosition_daughter_right (self : NeuriteElement) (p : Vec3) :
    (self.SetPosition p).daughter_right = self.daughter_right := by
  unfold SetPosition
  rfl

@[simp] theorem SetPosition_branch_order (self : NeuriteElement) (p : Vec3) :
    (self.SetPosition p).branch_order = self.branch_order := by
  unfold SetPosition
  rfl

@[simp] theorem SetMassLocation_mother (self : NeuriteElement) (p : Vec3) :
    (self.SetMassLocation p).mother = self.mother := by
  unfold SetMassLocation
  rfl

@[simp] theorem SetMassLocation_daughter_left (self : NeuriteElement) (p : Vec3) :
    (self.SetMassLocation p).daughter_left = self.daughter_left := by
  unfold SetMassLocation
  rfl

@[simp] theorem SetMassLocation_daughter_right (self : NeuriteElement) (p : Vec3) :
    (self.SetMassLocation p).daughter_right = self.daughter_right := by
  unfold SetMassLocation
  rfl

@[simp] theorem SetMassLocation_branch_order (self : NeuriteElement) (p : Vec3) :
    (self.SetMassLocation p).branch_order = self.branch_order := by
  unfold SetMassLocation
  rfl

@[simp] theorem SetRestingLengthForDesiredTension_mother (self : NeuriteElement) (t : ℝ) :
    (self.SetRestingLengthForDesiredTension t).mother = self.mother := by
  unfold SetRestingLengthForDesiredTension
  split <;> rfl

@[simp] theorem SetRestingLengthForDesiredTension_daughter_left (self : NeuriteElement) (t : ℝ) :
    (self.SetRestingLengthForDesiredTension t).daughter_left = self.daughter_left := by
  unfold SetRestingLengthForDesiredTension
  split <;> rfl

@[simp] theorem SetRestingLengthForDesiredTension_daughter_right (self : NeuriteElement) (t : ℝ) :
    (self.SetRestingLengthForDesiredTension t).daughter_right = self.daughter_right := by
  unfold SetRestingLengthForDesiredTension
  split <;> rfl

@[simp] theorem SetRestingLengthForDesiredTension_branch_order (self : NeuriteElement) (t : ℝ) :
    (self.SetRestingLengthForDesiredTension t).branch_order = self.branch_order := by
  unfold SetRestingLengthForDesiredTension
  split <;> rfl

@[simp] theorem ChangeVolume_mother (self : NeuriteElement) (env : Env) (speed : ℝ) :
    (self.ChangeVolume env speed).mother = self.mother := by
  unfold ChangeVolume
  rfl

@[simp] theorem ChangeVolume_daughter_left (self : NeuriteElement) (env : Env) (speed : ℝ) :
    (self.ChangeVolume env speed).daughter_left = self.daughter_left := by
  unfold ChangeVolume
  rfl

@[simp] theorem ChangeVolume_daughter_right (self : NeuriteElement) (env : Env) (speed : ℝ) :
    (self.ChangeVolume env speed).daughter_right = self.daughter_right := by
  unfold ChangeVolume
  rfl

@[simp] theorem ChangeVolume_branch_order (self : NeuriteElement) (env : Env) (speed : ℝ) :
    (self.ChangeVolume env speed).branch_order = self.branch_order := by
  unfold ChangeVolume
  rfl

@[simp] theorem ChangeDiameter_mother (self : NeuriteElement) (env : Env) (speed : ℝ) :
    (self.ChangeDiameter env speed).mother = self.mother := by
  unfold ChangeDiameter
  rfl

@[simp] theorem ChangeDiameter_daughter_left (self : NeuriteElement) (env : Env) (speed : ℝ) :
    (self.ChangeDiameter env speed).daughter_left = self.daughter_left := by
  unfold ChangeDiameter
  rfl

@[simp] theorem ChangeDiameter_daughter_right (self : NeuriteElement) (env : Env) (speed : ℝ) :
    (self.ChangeDiameter env speed).daughter_right = self.daughter_right := by
  unfold ChangeDiameter
  rfl

@[simp] theorem ChangeDiameter_branch_order (self : NeuriteElement) (env : Env) (speed : ℝ) :
    (self.ChangeDiameter env speed).branch_order = self.branch_order := by
  unfold ChangeDiameter
  rfl

@[simp] theorem UpdateLocalCoordinateAxis_mother (self : NeuriteElement) (env : Env) (random : Random) :
    ((self.UpdateLocalCoordinateAxis env random).1).mother = self.mother := by
  unfold UpdateLocalCoordinateAxis
  dsimp only
  split <;> rfl

@[simp] theorem UpdateLocalCoordinateAxis_daughter_left (self : NeuriteElement) (env : Env) (random : Random) :
    ((self.UpdateLocalCoordinateAxis env random).1).daughter_left = self.daughter_left := by
  unfold UpdateLocalCoordinateAxis
  dsimp only
  split <;> rfl

@[simp] theorem UpdateLocalCoordinateAxis_daughter_right (self : NeuriteElement) (env : Env) (random : Random) :
    ((self.UpdateLocalCoordinateAxis env random).1).daughter_right = self.daughter_right := by
  unfold UpdateLocalCoordinateAxis
  dsimp only
  split <;> rfl

@[simp] theorem UpdateLocalCoordinateAxis_branch_order (self : NeuriteElement) (env : Env) (random : Random) :
    ((self.UpdateLocalCoordinateAxis env random).1).branch_order = self.branch_order := by
  unfold UpdateLocalCoordinateAxis
  dsimp only
  split <;> rfl

@[simp] theorem UpdateDependentPhysicalVariables_mother (self : NeuriteElement) (relative_ml : Vec3) :
    (self.UpdateDependentPhysicalVariables relative_ml).mother = self.mother := by
  unfold UpdateDependentPhysicalVariables
  rfl

@[simp] theorem UpdateDependentPhysicalVariables_daughter_left (self : NeuriteElement) (relative_ml : Vec3) :
    (self.UpdateDependentPhysicalVariables relative_ml).daughter_left = self.daughter_left := by
  unfold UpdateDependentPhysicalVariables
  rfl

@[simp] theorem UpdateDependentPhysicalVariables_daughter_right (self : NeuriteElement) (relative_ml : Vec3) :
    (self.UpdateDependentPhysicalVariables relative_ml).daughter_right = self.daughter_right := by
  unfold UpdateDependentPhysicalVariables
  rfl

@[simp] theorem UpdateDependentPhysicalVariables_branch_order (self : NeuriteElement) (relative_ml : Vec3) :
    (self.UpdateDependentPhysicalVariables relative_ml).branch_order = self.branch_order := by
  unfold UpdateDependentPhysicalVariables
  rfl

@[simp] theorem SetDefaults_mother (self : NeuriteElement) (env : Env) :
    (SetDefaults env self).mother = self.mother := by
  unfold SetDefaults
  rfl

@[simp] theorem SetDefaults_daughter_left (self : NeuriteElement) (env : Env) :
    (SetDefaults env self).daughter_left = self.daughter_left := by
  unfold SetDefaults
  rfl

@[simp] theorem SetDefaults_daughter_right (self : NeuriteElement) (env : Env) :
    (SetDefaults env self).daughter_right = self.daughter_right := by
  unfold SetDefaults
  rfl

@[simp] theorem SetDefaults_branch_order (self : NeuriteElement) (env : Env) :
    (SetDefaults env self).branch_order = self.branch_order := by
  unfold SetDefaults
  rfl

@[simp] theorem Copy_mother (self : NeuriteElement) (rhs : NeuriteElement) :
    (self.Copy rhs).mother = self.mother := by
  unfold Copy
  rfl

@[simp] theorem Copy_daughter_left (self : NeuriteElement) (rhs : NeuriteElement) :
    (self.Copy rhs).daughter_left = self.daughter_left := by
  unfold Copy
  rfl

@[simp] theorem Copy_daughter_right (self : NeuriteElement) (rhs : NeuriteElement) :
    (self.Copy rhs).daughter_right = self.daughter_right := by
  unfold Copy
  rfl

@[simp] theorem Copy_branch_order (self rhs : NeuriteElement) :
    (self.Copy rhs).branch_order = rhs.branch_order := rfl

@[simp] theorem new_mother (env : Env) : (NeuriteElement.new env).mother = none := rfl

@[simp] theorem new_daughter_left (env : Env) : (NeuriteElement.new env).daughter_left = none :=
  rfl

@[simp] theorem new_daughter_right (env : Env) :
    (NeuriteElement.new env).daughter_right = none := rfl

end NeuriteElement
/-! ## Running member functions -/

namespace Op

@[simp] theorem bind_apply {α β : Type} (m : Op α) (f : α → Op β) (sim : Simulation) :
    (m >>= f) sim =
      match m sim with
      | Result.ok a sim1 => f a sim1
      | Result.fatal e sim1 => Result.fatal e sim1
      | Result.fault => Result.fault
      | Result.out_of_fuel => Result.out_of_fuel := rfl

@[simp] theorem pure_apply {α : Type} (a : α) (sim : Simulation) :
    (pure a : Op α) sim = Result.ok a sim := rfl

@[simp] theorem Fatal_apply {α : Type} (e : FatalError) (sim : Simulation) :
    (Fatal e : Op α) sim = Result.fatal e sim := rfl

@[simp] theorem fault_apply {α : Type} (sim : Simulation) :
    (fault : Op α) sim = Result.fault := rfl

@[simp] theorem out_of_fuel_apply {α : Type} (sim : Simulation) :
    (out_of_fuel : Op α) sim = Result.out_of_fuel := rfl

theorem getNeurite_apply (uid : Nat) (sim : Simulation) :
    getNeurite uid sim =
      match sim.objects uid with
      | some (SimObject.neurite n) => Result.ok n sim
      | _ => Result.fault := rfl

theorem setObject_apply (uid : Nat) (o : SimObject) (sim : Simulation) :
    setObject uid o sim =
      Result.ok () { sim with objects := Function.update sim.objects uid (some o) } := rfl

theorem setNeurite_apply (uid : Nat) (n : NeuriteElement) (sim : Simulation) :
    setNeurite uid n sim =
      Result.ok ()
        { sim with objects := Function.update sim.objects uid (some (SimObject.neurite n)) } :=
  rfl

theorem GetInstance_apply (env : Env) (sim : Simulation) :
    GetInstance env sim =
      Result.ok sim.next_uid
        { sim with
          objects := Function.update sim.objects sim.next_uid
            (some (SimObject.neurite (NeuriteElement.new env)))
          next_uid := sim.next_uid + 1 } := rfl

theorem getNeurite_of_eq {uid : Nat} {sim : Simulation} {n : NeuriteElement}
    (h : sim.objects uid = some (SimObject.neurite n)) :
    getNeurite uid sim = Result.ok n sim := by
  simp [getNeurite_apply, h]

theorem modify_of_eq {uid : Nat} {sim : Simulation} {n : NeuriteElement}
    (f : NeuriteElement → NeuriteElement)
    (h : sim.objects uid = some (SimObject.neurite n)) :
    modify uid f sim =
      Result.ok ()
        { sim with
          objects := Function.update sim.objects uid (some (SimObject.neurite (f n))) } := by
  simp [modify, getNeurite_apply, h, setNeurite_apply]

end Op


/-! ## Bifurcation -/

theorem Simulation.lt_next_uid {sim : Simulation} (hfresh : sim.Fresh) {uid : Nat}
    {o : SimObject} (h : sim.objects uid = some o) : uid < sim.next_uid := by
  by_contra hge
  have := hfresh uid (not_lt.1 hge)
  rw [h] at this
  cases this

theorem exampleSim_Fresh : exampleSim.Fresh := by
  intro uid h
  have h2 : (2 : Nat) ≤ uid := h
  have h0 : uid ≠ 0 := by omega
  have h1 : uid ≠ 1 := by omega
  simp [exampleSim, h0, h1]

/-- The run of `Bifurcate` on a terminal segment: it returns the two fresh uids, and the
links and branch orders of the three segments it touches are as listed; every other
object is left as it was. -/
theorem Bifurcate_terminal (env : Env) (sim : Simulation) (this : Nat) (s : NeuriteElement)
    (length d1 d2 : ℝ) (dir1 dir2 : Vec3)
    (hs : sim.objects this = some (SimObject.neurite s)) (hterm : s.daughter_left = none)
    (hlt : this < sim.next_uid) :
    ∃ sim1 nl nr ns, Op.Bifurcate env this length d1 d2 dir1 dir2 sim =
        Result.ok (sim.next_uid, sim.next_uid + 1) sim1 ∧
      sim1.objects sim.next_uid = some (SimObject.neurite nl) ∧
      sim1.objects (sim.next_uid + 1) = some (SimObject.neurite nr) ∧
      sim1.objects this = some (SimObject.neurite ns) ∧
      nl.mother = some this ∧ nl.daughter_left = none ∧ nl.daughter_right = none ∧
      nr.mother = some this ∧ nr.daughter_left = none ∧ nr.daughter_right = none ∧
      ns.daughter_left = some sim.next_uid ∧ ns.daughter_right = some (sim.next_uid + 1) ∧
      ns.mother = s.mother ∧
      nl.branch_order = s.branch_order + 1 ∧ nr.branch_order = s.branch_order + 1 ∧
      (∀ uid, uid ≠ sim.next_uid → uid ≠ sim.next_uid + 1 → uid ≠ this →
        sim1.objects uid = sim.objects uid) := by
  have h1 : this ≠ sim.next_uid := by omega
  have h2 : this ≠ sim.next_uid + 1 := by omega
  have h1' : sim.next_uid ≠ this := by omega
  have h2' : sim.next_uid + 1 ≠ this := by omega
  simp [Op.Bifurcate, Op.InitializeNeuriteBifurcation, Op.modify, Op.getNeurite_apply,
    Op.setNeurite_apply, Op.setObject_apply, Op.GetInstance_apply,
    Op.UpdateLocalCoordinateAxis, Op.UpdateDependentPhysicalVariables, Op.OriginOf, Op.deref,
    hs, hterm, h1, h2, h1', h2', Function.update_apply]
  intro uid hu1 hu2 hu3
  simp [hu1, hu2, hu3]

/-- Claim C2 (Scenario A). `Bifurcate` on a terminal segment `this` (its `daughter_left`
unset) of a simulation whose unused uids refer to no object returns two distinct
segments `l` and `r` that did not exist before, both without daughters and with mother
`this`; afterwards `this` has `daughter_left = l` and `daughter_right = r`, the branch
order of `l` and of `r` is that of `this` plus one, and every other object is as before
(so exactly two segments are created). It holds for every length and direction. -/
theorem C2_Bifurcate_creates_two_daughters (env : Env) (sim : Simulation) (this : Nat)
    (s : NeuriteElement) (length d1 d2 : ℝ) (dir1 dir2 : Vec3)
    (hs : sim.objects this = some (SimObject.neurite s)) (hterm : s.daughter_left = none)
    (hfresh : sim.Fresh) :
    ∃ sim1 l r nl nr ns,
      Op.Bifurcate env this length d1 d2 dir1 dir2 sim = Result.ok (l, r) sim1 ∧
      l ≠ r ∧ sim.objects l = none ∧ sim.objects r = none ∧
      sim1.objects l = some (SimObject.neurite nl) ∧
      sim1.objects r = some (SimObject.neurite nr) ∧
      sim1.objects this = some (SimObject.neurite ns) ∧
      nl.mother = some this ∧ nl.daughter_left = none ∧ nl.daughter_right = none ∧
      nr.mother = some this ∧ nr.daughter_left = none ∧ nr.daughter_right = none ∧
      ns.daughter_left = some l ∧ ns.daughter_right = some r ∧
      nl.branch_order = s.branch_order + 1 ∧ nr.branch_order = s.branch_order + 1 ∧
      (∀ uid, uid ≠ l → uid ≠ r → uid ≠ this → sim1.objects uid = sim.objects uid) := by
  obtain ⟨sim1, nl, nr, ns, h0, hl, hr, hn, a1, a2, a3, b1, b2, b3, c1, c2, _, d1, d2, hrest⟩ :=
    Bifurcate_terminal env sim this s length d1 d2 dir1 dir2 hs hterm
      (Simulation.lt_next_uid hfresh hs)
  exact ⟨sim1, sim.next_uid, sim.next_uid + 1, nl, nr, ns, h0, by omega,
    hfresh _ (le_refl _), hfresh _ (Nat.le_succ _), hl, hr, hn, a1, a2, a3, b1, b2, b3, c1, c2,
    d1, d2, hrest⟩

/-- Claim C2, witness: the terminal segment 1 of the example simulation bifurcates. -/
theorem C2_Bifurcate_creates_two_daughters_witness :
    ∃ sim1 l r nl nr ns,
      Op.Bifurcate exampleEnv 1 1 1 1 ⟨1, 1, 0⟩ ⟨1, -1, 0⟩ exampleSim = Result.ok (l, r) sim1 ∧
      l ≠ r ∧ exampleSim.objects l = none ∧ exampleSim.objects r = none ∧
      sim1.objects l = some (SimObject.neurite nl) ∧
      sim1.objects r = some (SimObject.neurite nr) ∧
      sim1.objects 1 = some (SimObject.neurite ns) ∧
      nl.mother = some 1 ∧ nl.daughter_left = none ∧ nl.daughter_right = none ∧
      nr.mother = some 1 ∧ nr.daughter_left = none ∧ nr.daughter_right = none ∧
      ns.daughter_left = some l ∧ ns.daughter_right = some r ∧
      nl.branch_order = exampleSegment.branch_order + 1 ∧
      nr.branch_order = exampleSegment.branch_order + 1 ∧
      (∀ uid, uid ≠ l → uid ≠ r → uid ≠ 1 → sim1.objects uid = exampleSim.objects uid) :=
  C2_Bifurcate_creates_two_daughters exampleEnv exampleSim 1 exampleSegment 1 1 1 ⟨1, 1, 0⟩
    ⟨1, -1, 0⟩ rfl rfl exampleSim_Fresh

/-- `Bifurcate` never ends in `Fatal` on a terminal segment. -/
theorem Bifurcate_terminal_not_fatal (env : Env) (sim : Simulation) (this : Nat)
    (s : NeuriteElement) (length d1 d2 : ℝ) (dir1 dir2 : Vec3)
    (hs : sim.objects this = some (SimObject.neurite s)) (hterm : s.daughter_left = none)
    (e : FatalError) (sim1 : Simulation) :
    Op.Bifurcate env this length d1 d2 dir1 dir2 sim ≠ Result.fatal e sim1 := by
  by_cases h1 : this = sim.next_uid
  · subst h1
    simp [Op.Bifurcate, Op.InitializeNeuriteBifurcation, Op.modify, Op.getNeurite_apply,
      Op.setNeurite_apply, Op.setObject_apply, Op.GetInstance_apply,
      Op.UpdateLocalCoordinateAxis, Op.UpdateDependentPhysicalVariables, Op.OriginOf,
      Op.deref, hs, hterm, Function.update_apply]
  · by_cases h2 : this = sim.next_uid + 1
    · have h3 : sim.next_uid + 1 ≠ sim.next_uid := by omega
      subst h2
      simp [Op.Bifurcate, Op.InitializeNeuriteBifurcation, Op.modify, Op.getNeurite_apply,
        Op.setNeurite_apply, Op.setObject_apply, Op.GetInstance_apply,
        Op.UpdateLocalCoordinateAxis, Op.UpdateDependentPhysicalVariables, Op.OriginOf,
        Op.deref, hs, hterm, Function.update_apply]
    · have h1' : sim.next_uid ≠ this := fun h => h1 h.symm
      have h2' : sim.next_uid + 1 ≠ this := fun h => h2 h.symm
      simp [Op.Bifurcate, Op.InitializeNeuriteBifurcation, Op.modify, Op.getNeurite_apply,
        Op.setNeurite_apply, Op.setObject_apply, Op.GetInstance_apply,
        Op.UpdateLocalCoordinateAxis, Op.UpdateDependentPhysicalVariables, Op.OriginOf,
        Op.deref, hs, hterm, h1, h2, h1', h2', Function.update_apply]

/-- Claim C3 (Scenario B). `Bifurcate` on a segment whose `daughter_left` is set ends in
the fatal error "Bifurcation only allowed on a terminal neurite element" in the very
state it was called in (no segment created, no field of any object changed); and
`Bifurcate` on a segment ends in a fatal error only when its `daughter_left` is set. -/
theorem C3_Bifurcate_internal_is_fatal (env : Env) (sim : Simulation) (this : Nat)
    (s : NeuriteElement) (length d1 d2 : ℝ) (dir1 dir2 : Vec3)
    (hs : sim.objects this = some (SimObject.neurite s)) :
    (s.daughter_left ≠ none →
      Op.Bifurcate env this length d1 d2 dir1 dir2 sim =
        Result.fatal FatalError.bifurcation_not_terminal sim) ∧
    (∀ e sim1, Op.Bifurcate env this length d1 d2 dir1 dir2 sim = Result.fatal e sim1 →
      s.daughter_left ≠ none) := by
  constructor
  · intro h
    simp [Op.Bifurcate, Op.getNeurite_apply, hs, h]
  · intro e sim1 h hterm
    exact Bifurcate_terminal_not_fatal env sim this s length d1 d2 dir1 dir2 hs hterm e sim1 h

/-- Claim C3, witness: the example segment with a left daughter 5 refuses to bifurcate,
and the state is the one before the call. -/
theorem C3_Bifurcate_internal_is_fatal_witness :
    Op.Bifurcate exampleEnv 1 1 1 1 ⟨1, 1, 0⟩ ⟨1, -1, 0⟩
        { exampleSim with
          objects := Function.update exampleSim.objects 1
            (some (SimObject.neurite { exampleSegment with daughter_left := some 5 })) } =
      Result.fatal FatalError.bifurcation_not_terminal
        { exampleSim with
          objects := Function.update exampleSim.objects 1
            (some (SimObject.neurite { exampleSegment with daughter_left := some 5 })) } :=
  (C3_Bifurcate_internal_is_fatal exampleEnv _ 1 { exampleSegment with daughter_left := some 5 }
    1 1 1 ⟨1, 1, 0⟩ ⟨1, -1, 0⟩ (by simp)).1 (by simp)

/-! ## Coordinate transforms -/

/-- The rows of an orthonormal frame of the space are also orthonormal columns: every
vector is the sum of its components along the three axes. -/
theorem Math.frame_complete {x y z : Vec3} (hx : Math.Dot x x = 1) (hy : Math.Dot y y = 1)
    (hz : Math.Dot z z = 1) (hxy : Math.Dot x y = 0) (hxz : Math.Dot x z = 0)
    (hyz : Math.Dot y z = 0) :
    (x.x * x.x + y.x * y.x + z.x * z.x = 1 ∧ x.x * x.y + y.x * y.y + z.x * z.y = 0 ∧
      x.x * x.z + y.x * y.z + z.x * z.z = 0) ∧
    (x.y * x.y + y.y * y.y + z.y * z.y = 1 ∧ x.y * x.z + y.y * y.z + z.y * z.z = 0) ∧
    x.z * x.z + y.z * y.z + z.z * z.z = 1 := by
  unfold Math.Dot at hx hy hz hxy hxz hyz
  have h1 : (Matrix.of fun i j : Fin 3 =>
        if j = 0 then (if i = 0 then x else if i = 1 then y else z).x
        else if j = 1 then (if i = 0 then x else if i = 1 then y else z).y
        else (if i = 0 then x else if i = 1 then y else z).z) *
      (Matrix.of fun i j : Fin 3 =>
        if i = 0 then (if j = 0 then x else if j = 1 then y else z).x
        else if i = 1 then (if j = 0 then x else if j = 1 then y else z).y
        else (if j = 0 then x else if j = 1 then y else z).z) = (1 : Matrix (Fin 3) (Fin 3) ℝ) := by
    ext i j
    fin_cases i <;> fin_cases j <;>
      simp [Matrix.mul_apply, Fin.sum_univ_three] <;> linarith
  have h2 := Matrix.mul_eq_one_comm.mp h1
  have e := fun i j => congrFun (congrFun h2 i) j
  have e00 := e 0 0
  have e01 := e 0 1
  have e02 := e 0 2
  have e11 := e 1 1
  have e12 := e 1 2
  have e22 := e 2 2
  simp [Matrix.mul_apply, Fin.sum_univ_three] at e00 e01 e02 e11 e12 e22
  exact ⟨⟨e00, e01, e02⟩, ⟨e11, e12⟩, e22⟩

/-- Claim C8. For a segment whose local axes are pairwise orthogonal and of unit norm,
and every point `p`, `TransformCoordinatesLocalToGlobal` undoes
`TransformCoordinatesGlobalToLocal`. -/
theorem C8_global_local_round_trip (self : NeuriteElement) (h : self.Orthonormal)
    (p : Vec3) :
    self.TransformCoordinatesLocalToGlobal (self.TransformCoordinatesGlobalToLocal p) = p := by
  obtain ⟨hx, hy, hz, hxy, hxz, hyz⟩ := h
  rw [Math.Norm_eq_one_iff] at hx hy hz
  obtain ⟨⟨e00, e01, e02⟩, ⟨e11, e12⟩, e22⟩ := Math.frame_complete hx hy hz hxy hxz hyz
  unfold NeuriteElement.TransformCoordinatesLocalToGlobal
    NeuriteElement.TransformCoordinatesGlobalToLocal NeuriteElement.ProximalEnd
  simp only [Math.Add, Math.Subtract, Math.Dot]
  ext
  · simp only
    linear_combination
      (p.x - (self.mass_location.x - self.spring_axis.x)) * e00 +
      (p.y - (self.mass_location.y - self.spring_axis.y)) * e01 +
      (p.z - (self.mass_location.z - self.spring_axis.z)) * e02
  · simp only
    linear_combination
      (p.x - (self.mass_location.x - self.spring_axis.x)) * e01 +
      (p.y - (self.mass_location.y - self.spring_axis.y)) * e11 +
      (p.z - (self.mass_location.z - self.spring_axis.z)) * e12
  · simp only
    linear_combination
      (p.x - (self.mass_location.x - self.spring_axis.x)) * e02 +
      (p.y - (self.mass_location.y - self.spring_axis.y)) * e12 +
      (p.z - (self.mass_location.z - self.spring_axis.z)) * e22

theorem exampleSegment_Orthonormal : exampleSegment.Orthonormal := by
  simp [NeuriteElement.Orthonormal, exampleSegment, NeuriteElement.new,
    NeuriteElement.UpdateVolume, Math.Norm, Math.Dot]

/-- Claim C8, witness: the example segment and the point `(3, 4, 5)`. -/
theorem C8_global_local_round_trip_witness :
    exampleSegment.TransformCoordinatesLocalToGlobal
      (exampleSegment.TransformCoordinatesGlobalToLocal ⟨3, 4, 5⟩) = ⟨3, 4, 5⟩ :=
  C8_global_local_round_trip exampleSegment exampleSegment_Orthonormal ⟨3, 4, 5⟩

/-- Claim C9 as stated fails: the polar triple `(h, θ, r) = (0, 0, -1)` is sent to the
local point `(0, -1, 0)`, whose polar image has radius `1`. -/
theorem C9_polar_round_trip_counterexample :
    NeuriteElement.TransformCoordinatesLocalToPolar
      (NeuriteElement.TransformCoordinatesPolarToLocal ⟨0, 0, -1⟩) ≠ ⟨0, 0, -1⟩ := by
  intro h
  have hz := congrArg Vec3.z h
  simp only [NeuriteElement.TransformCoordinatesLocalToPolar,
    NeuriteElement.TransformCoordinatesPolarToLocal] at hz
  have := Real.sqrt_nonneg ((-1 : ℝ) * Real.cos 0 * (-1 * Real.cos 0) +
    -1 * Real.sin 0 * (-1 * Real.sin 0))
  rw [hz] at this
  norm_num at this

theorem sqrt_polar_radius (r θ : ℝ) :
    Real.sqrt (r * Real.cos θ * (r * Real.cos θ) + r * Real.sin θ * (r * Real.sin θ)) = |r| := by
  have : r * Real.cos θ * (r * Real.cos θ) + r * Real.sin θ * (r * Real.sin θ) = r ^ 2 := by
    linear_combination r ^ 2 * Real.sin_sq_add_cos_sq θ
  rw [this, Real.sqrt_sq_eq_abs]

/-- Claim C9, amended. `TransformCoordinatesLocalToPolar` undoes
`TransformCoordinatesPolarToLocal` at a polar triple `(h, θ, r)` exactly when `r > 0` and
`-π < θ ≤ π`, or `r = 0` and `θ = 0`. -/
theorem C9_polar_round_trip_iff (q : Vec3) :
    NeuriteElement.TransformCoordinatesLocalToPolar
        (NeuriteElement.TransformCoordinatesPolarToLocal q) = q ↔
      (0 < q.z ∧ -Real.pi < q.y ∧ q.y ≤ Real.pi) ∨ (q.z = 0 ∧ q.y = 0) := by
  unfold NeuriteElement.TransformCoordinatesLocalToPolar
    NeuriteElement.TransformCoordinatesPolarToLocal atan2
  simp only [sqrt_polar_radius]
  have harg : (⟨q.z * Real.cos q.y, q.z * Real.sin q.y⟩ : ℂ) =
      (q.z : ℂ) * (Complex.cos (q.y : ℂ) + Complex.sin (q.y : ℂ) * Complex.I) := by
    apply Complex.ext <;> simp [← Complex.ofReal_cos, ← Complex.ofReal_sin]
  constructor
  · intro h
    have hy : Complex.arg ⟨q.z * Real.cos q.y, q.z * Real.sin q.y⟩ = q.y := congrArg Vec3.y h
    have hz : |q.z| = q.z := congrArg Vec3.z h
    have hnn : 0 ≤ q.z := abs_eq_self.1 hz
    rcases lt_or_eq_of_le hnn with hpos | hzero
    · left
      refine ⟨hpos, ?_, ?_⟩
      · rw [← hy]
        exact Complex.neg_pi_lt_arg _
      · rw [← hy]
        exact Complex.arg_le_pi _
    · right
      refine ⟨hzero.symm, ?_⟩
      rw [← hy, ← hzero]
      simp
      exact Complex.arg_zero
  · rintro (⟨hpos, hlo, hhi⟩ | ⟨hz, hy⟩)
    · ext
      · rfl
      · show Complex.arg _ = q.y
        rw [harg]
        exact Complex.arg_mul_cos_add_sin_mul_I hpos ⟨hlo, hhi⟩
      · exact abs_of_pos hpos
    · ext
      · rfl
      · show Complex.arg _ = q.y
        rw [hz, hy]
        simp
        exact Complex.arg_zero
      · show |q.z| = q.z
        rw [hz, abs_zero]

/-! ## Dependent physical variables -/

namespace NeuriteElement

@[simp] theorem UpdateDependentPhysicalVariables_mass_location (self : NeuriteElement)
    (relative_ml : Vec3) :
    (self.UpdateDependentPhysicalVariables relative_ml).mass_location = self.mass_location :=
  rfl

@[simp] theorem UpdateDependentPhysicalVariables_resting_length (self : NeuriteElement)
    (relative_ml : Vec3) :
    (self.UpdateDependentPhysicalVariables relative_ml).resting_length = self.resting_length :=
  rfl

@[simp] theorem UpdateDependentPhysicalVariables_spring_constant (self : NeuriteElement)
    (relative_ml : Vec3) :
    (self.UpdateDependentPhysicalVariables relative_ml).spring_constant =
      self.spring_constant := rfl

@[simp] theorem UpdateDependentPhysicalVariables_diameter (self : NeuriteElement)
    (relative_ml : Vec3) :
    (self.UpdateDependentPhysicalVariables relative_ml).diameter = self.diameter := rfl

theorem UpdateDependentPhysicalVariables_spring_axis (self : NeuriteElement)
    (relative_ml : Vec3) :
    (self.UpdateDependentPhysicalVariables relative_ml).spring_axis =
      Math.Subtract self.mass_location relative_ml := rfl

theorem UpdateDependentPhysicalVariables_actual_length (self : NeuriteElement)
    (relative_ml : Vec3) :
    (self.UpdateDependentPhysicalVariables relative_ml).actual_length =
      Math.Norm (Math.Subtract self.mass_location relative_ml) := rfl

theorem UpdateDependentPhysicalVariables_tension (self : NeuriteElement)
    (relative_ml : Vec3) :
    (self.UpdateDependentPhysicalVariables relative_ml).tension =
      if |Math.Norm (Math.Subtract self.mass_location relative_ml) - self.resting_length| >
          1e-13 then
        self.spring_constant *
          (Math.Norm (Math.Subtract self.mass_location relative_ml) - self.resting_length) /
          self.resting_length
      else 0 := rfl

/-- Running the body of `UpdateDependentPhysicalVariables` a second time against the same
attachment point changes nothing. -/
theorem UpdateDependentPhysicalVariables_idem (self : NeuriteElement) (relative_ml : Vec3) :
    (self.UpdateDependentPhysicalVariables relative_ml).UpdateDependentPhysicalVariables
      relative_ml = self.UpdateDependentPhysicalVariables relative_ml := rfl

end NeuriteElement

/-- The run of `UpdateDependentPhysicalVariables` on a segment whose mother can be
dereferenced. -/
theorem Op.UpdateDependentPhysicalVariables_of_eq {sim : Simulation} {this : Nat}
    {s : NeuriteElement} {origin : Vec3}
    (hs : sim.objects this = some (SimObject.neurite s))
    (horigin : Op.OriginOf s.mother this sim = Result.ok origin sim) :
    Op.UpdateDependentPhysicalVariables this sim =
      Result.ok ()
        { sim with
          objects := Function.update sim.objects this
            (some (SimObject.neurite (s.UpdateDependentPhysicalVariables origin))) } := by
  simp [Op.UpdateDependentPhysicalVariables, Op.getNeurite_apply, hs, horigin,
    Op.setNeurite_apply, Op.setObject_apply]

theorem exampleSim_OriginOf (s : NeuriteElement) (hm : s.mother = some 0) (random : Random) :
    Op.OriginOf s.mother 1
        { objects := Function.update exampleSim.objects 1 (some (SimObject.neurite s))
          next_uid := 2
          random := random } =
      Result.ok ⟨0, 0, 0⟩
        { objects := Function.update exampleSim.objects 1 (some (SimObject.neurite s))
          next_uid := 2
          random := random } := by
  simp [Op.OriginOf, Op.deref, hm, exampleSim, Function.update_apply, NeuronSoma.OriginOf,
    exampleSoma]

/-- Claim C5 as stated fails on the boundary: with the mother's attachment point at the
origin, `mass_location = (1, 0, 0)` (so `L = 1`), `resting_length = 1 + 1e-13` and
`spring_constant = 1`, the difference `|L - R|` is exactly `1e-13`, which is not below
`1e-13`, and yet the tension computed is `0` and not `k · (L - R) / R`. -/
theorem C5_tension_boundary_counterexample :
    ∃ sim1 n1,
      Op.UpdateDependentPhysicalVariables 1
          { exampleSim with
            objects := Function.update exampleSim.objects 1
              (some (SimObject.neurite { exampleSegment with resting_length := 1 + 1e-13 })) } =
        Result.ok () sim1 ∧
      sim1.objects 1 = some (SimObject.neurite n1) ∧
      ¬ |Math.Norm (Math.Subtract n1.mass_location ⟨0, 0, 0⟩) - n1.resting_length| < 1e-13 ∧
      n1.tension ≠
        n1.spring_constant *
          (Math.Norm (Math.Subtract n1.mass_location ⟨0, 0, 0⟩) - n1.resting_length) /
          n1.resting_length := by
  have hnorm : Math.Norm (Math.Subtract (⟨1, 0, 0⟩ : Vec3) ⟨0, 0, 0⟩) = 1 := by
    simp [Math.Norm, Math.Subtract]
  refine ⟨_,
    NeuriteElement.UpdateDependentPhysicalVariables
      { exampleSegment with resting_length := 1 + 1e-13 } ⟨0, 0, 0⟩,
    Op.UpdateDependentPhysicalVariables_of_eq
      (s := { exampleSegment with resting_length := 1 + 1e-13 })
      (by simp) (exampleSim_OriginOf _ rfl _), by simp, ?_, ?_⟩
  · simp only [NeuriteElement.UpdateDependentPhysicalVariables_mass_location,
      NeuriteElement.UpdateDependentPhysicalVariables_resting_length]
    show ¬ |Math.Norm (Math.Subtract (⟨1, 0, 0⟩ : Vec3) ⟨0, 0, 0⟩) - (1 + 1e-13)| < 1e-13
    rw [hnorm]
    norm_num [abs_of_nonneg]
  · rw [NeuriteElement.UpdateDependentPhysicalVariables_tension]
    simp only [NeuriteElement.UpdateDependentPhysicalVariables_mass_location,
      NeuriteElement.UpdateDependentPhysicalVariables_resting_length,
      NeuriteElement.UpdateDependentPhysicalVariables_spring_constant]
    show (if |Math.Norm (Math.Subtract (⟨1, 0, 0⟩ : Vec3) ⟨0, 0, 0⟩) - (1 + 1e-13)| > 1e-13 then
        (1 : ℝ) * (Math.Norm (Math.Subtract (⟨1, 0, 0⟩ : Vec3) ⟨0, 0, 0⟩) - (1 + 1e-13)) /
          (1 + 1e-13)
      else 0) ≠
      (1 : ℝ) * (Math.Norm (Math.Subtract (⟨1, 0, 0⟩ : Vec3) ⟨0, 0, 0⟩) - (1 + 1e-13)) /
        (1 + 1e-13)
    rw [hnorm]
    norm_num [abs_of_nonneg]

/-- Claim C5, amended. After `UpdateDependentPhysicalVariables` on a segment whose mother
can be dereferenced, with `L` the norm of `mass_location` minus the attachment point on
the mother, `R` the resting length and `k` the spring constant (none of which the call
changes), the tension is `k · (L - R) / R` when `|L - R| > 1e-13` and `0` otherwise, that
is, also when `|L - R|` equals `1e-13`. -/
theorem C5_tension_formula (sim : Simulation) (this : Nat) (s : NeuriteElement)
    (origin : Vec3) (hs : sim.objects this = some (SimObject.neurite s))
    (horigin : Op.OriginOf s.mother this sim = Result.ok origin sim) :
    ∃ sim1 n1, Op.UpdateDependentPhysicalVariables this sim = Result.ok () sim1 ∧
      sim1.objects this = some (SimObject.neurite n1) ∧
      n1.mass_location = s.mass_location ∧ n1.resting_length = s.resting_length ∧
      n1.spring_constant = s.spring_constant ∧
      n1.actual_length = Math.Norm (Math.Subtract n1.mass_location origin) ∧
      (|Math.Norm (Math.Subtract n1.mass_location origin) - n1.resting_length| > 1e-13 →
        n1.tension = n1.spring_constant *
          (Math.Norm (Math.Subtract n1.mass_location origin) - n1.resting_length) /
          n1.resting_length) ∧
      (|Math.Norm (Math.Subtract n1.mass_location origin) - n1.resting_length| ≤ 1e-13 →
        n1.tension = 0) := by
  refine ⟨_, s.UpdateDependentPhysicalVariables origin,
    Op.UpdateDependentPhysicalVariables_of_eq hs horigin, by simp, rfl, rfl, rfl, rfl, ?_, ?_⟩
  · intro h
    rw [NeuriteElement.UpdateDependentPhysicalVariables_tension]
    simp only [NeuriteElement.UpdateDependentPhysicalVariables_mass_location,
      NeuriteElement.UpdateDependentPhysicalVariables_resting_length,
      NeuriteElement.UpdateDependentPhysicalVariables_spring_constant] at h ⊢
    rw [if_pos h]
  · intro h
    rw [NeuriteElement.UpdateDependentPhysicalVariables_tension]
    simp only [NeuriteElement.UpdateDependentPhysicalVariables_mass_location,
      NeuriteElement.UpdateDependentPhysicalVariables_resting_length] at h ⊢
    rw [if_neg (not_lt.2 h)]

/-- Claim C5 (amended), witness: the example segment, attached at the origin. -/
theorem C5_tension_formula_witness :
    ∃ sim1 n1, Op.UpdateDependentPhysicalVariables 1 exampleSim = Result.ok () sim1 ∧
      sim1.objects 1 = some (SimObject.neurite n1) ∧
      n1.mass_location = exampleSegment.mass_location ∧
      n1.resting_length = exampleSegment.resting_length ∧
      n1.spring_constant = exampleSegment.spring_constant ∧
      n1.actual_length = Math.Norm (Math.Subtract n1.mass_location ⟨0, 0, 0⟩) ∧
      (|Math.Norm (Math.Subtract n1.mass_location ⟨0, 0, 0⟩) - n1.resting_length| > 1e-13 →
        n1.tension = n1.spring_constant *
          (Math.Norm (Math.Subtract n1.mass_location ⟨0, 0, 0⟩) - n1.resting_length) /
          n1.resting_length) ∧
      (|Math.Norm (Math.Subtract n1.mass_location ⟨0, 0, 0⟩) - n1.resting_length| ≤ 1e-13 →
        n1.tension = 0) :=
  C5_tension_formula exampleSim 1 exampleSegment ⟨0, 0, 0⟩ rfl
    (by simp [Op.OriginOf, Op.deref, exampleSim, exampleSegment, NeuronSoma.OriginOf,
      exampleSoma])

/-- Claim C10. Calling `UpdateDependentPhysicalVariables` twice in succession ends as
calling it once does: with the same state (every field of every object) after a normal
return, and with the same failure when the segment or its mother cannot be
dereferenced. -/
theorem C10_UpdateDependentPhysicalVariables_idempotent (sim : Simulation) (this : Nat) :
    (Op.UpdateDependentPhysicalVariables this >>= fun _ =>
      Op.UpdateDependentPhysicalVariables this) sim =
      Op.UpdateDependentPhysicalVariables this sim := by
  rcases hobj : sim.objects this with _ | o
  · simp [Op.UpdateDependentPhysicalVariables, Op.getNeurite_apply, hobj]
  rcases o with so | s
  · simp [Op.UpdateDependentPhysicalVariables, Op.getNeurite_apply, hobj]
  rcases hm : s.mother with _ | m
  · simp [Op.UpdateDependentPhysicalVariables, Op.getNeurite_apply, hobj, Op.OriginOf,
      Op.deref, hm]
  by_cases hmt : m = this
  · subst hmt
    simp [Op.UpdateDependentPhysicalVariables, Op.getNeurite_apply, hobj, Op.OriginOf,
      Op.deref, hm, Op.setNeurite_apply, Op.setObject_apply,
      NeuriteElement.UpdateDependentPhysicalVariables_idem]
  · rcases hmo : sim.objects m with _ | mo
    · simp [Op.UpdateDependentPhysicalVariables, Op.getNeurite_apply, hobj, Op.OriginOf,
        Op.deref, hm, hmo]
    · rcases mo with ms | mn
      · simp [Op.UpdateDependentPhysicalVariables, Op.getNeurite_apply, hobj, Op.OriginOf,
          Op.deref, hm, hmo, Op.setNeurite_apply, Op.setObject_apply, Function.update_apply,
          hmt, NeuriteElement.UpdateDependentPhysicalVariables_idem]
      · simp [Op.UpdateDependentPhysicalVariables, Op.getNeurite_apply, hobj, Op.OriginOf,
          Op.deref, hm, hmo, Op.setNeurite_apply, Op.setObject_apply, Function.update_apply,
          hmt, NeuriteElement.UpdateDependentPhysicalVariables_idem]

/-! ## Invariants along a run -/

namespace Op

theorem Triple_bind {α β : Type} {P : Simulation → Prop} {m : Op α}
    {R : α → Simulation → Prop} {f : α → Op β} {Q : β → Simulation → Prop}
    (h1 : Triple P m R) (h2 : ∀ a, Triple (R a) (f a) Q) : Triple P (m >>= f) Q := by
  intro sim b sim2 hP h
  rw [bind_apply] at h
  rcases hm : m sim with ⟨a, sim1⟩ | ⟨e, sim1⟩ | _ | _
  · rw [hm] at h
    exact h2 a sim1 b sim2 (h1 sim a sim1 hP hm) h
  · rw [hm] at h
    cases h
  · rw [hm] at h
    cases h
  · rw [hm] at h
    cases h

theorem Triple_weaken {α : Type} {P P1 : Simulation → Prop} {m : Op α}
    {Q Q1 : α → Simulation → Prop} (h : Triple P m Q) (hP : ∀ sim, P1 sim → P sim)
    (hQ : ∀ a sim, Q a sim → Q1 a sim) : Triple P1 m Q1 :=
  fun sim a sim1 h1 h2 => hQ a sim1 (h sim a sim1 (hP sim h1) h2)

theorem Triple_and {α : Type} {P1 P2 : Simulation → Prop} {m : Op α}
    {Q1 Q2 : α → Simulation → Prop} (h1 : Triple P1 m Q1) (h2 : Triple P2 m Q2) :
    Triple (fun sim => P1 sim ∧ P2 sim) m (fun a sim => Q1 a sim ∧ Q2 a sim) :=
  fun sim a sim1 hP h => ⟨h1 sim a sim1 hP.1 h, h2 sim a sim1 hP.2 h⟩

theorem Keeps_bind {α β : Type} {I : Simulation → Prop} {m : Op α} {f : α → Op β}
    (h1 : Keeps I m) (h2 : ∀ a, Keeps I (f a)) : Keeps I (m >>= f) :=
  Triple_bind h1 h2

theorem Keeps_pure {α : Type} (I : Simulation → Prop) (a : α) : Keeps I (pure a : Op α) := by
  intro sim b sim1 hI h
  cases h
  exact hI

theorem Keeps_fault {α : Type} (I : Simulation → Prop) : Keeps I (fault : Op α) := by
  intro sim b sim1 _ h
  cases h

theorem Keeps_Fatal {α : Type} (I : Simulation → Prop) (e : FatalError) :
    Keeps I (Fatal e : Op α) := by
  intro sim b sim1 _ h
  cases h

theorem Keeps_out_of_fuel {α : Type} (I : Simulation → Prop) :
    Keeps I (out_of_fuel : Op α) := by
  intro sim b sim1 _ h
  cases h

theorem getNeurite_ok {uid : Nat} {sim sim1 : Simulation} {n : NeuriteElement}
    (h : getNeurite uid sim = Result.ok n sim1) :
    sim1 = sim ∧ sim.objects uid = some (SimObject.neurite n) := by
  rw [getNeurite_apply] at h
  split at h
  · cases h
    exact ⟨rfl, by assumption⟩
  · cases h

theorem deref_ok {ptr : Option Nat} {sim sim1 : Simulation} {r : Nat × SimObject}
    (h : deref ptr sim = Result.ok r sim1) :
    sim1 = sim ∧ ptr = some r.1 ∧ sim.objects r.1 = some r.2 := by
  unfold deref at h
  split at h
  · cases h
  · split at h
    · cases h
    · cases h
      exact ⟨rfl, rfl, by assumption⟩

theorem OriginOf_ok {ptr : Option Nat} {d : Nat} {sim sim1 : Simulation} {v : Vec3}
    (h : OriginOf ptr d sim = Result.ok v sim1) : sim1 = sim := by
  unfold OriginOf at h
  rw [bind_apply] at h
  rcases hd : deref ptr sim with ⟨r, sim2⟩ | ⟨e, sim2⟩ | _ | _
  · rw [hd] at h
    obtain ⟨rfl, -, -⟩ := deref_ok hd
    obtain ⟨uid, o⟩ := r
    cases o <;> (cases h; rfl)
  all_goals (rw [hd] at h; cases h)

theorem Keeps_getNeurite (I : Simulation → Prop) (uid : Nat) : Keeps I (getNeurite uid) := by
  intro sim n sim1 hI h
  rw [(getNeurite_ok h).1]
  exact hI

theorem Keeps_deref (I : Simulation → Prop) (ptr : Option Nat) : Keeps I (deref ptr) := by
  intro sim n sim1 hI h
  rw [(deref_ok h).1]
  exact hI

theorem Keeps_OriginOf (I : Simulation → Prop) (ptr : Option Nat) (d : Nat) :
    Keeps I (OriginOf ptr d) := by
  intro sim n sim1 hI h
  rw [OriginOf_ok h]
  exact hI

theorem All_update {φ : Nat → NeuriteElement → Prop} {sim : Simulation}
    (h : sim.All φ) (uid : Nat) (n : NeuriteElement) (hn : φ uid n) (k : Nat)
    (random : Random) :
    Simulation.All φ
      { objects := Function.update sim.objects uid (some (SimObject.neurite n))
        next_uid := k
        random := random } := by
  intro u n1 hu
  by_cases hc : u = uid
  · subst hc
    simp at hu
    subst hu
    exact hn
  · simp [Function.update_apply, hc] at hu
    exact h u n1 hu

theorem All_update_other {φ : Nat → NeuriteElement → Prop} {sim : Simulation}
    (h : sim.All φ) (uid : Nat) (o : Option SimObject)
    (ho : ∀ n, o ≠ some (SimObject.neurite n)) (k : Nat) (random : Random) :
    Simulation.All φ
      { objects := Function.update sim.objects uid o, next_uid := k, random := random } := by
  intro u n1 hu
  by_cases hc : u = uid
  · subst hc
    simp at hu
    exact absurd hu (ho n1)
  · simp [Function.update_apply, hc] at hu
    exact h u n1 hu

theorem All_setNeurite {φ : Nat → NeuriteElement → Prop} (uid : Nat) (n : NeuriteElement)
    (hn : φ uid n) : Keeps (Simulation.All φ) (setNeurite uid n) := by
  intro sim a sim1 hI h
  cases h
  exact All_update hI uid n hn _ _

theorem All_setSoma (φ : Nat → NeuriteElement → Prop) (uid : Nat) (s : NeuronSoma) :
    Keeps (Simulation.All φ) (setObject uid (SimObject.soma s)) := by
  intro sim a sim1 hI h
  cases h
  exact All_update_other hI uid _ (by intro n hn; cases hn) _ _

theorem All_modify {φ : Nat → NeuriteElement → Prop} {uid : Nat}
    {f : NeuriteElement → NeuriteElement} (hf : ∀ n, φ uid n → φ uid (f n)) :
    Keeps (Simulation.All φ) (modify uid f) := by
  intro sim a sim1 hI h
  unfold modify at h
  rw [bind_apply] at h
  rcases hg : getNeurite uid sim with ⟨n, sim2⟩ | ⟨e, sim2⟩ | _ | _
  · rw [hg] at h
    obtain ⟨rfl, hn⟩ := getNeurite_ok hg
    cases h
    exact All_update hI uid _ (hf n (hI uid n hn)) _ _
  all_goals (rw [hg] at h; cases h)

theorem All_GetInstance {φ : Nat → NeuriteElement → Prop} {env : Env}
    (hnew : ∀ uid, φ uid (NeuriteElement.new env)) :
    Keeps (Simulation.All φ) (GetInstance env) := by
  intro sim a sim1 hI h
  cases h
  exact All_update hI _ _ (hnew _) _ _

theorem All_RemoveFromSimulation (φ : Nat → NeuriteElement → Prop) (uid : Nat) :
    Keeps (Simulation.All φ) (RemoveFromSimulation uid) := by
  intro sim a sim1 hI h
  cases h
  exact All_update_other hI uid none (by intro n hn; cases hn) _ _

theorem Triple_getNeurite (I : Simulation → Prop) (uid : Nat) :
    Triple I (getNeurite uid)
      (fun n sim => I sim ∧ sim.objects uid = some (SimObject.neurite n)) := by
  intro sim n sim1 hI h
  obtain ⟨rfl, hn⟩ := getNeurite_ok h
  exact ⟨hI, hn⟩

theorem Triple_deref (I : Simulation → Prop) (ptr : Option Nat) :
    Triple I (deref ptr)
      (fun r sim => I sim ∧ ptr = some r.1 ∧ sim.objects r.1 = some r.2) := by
  intro sim n sim1 hI h
  obtain ⟨rfl, h1, h2⟩ := deref_ok h
  exact ⟨hI, h1, h2⟩

theorem All_setNeurite_of {φ : Nat → NeuriteElement → Prop} {uid : Nat}
    {n n1 : NeuriteElement} (hn : φ uid n → φ uid n1) :
    Triple (fun sim => Simulation.All φ sim ∧ sim.objects uid = some (SimObject.neurite n))
      (setNeurite uid n1) (fun _ => Simulation.All φ) := by
  intro sim a sim1 hI h
  cases h
  exact All_update hI.1 uid n1 (hn (hI.1 uid n hI.2)) _ _

theorem All_setSoma_of (φ : Nat → NeuriteElement → Prop) (P : Simulation → Prop) (uid : Nat)
    (s : NeuronSoma) :
    Triple (fun sim => Simulation.All φ sim ∧ P sim)
      (setObject uid (SimObject.soma s)) (fun _ => Simulation.All φ) :=
  Triple_weaken (All_setSoma φ uid s) (fun _ h => h.1) (fun _ _ h => h)

theorem Triple_Fatal {α : Type} (P : Simulation → Prop) (e : FatalError)
    (Q : α → Simulation → Prop) : Triple P (Fatal e : Op α) Q := by
  intro sim b sim1 _ h
  cases h

theorem All_UpdateRelative {φ : Nat → NeuriteElement → Prop}
    (hUR : ∀ uid n a b, φ uid n → φ uid (NeuriteElement.UpdateRelative n a b))
    (ptr : Option Nat) (a b : Nat) :
    Keeps (Simulation.All φ) (UpdateRelative ptr a b) := by
  unfold UpdateRelative
  refine Triple_bind (Triple_deref _ ptr) ?_
  rintro ⟨uid, o⟩
  cases o with
  | soma s => exact All_setSoma_of φ _ uid _
  | neurite n =>
    intro sim u sim1 hI h
    exact All_setNeurite_of (hUR uid n a b) sim u sim1 ⟨hI.1, hI.2.2⟩ h

theorem All_RemoveDaughter {φ : Nat → NeuriteElement → Prop}
    (hRD : ∀ uid n d n1, φ uid n → NeuriteElement.RemoveDaughter n d = some n1 → φ uid n1)
    (ptr : Option Nat) (d : Nat) :
    Keeps (Simulation.All φ) (RemoveDaughter ptr d) := by
  unfold RemoveDaughter
  refine Triple_bind (Triple_deref _ ptr) ?_
  rintro ⟨uid, o⟩
  cases o with
  | soma s =>
    dsimp only
    cases s.RemoveDaughter d with
    | none => exact Triple_Fatal _ _ _
    | some s1 => exact All_setSoma_of φ _ uid _
  | neurite n =>
    dsimp only
    cases hn1 : n.RemoveDaughter d with
    | none => exact Triple_Fatal _ _ _
    | some n1 =>
      intro sim u sim1 hI h
      exact All_setNeurite_of (fun hn => hRD uid n d n1 hn hn1) sim u sim1 ⟨hI.1, hI.2.2⟩ h

theorem All_UpdateDependentPhysicalVariables {φ : Nat → NeuriteElement → Prop}
    (hUD : ∀ uid n o, φ uid n → φ uid (NeuriteElement.UpdateDependentPhysicalVariables n o))
    (uid : Nat) :
    Keeps (Simulation.All φ) (UpdateDependentPhysicalVariables uid) := by
  unfold UpdateDependentPhysicalVariables
  refine Triple_bind (Triple_getNeurite _ uid) ?_
  intro n
  refine Triple_bind (Keeps_OriginOf _ n.mother uid) ?_
  intro v
  exact All_setNeurite_of (hUD uid n v)

theorem All_UpdateLocalCoordinateAxis {φ : Nat → NeuriteElement → Prop} {env : Env}
    (hLCA : ∀ uid n r, φ uid n → φ uid (NeuriteElement.UpdateLocalCoordinateAxis env n r).1)
    (uid : Nat) :
    Keeps (Simulation.All φ) (UpdateLocalCoordinateAxis env uid) := by
  unfold UpdateLocalCoordinateAxis
  refine Triple_bind (Triple_getNeurite _ uid) ?_
  intro n sim a sim1 hI h
  cases h
  exact All_update hI.1 uid _ (hLCA uid n _ (hI.1 uid n hI.2)) _ _

end Op

/-! ## A single daughter is the left one -/

namespace NeuriteElement

theorem SingleIsLeft_of_slots {n n1 : NeuriteElement} (h : n.SingleIsLeft)
    (hl : n1.daughter_left = n.daughter_left) (hr : n1.daughter_right = n.daughter_right) :
    n1.SingleIsLeft := by
  unfold SingleIsLeft at *
  rw [hl, hr]
  exact h

theorem SingleIsLeft_new (env : Env) : (NeuriteElement.new env).SingleIsLeft :=
  fun _ => rfl

theorem SingleIsLeft_UpdateRelative (n : NeuriteElement) (a b : Nat) (h : n.SingleIsLeft) :
    (n.UpdateRelative a b).SingleIsLeft := by
  unfold SingleIsLeft UpdateRelative at *
  split
  · exact h
  · split
    · intro hc
      cases hc
    · split
      · intro hc
        have := h hc
        simp_all
      · exact h

theorem SingleIsLeft_RemoveDaughter (n : NeuriteElement) (d : Nat) (n1 : NeuriteElement)
    (h1 : n.RemoveDaughter d = some n1) : n1.SingleIsLeft := by
  unfold RemoveDaughter at h1
  split at h1
  · cases h1
    intro _
    rfl
  · split at h1
    · cases h1
      intro _
      rfl
    · cases h1

end NeuriteElement

namespace Op

/-- The element predicate `φ` only looks at the two daughter slots. -/
theorem SlotOnly_SingleIsLeft (_uid : Nat) (n n1 : NeuriteElement)
    (hl : n1.daughter_left = n.daughter_left) (hr : n1.daughter_right = n.daughter_right)
    (h : n.SingleIsLeft) : n1.SingleIsLeft :=
  NeuriteElement.SingleIsLeft_of_slots h hl hr

theorem Slot_UpdateDependentPhysicalVariables {φ : Nat → NeuriteElement → Prop}
    (hφ : ∀ uid n n1, n1.daughter_left = n.daughter_left →
      n1.daughter_right = n.daughter_right → φ uid n → φ uid n1) (uid : Nat) :
    Keeps (Simulation.All φ) (UpdateDependentPhysicalVariables uid) :=
  All_UpdateDependentPhysicalVariables (fun u n o h => hφ u n _ (by simp) (by simp) h) _

theorem Slot_UpdateLocalCoordinateAxis {φ : Nat → NeuriteElement → Prop}
    (hφ : ∀ uid n n1, n1.daughter_left = n.daughter_left →
      n1.daughter_right = n.daughter_right → φ uid n → φ uid n1) (env : Env) (uid : Nat) :
    Keeps (Simulation.All φ) (UpdateLocalCoordinateAxis env uid) :=
  All_UpdateLocalCoordinateAxis (fun u n r h => hφ u n _ (by simp) (by simp) h) _

/-- A change of the fields of one element that leaves its daughter slots alone. -/
theorem Slot_modify {φ : Nat → NeuriteElement → Prop}
    (hφ : ∀ uid n n1, n1.daughter_left = n.daughter_left →
      n1.daughter_right = n.daughter_right → φ uid n → φ uid n1)
    (uid : Nat) (f : NeuriteElement → NeuriteElement)
    (hl : ∀ n, (f n).daughter_left = n.daughter_left)
    (hr : ∀ n, (f n).daughter_right = n.daughter_right) :
    Keeps (Simulation.All φ) (modify uid f) :=
  All_modify (fun n h => hφ uid n _ (hl n) (hr n) h)

theorem UpdateRelative_keeps_SingleIsLeft (ptr : Option Nat) (a b : Nat) :
    Keeps (Simulation.All fun _ n => n.SingleIsLeft) (UpdateRelative ptr a b) :=
  All_UpdateRelative (fun _ n a b h => NeuriteElement.SingleIsLeft_UpdateRelative n a b h) _ _ _

theorem RemoveDaughter_keeps_SingleIsLeft (ptr : Option Nat) (d : Nat) :
    Keeps (Simulation.All fun _ n => n.SingleIsLeft) (RemoveDaughter ptr d) :=
  All_RemoveDaughter
    (fun _ n d n1 _ h1 => NeuriteElement.SingleIsLeft_RemoveDaughter n d n1 h1) _ _

theorem SingleIsLeft_GetInstance (env : Env) :
    Keeps (Simulation.All fun _ n => n.SingleIsLeft) (GetInstance env) :=
  All_GetInstance (fun _ => NeuriteElement.SingleIsLeft_new env)

/-- A change of the fields of one element after which its left daughter is set. -/
theorem SingleIsLeft_modify_left (uid : Nat) (f : NeuriteElement → NeuriteElement)
    (hl : ∀ n, (f n).daughter_left ≠ none) :
    Keeps (Simulation.All fun _ n => n.SingleIsLeft) (modify uid f) :=
  All_modify (fun n _ hc => absurd hc (hl n))

theorem RemoveProximalNeuriteElement_SingleIsLeft (env : Env) (this : Nat) :
    Keeps (Simulation.All fun _ n => n.SingleIsLeft)
      (RemoveProximalNeuriteElement env this) := by
  unfold RemoveProximalNeuriteElement
  repeat' first
    | with_reducible exact Keeps_pure _ _
    | with_reducible exact Keeps_getNeurite _ _
    | with_reducible exact Keeps_deref _ _
    | with_reducible exact Keeps_OriginOf _ _ _
    | with_reducible exact All_RemoveFromSimulation _ _
    | with_reducible exact UpdateRelative_keeps_SingleIsLeft _ _ _
    | with_reducible exact Slot_UpdateLocalCoordinateAxis SlotOnly_SingleIsLeft _ _
    | (refine Slot_modify SlotOnly_SingleIsLeft _ _ (fun _ => ?_) (fun _ => ?_) <;> (simp; done))
    | with_reducible apply Keeps_bind
    | with_reducible intro _
    | split

theorem HandleSplit_SingleIsLeft (env : Env) (this proximal : Nat) (dp : ℝ) :
    Keeps (Simulation.All fun _ n => n.SingleIsLeft) (HandleSplit env this proximal dp) := by
  unfold HandleSplit
  repeat' first
    | with_reducible exact Keeps_getNeurite _ _
    | with_reducible exact UpdateRelative_keeps_SingleIsLeft _ _ _
    | with_reducible exact Slot_UpdateDependentPhysicalVariables SlotOnly_SingleIsLeft _
    | with_reducible exact Slot_UpdateLocalCoordinateAxis SlotOnly_SingleIsLeft _ _
    | (refine Slot_modify SlotOnly_SingleIsLeft _ _ (fun _ => ?_) (fun _ => ?_) <;> (simp; done))
    | with_reducible apply Keeps_bind
    | with_reducible intro _
    | split

theorem InitializeSplitOrBranching_SingleIsLeft (env : Env) (this other : Nat) (dp : ℝ) :
    Keeps (Simulation.All fun _ n => n.SingleIsLeft)
      (InitializeSplitOrBranching env this other dp) := by
  unfold InitializeSplitOrBranching
  repeat' first
    | with_reducible exact Keeps_getNeurite _ _
    | with_reducible exact Keeps_deref _ _
    | (refine Slot_modify SlotOnly_SingleIsLeft _ _ (fun _ => ?_) (fun _ => ?_) <;> (simp; done))
    | (refine SingleIsLeft_modify_left _ _ (fun _ => ?_); simp; done)
    | with_reducible apply Keeps_bind
    | with_reducible intro _
    | split

theorem SplitNeuriteElement_SingleIsLeft (env : Env) (this : Nat) (dp : ℝ) :
    Keeps (Simulation.All fun _ n => n.SingleIsLeft) (SplitNeuriteElement env this dp) := by
  unfold SplitNeuriteElement
  repeat' first
    | with_reducible exact Keeps_pure _ _
    | with_reducible exact SingleIsLeft_GetInstance _
    | with_reducible exact InitializeSplitOrBranching_SingleIsLeft _ _ _ _
    | with_reducible exact HandleSplit_SingleIsLeft _ _ _ _
    | with_reducible apply Keeps_bind
    | with_reducible intro _

theorem InitializeNeuriteBifurcation_SingleIsLeft (env : Env) (this mother : Nat)
    (length diameter : ℝ) (direction : Vec3) :
    Keeps (Simulation.All fun _ n => n.SingleIsLeft)
      (InitializeNeuriteBifurcation env this mother length diameter direction) := by
  unfold InitializeNeuriteBifurcation
  repeat' first
    | with_reducible exact Keeps_getNeurite _ _
    | with_reducible exact Slot_UpdateDependentPhysicalVariables SlotOnly_SingleIsLeft _
    | with_reducible exact Slot_UpdateLocalCoordinateAxis SlotOnly_SingleIsLeft _ _
    | (refine Slot_modify SlotOnly_SingleIsLeft _ _ (fun _ => ?_) (fun _ => ?_) <;> (simp; done))
    | with_reducible apply Keeps_bind
    | with_reducible intro _
    | split

theorem Bifurcate_SingleIsLeft (env : Env) (this : Nat) (length d1 d2 : ℝ)
    (dir1 dir2 : Vec3) :
    Keeps (Simulation.All fun _ n => n.SingleIsLeft)
      (Bifurcate env this length d1 d2 dir1 dir2) := by
  unfold Bifurcate
  repeat' first
    | with_reducible exact Keeps_pure _ _
    | with_reducible exact Keeps_Fatal _ _
    | with_reducible exact Keeps_getNeurite _ _
    | with_reducible exact SingleIsLeft_GetInstance _
    | with_reducible exact InitializeNeuriteBifurcation_SingleIsLeft _ _ _ _ _ _
    | (refine SingleIsLeft_modify_left _ _ (fun _ => ?_); simp; done)
    | with_reducible apply Keeps_bind
    | with_reducible intro _
    | split

theorem RetractTerminalEnd_SingleIsLeft (env : Env) :
    ∀ (fuel this : Nat) (speed : ℝ),
      Keeps (Simulation.All fun _ n => n.SingleIsLeft)
        (RetractTerminalEnd env fuel this speed) := by
  intro fuel
  induction fuel with
  | zero =>
    intro this speed
    unfold RetractTerminalEnd
    exact Keeps_out_of_fuel _
  | succ fuel ih =>
    intro this speed
    unfold RetractTerminalEnd
    repeat' first
      | with_reducible exact Keeps_pure _ _
      | with_reducible exact Keeps_fault _
      | with_reducible exact Keeps_getNeurite _ _
      | with_reducible exact Keeps_deref _ _
      | with_reducible exact Keeps_OriginOf _ _ _
      | with_reducible exact All_RemoveFromSimulation _ _
      | with_reducible exact RemoveDaughter_keeps_SingleIsLeft _ _
      | with_reducible exact RemoveProximalNeuriteElement_SingleIsLeft _ _
      | with_reducible exact Slot_UpdateDependentPhysicalVariables SlotOnly_SingleIsLeft _
      | with_reducible exact ih _ _
      | (refine Slot_modify SlotOnly_SingleIsLeft _ _ (fun _ => ?_) (fun _ => ?_) <;> (simp; done))
      | with_reducible apply Keeps_bind
      | with_reducible intro _
      | split

theorem RunDiscretization_SingleIsLeft (env : Env) (this : Nat) :
    Keeps (Simulation.All fun _ n => n.SingleIsLeft) (RunDiscretization env this) := by
  unfold RunDiscretization
  repeat' first
    | with_reducible exact Keeps_pure _ _
    | with_reducible exact Keeps_getNeurite _ _
    | with_reducible exact Keeps_deref _ _
    | with_reducible exact All_RemoveFromSimulation _ _
    | with_reducible exact SplitNeuriteElement_SingleIsLeft _ _ _
    | with_reducible exact RemoveProximalNeuriteElement_SingleIsLeft _ _
    | with_reducible apply Keeps_bind
    | with_reducible intro _
    | split
    | dsimp only

end Op

namespace Op

theorem All_modify_change {φ ψ : Nat → NeuriteElement → Prop} {uid : Nat}
    {f : NeuriteElement → NeuriteElement} (h1 : ∀ n, φ uid n → ψ uid (f n))
    (h2 : ∀ u n, u ≠ uid → φ u n → ψ u n) :
    Triple (Simulation.All φ) (modify uid f) (fun _ => Simulation.All ψ) := by
  unfold modify
  refine Triple_bind (Triple_getNeurite _ uid) ?_
  intro n sim a sim1 hI h
  cases h
  intro u n1 hu
  by_cases hc : u = uid
  · subst hc
    simp at hu
    subst hu
    exact h1 n (hI.1 u n hI.2)
  · simp [Function.update_apply, hc] at hu
    exact h2 u n1 hc (hI.1 u n1 hu)

theorem Next_modify (k uid : Nat) (f : NeuriteElement → NeuriteElement) :
    Keeps (fun sim => sim.next_uid = k) (modify uid f) := by
  unfold modify
  refine Triple_bind (Triple_getNeurite _ uid) ?_
  intro n sim a sim1 hI h
  cases h
  exact hI.1

theorem InitializeSplitOrBranching_next_uid (env : Env) (this other : Nat) (dp : ℝ)
    (k : Nat) :
    Keeps (fun sim => sim.next_uid = k) (InitializeSplitOrBranching env this other dp) := by
  unfold InitializeSplitOrBranching
  repeat' first
    | with_reducible exact Keeps_getNeurite _ _
    | with_reducible exact Keeps_deref _ _
    | with_reducible exact Next_modify _ _ _
    | with_reducible apply Keeps_bind
    | with_reducible intro _
    | split

/-- After `InitializeSplitOrBranching` the new element `this` has a left daughter. -/
theorem InitializeSplitOrBranching_has_left (env : Env) (this other : Nat) (dp : ℝ) :
    Triple (Simulation.All fun _ n => n.SingleIsLeft)
      (InitializeSplitOrBranching env this other dp)
      (fun _ => Simulation.All fun uid n =>
        n.SingleIsLeft ∧ (uid = this → n.daughter_left ≠ none)) := by
  unfold InitializeSplitOrBranching
  refine Triple_bind (Keeps_getNeurite _ _) (fun o => ?_)
  refine Triple_bind
    (Slot_modify SlotOnly_SingleIsLeft _ _ (fun _ => by simp) (fun _ => by simp)) (fun _ => ?_)
  refine Triple_bind (Keeps_deref _ _) (fun r => ?_)
  obtain ⟨m, mo⟩ := r
  refine All_modify_change (fun n _ => ⟨fun hc => ?_, fun _ => ?_⟩) (fun u n hu h => ⟨h, ?_⟩)
  · simp at hc
  · simp
  · intro hc
    exact absurd hc hu

theorem SlotOnly_has_left (p uid : Nat) (n n1 : NeuriteElement)
    (hl : n1.daughter_left = n.daughter_left) (hr : n1.daughter_right = n.daughter_right)
    (h : n.SingleIsLeft ∧ (uid = p → n.daughter_left ≠ none)) :
    n1.SingleIsLeft ∧ (uid = p → n1.daughter_left ≠ none) :=
  ⟨NeuriteElement.SingleIsLeft_of_slots h.1 hl hr, fun hu => by rw [hl]; exact h.2 hu⟩

theorem InitializeSideExtensionOrBranching_has_left (env : Env) (this mother p : Nat)
    (length diameter : ℝ) (direction : Vec3) :
    Keeps (Simulation.All fun uid n => n.SingleIsLeft ∧ (uid = p → n.daughter_left ≠ none))
      (InitializeSideExtensionOrBranching env this mother length diameter direction) := by
  unfold InitializeSideExtensionOrBranching
  repeat' first
    | with_reducible exact Keeps_getNeurite _ _
    | with_reducible exact Slot_UpdateDependentPhysicalVariables (SlotOnly_has_left p) _
    | with_reducible exact Slot_UpdateLocalCoordinateAxis (SlotOnly_has_left p) _ _
    | (refine Slot_modify (SlotOnly_has_left p) _ _ (fun _ => ?_) (fun _ => ?_) <;> (simp; done))
    | with_reducible apply Keeps_bind
    | with_reducible intro _
    | split
    | dsimp only

theorem Branch_SingleIsLeft (env : Env) (this : Nat) (diameter : ℝ) (direction : Vec3)
    (length : ℝ) :
    Keeps (Simulation.All fun _ n => n.SingleIsLeft)
      (Branch env this diameter direction length) := by
  unfold Branch
  refine Triple_bind
    (R := fun p sim => Simulation.All (fun _ n => n.SingleIsLeft) sim ∧ sim.next_uid = p + 1)
    ?_ (fun p => ?_)
  · intro sim a sim1 hI h
    cases h
    exact ⟨All_update hI _ _ (NeuriteElement.SingleIsLeft_new env) _ _, rfl⟩
  refine Triple_bind
    (Triple_and (InitializeSplitOrBranching_has_left env p this 0.5)
      (InitializeSplitOrBranching_next_uid env p this 0.5 (p + 1))) (fun _ => ?_)
  refine Triple_bind
    (R := fun _ => Simulation.All fun uid n =>
      n.SingleIsLeft ∧ (uid = p → n.daughter_left ≠ none)) ?_ (fun b => ?_)
  · intro sim a sim1 hI h
    cases h
    refine All_update hI.1 _ _ ⟨NeuriteElement.SingleIsLeft_new env, fun hc => ?_⟩ _ _
    rw [hI.2] at hc
    omega
  refine Triple_bind (InitializeSideExtensionOrBranching_has_left env b p p _ _ _) (fun _ => ?_)
  refine Triple_bind (R := fun _ => Simulation.All fun _ n => n.SingleIsLeft) ?_ (fun _ => ?_)
  · refine All_modify_change (fun n hn hc => ?_) (fun u n _ h => h.1)
    exact absurd hc (hn.2 rfl)
  exact Keeps_bind (HandleSplit_SingleIsLeft env this p 0.5) (fun _ => Keeps_pure _ _)

end Op

/-! ## Splitting a segment -/

/-- The run of `SplitNeuriteElement` on a segment whose mother can be dereferenced: it
returns the fresh uid, and the new proximal element has the segment as its only
daughter. -/
theorem SplitNeuriteElement_proximal (env : Env) (sim : Simulation) (this m : Nat)
    (s : NeuriteElement) (mo : SimObject) (dp : ℝ)
    (hs : sim.objects this = some (SimObject.neurite s)) (hm : s.mother = some m)
    (hmo : sim.objects m = some mo) (hne : m ≠ this)
    (hlt : this < sim.next_uid) (hmlt : m < sim.next_uid) :
    ∃ sim1 np ns, Op.SplitNeuriteElement env this dp sim = Result.ok sim.next_uid sim1 ∧
      sim1.objects sim.next_uid = some (SimObject.neurite np) ∧
      sim1.objects this = some (SimObject.neurite ns) ∧
      np.mother = some m ∧ np.daughter_left = some this ∧ np.daughter_right = none ∧
      ns.mother = some sim.next_uid ∧ ns.daughter_left = s.daughter_left ∧
      ns.daughter_right = s.daughter_right := by
  have h1 : this ≠ sim.next_uid := by omega
  have h1' : sim.next_uid ≠ this := by omega
  have h2 : m ≠ sim.next_uid := by omega
  have h2' : sim.next_uid ≠ m := by omega
  have hne' : this ≠ m := fun h => hne h.symm
  cases mo with
  | soma so =>
    simp [Op.SplitNeuriteElement, Op.InitializeSplitOrBranching, Op.HandleSplit, Op.modify,
      Op.getNeurite_apply, Op.setNeurite_apply, Op.setObject_apply, Op.GetInstance_apply,
      Op.UpdateLocalCoordinateAxis, Op.UpdateDependentPhysicalVariables, Op.OriginOf,
      Op.UpdateRelative, Op.deref, hs, hm, hmo, h1, h1', h2, h2', hne, hne',
      Function.update_apply]
  | neurite mn =>
    simp [Op.SplitNeuriteElement, Op.InitializeSplitOrBranching, Op.HandleSplit, Op.modify,
      Op.getNeurite_apply, Op.setNeurite_apply, Op.setObject_apply, Op.GetInstance_apply,
      Op.UpdateLocalCoordinateAxis, Op.UpdateDependentPhysicalVariables, Op.OriginOf,
      Op.UpdateRelative, Op.deref, hs, hm, hmo, h1, h1', h2, h2', hne, hne',
      Function.update_apply]

theorem exampleSim_NoSingleDaughter : exampleSim.NoSingleDaughter := by
  intro uid n h
  unfold exampleSim at h
  dsimp only at h
  split at h
  · cases h
  · split at h
    · cases h
      exact ⟨fun _ => rfl, fun _ => rfl⟩
    · cases h

/-- Claim C1 as stated fails: the example simulation (a soma and one terminal segment)
has no single-daughter node, and after `SplitNeuriteElement(0.5)` on the segment the new
proximal element has the segment as left daughter and no right daughter. -/
theorem C1_split_makes_single_daughter_counterexample :
    exampleSim.NoSingleDaughter ∧
      ∃ p sim1, Op.SplitNeuriteElement exampleEnv 1 0.5 exampleSim = Result.ok p sim1 ∧
        ¬ sim1.NoSingleDaughter := by
  refine ⟨exampleSim_NoSingleDaughter, ?_⟩
  obtain ⟨sim1, np, ns, h0, hp, -, -, hl, hr, -⟩ :=
    SplitNeuriteElement_proximal exampleEnv exampleSim 1 0 exampleSegment
      (SimObject.soma exampleSoma) 0.5 rfl rfl rfl (by decide) (by decide) (by decide)
  refine ⟨_, sim1, h0, fun hall => ?_⟩
  have := (hall _ np hp).2 hr
  rw [hl] at this
  cases this

/-- Claim C1, amended. The invariant of the class documentation, "if there is only one
daughter, it is the left one" (`daughter_right` set implies `daughter_left` set), holds
for every segment after a normal return of each of `SplitNeuriteElement`, `Branch`,
`Bifurcate`, `RemoveDaughter`, `RetractTerminalEnd` and `RunDiscretization` whenever it
held for every segment before. -/
theorem C1_single_daughter_is_left_preserved (env : Env) (sim : Simulation)
    (h : sim.SingleIsLeft) :
    (∀ this dp p sim1,
      Op.SplitNeuriteElement env this dp sim = Result.ok p sim1 → sim1.SingleIsLeft) ∧
    (∀ this diameter direction length b sim1,
      Op.Branch env this diameter direction length sim = Result.ok b sim1 →
        sim1.SingleIsLeft) ∧
    (∀ this length d1 d2 dir1 dir2 lr sim1,
      Op.Bifurcate env this length d1 d2 dir1 dir2 sim = Result.ok lr sim1 →
        sim1.SingleIsLeft) ∧
    (∀ ptr daughter sim1,
      Op.RemoveDaughter ptr daughter sim = Result.ok () sim1 → sim1.SingleIsLeft) ∧
    (∀ fuel this speed sim1,
      Op.RetractTerminalEnd env fuel this speed sim = Result.ok () sim1 →
        sim1.SingleIsLeft) ∧
    (∀ this sim1, Op.RunDiscretization env this sim = Result.ok () sim1 →
      sim1.SingleIsLeft) :=
  ⟨fun this dp p sim1 => Op.SplitNeuriteElement_SingleIsLeft env this dp sim p sim1 h,
   fun this diameter direction length b sim1 =>
     Op.Branch_SingleIsLeft env this diameter direction length sim b sim1 h,
   fun this length d1 d2 dir1 dir2 lr sim1 =>
     Op.Bifurcate_SingleIsLeft env this length d1 d2 dir1 dir2 sim lr sim1 h,
   fun ptr daughter sim1 => Op.RemoveDaughter_keeps_SingleIsLeft ptr daughter sim () sim1 h,
   fun fuel this speed sim1 =>
     Op.RetractTerminalEnd_SingleIsLeft env fuel this speed sim () sim1 h,
   fun this sim1 => Op.RunDiscretization_SingleIsLeft env this sim () sim1 h⟩

theorem exampleSim_SingleIsLeft : exampleSim.SingleIsLeft :=
  fun uid n h => fun hl => ((exampleSim_NoSingleDaughter uid n h).1 hl)

/-- Claim C1 (amended), witness: the example simulation. -/
theorem C1_single_daughter_is_left_preserved_witness :
    exampleSim.SingleIsLeft ∧
      ∀ this dp p sim1,
        Op.SplitNeuriteElement exampleEnv this dp exampleSim = Result.ok p sim1 →
          sim1.SingleIsLeft :=
  ⟨exampleSim_SingleIsLeft,
    (C1_single_daughter_is_left_preserved exampleEnv exampleSim exampleSim_SingleIsLeft).1⟩

/-! ## Volume and diameter -/

namespace NeuriteElement

@[simp] theorem UpdateLocalCoordinateAxis_mass_location (self : NeuriteElement) (env : Env)
    (random : Random) :
    (self.UpdateLocalCoordinateAxis env random).1.mass_location = self.mass_location := by
  unfold UpdateLocalCoordinateAxis
  dsimp only
  split <;> rfl

@[simp] theorem UpdateLocalCoordinateAxis_spring_axis (self : NeuriteElement) (env : Env)
    (random : Random) :
    (self.UpdateLocalCoordinateAxis env random).1.spring_axis = self.spring_axis := by
  unfold UpdateLocalCoordinateAxis
  dsimp only
  split <;> rfl

@[simp] theorem UpdateLocalCoordinateAxis_actual_length (self : NeuriteElement) (env : Env)
    (random : Random) :
    (self.UpdateLocalCoordinateAxis env random).1.actual_length = self.actual_length := by
  unfold UpdateLocalCoordinateAxis
  dsimp only
  split <;> rfl

@[simp] theorem UpdateLocalCoordinateAxis_volume (self : NeuriteElement) (env : Env)
    (random : Random) :
    (self.UpdateLocalCoordinateAxis env random).1.volume = self.volume := by
  unfold UpdateLocalCoordinateAxis
  dsimp only
  split <;> rfl

@[simp] theorem UpdateLocalCoordinateAxis_diameter (self : NeuriteElement) (env : Env)
    (random : Random) :
    (self.UpdateLocalCoordinateAxis env random).1.diameter = self.diameter := by
  unfold UpdateLocalCoordinateAxis
  dsimp only
  split <;> rfl

@[simp] theorem UpdateRelative_volume (self : NeuriteElement) (a b : Nat) :
    (self.UpdateRelative a b).volume = self.volume := by
  unfold UpdateRelative
  split_ifs <;> rfl

@[simp] theorem UpdateRelative_diameter (self : NeuriteElement) (a b : Nat) :
    (self.UpdateRelative a b).diameter = self.diameter := by
  unfold UpdateRelative
  split_ifs <;> rfl

@[simp] theorem UpdateRelative_actual_length (self : NeuriteElement) (a b : Nat) :
    (self.UpdateRelative a b).actual_length = self.actual_length := by
  unfold UpdateRelative
  split_ifs <;> rfl

end NeuriteElement

namespace Op

end Op

theorem Bifurcate_Geometric (env : Env) (sim : Simulation) (this : Nat) (s : NeuriteElement)
    (length d1 d2 : ℝ) (dir1 dir2 : Vec3)
    (hs : sim.objects this = some (SimObject.neurite s)) (hterm : s.daughter_left = none)
    (hlt : this < sim.next_uid) :
    ∃ sim1, Op.Bifurcate env this length d1 d2 dir1 dir2 sim =
        Result.ok (sim.next_uid, sim.next_uid + 1) sim1 ∧
      sim1.Geometric sim.next_uid ∧ sim1.Geometric (sim.next_uid + 1) := by
  have h1 : this ≠ sim.next_uid := by omega
  have h2 : this ≠ sim.next_uid + 1 := by omega
  have h1' : sim.next_uid ≠ this := by omega
  have h2' : sim.next_uid + 1 ≠ this := by omega
  simp [Simulation.Geometric, Op.Bifurcate, Op.InitializeNeuriteBifurcation, Op.modify,
    Op.getNeurite_apply,
    Op.setNeurite_apply, Op.setObject_apply, Op.GetInstance_apply,
    Op.UpdateLocalCoordinateAxis, Op.UpdateDependentPhysicalVariables, Op.OriginOf, Op.deref,
    hs, hterm, h1, h2, h1', h2', Function.update_apply,
    NeuriteElement.UpdateDependentPhysicalVariables_spring_axis,
    NeuriteElement.UpdateDependentPhysicalVariables_actual_length]

theorem SplitNeuriteElement_Geometric (env : Env) (sim : Simulation) (this m : Nat)
    (s : NeuriteElement) (mo : SimObject) (dp : ℝ)
    (hs : sim.objects this = some (SimObject.neurite s)) (hm : s.mother = some m)
    (hmo : sim.objects m = some mo) (hne : m ≠ this)
    (hlt : this < sim.next_uid) (hmlt : m < sim.next_uid) :
    ∃ sim1, Op.SplitNeuriteElement env this dp sim = Result.ok sim.next_uid sim1 ∧
      sim1.Geometric sim.next_uid ∧ sim1.Geometric this := by
  have h1 : this ≠ sim.next_uid := by omega
  have h1' : sim.next_uid ≠ this := by omega
  have h2 : m ≠ sim.next_uid := by omega
  have h2' : sim.next_uid ≠ m := by omega
  have hne' : this ≠ m := fun h => hne h.symm
  cases mo with
  | soma so =>
    simp [Simulation.Geometric, Op.SplitNeuriteElement, Op.InitializeSplitOrBranching,
      Op.HandleSplit, Op.modify,
      Op.getNeurite_apply, Op.setNeurite_apply, Op.setObject_apply, Op.GetInstance_apply,
      Op.UpdateLocalCoordinateAxis, Op.UpdateDependentPhysicalVariables, Op.OriginOf,
      Op.UpdateRelative, Op.deref, hs, hm, hmo, h1, h1', h2, h2', hne, hne',
      Function.update_apply, NeuriteElement.UpdateDependentPhysicalVariables_spring_axis,
      NeuriteElement.UpdateDependentPhysicalVariables_actual_length]
  | neurite mn =>
    simp [Simulation.Geometric, Op.SplitNeuriteElement, Op.InitializeSplitOrBranching,
      Op.HandleSplit, Op.modify,
      Op.getNeurite_apply, Op.setNeurite_apply, Op.setObject_apply, Op.GetInstance_apply,
      Op.UpdateLocalCoordinateAxis, Op.UpdateDependentPhysicalVariables, Op.OriginOf,
      Op.UpdateRelative, Op.deref, hs, hm, hmo, h1, h1', h2, h2', hne, hne',
      Function.update_apply, NeuriteElement.UpdateDependentPhysicalVariables_spring_axis,
      NeuriteElement.UpdateDependentPhysicalVariables_actual_length]

theorem Branch_Geometric (env : Env) (sim : Simulation) (this m : Nat)
    (s : NeuriteElement) (mo : SimObject) (diameter : ℝ) (direction : Vec3) (length : ℝ)
    (hs : sim.objects this = some (SimObject.neurite s)) (hm : s.mother = some m)
    (hmo : sim.objects m = some mo) (hne : m ≠ this)
    (hlt : this < sim.next_uid) (hmlt : m < sim.next_uid) :
    ∃ sim1, Op.Branch env this diameter direction length sim =
        Result.ok (sim.next_uid + 1) sim1 ∧
      sim1.Geometric sim.next_uid ∧ sim1.Geometric (sim.next_uid + 1) ∧
      sim1.Geometric this := by
  have h1 : this ≠ sim.next_uid := by omega
  have h1' : sim.next_uid ≠ this := by omega
  have h2 : m ≠ sim.next_uid := by omega
  have h2' : sim.next_uid ≠ m := by omega
  have h3 : this ≠ sim.next_uid + 1 := by omega
  have h3' : sim.next_uid + 1 ≠ this := by omega
  have h4 : m ≠ sim.next_uid + 1 := by omega
  have h4' : sim.next_uid + 1 ≠ m := by omega
  have hne' : this ≠ m := fun h => hne h.symm
  cases mo with
  | soma so =>
    simp [Simulation.Geometric, Op.Branch, Op.InitializeSplitOrBranching,
      Op.InitializeSideExtensionOrBranching, Op.HandleSplit, Op.modify,
      Op.getNeurite_apply, Op.setNeurite_apply, Op.setObject_apply, Op.GetInstance_apply,
      Op.UpdateLocalCoordinateAxis, Op.UpdateDependentPhysicalVariables, Op.OriginOf,
      Op.UpdateRelative, Op.deref, hs, hm, hmo, h1, h1', h2, h2', h3, h3', h4, h4', hne, hne',
      Function.update_apply, NeuriteElement.UpdateDependentPhysicalVariables_spring_axis,
      NeuriteElement.UpdateDependentPhysicalVariables_actual_length]
  | neurite mn =>
    simp [Simulation.Geometric, Op.Branch, Op.InitializeSplitOrBranching,
      Op.InitializeSideExtensionOrBranching, Op.HandleSplit, Op.modify,
      Op.getNeurite_apply, Op.setNeurite_apply, Op.setObject_apply, Op.GetInstance_apply,
      Op.UpdateLocalCoordinateAxis, Op.UpdateDependentPhysicalVariables, Op.OriginOf,
      Op.UpdateRelative, Op.deref, hs, hm, hmo, h1, h1', h2, h2', h3, h3', h4, h4', hne, hne',
      Function.update_apply, NeuriteElement.UpdateDependentPhysicalVariables_spring_axis,
      NeuriteElement.UpdateDependentPhysicalVariables_actual_length]

theorem Math.Subtract_Add_cancel (o a : Vec3) : Math.Subtract (Math.Add o a) o = a := by
  unfold Math.Subtract Math.Add
  ext <;> simp

theorem Math.Norm_ScalarMult (k : ℝ) (a : Vec3) :
    Math.Norm (Math.ScalarMult k a) = |k| * Math.Norm a := by
  unfold Math.Norm Math.ScalarMult
  simp only
  rw [show k * a.x * (k * a.x) + k * a.y * (k * a.y) + k * a.z * (k * a.z) =
    k ^ 2 * (a.x * a.x + a.y * a.y + a.z * a.z) by ring]
  rw [Real.sqrt_mul (sq_nonneg k), Real.sqrt_sq_eq_abs]

theorem MovePointMass_Geometric (env : Env) (sim : Simulation) (this m : Nat)
    (s : NeuriteElement) (mo : SimObject) (speed : ℝ) (direction : Vec3)
    (hs : sim.objects this = some (SimObject.neurite s)) (hterm : s.daughter_left = none)
    (hm : s.mother = some m) (hmo : sim.objects m = some mo) (hne : m ≠ this) :
    ∃ sim1, Op.MovePointMass env this speed direction sim = Result.ok () sim1 ∧
      sim1.Geometric this := by
  have hne' : this ≠ m := fun h => hne h.symm
  cases mo with
  | soma so =>
    simp [Simulation.Geometric, Op.MovePointMass, Op.modify,
      Op.getNeurite_apply, Op.setNeurite_apply, Op.setObject_apply,
      Op.UpdateLocalCoordinateAxis, Op.OriginOf, Op.deref, hs, hm, hmo, hterm, hne, hne',
      Function.update_apply, NeuriteElement.UpdateVolume,
      NeuriteElement.SetRestingLengthForDesiredTension, Math.Norm, Math.Dot]
  | neurite mn =>
    simp [Simulation.Geometric, Op.MovePointMass, Op.modify,
      Op.getNeurite_apply, Op.setNeurite_apply, Op.setObject_apply,
      Op.UpdateLocalCoordinateAxis, Op.OriginOf, Op.deref, hs, hm, hmo, hterm, hne, hne',
      Function.update_apply, NeuriteElement.UpdateVolume,
      NeuriteElement.SetRestingLengthForDesiredTension, Math.Norm, Math.Dot]

theorem RetractTerminalEnd_shorten_Geometric (env : Env) (sim : Simulation) (this m : Nat)
    (s : NeuriteElement) (mo : SimObject) (speed : ℝ) (fuel : Nat)
    (hs : sim.objects this = some (SimObject.neurite s)) (hterm : s.daughter_left = none)
    (hm : s.mother = some m) (hmo : sim.objects m = some mo) (hne : m ≠ this)
    (hgeo : sim.Geometric this) (hpos : 0 < s.actual_length)
    (hlong : s.actual_length > speed * env.param.simulation_time_step + 0.1) :
    ∃ sim1, Op.RetractTerminalEnd env (fuel + 1) this speed sim = Result.ok () sim1 ∧
      sim1.Geometric this := by
  have hne' : this ≠ m := fun h => hne h.symm
  obtain ⟨n, origin, hn, -, -, hlen⟩ := hgeo
  rw [hs] at hn
  cases hn
  have hfac : 0 < (s.actual_length - speed * env.param.simulation_time_step) /
      s.actual_length := by
    apply div_pos _ hpos
    linarith
  have hnorm : s.actual_length - speed * env.param.simulation_time_step =
      Math.Norm (Math.ScalarMult
        ((s.actual_length - speed * env.param.simulation_time_step) / s.actual_length)
        s.spring_axis) := by
    rw [Math.Norm_ScalarMult, abs_of_pos hfac, ← hlen]
    field_simp
  cases mo with
  | soma so =>
    simp [Simulation.Geometric, Op.RetractTerminalEnd, Op.modify,
      Op.getNeurite_apply, Op.setNeurite_apply, Op.setObject_apply,
      Op.OriginOf, Op.deref, hs, hm, hmo, hterm, hne, hne', hlong,
      Function.update_apply, NeuriteElement.UpdateVolume, Math.Subtract_Add_cancel]
    exact hnorm
  | neurite mn =>
    simp [Simulation.Geometric, Op.RetractTerminalEnd, Op.modify,
      Op.getNeurite_apply, Op.setNeurite_apply, Op.setObject_apply,
      Op.OriginOf, Op.deref, hs, hm, hmo, hterm, hne, hne', hlong,
      Function.update_apply, NeuriteElement.UpdateVolume, Math.Subtract_Add_cancel]
    exact hnorm

theorem RemoveProximalNeuriteElement_Geometric (env : Env) (sim : Simulation)
    (this m g : Nat) (s mn : NeuriteElement) (go : SimObject)
    (hs : sim.objects this = some (SimObject.neurite s)) (hm : s.mother = some m)
    (hmn : sim.objects m = some (SimObject.neurite mn)) (hright : mn.daughter_right = none)
    (hg : mn.mother = some g) (hgo : sim.objects g = some go)
    (hne : m ≠ this) (hgm : g ≠ m) (hgt : g ≠ this) :
    ∃ sim1, Op.RemoveProximalNeuriteElement env this sim = Result.ok () sim1 ∧
      sim1.objects m = none ∧ sim1.Geometric this := by
  have hne' : this ≠ m := fun h => hne h.symm
  have hgm' : m ≠ g := fun h => hgm h.symm
  have hgt' : this ≠ g := fun h => hgt h.symm
  cases go with
  | soma so =>
    simp [Simulation.Geometric, Op.RemoveProximalNeuriteElement, Op.modify,
      Op.getNeurite_apply, Op.setNeurite_apply, Op.setObject_apply,
      Op.UpdateLocalCoordinateAxis, Op.OriginOf, Op.deref, Op.UpdateRelative,
      Op.RemoveFromSimulation, hs, hm, hmn, hright, hg, hgo, hne, hne', hgm, hgm', hgt, hgt',
      Function.update_apply, NeuriteElement.UpdateVolume]
  | neurite gn =>
    simp [Simulation.Geometric, Op.RemoveProximalNeuriteElement, Op.modify,
      Op.getNeurite_apply, Op.setNeurite_apply, Op.setObject_apply,
      Op.UpdateLocalCoordinateAxis, Op.OriginOf, Op.deref, Op.UpdateRelative,
      Op.RemoveFromSimulation, hs, hm, hmn, hright, hg, hgo, hne, hne', hgm, hgm', hgt, hgt',
      Function.update_apply, NeuriteElement.UpdateVolume]

namespace Op

/-- Rewriting the fields of a neurite element without moving its distal end leaves every
attachment point where it was. -/
theorem OriginOf_update_neurite {sim : Simulation} {u : Nat} {nu nu1 : NeuriteElement}
    (hu : sim.objects u = some (SimObject.neurite nu))
    (hml : nu1.mass_location = nu.mass_location) (k : Nat) (random : Random)
    {ptr : Option Nat} {d : Nat} {v : Vec3} (h : OriginOf ptr d sim = Result.ok v sim) :
    OriginOf ptr d
        { objects := Function.update sim.objects u (some (SimObject.neurite nu1))
          next_uid := k
          random := random } =
      Result.ok v
        { objects := Function.update sim.objects u (some (SimObject.neurite nu1))
          next_uid := k
          random := random } := by
  cases ptr with
  | none => simp [OriginOf, deref] at h
  | some m =>
    by_cases hmu : m = u
    · subst hmu
      simp [OriginOf, deref, hu] at h
      simp [OriginOf, deref, hml, h]
    · rcases hmo : sim.objects m with _ | o
      · simp [OriginOf, deref, hmo] at h
      · cases o with
        | soma so =>
          simp [OriginOf, deref, hmo] at h
          simp [OriginOf, deref, hmo, hmu, Function.update_apply, h]
        | neurite mn =>
          simp [OriginOf, deref, hmo] at h
          simp [OriginOf, deref, hmo, hmu, Function.update_apply, h]

/-- Rewriting the fields of an element `u` without moving its distal end keeps the
geometric invariant of the segment `uid`, provided that, when `u` is `uid` itself, its
mother, spring axis and length are kept too. -/
theorem Geometric_update {sim : Simulation} {uid u : Nat} {nu nu1 : NeuriteElement}
    (hg : sim.Geometric uid) (hu : sim.objects u = some (SimObject.neurite nu))
    (hml : nu1.mass_location = nu.mass_location)
    (hself : u = uid → nu1.mother = nu.mother ∧ nu1.spring_axis = nu.spring_axis ∧
      nu1.actual_length = nu.actual_length) (k : Nat) (random : Random) :
    Simulation.Geometric
      { objects := Function.update sim.objects u (some (SimObject.neurite nu1))
        next_uid := k
        random := random } uid := by
  obtain ⟨n, origin, hn, ho, hsa, hlen⟩ := hg
  by_cases hc : u = uid
  · subst hc
    rw [hu] at hn
    cases hn
    obtain ⟨h1, h2, h3⟩ := hself rfl
    refine ⟨nu1, origin, by simp, ?_, ?_, ?_⟩
    · rw [h1]
      exact OriginOf_update_neurite hu hml k random ho
    · rw [h2, hml]
      exact hsa
    · rw [h3, h2]
      exact hlen
  · have hc' : uid ≠ u := fun h => hc h.symm
    refine ⟨n, origin, by simp [Function.update_apply, hc', hn], ?_, hsa, hlen⟩
    exact OriginOf_update_neurite hu hml k random ho

theorem Geometric_UpdateLocalCoordinateAxis (env : Env) (uid u : Nat) :
    Keeps (fun sim => sim.Geometric uid) (UpdateLocalCoordinateAxis env u) := by
  unfold UpdateLocalCoordinateAxis
  refine Triple_bind (Triple_getNeurite _ u) ?_
  intro n sim a sim1 hI h
  cases h
  exact Geometric_update hI.1 hI.2 (by simp) (fun _ => ⟨by simp, by simp, by simp⟩) _ _

/-- `UpdateDependentPhysicalVariables` establishes the geometric invariant of the segment
it is called on. -/
theorem UpdateDependentPhysicalVariables_Geometric (u : Nat) :
    Triple (fun _ => True) (UpdateDependentPhysicalVariables u)
      (fun _ sim => sim.Geometric u) := by
  intro sim a sim1 _ h
  unfold UpdateDependentPhysicalVariables at h
  rw [bind_apply] at h
  rcases hg : getNeurite u sim with ⟨n, sim2⟩ | ⟨e, sim2⟩ | _ | _
  · rw [hg] at h
    obtain ⟨rfl, hn⟩ := getNeurite_ok hg
    dsimp only at h
    rw [bind_apply] at h
    rcases ho : OriginOf n.mother u sim2 with ⟨v, sim3⟩ | ⟨e, sim3⟩ | _ | _
    · rw [ho] at h
      have h3 := OriginOf_ok ho
      subst h3
      cases h
      refine ⟨n.UpdateDependentPhysicalVariables v, v, by simp, ?_, rfl, rfl⟩
      rw [NeuriteElement.UpdateDependentPhysicalVariables_mother]
      exact OriginOf_update_neurite hn (by simp) _ _ ho
    all_goals (rw [ho] at h; cases h)
  all_goals (rw [hg] at h; cases h)

theorem Geometric_UpdateDependentPhysicalVariables (uid u : Nat) :
    Keeps (fun sim => sim.Geometric uid) (UpdateDependentPhysicalVariables u) := by
  by_cases hc : u = uid
  · subst hc
    exact Triple_weaken (UpdateDependentPhysicalVariables_Geometric u) (fun _ _ => trivial)
      (fun _ _ h => h)
  · unfold UpdateDependentPhysicalVariables
    refine Triple_bind (Triple_getNeurite _ u) (fun n => ?_)
    refine Triple_bind (Keeps_OriginOf _ _ _) (fun v => ?_)
    intro sim a sim1 hI h
    cases h
    exact Geometric_update hI.1 hI.2 (by simp) (fun h => absurd h hc) _ _

theorem ApplyDisplacement_Geometric (env : Env) (this : Nat) (displacement : Vec3) :
    Triple (fun _ => True) (ApplyDisplacement env this displacement)
      (fun _ sim => sim.Geometric this) := by
  unfold ApplyDisplacement
  refine Triple_bind (R := fun _ _ => True) (fun _ _ _ _ _ => trivial) (fun _ => ?_)
  refine Triple_bind (UpdateDependentPhysicalVariables_Geometric this) (fun _ => ?_)
  change Keeps (fun sim => sim.Geometric this) _
  repeat' first
    | with_reducible exact Keeps_pure _ _
    | with_reducible exact Keeps_getNeurite _ _
    | with_reducible exact Geometric_UpdateDependentPhysicalVariables _ _
    | with_reducible exact Geometric_UpdateLocalCoordinateAxis _ _ _
    | with_reducible apply Keeps_bind
    | with_reducible intro _
    | split
    | dsimp only

end Op

/-- The run of `ApplyDisplacement` on a segment without daughters whose mother can be
dereferenced: it returns, and the distal end has moved by the displacement. -/
theorem ApplyDisplacement_terminal (env : Env) (sim : Simulation) (this m : Nat)
    (s : NeuriteElement) (mo : SimObject) (displacement : Vec3)
    (hs : sim.objects this = some (SimObject.neurite s)) (hl : s.daughter_left = none)
    (hr : s.daughter_right = none)
    (hm : s.mother = some m) (hmo : sim.objects m = some mo) (hne : m ≠ this) :
    ∃ sim1 n1, Op.ApplyDisplacement env this displacement sim = Result.ok () sim1 ∧
      sim1.objects this = some (SimObject.neurite n1) ∧
      n1.mass_location = Math.Add s.mass_location displacement := by
  have hne' : this ≠ m := fun h => hne h.symm
  cases mo with
  | soma so =>
    simp [Op.ApplyDisplacement, Op.modify, Op.getNeurite_apply, Op.setNeurite_apply,
      Op.setObject_apply, Op.UpdateLocalCoordinateAxis, Op.UpdateDependentPhysicalVariables,
      Op.OriginOf, Op.deref, hs, hm, hmo, hl, hr, hne, hne', Function.update_apply,
      NeuriteElement.SetMassLocation]
  | neurite mn =>
    simp [Op.ApplyDisplacement, Op.modify, Op.getNeurite_apply, Op.setNeurite_apply,
      Op.setObject_apply, Op.UpdateLocalCoordinateAxis, Op.UpdateDependentPhysicalVariables,
      Op.OriginOf, Op.deref, hs, hm, hmo, hl, hr, hne, hne', Function.update_apply,
      NeuriteElement.SetMassLocation]

/-- Claim C6. Geometric invariant (`spring_axis = mass_location − mother.OriginOf(self)`
and `actual_length = ‖spring_axis‖`, the mother being dereferenceable). For a segment
`this` of a simulation whose unused uids refer to no object, with a mother `m` that is
another object: `Bifurcate` (on a terminal segment) returns and the invariant holds for
the two new daughters; `Branch` returns and it holds for the new proximal element, the
new branch and `this`; `SplitNeuriteElement` returns and it holds for the new proximal
element and `this`; after every normal return of `ApplyDisplacement` it holds for `this`
(and the call returns when the segment has no daughters); `MovePointMass` (terminal
segment) returns and it holds for `this`; `RetractTerminalEnd` in the shortening case
(`actual_length > speed · time_step + 0.1`, positive length, invariant before) returns
and it holds for `this`; and the merge `RemoveProximalNeuriteElement` (mother a neurite
element without right daughter, whose own mother `g` is a third object) returns, removes
the mother and the invariant holds for `this`. -/
theorem C6_geometric_invariant (env : Env) (sim : Simulation) (this m : Nat)
    (s : NeuriteElement) (mo : SimObject)
    (hs : sim.objects this = some (SimObject.neurite s)) (hm : s.mother = some m)
    (hmo : sim.objects m = some mo) (hne : m ≠ this) (hfresh : sim.Fresh) :
    (s.daughter_left = none → ∀ length d1 d2 dir1 dir2,
      ∃ sim1, Op.Bifurcate env this length d1 d2 dir1 dir2 sim =
          Result.ok (sim.next_uid, sim.next_uid + 1) sim1 ∧
        sim1.Geometric sim.next_uid ∧ sim1.Geometric (sim.next_uid + 1)) ∧
    (∀ diameter direction length,
      ∃ sim1, Op.Branch env this diameter direction length sim =
          Result.ok (sim.next_uid + 1) sim1 ∧
        sim1.Geometric sim.next_uid ∧ sim1.Geometric (sim.next_uid + 1) ∧
        sim1.Geometric this) ∧
    (∀ dp, ∃ sim1, Op.SplitNeuriteElement env this dp sim = Result.ok sim.next_uid sim1 ∧
      sim1.Geometric sim.next_uid ∧ sim1.Geometric this) ∧
    (∀ displacement sim1, Op.ApplyDisplacement env this displacement sim = Result.ok () sim1 →
      sim1.Geometric this) ∧
    (s.daughter_left = none → s.daughter_right = none → ∀ displacement,
      ∃ sim1 n1, Op.ApplyDisplacement env this displacement sim = Result.ok () sim1 ∧
        sim1.objects this = some (SimObject.neurite n1) ∧
        n1.mass_location = Math.Add s.mass_location displacement ∧ sim1.Geometric this) ∧
    (s.daughter_left = none → ∀ speed direction,
      ∃ sim1, Op.MovePointMass env this speed direction sim = Result.ok () sim1 ∧
        sim1.Geometric this) ∧
    (s.daughter_left = none → sim.Geometric this → 0 < s.actual_length →
      ∀ speed fuel, s.actual_length > speed * env.param.simulation_time_step + 0.1 →
        ∃ sim1, Op.RetractTerminalEnd env (fuel + 1) this speed sim = Result.ok () sim1 ∧
          sim1.Geometric this) ∧
    (∀ mn g go, mo = SimObject.neurite mn → mn.daughter_right = none → mn.mother = some g →
      sim.objects g = some go → g ≠ m → g ≠ this →
        ∃ sim1, Op.RemoveProximalNeuriteElement env this sim = Result.ok () sim1 ∧
          sim1.objects m = none ∧ sim1.Geometric this) := by
  have hlt := Simulation.lt_next_uid hfresh hs
  have hmlt := Simulation.lt_next_uid hfresh hmo
  refine ⟨fun hterm length d1 d2 dir1 dir2 =>
      Bifurcate_Geometric env sim this s length d1 d2 dir1 dir2 hs hterm hlt,
    fun diameter direction length =>
      Branch_Geometric env sim this m s mo diameter direction length hs hm hmo hne hlt hmlt,
    fun dp => SplitNeuriteElement_Geometric env sim this m s mo dp hs hm hmo hne hlt hmlt,
    fun displacement sim1 h =>
      Op.ApplyDisplacement_Geometric env this displacement sim () sim1 trivial h,
    fun hl hr displacement => ?_,
    fun hterm speed direction =>
      MovePointMass_Geometric env sim this m s mo speed direction hs hterm hm hmo hne,
    fun hterm hgeo hpos speed fuel hlong =>
      RetractTerminalEnd_shorten_Geometric env sim this m s mo speed fuel hs hterm hm hmo hne
        hgeo hpos hlong,
    fun mn g go hmn hright hg hgo hgm hgt => ?_⟩
  · obtain ⟨sim1, n1, h0, h1, h2⟩ :=
      ApplyDisplacement_terminal env sim this m s mo displacement hs hl hr hm hmo hne
    exact ⟨sim1, n1, h0, h1, h2,
      Op.ApplyDisplacement_Geometric env this displacement sim () sim1 trivial h0⟩
  · subst hmn
    exact RemoveProximalNeuriteElement_Geometric env sim this m g s mn go hs hm hmo hright hg
      hgo hne hgm hgt

/-- Claim C6, witness: the terminal segment 1 of the example simulation, whose mother is
the soma 0; shown for `SplitNeuriteElement(0.5)`. -/
theorem C6_geometric_invariant_witness :
    ∃ sim1,
      Op.SplitNeuriteElement exampleEnv 1 0.5 exampleSim =
          Result.ok exampleSim.next_uid sim1 ∧
        sim1.Geometric exampleSim.next_uid ∧ sim1.Geometric 1 :=
  (C6_geometric_invariant exampleEnv exampleSim 1 0 exampleSegment (SimObject.soma exampleSoma)
    rfl rfl rfl (by decide) exampleSim_Fresh).2.2.1 0.5

/-! ## Splitting and branching: the segments after the call -/

namespace NeuriteElement

@[simp] theorem UpdateLocalCoordinateAxis_resting_length (self : NeuriteElement) (env : Env)
    (random : Random) :
    (self.UpdateLocalCoordinateAxis env random).1.resting_length = self.resting_length := by
  unfold UpdateLocalCoordinateAxis
  dsimp only
  split <;> rfl

@[simp] theorem UpdateLocalCoordinateAxis_tension (self : NeuriteElement) (env : Env)
    (random : Random) :
    (self.UpdateLocalCoordinateAxis env random).1.tension = self.tension := by
  unfold UpdateLocalCoordinateAxis
  dsimp only
  split <;> rfl

@[simp] theorem UpdateLocalCoordinateAxis_spring_constant (self : NeuriteElement) (env : Env)
    (random : Random) :
    (self.UpdateLocalCoordinateAxis env random).1.spring_constant = self.spring_constant := by
  unfold UpdateLocalCoordinateAxis
  dsimp only
  split <;> rfl

@[simp] theorem SetRestingLengthForDesiredTension_mass_location (self : NeuriteElement)
    (t : ℝ) : (self.SetRestingLengthForDesiredTension t).mass_location = self.mass_location := by
  unfold SetRestingLengthForDesiredTension
  split <;> rfl

@[simp] theorem SetRestingLengthForDesiredTension_spring_axis (self : NeuriteElement)
    (t : ℝ) : (self.SetRestingLengthForDesiredTension t).spring_axis = self.spring_axis := by
  unfold SetRestingLengthForDesiredTension
  split <;> rfl

@[simp] theorem SetRestingLengthForDesiredTension_actual_length (self : NeuriteElement)
    (t : ℝ) : (self.SetRestingLengthForDesiredTension t).actual_length = self.actual_length := by
  unfold SetRestingLengthForDesiredTension
  split <;> rfl

@[simp] theorem SetRestingLengthForDesiredTension_diameter (self : NeuriteElement)
    (t : ℝ) : (self.SetRestingLengthForDesiredTension t).diameter = self.diameter := by
  unfold SetRestingLengthForDesiredTension
  split <;> rfl

end NeuriteElement

/-- The run of `SplitNeuriteElement` on a segment whose mother is another object: the
value returned, the three objects it writes, and the objects it leaves alone. -/
theorem SplitNeuriteElement_spec (env : Env) (sim : Simulation) (this m : Nat)
    (s : NeuriteElement) (mo : SimObject) (dp : ℝ)
    (hs : sim.objects this = some (SimObject.neurite s)) (hm : s.mother = some m)
    (hmo : sim.objects m = some mo) (hne : m ≠ this)
    (hlt : this < sim.next_uid) (hmlt : m < sim.next_uid) :
    ∃ sim1 np ns, Op.SplitNeuriteElement env this dp sim = Result.ok sim.next_uid sim1 ∧
      sim1.objects sim.next_uid = some (SimObject.neurite np) ∧
      sim1.objects this = some (SimObject.neurite ns) ∧
      sim1.next_uid = sim.next_uid + 1 ∧
      np.mother = some m ∧ np.daughter_left = some this ∧ np.daughter_right = none ∧
      ns.mother = some sim.next_uid ∧ ns.daughter_left = s.daughter_left ∧
      ns.daughter_right = s.daughter_right ∧
      ns.resting_length = s.resting_length * dp ∧
      np.resting_length = (1 - dp) * s.resting_length ∧
      sim1.objects m = some
        (match mo with
          | SimObject.soma so => SimObject.soma (so.UpdateRelative this sim.next_uid)
          | SimObject.neurite mn => SimObject.neurite (mn.UpdateRelative this sim.next_uid)) ∧
      (∀ uid, uid ≠ sim.next_uid → uid ≠ this → uid ≠ m →
        sim1.objects uid = sim.objects uid) := by
  have h1 : this ≠ sim.next_uid := by omega
  have h1' : sim.next_uid ≠ this := by omega
  have h2 : m ≠ sim.next_uid := by omega
  have h2' : sim.next_uid ≠ m := by omega
  have hne' : this ≠ m := fun h => hne h.symm
  cases mo with
  | soma so =>
    simp [Op.SplitNeuriteElement, Op.InitializeSplitOrBranching, Op.HandleSplit, Op.modify,
      Op.getNeurite_apply, Op.setNeurite_apply, Op.setObject_apply, Op.GetInstance_apply,
      Op.UpdateLocalCoordinateAxis, Op.UpdateDependentPhysicalVariables, Op.OriginOf,
      Op.UpdateRelative, Op.deref, hs, hm, hmo, h1, h1', h2, h2', hne, hne',
      Function.update_apply]
    intro uid hu1 hu2 hu3
    simp [hu1, hu2, hu3]
  | neurite mn =>
    simp [Op.SplitNeuriteElement, Op.InitializeSplitOrBranching, Op.HandleSplit, Op.modify,
      Op.getNeurite_apply, Op.setNeurite_apply, Op.setObject_apply, Op.GetInstance_apply,
      Op.UpdateLocalCoordinateAxis, Op.UpdateDependentPhysicalVariables, Op.OriginOf,
      Op.UpdateRelative, Op.deref, hs, hm, hmo, h1, h1', h2, h2', hne, hne',
      Function.update_apply]
    intro uid hu1 hu2 hu3
    simp [hu1, hu2, hu3]

namespace NeuriteElement

@[simp] theorem Copy_mass_location (self rhs : NeuriteElement) :
    (self.Copy rhs).mass_location = self.mass_location := rfl

@[simp] theorem Copy_resting_length (self rhs : NeuriteElement) :
    (self.Copy rhs).resting_length = self.resting_length := rfl

@[simp] theorem SetDiameter_mass_location (self : NeuriteElement) (d : ℝ) :
    (self.SetDiameter d).mass_location = self.mass_location := rfl

@[simp] theorem SetDiameter_spring_axis (self : NeuriteElement) (d : ℝ) :
    (self.SetDiameter d).spring_axis = self.spring_axis := rfl

@[simp] theorem SetDiameter_actual_length (self : NeuriteElement) (d : ℝ) :
    (self.SetDiameter d).actual_length = self.actual_length := rfl

@[simp] theorem SetDiameter_resting_length (self : NeuriteElement) (d : ℝ) :
    (self.SetDiameter d).resting_length = self.resting_length := rfl

/-- `SetPosition` on a new element, whose spring axis is still zero, puts its distal end
at the position given. -/
@[simp] theorem SetPosition_new_mass_location (env : Env) (position : Vec3) :
    (SetPosition (SetDefaults env (NeuriteElement.new env)) position).mass_location =
      position := by
  simp [SetPosition, SetDefaults, NeuriteElement.new, UpdateVolume, Math.Add, Math.ScalarMult]

end NeuriteElement

/-- The run of `Branch` on a segment whose mother is another object: the value returned,
the new proximal element and the new branch, and the objects it leaves alone. -/
theorem Branch_spec (env : Env) (sim : Simulation) (this m : Nat)
    (s : NeuriteElement) (mo : SimObject) (diameter : ℝ) (direction : Vec3) (length : ℝ)
    (hs : sim.objects this = some (SimObject.neurite s)) (hm : s.mother = some m)
    (hmo : sim.objects m = some mo) (hne : m ≠ this)
    (hlt : this < sim.next_uid) (hmlt : m < sim.next_uid) :
    ∃ sim1 np nb ns, Op.Branch env this diameter direction length sim =
        Result.ok (sim.next_uid + 1) sim1 ∧
      sim1.objects sim.next_uid = some (SimObject.neurite np) ∧
      sim1.objects (sim.next_uid + 1) = some (SimObject.neurite nb) ∧
      sim1.objects this = some (SimObject.neurite ns) ∧
      sim1.next_uid = sim.next_uid + 2 ∧
      np.mother = some m ∧ np.daughter_left = some this ∧
      np.daughter_right = some (sim.next_uid + 1) ∧
      ns.mother = some sim.next_uid ∧ ns.daughter_left = s.daughter_left ∧
      ns.daughter_right = s.daughter_right ∧
      nb.mother = some sim.next_uid ∧ nb.daughter_left = none ∧ nb.daughter_right = none ∧
      nb.diameter = diameter ∧ nb.branch_order = s.branch_order + 1 ∧
      np.mass_location = Math.Subtract s.mass_location (Math.ScalarMult 0.5 s.spring_axis) ∧
      nb.spring_axis = Math.ScalarMult length (Math.Normalize direction) ∧
      nb.mass_location = Math.Add np.mass_location nb.spring_axis ∧
      ns.resting_length = s.resting_length * 0.5 ∧
      np.resting_length = (1 - 0.5) * s.resting_length ∧
      sim1.objects m = some
        (match mo with
          | SimObject.soma so => SimObject.soma (so.UpdateRelative this sim.next_uid)
          | SimObject.neurite mn => SimObject.neurite (mn.UpdateRelative this sim.next_uid)) ∧
      (∀ uid, uid ≠ sim.next_uid → uid ≠ sim.next_uid + 1 → uid ≠ this → uid ≠ m →
        sim1.objects uid = sim.objects uid) := by
  have h1 : this ≠ sim.next_uid := by omega
  have h1' : sim.next_uid ≠ this := by omega
  have h2 : m ≠ sim.next_uid := by omega
  have h2' : sim.next_uid ≠ m := by omega
  have h3 : this ≠ sim.next_uid + 1 := by omega
  have h3' : sim.next_uid + 1 ≠ this := by omega
  have h4 : m ≠ sim.next_uid + 1 := by omega
  have h4' : sim.next_uid + 1 ≠ m := by omega
  have hne' : this ≠ m := fun h => hne h.symm
  cases mo with
  | soma so =>
    simp [Op.Branch, Op.InitializeSplitOrBranching,
      Op.InitializeSideExtensionOrBranching, Op.HandleSplit, Op.modify,
      Op.getNeurite_apply, Op.setNeurite_apply, Op.setObject_apply, Op.GetInstance_apply,
      Op.UpdateLocalCoordinateAxis, Op.UpdateDependentPhysicalVariables, Op.OriginOf,
      Op.UpdateRelative, Op.deref, hs, hm, hmo, h1, h1', h2, h2', h3, h3', h4, h4', hne, hne',
      Function.update_apply, NeuriteElement.UpdateDependentPhysicalVariables_spring_axis,
      Math.Subtract_Add_cancel]
    intro uid hu1 hu2 hu3 hu4
    simp [hu1, hu2, hu3, hu4]
  | neurite mn =>
    simp [Op.Branch, Op.InitializeSplitOrBranching,
      Op.InitializeSideExtensionOrBranching, Op.HandleSplit, Op.modify,
      Op.getNeurite_apply, Op.setNeurite_apply, Op.setObject_apply, Op.GetInstance_apply,
      Op.UpdateLocalCoordinateAxis, Op.UpdateDependentPhysicalVariables, Op.OriginOf,
      Op.UpdateRelative, Op.deref, hs, hm, hmo, h1, h1', h2, h2', h3, h3', h4, h4', hne, hne',
      Function.update_apply, NeuriteElement.UpdateDependentPhysicalVariables_spring_axis,
      Math.Subtract_Add_cancel]
    intro uid hu1 hu2 hu3 hu4
    simp [hu1, hu2, hu3, hu4]

/-- Claim C11 (Scenario C, resting lengths). For a segment `this` with resting length `R`
whose mother is another object, and every distal portion `dp`, `SplitNeuriteElement(dp)`
returns a new proximal segment `p`; afterwards the original, now distal, segment has
resting length `dp · R`, the proximal one `(1 − dp) · R`, and the two sum to `R`. -/
theorem C11_split_resting_lengths (env : Env) (sim : Simulation) (this m : Nat)
    (s : NeuriteElement) (mo : SimObject) (dp : ℝ)
    (hs : sim.objects this = some (SimObject.neurite s)) (hm : s.mother = some m)
    (hmo : sim.objects m = some mo) (hne : m ≠ this) (hfresh : sim.Fresh) :
    ∃ p sim1 np ns, Op.SplitNeuriteElement env this dp sim = Result.ok p sim1 ∧
      sim1.objects p = some (SimObject.neurite np) ∧
      sim1.objects this = some (SimObject.neurite ns) ∧
      ns.resting_length = dp * s.resting_length ∧
      np.resting_length = (1 - dp) * s.resting_length ∧
      ns.resting_length + np.resting_length = s.resting_length := by
  obtain ⟨sim1, np, ns, h0, hp, hn, -, -, -, -, -, -, -, hrs, hrp, -, -⟩ :=
    SplitNeuriteElement_spec env sim this m s mo dp hs hm hmo hne
      (Simulation.lt_next_uid hfresh hs) (Simulation.lt_next_uid hfresh hmo)
  refine ⟨_, sim1, np, ns, h0, hp, hn, ?_, hrp, ?_⟩
  · rw [hrs, mul_comm]
  · rw [hrs, hrp]
    ring

/-- Claim C11, witness: the example segment (resting length 1, mother the soma 0) split
at the distal portion 0.1. -/
theorem C11_split_resting_lengths_witness :
    ∃ p sim1 np ns, Op.SplitNeuriteElement exampleEnv 1 0.1 exampleSim = Result.ok p sim1 ∧
      sim1.objects p = some (SimObject.neurite np) ∧
      sim1.objects 1 = some (SimObject.neurite ns) ∧
      ns.resting_length = 0.1 * exampleSegment.resting_length ∧
      np.resting_length = (1 - 0.1) * exampleSegment.resting_length ∧
      ns.resting_length + np.resting_length = exampleSegment.resting_length :=
  C11_split_resting_lengths exampleEnv exampleSim 1 0 exampleSegment
    (SimObject.soma exampleSoma) 0.1 rfl rfl rfl (by decide) exampleSim_Fresh

/-- Claim C12 (split rewiring). For a segment `this` whose mother `m` is another object
that does not have `this` as its own mother, `SplitNeuriteElement(dp)` returns a segment
`p` that did not exist before, with `p.mother = m`, `p.daughter_left = this` and no right
daughter; afterwards `this.mother = p` and the daughters of `this` are as before. When
`m` is a neurite element, its mother is as before and the daughter slot that referred to
`this` (the left one, or else the right one) refers to `p`, the other slot being as
before; when `m` is a soma, `p` has taken the place of `this` in it. Every other object
is as before. -/
theorem C12_split_rewiring (env : Env) (sim : Simulation) (this m : Nat)
    (s : NeuriteElement) (mo : SimObject) (dp : ℝ)
    (hs : sim.objects this = some (SimObject.neurite s)) (hm : s.mother = some m)
    (hmo : sim.objects m = some mo) (hne : m ≠ this) (hfresh : sim.Fresh)
    (htree : ∀ mn, mo = SimObject.neurite mn → mn.mother ≠ some this) :
    ∃ p sim1 np ns, Op.SplitNeuriteElement env this dp sim = Result.ok p sim1 ∧
      sim.objects p = none ∧
      sim1.objects p = some (SimObject.neurite np) ∧
      sim1.objects this = some (SimObject.neurite ns) ∧
      np.mother = some m ∧ np.daughter_left = some this ∧ np.daughter_right = none ∧
      ns.mother = some p ∧ ns.daughter_left = s.daughter_left ∧
      ns.daughter_right = s.daughter_right ∧
      (∀ mn, mo = SimObject.neurite mn →
        ∃ mn1, sim1.objects m = some (SimObject.neurite mn1) ∧ mn1.mother = mn.mother ∧
          (mn.daughter_left = some this →
            mn1.daughter_left = some p ∧ mn1.daughter_right = mn.daughter_right) ∧
          (mn.daughter_left ≠ some this → mn.daughter_right = some this →
            mn1.daughter_right = some p ∧ mn1.daughter_left = mn.daughter_left) ∧
          (mn.daughter_left ≠ some this → mn.daughter_right ≠ some this →
            mn1.daughter_left = mn.daughter_left ∧ mn1.daughter_right = mn.daughter_right)) ∧
      (∀ so, mo = SimObject.soma so →
        sim1.objects m = some (SimObject.soma (so.UpdateRelative this p))) ∧
      (∀ uid, uid ≠ p → uid ≠ this → uid ≠ m → sim1.objects uid = sim.objects uid) := by
  obtain ⟨sim1, np, ns, h0, hp, hn, -, a1, a2, a3, b1, b2, b3, -, -, hmo1, hrest⟩ :=
    SplitNeuriteElement_spec env sim this m s mo dp hs hm hmo hne
      (Simulation.lt_next_uid hfresh hs) (Simulation.lt_next_uid hfresh hmo)
  refine ⟨_, sim1, np, ns, h0, hfresh _ (le_refl _), hp, hn, a1, a2, a3, b1, b2, b3, ?_, ?_,
    hrest⟩
  · intro mn hmn
    subst hmn
    refine ⟨_, hmo1, ?_, ?_, ?_, ?_⟩
    · simp [NeuriteElement.UpdateRelative, htree mn rfl]
      split_ifs <;> rfl
    · intro hl
      simp [NeuriteElement.UpdateRelative, htree mn rfl, hl]
    · intro hl hr
      simp [NeuriteElement.UpdateRelative, htree mn rfl, hl, hr]
    · intro hl hr
      simp [NeuriteElement.UpdateRelative, htree mn rfl, hl, hr]
  · intro so hso
    subst hso
    exact hmo1

theorem exampleChain_Fresh : exampleChain.Fresh := by
  intro uid h
  have h3 : (3 : Nat) ≤ uid := h
  have h0 : uid ≠ 0 := by omega
  have h1 : uid ≠ 1 := by omega
  have h2 : uid ≠ 2 := by omega
  simp [exampleChain, h0, h1, h2]

/-- Claim C12, witness: the terminal segment 2 of the example chain, whose mother is the
segment 1 with left daughter 2; after the split the left daughter of 1 is the new
segment, which has 1 as mother and 2 as left daughter. -/
theorem C12_split_rewiring_witness :
    ∃ p sim1 np mn1, Op.SplitNeuriteElement exampleEnv 2 0.5 exampleChain = Result.ok p sim1 ∧
      sim1.objects p = some (SimObject.neurite np) ∧
      np.mother = some 1 ∧ np.daughter_left = some 2 ∧
      sim1.objects 1 = some (SimObject.neurite mn1) ∧ mn1.daughter_left = some p ∧
      mn1.daughter_right = none := by
  obtain ⟨p, sim1, np, ns, h0, -, hp, -, a1, a2, -, -, -, -, hmn, -, -⟩ :=
    C12_split_rewiring exampleEnv exampleChain 2 1 exampleTip (SimObject.neurite exampleMother)
      0.5 rfl rfl rfl (by decide) exampleChain_Fresh
      (fun mn h => by cases h; exact fun hc => by cases hc)
  obtain ⟨mn1, h1, -, hl, -, -⟩ := hmn exampleMother rfl
  exact ⟨p, sim1, np, mn1, h0, hp, a1, a2, h1, (hl rfl).1, (hl rfl).2⟩

/-! ## The discretizer -/

/-- `RunDiscretization` on a terminal segment that is not longer than
`neurite_max_length`, and whose mother can be dereferenced, returns without any change:
the merge branch of lines 526-538 asks for `daughter_left_ != nullptr`, which the early
return of lines 511-513 has excluded. -/
theorem RunDiscretization_terminal_not_long (env : Env) (sim : Simulation) (this m : Nat)
    (s : NeuriteElement) (mo : SimObject)
    (hs : sim.objects this = some (SimObject.neurite s)) (hterm : s.daughter_left = none)
    (hm : s.mother = some m) (hmo : sim.objects m = some mo)
    (hlen : s.actual_length ≤ env.param.neurite_max_length) :
    Op.RunDiscretization env this sim = Result.ok () sim := by
  have hlen' : ¬ env.param.neurite_max_length < s.actual_length := not_lt.2 hlen
  cases mo with
  | soma so =>
    simp [Op.RunDiscretization, Op.getNeurite_apply, Op.deref, hs, hterm, hm, hmo, hlen']
  | neurite mn =>
    simp [Op.RunDiscretization, Op.getNeurite_apply, Op.deref, hs, hterm, hm, hmo, hlen']

/-- `RunDiscretization` on a terminal segment longer than `neurite_max_length` is
`SplitNeuriteElement(0.1)`, whatever the mother is. -/
theorem RunDiscretization_terminal_long (env : Env) (sim : Simulation) (this m : Nat)
    (s : NeuriteElement) (mo : SimObject)
    (hs : sim.objects this = some (SimObject.neurite s)) (hterm : s.daughter_left = none)
    (hm : s.mother = some m) (hmo : sim.objects m = some mo)
    (hlen : s.actual_length > env.param.neurite_max_length) :
    Op.RunDiscretization env this sim =
      (Op.SplitNeuriteElement env this 0.1 >>= fun _ => pure ()) sim := by
  have hlen' : env.param.neurite_max_length < s.actual_length := hlen
  cases mo with
  | soma so =>
    simp [Op.RunDiscretization, Op.getNeurite_apply, Op.deref, hs, hterm, hm, hmo, hlen']
  | neurite mn =>
    simp [Op.RunDiscretization, Op.getNeurite_apply, Op.deref, hs, hterm, hm, hmo, hlen']

/-- Claim C13 (discretizer split). For a terminal segment `this` whose mother `m` (a soma
or a neurite element) is another object: if `actual_length > neurite_max_length`,
`RunDiscretization` returns in the state that one call of `SplitNeuriteElement(0.1)` gives,
in which the uid `p` that was unused holds the one new segment, with `this` as left
daughter, the resting length of `this` is `0.1` times what it was, and every object other
than `p`, `this` and `m` is as before; if
`neurite_min_length ≤ actual_length ≤ neurite_max_length`, it returns in the state it was
called in. -/
theorem C13_discretizer_split (env : Env) (sim : Simulation) (this m : Nat)
    (s : NeuriteElement) (mo : SimObject)
    (hs : sim.objects this = some (SimObject.neurite s)) (hterm : s.daughter_left = none)
    (hm : s.mother = some m) (hmo : sim.objects m = some mo) (hne : m ≠ this)
    (hfresh : sim.Fresh) :
    (s.actual_length > env.param.neurite_max_length →
      ∃ p sim1 np ns, Op.RunDiscretization env this sim = Result.ok () sim1 ∧
        Op.SplitNeuriteElement env this 0.1 sim = Result.ok p sim1 ∧
        sim.objects p = none ∧ sim1.objects p = some (SimObject.neurite np) ∧
        np.daughter_left = some this ∧ sim1.next_uid = sim.next_uid + 1 ∧
        sim1.objects this = some (SimObject.neurite ns) ∧
        ns.resting_length = 0.1 * s.resting_length ∧
        (∀ uid, uid ≠ p → uid ≠ this → uid ≠ m → sim1.objects uid = sim.objects uid)) ∧
    (env.param.neurite_min_length ≤ s.actual_length →
      s.actual_length ≤ env.param.neurite_max_length →
      Op.RunDiscretization env this sim = Result.ok () sim) := by
  constructor
  · intro hlen
    obtain ⟨sim1, np, ns, h0, hp, hn, hnext, -, a2, -, -, -, -, hrs, -, -, hrest⟩ :=
      SplitNeuriteElement_spec env sim this m s mo 0.1 hs hm hmo hne
        (Simulation.lt_next_uid hfresh hs) (Simulation.lt_next_uid hfresh hmo)
    refine ⟨_, sim1, np, ns, ?_, h0, hfresh _ (le_refl _), hp, a2, hnext, hn, ?_, hrest⟩
    · rw [RunDiscretization_terminal_long env sim this m s mo hs hterm hm hmo hlen,
        Op.bind_apply, h0]
      rfl
    · rw [hrs, mul_comm]
  · intro _ hlen
    exact RunDiscretization_terminal_not_long env sim this m s mo hs hterm hm hmo hlen

/-- Claim C13, witness: the example segment (length 1, mother the soma 0) with the
maximal length lowered to 0.5 is split by `RunDiscretization`. -/
theorem C13_discretizer_split_witness :
    ∃ p sim1 np ns,
      Op.RunDiscretization
          { exampleEnv with param := { exampleEnv.param with neurite_max_length := 0.5 } }
          1 exampleSim = Result.ok () sim1 ∧
        Op.SplitNeuriteElement
          { exampleEnv with param := { exampleEnv.param with neurite_max_length := 0.5 } }
          1 0.1 exampleSim = Result.ok p sim1 ∧
        exampleSim.objects p = none ∧ sim1.objects p = some (SimObject.neurite np) ∧
        np.daughter_left = some 1 ∧ sim1.next_uid = exampleSim.next_uid + 1 ∧
        sim1.objects 1 = some (SimObject.neurite ns) ∧
        ns.resting_length = 0.1 * exampleSegment.resting_length ∧
        (∀ uid, uid ≠ p → uid ≠ 1 → uid ≠ 0 → sim1.objects uid = exampleSim.objects uid) :=
  (C13_discretizer_split
    { exampleEnv with param := { exampleEnv.param with neurite_max_length := 0.5 } }
    exampleSim 1 0 exampleSegment (SimObject.soma exampleSoma) rfl rfl rfl rfl (by decide)
    exampleSim_Fresh).1 (by norm_num [exampleSegment, exampleEnv])

/-- Claim C14 fails on the code: in the example chain the terminal segment 2 is shorter
than `neurite_min_length`, its mother 1 is a neurite element without right daughter and
short enough for the merge (`1 < 15 − 1 − 1`), and `RunDiscretization` returns in the
state it was called in: the mother is still there and still the mother of 2. -/
theorem C14_RunDiscretization_does_not_merge :
    exampleTip.daughter_left = none ∧
      exampleTip.actual_length < exampleEnv.param.neurite_min_length ∧
      exampleTip.mother = some 1 ∧
      exampleChain.objects 1 = some (SimObject.neurite exampleMother) ∧
      exampleMother.daughter_right = none ∧
      exampleMother.resting_length <
        exampleEnv.param.neurite_max_length - exampleTip.resting_length - 1 ∧
      Op.RunDiscretization exampleEnv 2 exampleChain = Result.ok () exampleChain := by
  refine ⟨rfl, ?_, rfl, rfl, rfl, ?_, ?_⟩
  · norm_num [exampleTip, exampleSegment, exampleEnv]
  · norm_num [exampleMother, exampleTip, exampleSegment, exampleEnv]
  · exact RunDiscretization_terminal_not_long exampleEnv exampleChain 2 1 exampleTip
      (SimObject.neurite exampleMother) rfl rfl rfl rfl
      (by norm_num [exampleTip, exampleSegment, exampleEnv])

/-! ## Retraction -/

/-- Claim C15 (Scenario D). For a terminal segment `this` whose mother `m` is a soma that
lists it among its daughters, and whose `actual_length` does not exceed
`speed · time_step + 0.1`, `RetractTerminalEnd(speed)` returns; afterwards the soma has
lost that one daughter (its daughter count is one less), the uid `this` refers to no
object any more, and every other object is as before. -/
theorem C15_retract_removes_from_soma (env : Env) (sim : Simulation) (this m : Nat)
    (s : NeuriteElement) (so : NeuronSoma) (speed : ℝ) (fuel : Nat)
    (hs : sim.objects this = some (SimObject.neurite s)) (hterm : s.daughter_left = none)
    (hm : s.mother = some m) (hmo : sim.objects m = some (SimObject.soma so))
    (hmem : this ∈ so.daughters)
    (hshort : s.actual_length ≤ speed * env.param.simulation_time_step + 0.1) :
    ∃ sim1 so1, Op.RetractTerminalEnd env (fuel + 1) this speed sim = Result.ok () sim1 ∧
      sim1.objects this = none ∧ sim1.objects m = some (SimObject.soma so1) ∧
      so1.daughters = so.daughters.erase this ∧
      so1.daughters.length + 1 = so.daughters.length ∧
      (∀ uid, uid ≠ this → uid ≠ m → sim1.objects uid = sim.objects uid) := by
  have hne : m ≠ this := by
    intro h
    rw [h, hs] at hmo
    cases hmo
  have hne' : this ≠ m := fun h => hne h.symm
  have hshort' : ¬ speed * env.param.simulation_time_step + 0.1 < s.actual_length :=
    not_lt.2 hshort
  have hpos : 0 < so.daughters.length := List.length_pos_of_mem hmem
  refine ⟨{ sim with
      objects := Function.update
        (Function.update sim.objects m
          (some (SimObject.soma { so with daughters := so.daughters.erase this })))
        this none },
    { so with daughters := so.daughters.erase this }, ?_, ?_, ?_, rfl, ?_, ?_⟩
  · simp [Op.RetractTerminalEnd, Op.getNeurite_apply, Op.deref, Op.RemoveDaughter,
      Op.RemoveFromSimulation, Op.setObject_apply, NeuronSoma.RemoveDaughter, hs, hterm, hm,
      hmo, hmem, hshort']
  · simp
  · simp [Function.update_apply, hne]
  · simp only [List.length_erase_of_mem hmem]
    omega
  · intro uid hu1 hu2
    simp [Function.update_apply, hu1, hu2]

/-- Claim C15, witness: the example segment (length 1, the one daughter of the soma 0)
retracted at speed 1 with time step 1. -/
theorem C15_retract_removes_from_soma_witness :
    ∃ sim1 so1, Op.RetractTerminalEnd exampleEnv (0 + 1) 1 1 exampleSim = Result.ok () sim1 ∧
      sim1.objects 1 = none ∧ sim1.objects 0 = some (SimObject.soma so1) ∧
      so1.daughters = exampleSoma.daughters.erase 1 ∧
      so1.daughters.length + 1 = exampleSoma.daughters.length ∧
      (∀ uid, uid ≠ 1 → uid ≠ 0 → sim1.objects uid = exampleSim.objects uid) :=
  C15_retract_removes_from_soma exampleEnv exampleSim 1 0 exampleSegment exampleSoma 1 0
    rfl rfl rfl rfl (by simp [exampleSoma])
    (by norm_num [exampleSegment, exampleEnv])

theorem exampleSim_Geometric : exampleSim.Geometric 1 := by
  refine ⟨exampleSegment, ⟨0, 0, 0⟩, rfl, ?_, ?_, ?_⟩
  · simp [Op.OriginOf, Op.deref, exampleSegment, exampleSim, NeuronSoma.OriginOf, exampleSoma]
  · simp [exampleSegment, Math.Subtract]
  · simp [exampleSegment, Math.Norm, Math.Dot]

/-- Claim C16 (retraction keeps tension). For a terminal segment `this` with mother `m`
that satisfies the geometric invariant and has `actual_length` `L > speed · time_step + 0.1`
(with `speed ≥ 0`, a non-negative time step, `spring_constant` `k ≠ 0` and tension `T` with
`T + k ≠ 0`), `RetractTerminalEnd(speed)` returns; afterwards the segment has
`actual_length` `L' = L − speed · time_step`, the same `tension` and `spring_constant`
fields, `resting_length` `R' = k · L' / (T + k)`, so that `k · (L' − R') / R' = T`; its
`spring_axis` is the old one scaled by the positive factor `L' / L` and has norm `L'`;
its `mass_location` is the attachment point plus the `spring_axis`; every other object is
as before. -/
theorem C16_retract_keeps_tension (env : Env) (sim : Simulation) (this m : Nat)
    (s : NeuriteElement) (mo : SimObject) (speed : ℝ) (fuel : Nat)
    (hs : sim.objects this = some (SimObject.neurite s)) (hterm : s.daughter_left = none)
    (hm : s.mother = some m) (hmo : sim.objects m = some mo) (hne : m ≠ this)
    (hgeo : sim.Geometric this)
    (hspeed : 0 ≤ speed) (hstep : 0 ≤ env.param.simulation_time_step)
    (hk : s.spring_constant ≠ 0) (hTk : s.tension + s.spring_constant ≠ 0)
    (hlong : s.actual_length > speed * env.param.simulation_time_step + 0.1) :
    ∃ origin, Op.OriginOf s.mother this sim = Result.ok origin sim ∧
      ∃ sim1 n1, Op.RetractTerminalEnd env (fuel + 1) this speed sim = Result.ok () sim1 ∧
      sim1.objects this = some (SimObject.neurite n1) ∧
      n1.actual_length = s.actual_length - speed * env.param.simulation_time_step ∧
      n1.tension = s.tension ∧ n1.spring_constant = s.spring_constant ∧
      n1.resting_length = s.spring_constant * n1.actual_length /
        (s.tension + s.spring_constant) ∧
      s.spring_constant * (n1.actual_length - n1.resting_length) / n1.resting_length =
        s.tension ∧
      n1.spring_axis = Math.ScalarMult (n1.actual_length / s.actual_length) s.spring_axis ∧
      0 < n1.actual_length / s.actual_length ∧
      Math.Norm n1.spring_axis = n1.actual_length ∧
      n1.mass_location = Math.Add origin n1.spring_axis ∧
      (∀ uid, uid ≠ this → sim1.objects uid = sim.objects uid) := by
  have hne' : this ≠ m := fun h => hne h.symm
  obtain ⟨n, origin, hn, horigin, -, hlen⟩ := hgeo
  rw [hs] at hn
  cases hn
  have hshift : 0 ≤ speed * env.param.simulation_time_step := mul_nonneg hspeed hstep
  have hpos : 0 < s.actual_length := by linarith
  have hpos' : 0 < s.actual_length - speed * env.param.simulation_time_step := by linarith
  have hfac : 0 < (s.actual_length - speed * env.param.simulation_time_step) /
      s.actual_length := div_pos hpos' hpos
  have hnorm : Math.Norm (Math.ScalarMult
        ((s.actual_length - speed * env.param.simulation_time_step) / s.actual_length)
        s.spring_axis) = s.actual_length - speed * env.param.simulation_time_step := by
    rw [Math.Norm_ScalarMult, abs_of_pos hfac, ← hlen]
    field_simp
  have htension : s.spring_constant *
      (s.actual_length - speed * env.param.simulation_time_step -
        s.spring_constant * (s.actual_length - speed * env.param.simulation_time_step) /
          (s.tension + s.spring_constant)) /
      (s.spring_constant * (s.actual_length - speed * env.param.simulation_time_step) /
          (s.tension + s.spring_constant)) = s.tension := by
    have h1 : s.actual_length - speed * env.param.simulation_time_step ≠ 0 := ne_of_gt hpos'
    field_simp
    ring
  refine ⟨origin, horigin, ?_⟩
  rw [hm] at horigin
  cases mo with
  | soma so =>
    simp [Op.OriginOf, Op.deref, hmo] at horigin
    simp [Op.RetractTerminalEnd, Op.modify, Op.getNeurite_apply, Op.setNeurite_apply,
      Op.setObject_apply, Op.OriginOf, Op.deref, hs, hm, hmo, hterm, hne, hne', hlong,
      Function.update_apply, NeuriteElement.UpdateVolume, horigin, hfac, hnorm, htension]
    intro uid hu
    simp [hu]
  | neurite mn =>
    simp [Op.OriginOf, Op.deref, hmo] at horigin
    simp [Op.RetractTerminalEnd, Op.modify, Op.getNeurite_apply, Op.setNeurite_apply,
      Op.setObject_apply, Op.OriginOf, Op.deref, hs, hm, hmo, hterm, hne, hne', hlong,
      Function.update_apply, NeuriteElement.UpdateVolume, horigin, hfac, hnorm, htension]
    intro uid hu
    simp [hu]

/-- Claim C16, witness: the example segment (length 1, tension 0, spring constant 1,
attached to the soma at the origin) retracted at speed 0.5 with time step 1. -/
theorem C16_retract_keeps_tension_witness :
    ∃ origin, Op.OriginOf exampleSegment.mother 1 exampleSim = Result.ok origin exampleSim ∧
      ∃ sim1 n1,
      Op.RetractTerminalEnd exampleEnv (0 + 1) 1 0.5 exampleSim = Result.ok () sim1 ∧
      sim1.objects 1 = some (SimObject.neurite n1) ∧
      n1.actual_length =
        exampleSegment.actual_length - 0.5 * exampleEnv.param.simulation_time_step ∧
      n1.tension = exampleSegment.tension ∧
      n1.spring_constant = exampleSegment.spring_constant ∧
      n1.resting_length = exampleSegment.spring_constant * n1.actual_length /
        (exampleSegment.tension + exampleSegment.spring_constant) ∧
      exampleSegment.spring_constant * (n1.actual_length - n1.resting_length) /
        n1.resting_length = exampleSegment.tension ∧
      n1.spring_axis = Math.ScalarMult (n1.actual_length / exampleSegment.actual_length)
        exampleSegment.spring_axis ∧
      0 < n1.actual_length / exampleSegment.actual_length ∧
      Math.Norm n1.spring_axis = n1.actual_length ∧
      n1.mass_location = Math.Add origin n1.spring_axis ∧
      (∀ uid, uid ≠ 1 → sim1.objects uid = exampleSim.objects uid) :=
  C16_retract_keeps_tension exampleEnv exampleSim 1 0 exampleSegment
    (SimObject.soma exampleSoma) 0.5 0 rfl rfl rfl rfl (by decide) exampleSim_Geometric
    (by norm_num) (by norm_num [exampleEnv])
    (by norm_num [exampleSegment, NeuriteElement.new, NeuriteElement.UpdateVolume, exampleEnv])
    (by norm_num [exampleSegment, NeuriteElement.new, NeuriteElement.UpdateVolume, exampleEnv])
    (by norm_num [exampleSegment, exampleEnv])

/-! ## Side branches -/

theorem Math.Norm_example_direction : Math.Norm ⟨-1, 1, 0⟩ = Real.sqrt 2 := by
  simp only [Math.Norm]
  norm_num

theorem Math.AngleRadian_example_direction :
    Math.AngleRadian ⟨1, 0, 0⟩ ⟨-1, 1, 0⟩ = 3 * Real.pi / 4 := by
  have h2 : Real.sqrt 2 ≠ 0 := by positivity
  have h22 : Real.sqrt 2 * Real.sqrt 2 = 2 := Real.mul_self_sqrt (by norm_num)
  have hx : Math.Norm ⟨1, 0, 0⟩ = 1 := by simp [Math.Norm]
  have harg : Math.Dot ⟨1, 0, 0⟩ ⟨-1, 1, 0⟩ / (Math.Norm ⟨1, 0, 0⟩ * Math.Norm ⟨-1, 1, 0⟩) =
      -Real.cos (Real.pi / 4) := by
    rw [hx, Math.Norm_example_direction, Real.cos_pi_div_four]
    simp only [Math.Dot]
    field_simp
  rw [Math.AngleRadian, harg, Real.arccos_neg, Real.arccos_cos (by positivity)
    (by linarith [Real.pi_pos])]
  ring

/-- Claim C17 (side-branch direction). `Branch(1, (−1, 1, 0), 1)` on the example segment,
whose spring axis is `a = (1, 0, 0)`: the requested direction makes the angle `3π/4`
(135°, above 2.35 rad) with `a`, which is also the spring axis of the new proximal
element, the mother of the branch, when the branch is initialised. The call returns the
new branch; its `spring_axis` is `length · normalize(direction)`, parallel to the requested
direction, and it is not parallel to the corrected direction
`normalize(direction) + normalize((a × direction) × a)`: their cross product is not
zero. -/
theorem C17_Branch_grows_along_requested_direction :
    ∃ sim1 nb, Op.Branch exampleEnv 1 1 ⟨-1, 1, 0⟩ 1 exampleSim = Result.ok 3 sim1 ∧
      sim1.objects 3 = some (SimObject.neurite nb) ∧
      exampleSegment.spring_axis = ⟨1, 0, 0⟩ ∧
      Math.AngleRadian exampleSegment.spring_axis ⟨-1, 1, 0⟩ > 2.35 ∧
      nb.spring_axis = Math.ScalarMult 1 (Math.Normalize ⟨-1, 1, 0⟩) ∧
      Math.CrossProduct nb.spring_axis ⟨-1, 1, 0⟩ = ⟨0, 0, 0⟩ ∧
      Math.CrossProduct nb.spring_axis
        (Math.Add (Math.Normalize ⟨-1, 1, 0⟩)
          (Math.Normalize
            (Math.CrossProduct (Math.CrossProduct exampleSegment.spring_axis ⟨-1, 1, 0⟩)
              exampleSegment.spring_axis))) ≠ ⟨0, 0, 0⟩ := by
  obtain ⟨sim1, np, nb, ns, h0, -, hb, -, -, -, -, -, -, -, -, -, -, -, -, -, -, haxis, -⟩ :=
    Branch_spec exampleEnv exampleSim 1 0 exampleSegment (SimObject.soma exampleSoma) 1
      ⟨-1, 1, 0⟩ 1 rfl rfl rfl (by decide) (by decide) (by decide)
  have h2 : Real.sqrt 2 ≠ 0 := by positivity
  have h22 : Real.sqrt 2 * Real.sqrt 2 = 2 := Real.mul_self_sqrt (by norm_num)
  have hsa : exampleSegment.spring_axis = ⟨1, 0, 0⟩ := rfl
  refine ⟨sim1, nb, h0, hb, hsa, ?_, haxis, ?_, ?_⟩
  · rw [hsa, Math.AngleRadian_example_direction]
    linarith [Real.pi_gt_d2]
  · rw [haxis]
    simp only [Math.CrossProduct, Math.ScalarMult, Math.Normalize, Math.Norm_example_direction]
    ext
    all_goals simp
    all_goals ring
  · rw [haxis, hsa]
    intro h
    have hz := congrArg Vec3.z h
    have hy : Math.Norm ⟨0, 1, 0⟩ = 1 := by simp [Math.Norm]
    simp only [Math.CrossProduct, Math.ScalarMult, Math.Normalize, Math.Add,
      Math.Norm_example_direction] at hz
    norm_num [hy] at hz
    field_simp at hz

theorem exampleFork_Fresh : exampleFork.Fresh := by
  intro uid h
  have h4 : (4 : Nat) ≤ uid := h
  have h0 : uid ≠ 0 := by omega
  have h1 : uid ≠ 1 := by omega
  have h2 : uid ≠ 2 := by omega
  have h3 : uid ≠ 3 := by omega
  simp [exampleFork, h0, h1, h2, h3]

/-- Claim C18, counterexample. The segment 1 of the example chain has `daughter_left` set
(the segment 2) and `daughter_right` unset. `Branch` on it returns the uid 4 after creating
two segments, 3 and 4, where no object was before: the segment is split, its mother is now
the new proximal element 3, which has it as `daughter_left` and the new branch 4 as
`daughter_right`; the `daughter_right` of the segment itself is still unset.
`ExtendSideNeuriteElement` on the same segment does not attach a branch either: it calls
the event handler with no second object and dereferences it. -/
theorem C18_Branch_always_splits_counterexample :
    exampleMother.BranchPermitted = true ∧
    exampleChain.objects 1 = some (SimObject.neurite exampleMother) ∧
    exampleChain.objects 3 = none ∧ exampleChain.objects 4 = none ∧
    (∃ sim1 np nb ns, Op.Branch exampleEnv 1 1 ⟨0, 1, 0⟩ 1 exampleChain = Result.ok 4 sim1 ∧
      sim1.objects 3 = some (SimObject.neurite np) ∧
      sim1.objects 4 = some (SimObject.neurite nb) ∧
      sim1.objects 1 = some (SimObject.neurite ns) ∧
      ns.daughter_right = none ∧ ns.mother = some 3 ∧
      np.daughter_left = some 1 ∧ np.daughter_right = some 4 ∧ nb.mother = some 3) ∧
    Op.ExtendSideNeuriteElement exampleEnv 1 1 1 ⟨0, 1, 0⟩ exampleChain = Result.fault := by
  refine ⟨by simp [NeuriteElement.BranchPermitted, exampleMother, exampleSegment], rfl, rfl, rfl, ?_, ?_⟩
  · obtain ⟨sim1, np, nb, ns, h0, hp, hb, hn, -, -, a2, a3, a4, -, a6, a7, -⟩ :=
      Branch_spec exampleEnv exampleChain 1 0 exampleMother (SimObject.soma exampleSoma) 1
        ⟨0, 1, 0⟩ 1 rfl rfl rfl (by decide) (by decide) (by decide)
    exact ⟨sim1, np, nb, ns, h0, hp, hb, hn, a6, a4, a2, a3, a7⟩
  · simp [Op.ExtendSideNeuriteElement, Op.HandleSideNeuriteExtension, Op.getNeurite_apply,
      Op.GetInstance_apply, Op.deref, exampleChain, exampleMother, exampleSegment]

/-- Claim C18, amended. For a segment `this` with `daughter_left` set and `daughter_right`
unset, whose mother `m` is another object, in a simulation whose unused uids refer to no
object: `Branch` returns the new branch `b`, having created exactly two segments, the
proximal element `p` and `b`, at uids that referred to no object. The segment is split:
`p` has the mother `m`, the segment as `daughter_left` and `b` as `daughter_right`; the
segment and `b` have the mother `p`; `b` has no daughters; the segment keeps its
`daughter_left` and its `daughter_right` stays unset; the objects other than `p`, `b`,
the segment and its old mother are unchanged. -/
theorem C18_Branch_at_branch_point_splits (env : Env) (sim : Simulation) (this m : Nat)
    (s : NeuriteElement) (mo : SimObject) (diameter : ℝ) (direction : Vec3) (length : ℝ)
    (hs : sim.objects this = some (SimObject.neurite s)) (hperm : s.BranchPermitted = true)
    (hm : s.mother = some m) (hmo : sim.objects m = some mo) (hne : m ≠ this)
    (hfresh : sim.Fresh) :
    sim.objects sim.next_uid = none ∧ sim.objects (sim.next_uid + 1) = none ∧
    ∃ sim1 np nb ns, Op.Branch env this diameter direction length sim =
        Result.ok (sim.next_uid + 1) sim1 ∧
      sim1.objects sim.next_uid = some (SimObject.neurite np) ∧
      sim1.objects (sim.next_uid + 1) = some (SimObject.neurite nb) ∧
      sim1.objects this = some (SimObject.neurite ns) ∧
      sim1.next_uid = sim.next_uid + 2 ∧
      np.mother = some m ∧ np.daughter_left = some this ∧
      np.daughter_right = some (sim.next_uid + 1) ∧
      ns.mother = some sim.next_uid ∧ nb.mother = some sim.next_uid ∧
      nb.daughter_left = none ∧ nb.daughter_right = none ∧
      ns.daughter_left = s.daughter_left ∧ ns.BranchPermitted = true ∧
      (∀ uid, uid ≠ sim.next_uid → uid ≠ sim.next_uid + 1 → uid ≠ this → uid ≠ m →
        sim1.objects uid = sim.objects uid) := by
  obtain ⟨sim1, np, nb, ns, h0, hp, hb, hn, hnext, a1, a2, a3, a4, a5, a6, a7, a8, a9, -, -,
      -, -, -, -, -, -, hframe⟩ :=
    Branch_spec env sim this m s mo diameter direction length hs hm hmo hne
      (Simulation.lt_next_uid hfresh hs) (Simulation.lt_next_uid hfresh hmo)
  refine ⟨hfresh _ (le_refl _), hfresh _ (Nat.le_succ _), sim1, np, nb, ns, h0, hp, hb, hn,
    hnext, a1, a2, a3, a4, a7, a8, a9, a5, ?_, hframe⟩
  unfold NeuriteElement.BranchPermitted at hperm ⊢
  rw [a5, a6]
  exact hperm

/-- Claim C18, witness: the segment 1 of the example chain, which has the left daughter 2
and no right daughter. -/
theorem C18_Branch_at_branch_point_splits_witness :
    ∃ sim1 np ns, Op.Branch exampleEnv 1 1 ⟨0, 1, 0⟩ 1 exampleChain =
        Result.ok (exampleChain.next_uid + 1) sim1 ∧
      sim1.objects exampleChain.next_uid = some (SimObject.neurite np) ∧
      sim1.objects 1 = some (SimObject.neurite ns) ∧
      np.daughter_left = some 1 ∧ np.daughter_right = some (exampleChain.next_uid + 1) ∧
      ns.mother = some exampleChain.next_uid ∧ ns.BranchPermitted = true := by
  obtain ⟨-, -, sim1, np, nb, ns, h0, hp, -, hn, -, -, a2, a3, a4, -, -, -, -, a9, -⟩ :=
    C18_Branch_at_branch_point_splits exampleEnv exampleChain 1 0 exampleMother
      (SimObject.soma exampleSoma) 1 ⟨0, 1, 0⟩ 1 rfl
      (by simp [NeuriteElement.BranchPermitted, exampleMother, exampleSegment]) rfl rfl
      (by decide) exampleChain_Fresh
  exact ⟨sim1, np, ns, h0, hp, hn, a2, a3, a4, a9⟩

/-- Claim C19, counterexample. The segment 1 of the example fork has both daughters set.
`Branch` on it is not fatal: it returns the uid 5 after creating the segments 4 and 5,
and the segment has a new mother, the proximal element 4. -/
theorem C19_Branch_forked_returns_counterexample :
    exampleFork.objects 1 = some (SimObject.neurite exampleForked) ∧
    exampleForked.daughter_right ≠ none ∧
    exampleForked.mother = some 0 ∧
    exampleFork.objects 4 = none ∧ exampleFork.objects 5 = none ∧
    ∃ sim1 np nb ns, Op.Branch exampleEnv 1 1 ⟨0, 0, 1⟩ 1 exampleFork = Result.ok 5 sim1 ∧
      sim1.objects 4 = some (SimObject.neurite np) ∧
      sim1.objects 5 = some (SimObject.neurite nb) ∧
      sim1.objects 1 = some (SimObject.neurite ns) ∧
      ns.mother = some 4 := by
  refine ⟨rfl, by simp [exampleForked], rfl, rfl, rfl, ?_⟩
  obtain ⟨sim1, np, nb, ns, h0, hp, hb, hn, -, -, -, -, a4, -⟩ :=
    Branch_spec exampleEnv exampleFork 1 0 exampleForked (SimObject.soma exampleSoma) 1
      ⟨0, 0, 1⟩ 1 rfl rfl rfl (by decide) (by decide) (by decide)
  exact ⟨sim1, np, nb, ns, h0, hp, hb, hn, a4⟩

/-- Claim C19, amended. For a segment `this` whose `daughter_right` is set:
`ExtendSideNeuriteElement(length, diameter, direction)` aborts with the fatal error of
lines 1214-1218 in the state of the call (no segment created, no link changed); and
`Branch(diameter, direction, length)`, which has no such check, returns the new branch
when the mother `m` of the segment is another object and the unused uids refer to no
object: it creates the proximal element `p` and the branch `b`, the segment keeps both
its daughters and gets the mother `p`, and `b` is the `daughter_right` of `p`. -/
theorem C19_ExtendSideNeuriteElement_forked_is_fatal (env : Env) (sim : Simulation)
    (this m : Nat) (s : NeuriteElement) (mo : SimObject) (diameter : ℝ) (direction : Vec3)
    (length : ℝ)
    (hs : sim.objects this = some (SimObject.neurite s)) (hright : s.daughter_right ≠ none)
    (hm : s.mother = some m) (hmo : sim.objects m = some mo) (hne : m ≠ this)
    (hfresh : sim.Fresh) :
    Op.ExtendSideNeuriteElement env this length diameter direction sim =
        Result.fatal FatalError.daughter_right_not_null sim ∧
    ∃ sim1 np nb ns, Op.Branch env this diameter direction length sim =
        Result.ok (sim.next_uid + 1) sim1 ∧
      sim1.objects sim.next_uid = some (SimObject.neurite np) ∧
      sim1.objects (sim.next_uid + 1) = some (SimObject.neurite nb) ∧
      sim1.objects this = some (SimObject.neurite ns) ∧
      sim1.next_uid = sim.next_uid + 2 ∧
      np.daughter_left = some this ∧ np.daughter_right = some (sim.next_uid + 1) ∧
      ns.mother = some sim.next_uid ∧ nb.mother = some sim.next_uid ∧
      ns.daughter_left = s.daughter_left ∧ ns.daughter_right = s.daughter_right ∧
      ns.daughter_right ≠ none := by
  refine ⟨?_, ?_⟩
  · simp [Op.ExtendSideNeuriteElement, Op.getNeurite_apply, Op.Fatal, hs, hright]
  · obtain ⟨sim1, np, nb, ns, h0, hp, hb, hn, hnext, -, a2, a3, a4, a5, a6, a7, -⟩ :=
      Branch_spec env sim this m s mo diameter direction length hs hm hmo hne
        (Simulation.lt_next_uid hfresh hs) (Simulation.lt_next_uid hfresh hmo)
    exact ⟨sim1, np, nb, ns, h0, hp, hb, hn, hnext, a2, a3, a4, a7, a5, a6,
      by rw [a6]; exact hright⟩

/-- Claim C19, witness: the fully forked segment 1 of the example fork. -/
theorem C19_ExtendSideNeuriteElement_forked_is_fatal_witness :
    Op.ExtendSideNeuriteElement exampleEnv 1 1 1 ⟨0, 0, 1⟩ exampleFork =
      Result.fatal FatalError.daughter_right_not_null exampleFork :=
  (C19_ExtendSideNeuriteElement_forked_is_fatal exampleEnv exampleFork 1 0 exampleForked
    (SimObject.soma exampleSoma) 1 ⟨0, 0, 1⟩ 1 rfl (by simp [exampleForked]) rfl rfl
    (by decide) exampleFork_Fresh).1

theorem Math.Norm_Normalize {a : Vec3} (h : a ≠ ⟨0, 0, 0⟩) :
    Math.Norm (Math.Normalize a) = 1 := by
  have h1 := Math.Dot_Normalize_self h
  unfold Math.Dot at h1
  unfold Math.Norm
  rw [h1, Real.sqrt_one]

/-- Claim C20 (branch by split-then-attach). For a segment `this` whose mother `m` is
another object, in a simulation whose unused uids refer to no object, and a non-zero
direction: `Branch(diameter, direction, length)` returns the new branch `b`, having
created exactly two segments, the proximal element `p` and `b`, at uids that referred to
no object. `p` is the proximal element of a split at distal portion 0.5: it lies at the
midpoint `mass_location − 0.5 · spring_axis` of the old segment, has the mother `m`, which
now refers to `p` where it referred to the segment, and the resting length of the old
segment is halved between the two. Afterwards `p.daughter_left` is the segment,
`p.daughter_right = b`, the segment and `b` have the mother `p`, `b` has no daughters,
`b.diameter = diameter`, `b.branch_order` is that of the segment plus one, `b` starts at
`p.mass_location` (its attachment point at its mother, `b.mass_location − b.spring_axis`)
and extends by `|length|` along the requested direction; the segment keeps its daughters
and the other objects are unchanged. -/
theorem C20_Branch_split_then_attach (env : Env) (sim : Simulation) (this m : Nat)
    (s : NeuriteElement) (mo : SimObject) (diameter : ℝ) (direction : Vec3) (length : ℝ)
    (hs : sim.objects this = some (SimObject.neurite s)) (hm : s.mother = some m)
    (hmo : sim.objects m = some mo) (hne : m ≠ this) (hfresh : sim.Fresh)
    (hdir : direction ≠ ⟨0, 0, 0⟩) :
    sim.objects sim.next_uid = none ∧ sim.objects (sim.next_uid + 1) = none ∧
    ∃ sim1 np nb ns, Op.Branch env this diameter direction length sim =
        Result.ok (sim.next_uid + 1) sim1 ∧
      sim1.objects sim.next_uid = some (SimObject.neurite np) ∧
      sim1.objects (sim.next_uid + 1) = some (SimObject.neurite nb) ∧
      sim1.objects this = some (SimObject.neurite ns) ∧
      sim1.next_uid = sim.next_uid + 2 ∧
      np.daughter_left = some this ∧ np.daughter_right = some (sim.next_uid + 1) ∧
      ns.mother = some sim.next_uid ∧ nb.mother = some sim.next_uid ∧
      nb.daughter_left = none ∧ nb.daughter_right = none ∧
      nb.diameter = diameter ∧ nb.branch_order = s.branch_order + 1 ∧
      Op.OriginOf nb.mother (sim.next_uid + 1) sim1 = Result.ok np.mass_location sim1 ∧
      Math.Subtract nb.mass_location nb.spring_axis = np.mass_location ∧
      np.mass_location = Math.Subtract s.mass_location (Math.ScalarMult 0.5 s.spring_axis) ∧
      nb.spring_axis = Math.ScalarMult length (Math.Normalize direction) ∧
      Math.Norm nb.spring_axis = |length| ∧
      np.mother = some m ∧
      ns.resting_length = s.resting_length * 0.5 ∧
      np.resting_length = (1 - 0.5) * s.resting_length ∧
      ns.daughter_left = s.daughter_left ∧ ns.daughter_right = s.daughter_right ∧
      sim1.objects m = some
        (match mo with
          | SimObject.soma so => SimObject.soma (so.UpdateRelative this sim.next_uid)
          | SimObject.neurite mn => SimObject.neurite (mn.UpdateRelative this sim.next_uid)) ∧
      (∀ uid, uid ≠ sim.next_uid → uid ≠ sim.next_uid + 1 → uid ≠ this → uid ≠ m →
        sim1.objects uid = sim.objects uid) := by
  obtain ⟨sim1, np, nb, ns, h0, hp, hb, hn, hnext, a1, a2, a3, a4, a5, a6, a7, a8, a9, a10,
      a11, a12, a13, a14, a15, a16, a17, hframe⟩ :=
    Branch_spec env sim this m s mo diameter direction length hs hm hmo hne
      (Simulation.lt_next_uid hfresh hs) (Simulation.lt_next_uid hfresh hmo)
  refine ⟨hfresh _ (le_refl _), hfresh _ (Nat.le_succ _), sim1, np, nb, ns, h0, hp, hb, hn,
    hnext, a2, a3, a4, a7, a8, a9, a10, a11, ?_, ?_, a12, a13, ?_, a1, a15, a16, a5, a6, a17,
    hframe⟩
  · simp [Op.OriginOf, Op.deref, a7, hp]
  · rw [a14]
    unfold Math.Subtract Math.Add
    ext <;> simp
  · rw [a13, Math.Norm_ScalarMult, Math.Norm_Normalize hdir, mul_one]

/-- Claim C20, witness: `Branch(1, (0, 1, 0), 1)` on the terminal segment 1 of the example
simulation, which runs from the origin to `(1, 0, 0)`: the branch starts at the midpoint. -/
theorem C20_Branch_split_then_attach_witness :
    ∃ sim1 np nb ns, Op.Branch exampleEnv 1 1 ⟨0, 1, 0⟩ 1 exampleSim =
        Result.ok (exampleSim.next_uid + 1) sim1 ∧
      sim1.objects exampleSim.next_uid = some (SimObject.neurite np) ∧
      sim1.objects (exampleSim.next_uid + 1) = some (SimObject.neurite nb) ∧
      sim1.objects 1 = some (SimObject.neurite ns) ∧
      np.daughter_left = some 1 ∧ np.daughter_right = some (exampleSim.next_uid + 1) ∧
      ns.mother = some exampleSim.next_uid ∧ nb.mother = some exampleSim.next_uid ∧
      nb.diameter = 1 ∧ nb.branch_order = exampleSegment.branch_order + 1 ∧
      Math.Subtract nb.mass_location nb.spring_axis = np.mass_location ∧
      np.mass_location =
        Math.Subtract exampleSegment.mass_location
          (Math.ScalarMult 0.5 exampleSegment.spring_axis) := by
  obtain ⟨-, -, sim1, np, nb, ns, h0, hp, hb, hn, -, a2, a3, a4, a7, -, -, a10, a11, -, b1,
      b2, -⟩ :=
    C20_Branch_split_then_attach exampleEnv exampleSim 1 0 exampleSegment
      (SimObject.soma exampleSoma) 1 ⟨0, 1, 0⟩ 1 rfl rfl rfl (by decide) exampleSim_Fresh
      (by simp)
  exact ⟨sim1, np, nb, ns, h0, hp, hb, hn, a2, a3, a4, a7, a10, a11, b1, b2⟩

/-! ## The spring law, growth and the terminal-only operations -/

/-- Claim C22 (resting length for a desired tension). For a segment with
`spring_constant` `k ≠ 0`, `actual_length` `L ≠ 0` and a tension `t` with `t + k ≠ 0`:
after `SetRestingLengthForDesiredTension(t)` the `tension` field is `t`, the
`resting_length` `R` is `L` when `t = 0` and `k · L / (t + k)` otherwise, in both cases
`k · (L − R) / R = t`, and no field other than `tension` and `resting_length` has
changed. -/
theorem C22_SetRestingLengthForDesiredTension_spring_law (s : NeuriteElement) (t : ℝ)
    (hk : s.spring_constant ≠ 0) (hL : s.actual_length ≠ 0)
    (htk : t + s.spring_constant ≠ 0) :
    (s.SetRestingLengthForDesiredTension t).tension = t ∧
    (t = 0 → (s.SetRestingLengthForDesiredTension t).resting_length = s.actual_length) ∧
    (t ≠ 0 → (s.SetRestingLengthForDesiredTension t).resting_length =
      s.spring_constant * s.actual_length / (t + s.spring_constant)) ∧
    s.spring_constant *
        (s.actual_length - (s.SetRestingLengthForDesiredTension t).resting_length) /
        (s.SetRestingLengthForDesiredTension t).resting_length = t ∧
    s.SetRestingLengthForDesiredTension t =
      { s with
        tension := t
        resting_length := (s.SetRestingLengthForDesiredTension t).resting_length } := by
  by_cases ht : t = 0
  · subst ht
    simp [NeuriteElement.SetRestingLengthForDesiredTension]
  · simp only [NeuriteElement.SetRestingLengthForDesiredTension, if_neg ht]
    refine ⟨trivial, fun h => absurd h ht, fun _ => trivial, ?_, trivial⟩
    field_simp
    ring

/-- Claim C22, witness: the example segment (`k = 1`, `L = 1`) and the tension `1`. -/
theorem C22_SetRestingLengthForDesiredTension_spring_law_witness :
    (exampleSegment.SetRestingLengthForDesiredTension 1).tension = 1 ∧
    (exampleSegment.SetRestingLengthForDesiredTension 1).resting_length =
      exampleSegment.spring_constant * exampleSegment.actual_length /
        (1 + exampleSegment.spring_constant) ∧
    exampleSegment.spring_constant *
        (exampleSegment.actual_length -
          (exampleSegment.SetRestingLengthForDesiredTension 1).resting_length) /
        (exampleSegment.SetRestingLengthForDesiredTension 1).resting_length = 1 := by
  obtain ⟨h1, -, h3, h4, -⟩ :=
    C22_SetRestingLengthForDesiredTension_spring_law exampleSegment 1
      (by norm_num [exampleSegment, NeuriteElement.new, NeuriteElement.UpdateVolume, exampleEnv])
      (by norm_num [exampleSegment])
      (by norm_num [exampleSegment, NeuriteElement.new, NeuriteElement.UpdateVolume, exampleEnv])
  exact ⟨h1, h3 one_ne_zero, h4⟩

/-- `MovePointMass` returns for a segment whose mother can be dereferenced. -/
theorem MovePointMass_returns (env : Env) (sim : Simulation) (this m : Nat)
    (s : NeuriteElement) (mo : SimObject) (speed : ℝ) (direction : Vec3)
    (hs : sim.objects this = some (SimObject.neurite s))
    (hm : s.mother = some m) (hmo : sim.objects m = some mo) :
    ∃ sim1, Op.MovePointMass env this speed direction sim = Result.ok () sim1 := by
  by_cases hterm : s.daughter_left = none
  · cases mo with
    | soma so =>
      simp [Op.MovePointMass, Op.modify, Op.getNeurite_apply, Op.setNeurite_apply,
        Op.setObject_apply, Op.UpdateLocalCoordinateAxis, Op.OriginOf, Op.deref, hs, hm, hmo,
        hterm, Function.update_apply]
    | neurite mn =>
      simp [Op.MovePointMass, Op.modify, Op.getNeurite_apply, Op.setNeurite_apply,
        Op.setObject_apply, Op.UpdateLocalCoordinateAxis, Op.OriginOf, Op.deref, hs, hm, hmo,
        hterm, Function.update_apply]
  · exact ⟨sim, by simp [Op.MovePointMass, Op.getNeurite_apply, hs, hterm]⟩

/-- Claim C24 (gated elongation). For a segment `this`, a speed and a direction: if
`Dot(direction, spring_axis) ≤ 0`, `ElongateTerminalEnd(speed, direction)` returns in the
state it was called in; if it is `> 0`, the call ends as `MovePointMass(speed, direction)`
does, in the same state, and that is a normal return when the mother of the segment can
be dereferenced. -/
theorem C24_ElongateTerminalEnd_gated (env : Env) (sim : Simulation) (this : Nat)
    (s : NeuriteElement) (speed : ℝ) (direction : Vec3)
    (hs : sim.objects this = some (SimObject.neurite s)) :
    (Math.Dot direction s.spring_axis ≤ 0 →
      Op.ElongateTerminalEnd env this speed direction sim = Result.ok () sim) ∧
    (Math.Dot direction s.spring_axis > 0 →
      Op.ElongateTerminalEnd env this speed direction sim =
        Op.MovePointMass env this speed direction sim) ∧
    (Math.Dot direction s.spring_axis > 0 → ∀ m mo, s.mother = some m →
      sim.objects m = some mo →
      ∃ sim1, Op.ElongateTerminalEnd env this speed direction sim = Result.ok () sim1 ∧
        Op.MovePointMass env this speed direction sim = Result.ok () sim1) := by
  have hpos : Math.Dot direction s.spring_axis > 0 →
      Op.ElongateTerminalEnd env this speed direction sim =
        Op.MovePointMass env this speed direction sim := by
    intro h
    have h' : 0 < Math.Dot direction s.spring_axis := h
    simp [Op.ElongateTerminalEnd, Op.getNeurite_apply, hs, h']
  refine ⟨?_, hpos, ?_⟩
  · intro h
    have h' : ¬ 0 < Math.Dot direction s.spring_axis := not_lt.2 h
    simp [Op.ElongateTerminalEnd, Op.getNeurite_apply, hs, h']
  · intro h m mo hm hmo
    obtain ⟨sim1, h1⟩ := MovePointMass_returns env sim this m s mo speed direction hs hm hmo
    exact ⟨sim1, by rw [hpos h, h1], h1⟩

/-- Claim C24, witness: the example segment, whose spring axis is `(1, 0, 0)`, is not
moved by an elongation in the direction `(−1, 0, 0)`. -/
theorem C24_ElongateTerminalEnd_gated_witness :
    Op.ElongateTerminalEnd exampleEnv 1 1 ⟨-1, 0, 0⟩ exampleSim = Result.ok () exampleSim :=
  (C24_ElongateTerminalEnd_gated exampleEnv exampleSim 1 exampleSegment 1 ⟨-1, 0, 0⟩ rfl).1
    (by norm_num [Math.Dot, exampleSegment])

/-- Claim C25 (terminal-only operations). For a segment `this` whose `daughter_left` is
set, each of `RetractTerminalEnd`, `MovePointMass`, `ElongateTerminalEnd` and
`RunDiscretization` returns in the state it was called in, whatever its arguments. -/
theorem C25_terminal_only_operations (env : Env) (sim : Simulation) (this : Nat)
    (s : NeuriteElement) (hs : sim.objects this = some (SimObject.neurite s))
    (hleft : s.daughter_left ≠ none) :
    (∀ speed fuel, Op.RetractTerminalEnd env (fuel + 1) this speed sim = Result.ok () sim) ∧
    (∀ speed direction, Op.MovePointMass env this speed direction sim = Result.ok () sim) ∧
    (∀ speed direction,
      Op.ElongateTerminalEnd env this speed direction sim = Result.ok () sim) ∧
    Op.RunDiscretization env this sim = Result.ok () sim := by
  have hmove : ∀ speed direction,
      Op.MovePointMass env this speed direction sim = Result.ok () sim := by
    intro speed direction
    simp [Op.MovePointMass, Op.getNeurite_apply, hs, hleft]
  refine ⟨?_, hmove, ?_, ?_⟩
  · intro speed fuel
    simp [Op.RetractTerminalEnd, Op.getNeurite_apply, hs, hleft]
  · intro speed direction
    by_cases h : 0 < Math.Dot direction s.spring_axis
    · simp [Op.ElongateTerminalEnd, Op.getNeurite_apply, hs, h, hmove]
    · simp [Op.ElongateTerminalEnd, Op.getNeurite_apply, hs, h]
  · simp [Op.RunDiscretization, Op.getNeurite_apply, hs, hleft]

/-- Claim C25, witness: the internal segment 1 of the example chain. -/
theorem C25_terminal_only_operations_witness :
    Op.RetractTerminalEnd exampleEnv (0 + 1) 1 1 exampleChain = Result.ok () exampleChain ∧
    Op.MovePointMass exampleEnv 1 1 ⟨1, 0, 0⟩ exampleChain = Result.ok () exampleChain ∧
    Op.ElongateTerminalEnd exampleEnv 1 1 ⟨1, 0, 0⟩ exampleChain = Result.ok () exampleChain ∧
    Op.RunDiscretization exampleEnv 1 exampleChain = Result.ok () exampleChain := by
  obtain ⟨h1, h2, h3, h4⟩ :=
    C25_terminal_only_operations exampleEnv exampleChain 1 exampleMother rfl
      (by simp [exampleMother])
  exact ⟨h1 1 0, h2 1 ⟨1, 0, 0⟩, h3 1 ⟨1, 0, 0⟩, h4⟩

/-! ## Removing a daughter -/

namespace NeuriteElement

/-- `RemoveDaughter` ends in `Fatal` exactly when the object is in neither slot. -/
theorem RemoveDaughter_eq_none_iff (s : NeuriteElement) (d : Nat) :
    s.RemoveDaughter d = none ↔ s.daughter_left ≠ some d ∧ s.daughter_right ≠ some d := by
  unfold RemoveDaughter
  by_cases hr : some d = s.daughter_right
  · rw [if_pos hr]
    exact ⟨fun h => (by cases h), fun h => absurd hr.symm h.2⟩
  · rw [if_neg hr]
    by_cases hl : some d = s.daughter_left
    · rw [if_pos hl]
      exact ⟨fun h => (by cases h), fun h => absurd hl.symm h.1⟩
    · rw [if_neg hl]
      exact ⟨fun _ => ⟨fun h => hl h.symm, fun h => hr h.symm⟩, fun _ => rfl⟩

/-- After a normal return of `RemoveDaughter` the right slot is unset, and the left slot
holds the other daughter. -/
theorem RemoveDaughter_eq_some (s : NeuriteElement) (d : Nat) (s1 : NeuriteElement)
    (h : s.RemoveDaughter d = some s1) :
    s1.daughter_right = none ∧
    (s.daughter_right = some d → s1 = { s with daughter_right := none }) ∧
    (s.daughter_right ≠ some d →
      s1 = { s with daughter_left := s.daughter_right, daughter_right := none }) := by
  unfold RemoveDaughter at h
  by_cases hr : some d = s.daughter_right
  · rw [if_pos hr] at h
    cases h
    exact ⟨rfl, fun _ => rfl, fun hc => absurd hr.symm hc⟩
  · rw [if_neg hr] at h
    by_cases hl : some d = s.daughter_left
    · rw [if_pos hl] at h
      cases h
      exact ⟨rfl, fun hc => absurd hc.symm hr, fun _ => rfl⟩
    · rw [if_neg hl] at h
      cases h

end NeuriteElement

/-- Claim C26 (`RemoveDaughter` rejects non-daughters). For a segment `m` and an object
`d`: `RemoveDaughter(d)` ends in a fatal error if and only if `d` is neither the
`daughter_left` nor the `daughter_right` of the segment, and then in the state of the
call (both slots as before). Otherwise it returns; afterwards `daughter_right` is unset,
`daughter_left` is the former `daughter_right` when `d` was not the right daughter and
is as before when it was, so that for `daughter_left ≠ daughter_right` neither slot
refers to `d`; the other fields of the segment and the other objects are as before. -/
theorem C26_RemoveDaughter_rejects_non_daughters (sim : Simulation) (m d : Nat)
    (s : NeuriteElement) (hs : sim.objects m = some (SimObject.neurite s)) :
    ((∃ e sim1, Op.RemoveDaughter (some m) d sim = Result.fatal e sim1) ↔
      (s.daughter_left ≠ some d ∧ s.daughter_right ≠ some d)) ∧
    (∀ e sim1, Op.RemoveDaughter (some m) d sim = Result.fatal e sim1 →
      e = FatalError.not_a_daughter ∧ sim1 = sim) ∧
    ((s.daughter_left = some d ∨ s.daughter_right = some d) →
      ∃ sim1 s1, Op.RemoveDaughter (some m) d sim = Result.ok () sim1 ∧
        sim1.objects m = some (SimObject.neurite s1) ∧
        s1.daughter_right = none ∧
        (s.daughter_right = some d → s1 = { s with daughter_right := none }) ∧
        (s.daughter_right ≠ some d →
          s1 = { s with daughter_left := s.daughter_right, daughter_right := none }) ∧
        (s.daughter_left ≠ s.daughter_right →
          s1.daughter_left ≠ some d ∧ s1.daughter_right ≠ some d) ∧
        (∀ uid, uid ≠ m → sim1.objects uid = sim.objects uid)) := by
  cases hrem : s.RemoveDaughter d with
  | none =>
    have hnot := (NeuriteElement.RemoveDaughter_eq_none_iff s d).1 hrem
    have hrun : Op.RemoveDaughter (some m) d sim =
        Result.fatal FatalError.not_a_daughter sim := by
      simp [Op.RemoveDaughter, Op.deref, Op.Fatal, hs, hrem]
    refine ⟨⟨fun _ => hnot, fun _ => ⟨_, _, hrun⟩⟩, ?_, ?_⟩
    · intro e sim1 h
      rw [hrun] at h
      cases h
      exact ⟨rfl, rfl⟩
    · intro h
      rcases h with h | h
      · exact absurd h hnot.1
      · exact absurd h hnot.2
  | some s1 =>
    have hsome : ¬ (s.daughter_left ≠ some d ∧ s.daughter_right ≠ some d) := by
      intro hc
      rw [(NeuriteElement.RemoveDaughter_eq_none_iff s d).2 hc] at hrem
      cases hrem
    have hrun : Op.RemoveDaughter (some m) d sim =
        Result.ok ()
          { sim with objects := Function.update sim.objects m (some (SimObject.neurite s1)) } := by
      simp [Op.RemoveDaughter, Op.deref, Op.setNeurite_apply, Op.setObject_apply, hs, hrem]
    obtain ⟨h1, h2, h3⟩ := NeuriteElement.RemoveDaughter_eq_some s d s1 hrem
    refine ⟨⟨?_, fun hc => absurd hc hsome⟩, ?_, ?_⟩
    · rintro ⟨e, sim1, h⟩
      rw [hrun] at h
      cases h
    · intro e sim1 h
      rw [hrun] at h
      cases h
    · intro _
      refine ⟨_, s1, hrun, by simp, h1, h2, h3, ?_, ?_⟩
      · intro hne
        refine ⟨?_, by rw [h1]; exact fun hc => by cases hc⟩
        by_cases hr : s.daughter_right = some d
        · rw [h2 hr]
          intro hc
          exact hne (hc.trans hr.symm)
        · rw [h3 hr]
          exact hr
      · intro uid hu
        simp [Function.update_apply, hu]

/-- Claim C26, witness: in the example fork the segment 1 has the daughters 2 and 3;
removing 2 moves 3 into the left slot, and neither slot refers to 2 afterwards. -/
theorem C26_RemoveDaughter_rejects_non_daughters_witness :
    ∃ sim1 s1, Op.RemoveDaughter (some 1) 2 exampleFork = Result.ok () sim1 ∧
      sim1.objects 1 = some (SimObject.neurite s1) ∧
      s1.daughter_left = some 3 ∧ s1.daughter_right = none := by
  obtain ⟨sim1, s1, h0, h1, h2, -, h4, -, -⟩ :=
    (C26_RemoveDaughter_rejects_non_daughters exampleFork 1 2 exampleForked rfl).2.2
      (Or.inl rfl)
  refine ⟨sim1, s1, h0, h1, ?_, h2⟩
  rw [h4 (by simp [exampleForked])]
  rfl

/-- Claim C27 (a single daughter is the left one). When every segment satisfies
"`daughter_right` set implies `daughter_left` set", so does every segment after a normal
return of `RemoveDaughter`, `UpdateRelative`, `Bifurcate`, `Branch` and
`SplitNeuriteElement`, called on any object with any arguments. Moreover, for a segment
`n` (of any state): a `RemoveDaughter(d)` that returns leaves `daughter_right` unset, and
when `d` is the left and not the right daughter it returns and moves the right daughter
into the left slot. -/
theorem C27_single_daughter_is_left_invariant (env : Env) (sim : Simulation)
    (h : sim.SingleIsLeft) :
    (∀ ptr d sim1, Op.RemoveDaughter ptr d sim = Result.ok () sim1 → sim1.SingleIsLeft) ∧
    (∀ ptr old_relative new_relative sim1,
      Op.UpdateRelative ptr old_relative new_relative sim = Result.ok () sim1 →
        sim1.SingleIsLeft) ∧
    (∀ this length d1 d2 dir1 dir2 lr sim1,
      Op.Bifurcate env this length d1 d2 dir1 dir2 sim = Result.ok lr sim1 →
        sim1.SingleIsLeft) ∧
    (∀ this diameter direction length b sim1,
      Op.Branch env this diameter direction length sim = Result.ok b sim1 →
        sim1.SingleIsLeft) ∧
    (∀ this dp p sim1,
      Op.SplitNeuriteElement env this dp sim = Result.ok p sim1 → sim1.SingleIsLeft) ∧
    (∀ (n : NeuriteElement) d n1, n.RemoveDaughter d = some n1 → n1.daughter_right = none) ∧
    (∀ (n : NeuriteElement) d, n.daughter_left = some d → n.daughter_right ≠ some d →
      n.RemoveDaughter d =
        some { n with daughter_left := n.daughter_right, daughter_right := none }) := by
  refine ⟨fun ptr d sim1 => Op.RemoveDaughter_keeps_SingleIsLeft ptr d sim () sim1 h,
    fun ptr a b sim1 => Op.UpdateRelative_keeps_SingleIsLeft ptr a b sim () sim1 h,
    fun this length d1 d2 dir1 dir2 lr sim1 =>
      Op.Bifurcate_SingleIsLeft env this length d1 d2 dir1 dir2 sim lr sim1 h,
    fun this diameter direction length b sim1 =>
      Op.Branch_SingleIsLeft env this diameter direction length sim b sim1 h,
    fun this dp p sim1 => Op.SplitNeuriteElement_SingleIsLeft env this dp sim p sim1 h,
    fun n d n1 h1 => (NeuriteElement.RemoveDaughter_eq_some n d n1 h1).1, ?_⟩
  intro n d hl hr
  unfold NeuriteElement.RemoveDaughter
  rw [if_neg (fun hc => hr hc.symm), if_pos hl.symm]

theorem exampleFork_SingleIsLeft : exampleFork.SingleIsLeft := by
  intro uid n hn
  by_cases h1 : uid = 1
  · subst h1
    cases hn
    intro hc
    cases hc
  · by_cases h2 : uid = 2
    · subst h2
      cases hn
      intro _
      rfl
    · by_cases h3 : uid = 3
      · subst h3
        cases hn
        intro _
        rfl
      · by_cases h0 : uid = 0
        · subst h0
          cases hn
        · simp [exampleFork, h0, h1, h2, h3] at hn

/-- Claim C27, witness: in the example fork, removing the left daughter 2 of the segment
1 returns, and the invariant holds afterwards. -/
theorem C27_single_daughter_is_left_invariant_witness :
    exampleFork.SingleIsLeft ∧
    ∃ sim1, Op.RemoveDaughter (some 1) 2 exampleFork = Result.ok () sim1 ∧
      sim1.SingleIsLeft := by
  refine ⟨exampleFork_SingleIsLeft, ?_⟩
  have hrun : ∃ sim1, Op.RemoveDaughter (some 1) 2 exampleFork = Result.ok () sim1 := by
    simp [Op.RemoveDaughter, Op.deref, Op.setNeurite_apply, Op.setObject_apply, exampleFork,
      exampleForked, NeuriteElement.RemoveDaughter]
  obtain ⟨sim1, h1⟩ := hrun
  exact ⟨sim1, h1,
    (C27_single_daughter_is_left_invariant exampleEnv exampleFork exampleFork_SingleIsLeft).1
      (some 1) 2 sim1 h1⟩

/-! ## Growth of a terminal segment -/

theorem Math.Add_comm (a b : Vec3) : Math.Add a b = Math.Add b a := by
  unfold Math.Add
  ext <;> simp [add_comm]

theorem Math.Add_Subtract_cancel (a b : Vec3) : Math.Subtract (Math.Add a b) a = b := by
  unfold Math.Subtract Math.Add
  ext <;> simp

/-- Claim C23 (growth relaxes stress). For a terminal segment `this` whose mother can be
dereferenced, with attachment point `origin` at its mother, and a non-zero direction:
`MovePointMass(speed, direction)` returns; afterwards `mass_location` is the old one plus
`speed · time_step · direction / ‖direction‖` (a move by `|speed · time_step|`),
`tension = 0` whatever it was, and `resting_length = actual_length =
‖mass_location − origin‖`; the other objects are as before. -/
theorem C23_MovePointMass_relaxes_tension (env : Env) (sim : Simulation) (this m : Nat)
    (s : NeuriteElement) (mo : SimObject) (speed : ℝ) (direction : Vec3)
    (hs : sim.objects this = some (SimObject.neurite s)) (hterm : s.daughter_left = none)
    (hm : s.mother = some m) (hmo : sim.objects m = some mo)
    (hdir : direction ≠ ⟨0, 0, 0⟩) :
    ∃ origin, Op.OriginOf s.mother this sim = Result.ok origin sim ∧
      ∃ sim1 n1, Op.MovePointMass env this speed direction sim = Result.ok () sim1 ∧
        sim1.objects this = some (SimObject.neurite n1) ∧
        n1.mass_location =
          Math.Add s.mass_location
            (Math.ScalarMult (speed * env.param.simulation_time_step)
              (Math.ScalarMult (1 / Math.Norm direction) direction)) ∧
        Math.Norm (Math.Subtract n1.mass_location s.mass_location) =
          |speed * env.param.simulation_time_step| ∧
        n1.tension = 0 ∧
        n1.resting_length = n1.actual_length ∧
        n1.actual_length = Math.Norm (Math.Subtract n1.mass_location origin) ∧
        (∀ uid, uid ≠ this → sim1.objects uid = sim.objects uid) := by
  have hmove : Math.Norm (Math.Subtract
      (Math.Add s.mass_location
        (Math.ScalarMult (speed * env.param.simulation_time_step)
          (Math.Normalize direction))) s.mass_location) =
      |speed * env.param.simulation_time_step| := by
    rw [Math.Add_Subtract_cancel, Math.Norm_ScalarMult, Math.Norm_Normalize hdir, mul_one]
  have hcomm := Math.Add_comm
    (Math.ScalarMult (speed * env.param.simulation_time_step) (Math.Normalize direction))
    s.mass_location
  rw [← Math.Normalize_eq]
  cases mo with
  | soma so =>
    refine ⟨so.OriginOf this, by simp [Op.OriginOf, Op.deref, hm, hmo], ?_⟩
    simp [Op.MovePointMass, Op.modify, Op.getNeurite_apply, Op.setNeurite_apply,
      Op.setObject_apply, Op.UpdateLocalCoordinateAxis, Op.OriginOf, Op.deref, hs, hm, hmo,
      hterm, Function.update_apply, NeuriteElement.UpdateVolume,
      NeuriteElement.SetRestingLengthForDesiredTension, Math.Norm_eq_sqrt_Dot, hcomm]
    refine ⟨?_, ?_⟩
    · rw [← Math.Norm_eq_sqrt_Dot]
      exact hmove
    · intro uid hu
      simp [hu]
  | neurite mn =>
    refine ⟨mn.mass_location, by simp [Op.OriginOf, Op.deref, hm, hmo], ?_⟩
    simp [Op.MovePointMass, Op.modify, Op.getNeurite_apply, Op.setNeurite_apply,
      Op.setObject_apply, Op.UpdateLocalCoordinateAxis, Op.OriginOf, Op.deref, hs, hm, hmo,
      hterm, Function.update_apply, NeuriteElement.UpdateVolume,
      NeuriteElement.SetRestingLengthForDesiredTension, Math.Norm_eq_sqrt_Dot, hcomm]
    refine ⟨?_, ?_⟩
    · rw [← Math.Norm_eq_sqrt_Dot]
      exact hmove
    · intro uid hu
      simp [hu]

/-- Claim C23, witness: the example segment (from the origin to `(1, 0, 0)`) grown at
speed 1 in the direction `(0, 2, 0)`, with time step 1. -/
theorem C23_MovePointMass_relaxes_tension_witness :
    ∃ origin, Op.OriginOf exampleSegment.mother 1 exampleSim = Result.ok origin exampleSim ∧
      ∃ sim1 n1, Op.MovePointMass exampleEnv 1 1 ⟨0, 2, 0⟩ exampleSim = Result.ok () sim1 ∧
        sim1.objects 1 = some (SimObject.neurite n1) ∧
        n1.mass_location =
          Math.Add exampleSegment.mass_location
            (Math.ScalarMult (1 * exampleEnv.param.simulation_time_step)
              (Math.ScalarMult (1 / Math.Norm ⟨0, 2, 0⟩) ⟨0, 2, 0⟩)) ∧
        Math.Norm (Math.Subtract n1.mass_location exampleSegment.mass_location) =
          |1 * exampleEnv.param.simulation_time_step| ∧
        n1.tension = 0 ∧
        n1.resting_length = n1.actual_length ∧
        n1.actual_length = Math.Norm (Math.Subtract n1.mass_location origin) ∧
        (∀ uid, uid ≠ 1 → sim1.objects uid = exampleSim.objects uid) :=
  C23_MovePointMass_relaxes_tension exampleEnv exampleSim 1 0 exampleSegment
    (SimObject.soma exampleSoma) 1 ⟨0, 2, 0⟩ rfl rfl rfl rfl (by simp)

/-! ## The directions of a bifurcation -/

/-- The run of `Bifurcate` on a terminal segment: the spring axis, the length and the
position of the two daughters. -/
theorem Bifurcate_axes (env : Env) (sim : Simulation) (this : Nat) (s : NeuriteElement)
    (length d1 d2 : ℝ) (dir1 dir2 : Vec3)
    (hs : sim.objects this = some (SimObject.neurite s)) (hterm : s.daughter_left = none)
    (hlt : this < sim.next_uid) :
    ∃ sim1 nl nr ns, Op.Bifurcate env this length d1 d2 dir1 dir2 sim =
        Result.ok (sim.next_uid, sim.next_uid + 1) sim1 ∧
      sim1.objects sim.next_uid = some (SimObject.neurite nl) ∧
      sim1.objects (sim.next_uid + 1) = some (SimObject.neurite nr) ∧
      sim1.objects this = some (SimObject.neurite ns) ∧
      ns.spring_axis = s.spring_axis ∧
      nl.spring_axis = Math.ScalarMult length (Math.Normalize
        (if Math.AngleRadian s.spring_axis dir1 > Math.kPi / 2 then
          Math.Add dir1 (Math.ScalarMult (-1) (Math.ProjectionOnto dir1 s.spring_axis))
        else dir1)) ∧
      nr.spring_axis = Math.ScalarMult length (Math.Normalize
        (if Math.AngleRadian s.spring_axis dir2 > Math.kPi / 2 then
          Math.Add dir2 (Math.ScalarMult (-1) (Math.ProjectionOnto dir2 s.spring_axis))
        else dir2)) ∧
      nl.actual_length = Math.Norm nl.spring_axis ∧
      nr.actual_length = Math.Norm nr.spring_axis ∧
      nl.mass_location = Math.Add s.mass_location nl.spring_axis ∧
      nr.mass_location = Math.Add s.mass_location nr.spring_axis := by
  have h1 : this ≠ sim.next_uid := by omega
  have h2 : this ≠ sim.next_uid + 1 := by omega
  have h1' : sim.next_uid ≠ this := by omega
  have h2' : sim.next_uid + 1 ≠ this := by omega
  simp [Op.Bifurcate, Op.InitializeNeuriteBifurcation, Op.modify, Op.getNeurite_apply,
    Op.setNeurite_apply, Op.setObject_apply, Op.GetInstance_apply,
    Op.UpdateLocalCoordinateAxis, Op.UpdateDependentPhysicalVariables, Op.OriginOf, Op.deref,
    hs, hterm, h1, h2, h1', h2', Function.update_apply,
    NeuriteElement.UpdateDependentPhysicalVariables_spring_axis,
    NeuriteElement.UpdateDependentPhysicalVariables_actual_length,
    NeuriteElement.SetMassLocation, Math.Subtract_Add_cancel, Math.Norm_eq_sqrt_Dot]

theorem Math.AngleRadian_gt_iff {a d : Vec3} (ha : a ≠ ⟨0, 0, 0⟩) (hd : d ≠ ⟨0, 0, 0⟩) :
    Math.AngleRadian a d > Math.kPi / 2 ↔ Math.Dot a d < 0 := by
  have hpos : 0 < Math.Norm a * Math.Norm d := mul_pos (Math.Norm_pos ha) (Math.Norm_pos hd)
  unfold Math.AngleRadian Math.kPi
  rw [gt_iff_lt, ← not_le, Real.arccos_le_pi_div_two, not_le, div_neg_iff]
  constructor
  · rintro (⟨_, h⟩ | ⟨h, _⟩)
    · exact absurd hpos (not_lt.2 (le_of_lt h))
    · exact h
  · intro h
    exact Or.inr ⟨h, hpos⟩

/-- The direction minus its projection onto the axis is perpendicular to the axis. -/
theorem Math.Dot_reject (a d : Vec3) (ha : a ≠ ⟨0, 0, 0⟩) :
    Math.Dot (Math.Add d (Math.ScalarMult (-1) (Math.ProjectionOnto d a))) a = 0 := by
  have hpos : Math.Dot a a ≠ 0 := ne_of_gt (Math.Dot_self_pos ha)
  unfold Math.ProjectionOnto Math.Add Math.ScalarMult
  unfold Math.Dot at hpos ⊢
  simp only
  field_simp
  ring

/-- The direction minus its projection onto the axis vanishes only for a multiple of the
axis. -/
theorem Math.reject_eq_zero (a d : Vec3)
    (h : Math.Add d (Math.ScalarMult (-1) (Math.ProjectionOnto d a)) = ⟨0, 0, 0⟩) :
    d = Math.ScalarMult (Math.Dot d a / Math.Dot a a) a := by
  unfold Math.ProjectionOnto Math.Add Math.ScalarMult at h
  unfold Math.ScalarMult
  have hx := congrArg Vec3.x h
  have hy := congrArg Vec3.y h
  have hz := congrArg Vec3.z h
  simp only at hx hy hz
  ext
  · simp only
    linarith
  · simp only
    linarith
  · simp only
    linarith

/-- The spring axis `InitializeNeuriteBifurcation` gives a daughter (lines 1288-1298), for
an axis `a ≠ 0` of the mother, a positive length and a non-zero direction that is not a
negative multiple of `a`: it has norm `length`, a non-negative dot product with `a`, and
for an angle above 90° it is `length · normalize(direction − projection)`, perpendicular
to `a`. -/
theorem Math.bifurcation_axis (a d : Vec3) (length : ℝ) (ha : a ≠ ⟨0, 0, 0⟩)
    (hd : d ≠ ⟨0, 0, 0⟩) (hlen : 0 < length)
    (hanti : ∀ c : ℝ, c < 0 → d ≠ Math.ScalarMult c a) :
    Math.Norm (Math.ScalarMult length (Math.Normalize
      (if Math.AngleRadian a d > Math.kPi / 2 then
        Math.Add d (Math.ScalarMult (-1) (Math.ProjectionOnto d a))
      else d))) = length ∧
    0 ≤ Math.Dot (Math.ScalarMult length (Math.Normalize
      (if Math.AngleRadian a d > Math.kPi / 2 then
        Math.Add d (Math.ScalarMult (-1) (Math.ProjectionOnto d a))
      else d))) a ∧
    (Math.AngleRadian a d > Math.kPi / 2 →
      Math.ScalarMult length (Math.Normalize
        (if Math.AngleRadian a d > Math.kPi / 2 then
          Math.Add d (Math.ScalarMult (-1) (Math.ProjectionOnto d a))
        else d)) =
        Math.ScalarMult length (Math.Normalize
          (Math.Subtract d (Math.ProjectionOnto d a))) ∧
      Math.Dot (Math.ScalarMult length (Math.Normalize
        (Math.Subtract d (Math.ProjectionOnto d a)))) a = 0) := by
  have hsub : Math.Add d (Math.ScalarMult (-1) (Math.ProjectionOnto d a)) =
      Math.Subtract d (Math.ProjectionOnto d a) := by
    unfold Math.Add Math.Subtract Math.ScalarMult
    ext <;> simp <;> ring
  by_cases hang : Math.AngleRadian a d > Math.kPi / 2
  · have hdot : Math.Dot a d < 0 := (Math.AngleRadian_gt_iff ha hd).1 hang
    have hne : Math.Add d (Math.ScalarMult (-1) (Math.ProjectionOnto d a)) ≠ ⟨0, 0, 0⟩ := by
      intro h0
      refine hanti _ ?_ (Math.reject_eq_zero a d h0)
      apply div_neg_of_neg_of_pos _ (Math.Dot_self_pos ha)
      rw [Math.Dot_comm]
      exact hdot
    have hperp : Math.Dot (Math.ScalarMult length (Math.Normalize
        (Math.Add d (Math.ScalarMult (-1) (Math.ProjectionOnto d a))))) a = 0 := by
      rw [Math.Normalize_eq, Math.Dot_ScalarMult_left, Math.Dot_ScalarMult_left,
        Math.Dot_reject a d ha]
      ring
    rw [if_pos hang]
    refine ⟨?_, le_of_eq hperp.symm, fun _ => ⟨by rw [hsub], ?_⟩⟩
    · rw [Math.Norm_ScalarMult, Math.Norm_Normalize hne, mul_one, abs_of_pos hlen]
    · rw [← hsub]
      exact hperp
  · have hdot : 0 ≤ Math.Dot a d := by
      by_contra hc
      exact hang ((Math.AngleRadian_gt_iff ha hd).2 (not_le.1 hc))
    rw [if_neg hang]
    refine ⟨?_, ?_, fun h => absurd h hang⟩
    · rw [Math.Norm_ScalarMult, Math.Norm_Normalize hd, mul_one, abs_of_pos hlen]
    · rw [Math.Normalize_eq, Math.Dot_ScalarMult_left, Math.Dot_ScalarMult_left,
        Math.Dot_comm]
      have hn : 0 < Math.Norm d := Math.Norm_pos hd
      positivity

/-- Claim C21, counterexample. `Bifurcate` with length 1 on the example segment, which is
terminal and has the spring axis `a = (1, 0, 0)`, and the non-zero requested direction
`(−1, 0, 0) = −a` for the left daughter: the angle with `a` is above 90°, the direction
minus its projection onto `a` is the zero vector, and the left daughter is created with
the zero vector as `spring_axis` and `actual_length = 0`, not the length 1. -/
theorem C21_bifurcation_backward_direction_counterexample :
    exampleSegment.daughter_left = none ∧ exampleSegment.spring_axis = ⟨1, 0, 0⟩ ∧
    Math.AngleRadian exampleSegment.spring_axis ⟨-1, 0, 0⟩ > Math.kPi / 2 ∧
    ∃ sim1 nl, Op.Bifurcate exampleEnv 1 1 1 1 ⟨-1, 0, 0⟩ ⟨0, 1, 0⟩ exampleSim =
        Result.ok (2, 3) sim1 ∧
      sim1.objects 2 = some (SimObject.neurite nl) ∧
      nl.spring_axis = ⟨0, 0, 0⟩ ∧ nl.actual_length = 0 ∧ nl.actual_length ≠ 1 := by
  have hsa : exampleSegment.spring_axis = ⟨1, 0, 0⟩ := rfl
  have hang : Math.AngleRadian exampleSegment.spring_axis ⟨-1, 0, 0⟩ > Math.kPi / 2 := by
    rw [hsa, Math.AngleRadian_gt_iff (by simp) (by simp)]
    norm_num [Math.Dot]
  obtain ⟨sim1, nl, nr, ns, h0, hl, -, -, -, hax, -, hlen, -⟩ :=
    Bifurcate_axes exampleEnv exampleSim 1 exampleSegment 1 1 1 ⟨-1, 0, 0⟩ ⟨0, 1, 0⟩ rfl rfl
      (by decide)
  have hzero : nl.spring_axis = ⟨0, 0, 0⟩ := by
    rw [hax, if_pos hang, hsa]
    simp [Math.ScalarMult, Math.Normalize, Math.Add, Math.ProjectionOnto, Math.Dot]
  have hl0 : nl.actual_length = 0 := by
    rw [hlen, hzero]
    simp [Math.Norm]
  exact ⟨rfl, hsa, hang, sim1, nl, h0, hl, hzero, hl0, by rw [hl0]; norm_num⟩

/-- Claim C21, amended. For a terminal segment `this` with spring axis `a ≠ 0`, a length
`> 0` and two non-zero requested directions, neither a negative multiple of `a`:
`Bifurcate` returns two daughters; each has `actual_length = length` and a `spring_axis`
whose dot product with `a` is non-negative, and when its requested direction makes an
angle above 90° with `a`, its `spring_axis` is
`length · normalize(direction − projection of direction onto a)`, perpendicular to `a`.
The spring axis of the mother is as before. -/
theorem C21_bifurcation_is_forward_biased (env : Env) (sim : Simulation) (this : Nat)
    (s : NeuriteElement) (length d1 d2 : ℝ) (dir1 dir2 : Vec3)
    (hs : sim.objects this = some (SimObject.neurite s)) (hterm : s.daughter_left = none)
    (hfresh : sim.Fresh) (ha : s.spring_axis ≠ ⟨0, 0, 0⟩) (hlen : 0 < length)
    (hd1 : dir1 ≠ ⟨0, 0, 0⟩) (hd2 : dir2 ≠ ⟨0, 0, 0⟩)
    (hanti1 : ∀ c : ℝ, c < 0 → dir1 ≠ Math.ScalarMult c s.spring_axis)
    (hanti2 : ∀ c : ℝ, c < 0 → dir2 ≠ Math.ScalarMult c s.spring_axis) :
    ∃ sim1 nl nr ns, Op.Bifurcate env this length d1 d2 dir1 dir2 sim =
        Result.ok (sim.next_uid, sim.next_uid + 1) sim1 ∧
      sim1.objects sim.next_uid = some (SimObject.neurite nl) ∧
      sim1.objects (sim.next_uid + 1) = some (SimObject.neurite nr) ∧
      sim1.objects this = some (SimObject.neurite ns) ∧
      ns.spring_axis = s.spring_axis ∧
      nl.actual_length = length ∧ nr.actual_length = length ∧
      0 ≤ Math.Dot nl.spring_axis s.spring_axis ∧
      0 ≤ Math.Dot nr.spring_axis s.spring_axis ∧
      (Math.AngleRadian s.spring_axis dir1 > Math.kPi / 2 →
        nl.spring_axis = Math.ScalarMult length (Math.Normalize
          (Math.Subtract dir1 (Math.ProjectionOnto dir1 s.spring_axis))) ∧
        Math.Dot nl.spring_axis s.spring_axis = 0) ∧
      (Math.AngleRadian s.spring_axis dir2 > Math.kPi / 2 →
        nr.spring_axis = Math.ScalarMult length (Math.Normalize
          (Math.Subtract dir2 (Math.ProjectionOnto dir2 s.spring_axis))) ∧
        Math.Dot nr.spring_axis s.spring_axis = 0) := by
  obtain ⟨sim1, nl, nr, ns, h0, hl, hr, hn, hsa, haxl, haxr, hlenl, hlenr, -, -⟩ :=
    Bifurcate_axes env sim this s length d1 d2 dir1 dir2 hs hterm
      (Simulation.lt_next_uid hfresh hs)
  obtain ⟨l1, l2, l3⟩ := Math.bifurcation_axis s.spring_axis dir1 length ha hd1 hlen hanti1
  obtain ⟨r1, r2, r3⟩ := Math.bifurcation_axis s.spring_axis dir2 length ha hd2 hlen hanti2
  rw [← haxl] at l1 l2 l3
  rw [← haxr] at r1 r2 r3
  refine ⟨sim1, nl, nr, ns, h0, hl, hr, hn, hsa, by rw [hlenl, l1], by rw [hlenr, r1], l2, r2,
    ?_, ?_⟩
  · intro h
    obtain ⟨e1, e2⟩ := l3 h
    exact ⟨e1, by rw [e1]; exact e2⟩
  · intro h
    obtain ⟨e1, e2⟩ := r3 h
    exact ⟨e1, by rw [e1]; exact e2⟩

/-- Claim C21, witness: `Bifurcate` with length 2 on the example segment (spring axis
`(1, 0, 0)`) with the requested directions `(−1, 1, 0)`, which is turned to the
perpendicular, and `(1, 1, 0)`. -/
theorem C21_bifurcation_is_forward_biased_witness :
    ∃ sim1 nl nr, Op.Bifurcate exampleEnv 1 2 1 1 ⟨-1, 1, 0⟩ ⟨1, 1, 0⟩ exampleSim =
        Result.ok (exampleSim.next_uid, exampleSim.next_uid + 1) sim1 ∧
      sim1.objects exampleSim.next_uid = some (SimObject.neurite nl) ∧
      sim1.objects (exampleSim.next_uid + 1) = some (SimObject.neurite nr) ∧
      nl.actual_length = 2 ∧ nr.actual_length = 2 ∧
      0 ≤ Math.Dot nl.spring_axis exampleSegment.spring_axis ∧
      0 ≤ Math.Dot nr.spring_axis exampleSegment.spring_axis := by
  obtain ⟨sim1, nl, nr, ns, h0, hl, hr, -, -, a1, a2, a3, a4, -, -⟩ :=
    C21_bifurcation_is_forward_biased exampleEnv exampleSim 1 exampleSegment 2 1 1
      ⟨-1, 1, 0⟩ ⟨1, 1, 0⟩ rfl rfl exampleSim_Fresh
      (by simp [exampleSegment]) (by norm_num) (by simp) (by simp)
      (fun c _ h => by
        have hy := congrArg Vec3.y h
        simp [Math.ScalarMult, exampleSegment] at hy)
      (fun c _ h => by
        have hy := congrArg Vec3.y h
        simp [Math.ScalarMult, exampleSegment] at hy)
  exact ⟨sim1, nl, nr, h0, hl, hr, a1, a2, a3, a4⟩

/-! ## The force solver: `CalculateDisplacement` -/

namespace Op

/-- A daughter's `ForceTransmittedFromDaugtherToMother` writes nothing. -/
theorem ForceTransmittedFromDaugtherToMother_cases (daughter mother : Nat)
    (sim : Simulation) :
    (∃ f, ForceTransmittedFromDaugtherToMother daughter mother sim = Result.ok f sim) ∨
    ForceTransmittedFromDaugtherToMother daughter mother sim =
      Result.fatal FatalError.not_the_mother sim ∨
    ForceTransmittedFromDaugtherToMother daughter mother sim = Result.fault := by
  unfold ForceTransmittedFromDaugtherToMother
  rw [bind_apply, getNeurite_apply]
  cases hd : sim.objects daughter with
  | none => exact Or.inr (Or.inr rfl)
  | some o =>
    cases o with
    | soma so => exact Or.inr (Or.inr rfl)
    | neurite nd =>
      cases hf : nd.ForceTransmittedFromDaugtherToMother mother with
      | none =>
        refine Or.inr (Or.inl ?_)
        simp [hf]
      | some f =>
        refine Or.inl ⟨f, ?_⟩
        simp [hf]

/-- The test for a direct relative writes nothing. -/
theorem IsExcludedRelative_cases (self : NeuriteElement) (neighbor : Nat) (nb : SimObject)
    (sim : Simulation) :
    (∃ b, IsExcludedRelative self neighbor nb sim = Result.ok b sim) ∨
    IsExcludedRelative self neighbor nb sim = Result.fault := by
  unfold IsExcludedRelative
  cases nb with
  | neurite nn =>
    by_cases hd : self.daughter_left = some neighbor ∨ self.daughter_right = some neighbor
    · exact Or.inl ⟨true, by simp [hd]⟩
    · cases hm : self.mother with
      | none => exact Or.inr (by simp [hd, deref, hm])
      | some m =>
        cases hmo : sim.objects m with
        | none => exact Or.inr (by simp [hd, deref, hm, hmo])
        | some mo =>
          cases mo with
          | soma so => exact Or.inl ⟨false, by simp [hd, deref, hm, hmo]⟩
          | neurite mn => exact Or.inl ⟨decide (m = neighbor), by simp [hd, deref, hm, hmo]⟩
  | soma ns =>
    cases hm : self.mother with
    | none => exact Or.inr (by simp [deref, hm])
    | some m =>
      cases hmo : sim.objects m with
      | none => exact Or.inr (by simp [deref, hm, hmo])
      | some mo =>
        cases mo with
        | soma so => exact Or.inl ⟨decide (m = neighbor), by simp [deref, hm, hmo]⟩
        | neurite mn => exact Or.inl ⟨false, by simp [deref, hm, hmo]⟩

/-- The visit of one neighbour writes nothing and adds a zero force: it can only set the
flag `has_neurite_neighbor`. -/
theorem calculate_neighbor_forces_cases (self : NeuriteElement) (acc : NeighborForces)
    (neighbor : Nat) (sim : Simulation) :
    (∃ b, calculate_neighbor_forces self acc neighbor sim =
      Result.ok { acc with has_neurite_neighbor := b } sim) ∨
    calculate_neighbor_forces self acc neighbor sim = Result.fault := by
  unfold calculate_neighbor_forces
  cases hn : sim.objects neighbor with
  | none => exact Or.inr (by simp [deref, hn])
  | some nb =>
    rcases IsExcludedRelative_cases self neighbor nb sim with ⟨b, hb⟩ | hb
    · cases b with
      | true =>
        exact Or.inl ⟨acc.has_neurite_neighbor, by simp [deref, hn, hb]⟩
      | false =>
        cases nb with
        | soma ns =>
          exact Or.inl ⟨acc.has_neurite_neighbor, by simp [deref, hn, hb]⟩
        | neurite nn =>
          exact Or.inl ⟨true, by simp [deref, hn, hb, Math.ScalarMult4]⟩
    · exact Or.inr (by simp [deref, hn, hb])

/-- The visits of the neighbours write nothing and add a zero force. -/
theorem visit_neighbors_cases (self : NeuriteElement) (neighbors : List Nat) :
    ∀ (acc : NeighborForces) (sim : Simulation),
      (∃ b, visit_neighbors self neighbors acc sim =
        Result.ok { acc with has_neurite_neighbor := b } sim) ∨
      visit_neighbors self neighbors acc sim = Result.fault := by
  induction neighbors with
  | nil =>
    intro acc sim
    exact Or.inl ⟨acc.has_neurite_neighbor, rfl⟩
  | cons neighbor rest ih =>
    intro acc sim
    unfold visit_neighbors
    rw [bind_apply]
    rcases calculate_neighbor_forces_cases self acc neighbor sim with ⟨b, hb⟩ | hb
    · rw [hb]
      rcases ih { acc with has_neurite_neighbor := b } sim with ⟨c, hc⟩ | hc
      · exact Or.inl ⟨c, hc⟩
      · exact Or.inr hc
    · rw [hb]
      exact Or.inr rfl

end Op

namespace Op

theorem Reads_pure {α : Type} (a : α) (sim : Simulation) (Q : α → Prop) (h : Q a) :
    Reads (pure a) sim Q :=
  Or.inl ⟨a, rfl, h⟩

theorem Reads_bind {α β : Type} {m : Op α} {f : α → Op β} {sim : Simulation}
    {P : α → Prop} {Q : β → Prop} (hm : Reads m sim P)
    (hf : ∀ a, P a → Reads (f a) sim Q) : Reads (m >>= f) sim Q := by
  unfold Reads
  rw [bind_apply]
  rcases hm with ⟨a, ha, hP⟩ | ⟨e, he⟩ | hfault
  · rw [ha]
    exact hf a hP
  · rw [he]
    exact Or.inr (Or.inl ⟨e, rfl⟩)
  · rw [hfault]
    exact Or.inr (Or.inr rfl)

theorem Reads_getNeurite (uid : Nat) (sim : Simulation) :
    Reads (getNeurite uid) sim (fun n => sim.objects uid = some (SimObject.neurite n)) := by
  unfold Reads
  rw [getNeurite_apply]
  cases hs : sim.objects uid with
  | none => exact Or.inr (Or.inr rfl)
  | some o =>
    cases o with
    | soma so => exact Or.inr (Or.inr rfl)
    | neurite n => exact Or.inl ⟨n, rfl, rfl⟩

theorem Reads_ForceTransmittedFromDaugtherToMother (daughter mother : Nat)
    (sim : Simulation) :
    Reads (ForceTransmittedFromDaugtherToMother daughter mother) sim (fun _ => True) := by
  rcases ForceTransmittedFromDaugtherToMother_cases daughter mother sim with ⟨f, h⟩ | h | h
  · exact Or.inl ⟨f, h, trivial⟩
  · exact Or.inr (Or.inl ⟨_, h⟩)
  · exact Or.inr (Or.inr h)

theorem Reads_visit_neighbors (self : NeuriteElement) (neighbors : List Nat)
    (acc : NeighborForces) (sim : Simulation) :
    Reads (visit_neighbors self neighbors acc) sim
      (fun acc1 => acc1.force_from_neighbors = acc.force_from_neighbors ∧
        acc1.force_on_my_mothers_point_mass = acc.force_on_my_mothers_point_mass) := by
  rcases visit_neighbors_cases self neighbors acc sim with ⟨b, h⟩ | h
  · exact Or.inl ⟨_, h, rfl, rfl⟩
  · exact Or.inr (Or.inr h)

/-- Lines 619-725 of `CalculateDisplacement` write nothing, and the force they compute
for the point mass of the mother is the zero vector. -/
theorem Reads_ForceOnPointMass (query : Nat → ℝ → List Nat) (this : Nat)
    (squared_radius : ℝ) (sim : Simulation) :
    Reads (ForceOnPointMass query this squared_radius) sim
      (fun forces => forces.2 = ⟨0, 0, 0⟩) := by
  unfold ForceOnPointMass
  refine Reads_bind (Reads_getNeurite this sim) (fun s _ => ?_)
  have hjp : ∀ f : Vec3,
      Reads
        (visit_neighbors s (query this squared_radius)
            { force_from_neighbors := ⟨0, 0, 0⟩
              force_on_my_mothers_point_mass := ⟨0, 0, 0⟩
              has_neurite_neighbor := false } >>= fun acc =>
          pure
            (Math.Add (if acc.has_neurite_neighbor then Math.ScalarMult 0.01 f else f)
              acc.force_from_neighbors,
             acc.force_on_my_mothers_point_mass))
        sim (fun forces => forces.2 = ⟨0, 0, 0⟩) :=
    fun f => Reads_bind (Reads_visit_neighbors s _ _ sim)
      (fun acc hacc => Reads_pure _ sim _ hacc.2)
  dsimp only
  repeat' first
    | with_reducible exact hjp _
    | with_reducible refine Reads_bind (Reads_ForceTransmittedFromDaugtherToMother _ _ sim) ?_
    | with_reducible refine Reads_bind (Reads_pure _ sim (fun _ => True) trivial) ?_
    | with_reducible intro _ _
    | split

/-- `CalculateDisplacement` once the forces are known: it stores the force for the
mother and returns the displacement for the force on the point mass. -/
theorem CalculateDisplacement_of_forces (env : Env) (query : Nat → ℝ → List Nat)
    (this : Nat) (squared_radius : ℝ) (sim : Simulation) (s : NeuriteElement)
    (forces : Vec3 × Vec3)
    (hs : sim.objects this = some (SimObject.neurite s))
    (hF : ForceOnPointMass query this squared_radius sim = Result.ok forces sim) :
    CalculateDisplacement env query this squared_radius sim =
      Result.ok (DisplacementOfForce env s.adherence forces.1)
        { sim with
          objects := Function.update sim.objects this
            (some (SimObject.neurite
              { s with force_to_transmit_to_proximal_mass := forces.2 })) } := by
  unfold CalculateDisplacement
  simp [hF, modify, getNeurite_apply, setNeurite_apply, setObject_apply, hs]

/-- Every way `CalculateDisplacement` can end: a normal return after the one write of line
728, which stores the zero vector, or `Fatal` or a fault in the state of the call. -/
theorem CalculateDisplacement_cases (env : Env) (query : Nat → ℝ → List Nat)
    (this : Nat) (squared_radius : ℝ) (sim : Simulation) (s : NeuriteElement)
    (hs : sim.objects this = some (SimObject.neurite s)) :
    (∃ F, ForceOnPointMass query this squared_radius sim = Result.ok (F, ⟨0, 0, 0⟩) sim ∧
      CalculateDisplacement env query this squared_radius sim =
        Result.ok (DisplacementOfForce env s.adherence F)
          { sim with
            objects := Function.update sim.objects this
              (some (SimObject.neurite
                { s with force_to_transmit_to_proximal_mass := ⟨0, 0, 0⟩ })) }) ∨
    (∃ e, CalculateDisplacement env query this squared_radius sim = Result.fatal e sim) ∨
    CalculateDisplacement env query this squared_radius sim = Result.fault := by
  rcases Reads_ForceOnPointMass query this squared_radius sim with
    ⟨forces, hF, h0⟩ | ⟨e, he⟩ | hfault
  · refine Or.inl ⟨forces.1, ?_, ?_⟩
    · rw [hF, ← h0]
    · rw [CalculateDisplacement_of_forces env query this squared_radius sim s forces hs hF,
        h0]
  · refine Or.inr (Or.inl ⟨e, ?_⟩)
    unfold CalculateDisplacement
    rw [bind_apply, he]
  · refine Or.inr (Or.inr ?_)
    unfold CalculateDisplacement
    rw [bind_apply, hfault]

end Op

namespace Op

end Op

theorem Math.Norm_zero : Math.Norm ⟨0, 0, 0⟩ = 0 := by
  simp [Math.Norm]

theorem Math.ScalarMult_zero_left (a : Vec3) : Math.ScalarMult 0 a = ⟨0, 0, 0⟩ := by
  simp [Math.ScalarMult]

theorem Math.ScalarMult_one (a : Vec3) : Math.ScalarMult 1 a = a := by
  unfold Math.ScalarMult
  ext <;> simp

/-- The displacement for a force (lines 730-749): the three cases, the bound and the
direction. -/
theorem Op.DisplacementOfForce_spec (env : Env) (adherence : ℝ) (F : Vec3)
    (hM : 0 ≤ env.param.simulation_max_displacement) :
    (Math.Norm F < adherence → Op.DisplacementOfForce env adherence F = ⟨0, 0, 0⟩) ∧
    (adherence ≤ Math.Norm F → Math.Norm F ≤ env.param.simulation_max_displacement →
      Op.DisplacementOfForce env adherence F = F) ∧
    (adherence ≤ Math.Norm F → Math.Norm F > env.param.simulation_max_displacement →
      Op.DisplacementOfForce env adherence F =
        Math.ScalarMult (env.param.simulation_max_displacement / Math.Norm F) F) ∧
    Math.Norm (Op.DisplacementOfForce env adherence F) ≤
      env.param.simulation_max_displacement ∧
    ∃ c, 0 ≤ c ∧ Op.DisplacementOfForce env adherence F = Math.ScalarMult c F := by
  unfold Op.DisplacementOfForce
  by_cases h1 : Math.Norm F < adherence
  · rw [if_pos h1]
    refine ⟨fun _ => rfl, fun h => absurd h1 (not_lt.2 h), fun h => absurd h1 (not_lt.2 h),
      ?_, 0, le_refl 0, (Math.ScalarMult_zero_left F).symm⟩
    rw [Math.Norm_zero]
    exact hM
  · rw [if_neg h1]
    by_cases h2 : Math.Norm F > env.param.simulation_max_displacement
    · rw [if_pos h2]
      have hpos : 0 < Math.Norm F := lt_of_le_of_lt hM h2
      have hc : 0 ≤ env.param.simulation_max_displacement / Math.Norm F :=
        div_nonneg hM (le_of_lt hpos)
      refine ⟨fun h => absurd h h1, fun _ h => absurd h2 (not_lt.2 h), fun _ _ => rfl, ?_,
        _, hc, rfl⟩
      rw [Math.Norm_ScalarMult, abs_of_nonneg hc, div_mul_cancel₀ _ (ne_of_gt hpos)]
    · rw [if_neg h2]
      exact ⟨fun h => absurd h h1, fun _ _ => rfl, fun _ h => absurd h h2, not_lt.1 h2,
        1, zero_le_one, (Math.ScalarMult_one F).symm⟩

/-- Claim C28 (adherence threshold and displacement clamp). Let `F` be the total force
on the point mass of the segment `this`, as lines 619-725 compute it, and let the maximal
displacement `M` be non-negative. `CalculateDisplacement` returns the zero vector when
`‖F‖ < adherence`, `F` itself when `adherence ≤ ‖F‖ ≤ M`, and `(M / ‖F‖) · F` when
`‖F‖ ≥ adherence` and `‖F‖ > M`; the value returned has norm at most `M` and is a
non-negative multiple of `F`. (The sign of `adherence` plays no role.) -/
theorem C28_adherence_threshold_and_clamp (env : Env) (query : Nat → ℝ → List Nat)
    (this : Nat) (squared_radius : ℝ) (sim sim0 : Simulation) (s : NeuriteElement)
    (F Fm : Vec3)
    (hs : sim.objects this = some (SimObject.neurite s))
    (hF : Op.ForceOnPointMass query this squared_radius sim = Result.ok (F, Fm) sim0)
    (hM : 0 ≤ env.param.simulation_max_displacement) :
    ∃ v sim1, Op.CalculateDisplacement env query this squared_radius sim = Result.ok v sim1 ∧
      (Math.Norm F < s.adherence → v = ⟨0, 0, 0⟩) ∧
      (s.adherence ≤ Math.Norm F → Math.Norm F ≤ env.param.simulation_max_displacement →
        v = F) ∧
      (s.adherence ≤ Math.Norm F → Math.Norm F > env.param.simulation_max_displacement →
        v = Math.ScalarMult (env.param.simulation_max_displacement / Math.Norm F) F) ∧
      Math.Norm v ≤ env.param.simulation_max_displacement ∧
      ∃ c, 0 ≤ c ∧ v = Math.ScalarMult c F := by
  have hsim : sim0 = sim := by
    rcases Op.Reads_ForceOnPointMass query this squared_radius sim with
      ⟨forces, h, _⟩ | ⟨e, h⟩ | h
    · rw [h] at hF
      cases hF
      rfl
    · rw [h] at hF
      cases hF
    · rw [h] at hF
      cases hF
  subst hsim
  exact ⟨_, _,
    Op.CalculateDisplacement_of_forces env query this squared_radius sim0 s (F, Fm) hs hF,
    Op.DisplacementOfForce_spec env s.adherence F hM⟩

theorem exampleStretchedFork_forces :
    Op.ForceOnPointMass (fun _ _ => []) 2 1 exampleStretchedFork =
      Result.ok (⟨-2, 0, 0⟩, ⟨0, 0, 0⟩) exampleStretchedFork := by
  have hs : exampleStretchedFork.objects 2 = some (SimObject.neurite exampleStretched) := rfl
  simp [Op.ForceOnPointMass, Op.getNeurite_apply, hs, Op.visit_neighbors, exampleStretched,
    exampleTip, exampleSegment, Math.Add, Math.ScalarMult]

theorem Math.Norm_example_force : Math.Norm ⟨-2, 0, 0⟩ = 2 := by
  unfold Math.Norm
  rw [show ((-2 : ℝ) * -2 + 0 * 0 + 0 * 0) = 2 * 2 by norm_num]
  exact Real.sqrt_mul_self (by norm_num)

/-- Claim C28, witness: the stretched segment 2 of the example fork, without neighbours:
the force `(−2, 0, 0)` has norm 2, between the adherence 1 and the maximal displacement
3, and is the displacement returned. -/
theorem C28_adherence_threshold_and_clamp_witness :
    ∃ sim1, Op.CalculateDisplacement exampleEnv (fun _ _ => []) 2 1 exampleStretchedFork =
      Result.ok ⟨-2, 0, 0⟩ sim1 := by
  obtain ⟨v, sim1, h0, -, h2, -, -, -⟩ :=
    C28_adherence_threshold_and_clamp exampleEnv (fun _ _ => []) 2 1 exampleStretchedFork
      exampleStretchedFork exampleStretched ⟨-2, 0, 0⟩ ⟨0, 0, 0⟩ rfl
      exampleStretchedFork_forces (by norm_num [exampleEnv])
  refine ⟨sim1, ?_⟩
  rw [h0, h2 (by rw [Math.Norm_example_force]
                 norm_num [exampleStretched, exampleTip, exampleSegment, NeuriteElement.new,
                   NeuriteElement.UpdateVolume, exampleEnv])
    (by rw [Math.Norm_example_force]
        norm_num [exampleEnv])]

theorem Math.Norm_x_axis (x : ℝ) : Math.Norm ⟨x, 0, 0⟩ = |x| := by
  unfold Math.Norm
  simp only [mul_zero, add_zero]
  exact Real.sqrt_mul_self_eq_abs x

theorem exampleStretchedFork_forces_sibling :
    Op.ForceOnPointMass (fun _ _ => [3]) 2 1 exampleStretchedFork =
      Result.ok (⟨-0.02, 0, 0⟩, ⟨0, 0, 0⟩) exampleStretchedFork := by
  have hs : exampleStretchedFork.objects 2 = some (SimObject.neurite exampleStretched) := rfl
  have h3 : exampleStretchedFork.objects 3 = some (SimObject.neurite exampleSide) := rfl
  have h1 : exampleStretchedFork.objects 1 = some (SimObject.neurite exampleForked) := rfl
  simp [Op.ForceOnPointMass, Op.getNeurite_apply, hs, h3, h1, Op.visit_neighbors,
    Op.calculate_neighbor_forces, Op.IsExcludedRelative, Op.deref, exampleStretched,
    exampleTip, exampleSegment, Math.Add, Math.ScalarMult, Math.ScalarMult4]
  norm_num

theorem exampleStretchedFork_forces_mother :
    Op.ForceOnPointMass (fun _ _ => [1]) 2 1 exampleStretchedFork =
      Result.ok (⟨-2, 0, 0⟩, ⟨0, 0, 0⟩) exampleStretchedFork := by
  have hs : exampleStretchedFork.objects 2 = some (SimObject.neurite exampleStretched) := rfl
  have h1 : exampleStretchedFork.objects 1 = some (SimObject.neurite exampleForked) := rfl
  simp [Op.ForceOnPointMass, Op.getNeurite_apply, hs, h1, Op.visit_neighbors,
    Op.calculate_neighbor_forces, Op.IsExcludedRelative, Op.deref, exampleStretched,
    exampleTip, exampleSegment, Math.Add, Math.ScalarMult, Math.ScalarMult4]

/-- Claim C30 fails on the code for a sibling. In the example fork under tension the
segments 2 and 3 are the two daughters of the segment 1. For the segment 2 (tension 2,
adherence 1, maximal displacement 3) `CalculateDisplacement` returns `(−2, 0, 0)` when
the neighbour query visits no object, and also when it visits the mother 1; when it
visits the sibling 3, the sibling counts as a neurite neighbour, the force is scaled by
`0.01` and the displacement returned is the zero vector. -/
theorem C30_sibling_neighbour_changes_displacement :
    exampleStretchedFork.objects 1 = some (SimObject.neurite exampleForked) ∧
    exampleForked.daughter_left = some 2 ∧ exampleForked.daughter_right = some 3 ∧
    exampleStretchedFork.objects 2 = some (SimObject.neurite exampleStretched) ∧
    exampleStretchedFork.objects 3 = some (SimObject.neurite exampleSide) ∧
    exampleStretched.mother = some 1 ∧ exampleSide.mother = some 1 ∧
    (∃ sim1, Op.CalculateDisplacement exampleEnv (fun _ _ => []) 2 1 exampleStretchedFork =
      Result.ok ⟨-2, 0, 0⟩ sim1) ∧
    (∃ sim1, Op.CalculateDisplacement exampleEnv (fun _ _ => [1]) 2 1 exampleStretchedFork =
      Result.ok ⟨-2, 0, 0⟩ sim1) ∧
    (∃ sim1, Op.CalculateDisplacement exampleEnv (fun _ _ => [3]) 2 1 exampleStretchedFork =
      Result.ok ⟨0, 0, 0⟩ sim1) := by
  have hs : exampleStretchedFork.objects 2 = some (SimObject.neurite exampleStretched) := rfl
  have hadh : exampleStretched.adherence = 1 := rfl
  have hmax : exampleEnv.param.simulation_max_displacement = 3 := rfl
  have hmove : Op.DisplacementOfForce exampleEnv exampleStretched.adherence ⟨-2, 0, 0⟩ =
      ⟨-2, 0, 0⟩ := by
    unfold Op.DisplacementOfForce
    simp only [Math.Norm_x_axis, hadh, hmax]
    norm_num
  have hstay : Op.DisplacementOfForce exampleEnv exampleStretched.adherence ⟨-0.02, 0, 0⟩ =
      ⟨0, 0, 0⟩ := by
    have habs : |(-0.02 : ℝ)| = 0.02 := by
      rw [abs_of_neg (by norm_num)]
      norm_num
    unfold Op.DisplacementOfForce
    simp only [Math.Norm_x_axis, hadh, hmax, habs]
    norm_num
  refine ⟨rfl, rfl, rfl, rfl, rfl, rfl, rfl, ?_, ?_, ?_⟩
  · have h := Op.CalculateDisplacement_of_forces exampleEnv (fun _ _ => []) 2 1
      exampleStretchedFork exampleStretched _ hs exampleStretchedFork_forces
    rw [hmove] at h
    exact ⟨_, h⟩
  · have h := Op.CalculateDisplacement_of_forces exampleEnv (fun _ _ => [1]) 2 1
      exampleStretchedFork exampleStretched _ hs exampleStretchedFork_forces_mother
    rw [hmove] at h
    exact ⟨_, h⟩
  · have h := Op.CalculateDisplacement_of_forces exampleEnv (fun _ _ => [3]) 2 1
      exampleStretchedFork exampleStretched _ hs exampleStretchedFork_forces_sibling
    rw [hstay] at h
    exact ⟨_, h⟩

/-! ## The polar coordinates of a local point -/

/-- Claim C40 (local-polar-local round trip). For every local point `p = (x, y, z)`, the
points of the axis included, `TransformCoordinatesPolarToLocal` undoes
`TransformCoordinatesLocalToPolar`, and the polar image `(h, θ, r)` of `p` has `r ≥ 0`
and `−π < θ ≤ π`. -/
theorem C40_local_polar_round_trip (p : Vec3) :
    NeuriteElement.TransformCoordinatesPolarToLocal
        (NeuriteElement.TransformCoordinatesLocalToPolar p) = p ∧
    0 ≤ (NeuriteElement.TransformCoordinatesLocalToPolar p).z ∧
    -Real.pi < (NeuriteElement.TransformCoordinatesLocalToPolar p).y ∧
    (NeuriteElement.TransformCoordinatesLocalToPolar p).y ≤ Real.pi := by
  unfold NeuriteElement.TransformCoordinatesPolarToLocal
    NeuriteElement.TransformCoordinatesLocalToPolar atan2
  have habs : Real.sqrt (p.y * p.y + p.z * p.z) = Complex.abs ⟨p.y, p.z⟩ := by
    rw [Complex.abs_apply, Complex.normSq_apply]
  refine ⟨?_, Real.sqrt_nonneg _, Complex.neg_pi_lt_arg _, Complex.arg_le_pi _⟩
  simp only [habs]
  by_cases h0 : (⟨p.y, p.z⟩ : ℂ) = 0
  · have hy : p.y = 0 := congrArg Complex.re h0
    have hz : p.z = 0 := congrArg Complex.im h0
    rw [h0]
    ext
    · rfl
    · simp [hy]
    · simp [hz]
  · have hpos : Complex.abs ⟨p.y, p.z⟩ ≠ 0 := by
      rwa [Ne, map_eq_zero]
    ext
    · rfl
    · show Complex.abs ⟨p.y, p.z⟩ * Real.cos (Complex.arg ⟨p.y, p.z⟩) = p.y
      rw [Complex.cos_arg h0]
      field_simp
    · show Complex.abs ⟨p.y, p.z⟩ * Real.sin (Complex.arg ⟨p.y, p.z⟩) = p.z
      rw [Complex.sin_arg]
      field_simp

/-! ## The values of a range -/

/-- Claim C33 fails on the code. The range with `lower_bound = 0`, `upper_bound = 5` and
`stride = 4` (so `lower_bound ≤ upper_bound` and `stride > 0`) holds the values 0, 4 and,
clamped, the upper bound 5; `GetNumElements()` rounds `(5 − 0 + 4) / 4 = 2.25` to 2, so
that `GetValue(GetNumElements() − 1) = 4` is not the upper bound, which `GetValue(2)`
is. -/
theorem C33_Range_misses_upper_bound :
    (⟨0, 5, 4⟩ : Range).lower_bound ≤ (⟨0, 5, 4⟩ : Range).upper_bound ∧
    0 < (⟨0, 5, 4⟩ : Range).stride ∧
    (⟨0, 5, 4⟩ : Range).GetNumElements = 2 ∧
    (⟨0, 5, 4⟩ : Range).GetValue 0 = 0 ∧
    (⟨0, 5, 4⟩ : Range).GetValue ((⟨0, 5, 4⟩ : Range).GetNumElements - 1) = 4 ∧
    (⟨0, 5, 4⟩ : Range).GetValue ((⟨0, 5, 4⟩ : Range).GetNumElements - 1) ≠
      (⟨0, 5, 4⟩ : Range).upper_bound ∧
    (⟨0, 5, 4⟩ : Range).GetValue 2 = (⟨0, 5, 4⟩ : Range).upper_bound := by
  have hnum : (⟨0, 5, 4⟩ : Range).GetNumElements = 2 := by
    unfold Range.GetNumElements std_round
    simp only
    rw [if_pos (by norm_num)]
    rw [Int.floor_eq_iff]
    constructor <;> norm_num
  refine ⟨by norm_num, by norm_num, hnum, ?_, ?_, ?_, ?_⟩
  · norm_num [Range.GetValue]
  · rw [hnum]
    norm_num [Range.GetValue]
  · rw [hnum]
    norm_num [Range.GetValue]
  · norm_num [Range.GetValue]

/-! ## The geometry and the tension of a split -/

namespace NeuriteElement

@[simp] theorem Copy_spring_constant (self rhs : NeuriteElement) :
    (self.Copy rhs).spring_constant = rhs.spring_constant := rfl

@[simp] theorem Copy_diameter (self rhs : NeuriteElement) :
    (self.Copy rhs).diameter = rhs.diameter := rfl

@[simp] theorem UpdateRelative_mass_location (self : NeuriteElement) (a b : Nat) :
    (self.UpdateRelative a b).mass_location = self.mass_location := by
  unfold UpdateRelative
  split_ifs <;> rfl

end NeuriteElement

/-- The run of `SplitNeuriteElement` on a segment whose mother is another object, with
attachment point `origin`: positions, spring axes, lengths and tensions of the two
segments, as the code computes them. -/
theorem SplitNeuriteElement_mechanics (env : Env) (sim : Simulation) (this m : Nat)
    (s : NeuriteElement) (mo : SimObject) (dp : ℝ) (origin : Vec3)
    (hs : sim.objects this = some (SimObject.neurite s)) (hm : s.mother = some m)
    (hmo : sim.objects m = some mo) (hne : m ≠ this)
    (hlt : this < sim.next_uid) (hmlt : m < sim.next_uid)
    (horigin : Op.OriginOf (some m) this sim = Result.ok origin sim) :
    ∃ sim1 np ns, Op.SplitNeuriteElement env this dp sim = Result.ok sim.next_uid sim1 ∧
      sim1.objects sim.next_uid = some (SimObject.neurite np) ∧
      sim1.objects this = some (SimObject.neurite ns) ∧
      ns.mass_location = s.mass_location ∧
      np.mass_location = Math.Subtract s.mass_location (Math.ScalarMult dp s.spring_axis) ∧
      ns.spring_axis = Math.Subtract s.mass_location np.mass_location ∧
      np.spring_axis = Math.Subtract np.mass_location origin ∧
      ns.actual_length = Math.Norm ns.spring_axis ∧
      np.actual_length = Math.Norm np.spring_axis ∧
      ns.resting_length = s.resting_length * dp ∧
      np.resting_length = (1 - dp) * s.resting_length ∧
      ns.spring_constant = s.spring_constant ∧ np.spring_constant = s.spring_constant ∧
      ns.diameter = s.diameter ∧ np.diameter = s.diameter ∧
      np.branch_order = s.branch_order ∧
      ns.tension =
        (if |ns.actual_length - ns.resting_length| > 1e-13 then
          s.spring_constant * (ns.actual_length - ns.resting_length) / ns.resting_length
        else 0) ∧
      np.tension =
        (if |np.actual_length - np.resting_length| > 1e-13 then
          s.spring_constant * (np.actual_length - np.resting_length) / np.resting_length
        else 0) := by
  have h1 : this ≠ sim.next_uid := by omega
  have h1' : sim.next_uid ≠ this := by omega
  have h2 : m ≠ sim.next_uid := by omega
  have h2' : sim.next_uid ≠ m := by omega
  have hne' : this ≠ m := fun h => hne h.symm
  cases mo with
  | soma so =>
    simp [Op.OriginOf, Op.deref, hmo, NeuronSoma.OriginOf] at horigin
    simp [Op.SplitNeuriteElement, Op.InitializeSplitOrBranching, Op.HandleSplit, Op.modify,
      Op.getNeurite_apply, Op.setNeurite_apply, Op.setObject_apply, Op.GetInstance_apply,
      Op.UpdateLocalCoordinateAxis, Op.UpdateDependentPhysicalVariables, Op.OriginOf,
      Op.UpdateRelative, Op.deref, hs, hm, hmo, h1, h1', h2, h2', hne, hne',
      Function.update_apply, NeuriteElement.UpdateDependentPhysicalVariables_spring_axis,
      NeuriteElement.UpdateDependentPhysicalVariables_actual_length,
      NeuriteElement.UpdateDependentPhysicalVariables_tension, NeuronSoma.UpdateRelative,
      NeuronSoma.OriginOf, horigin]
  | neurite mn =>
    simp [Op.OriginOf, Op.deref, hmo] at horigin
    simp [Op.SplitNeuriteElement, Op.InitializeSplitOrBranching, Op.HandleSplit, Op.modify,
      Op.getNeurite_apply, Op.setNeurite_apply, Op.setObject_apply, Op.GetInstance_apply,
      Op.UpdateLocalCoordinateAxis, Op.UpdateDependentPhysicalVariables, Op.OriginOf,
      Op.UpdateRelative, Op.deref, hs, hm, hmo, h1, h1', h2, h2', hne, hne',
      Function.update_apply, NeuriteElement.UpdateDependentPhysicalVariables_spring_axis,
      NeuriteElement.UpdateDependentPhysicalVariables_actual_length,
      NeuriteElement.UpdateDependentPhysicalVariables_tension, horigin]

theorem Math.Subtract_Subtract_ScalarMult (p a : Vec3) (c : ℝ) :
    Math.Subtract p (Math.Subtract p (Math.ScalarMult c a)) = Math.ScalarMult c a := by
  unfold Math.Subtract Math.ScalarMult
  ext <;> simp

theorem Math.Subtract_ScalarMult_origin (p origin : Vec3) (c : ℝ) :
    Math.Subtract (Math.Subtract p (Math.ScalarMult c (Math.Subtract p origin))) origin =
      Math.ScalarMult (1 - c) (Math.Subtract p origin) := by
  unfold Math.Subtract Math.ScalarMult
  ext <;> simp <;> ring

/-- The two segments of a split of a segment that satisfies the geometric invariant, for
a distal portion in `(0, 1)`: the spring axes and the lengths. -/
theorem SplitNeuriteElement_axes (env : Env) (sim : Simulation) (this m : Nat)
    (s : NeuriteElement) (mo : SimObject) (dp : ℝ)
    (hs : sim.objects this = some (SimObject.neurite s)) (hm : s.mother = some m)
    (hmo : sim.objects m = some mo) (hne : m ≠ this) (hfresh : sim.Fresh)
    (hgeo : sim.Geometric this) (hdp0 : 0 < dp) (hdp1 : dp < 1) :
    ∃ sim1 np ns, Op.SplitNeuriteElement env this dp sim = Result.ok sim.next_uid sim1 ∧
      sim1.objects sim.next_uid = some (SimObject.neurite np) ∧
      sim1.objects this = some (SimObject.neurite ns) ∧
      ns.mass_location = s.mass_location ∧
      np.mass_location = Math.Subtract s.mass_location (Math.ScalarMult dp s.spring_axis) ∧
      ns.spring_axis = Math.ScalarMult dp s.spring_axis ∧
      ns.actual_length = dp * s.actual_length ∧
      np.spring_axis = Math.ScalarMult (1 - dp) s.spring_axis ∧
      np.actual_length = (1 - dp) * s.actual_length ∧
      ns.resting_length = s.resting_length * dp ∧
      np.resting_length = (1 - dp) * s.resting_length ∧
      ns.spring_constant = s.spring_constant ∧ np.spring_constant = s.spring_constant ∧
      ns.diameter = s.diameter ∧ np.diameter = s.diameter ∧
      np.branch_order = s.branch_order ∧
      ns.tension =
        (if |ns.actual_length - ns.resting_length| > 1e-13 then
          s.spring_constant * (ns.actual_length - ns.resting_length) / ns.resting_length
        else 0) ∧
      np.tension =
        (if |np.actual_length - np.resting_length| > 1e-13 then
          s.spring_constant * (np.actual_length - np.resting_length) / np.resting_length
        else 0) := by
  obtain ⟨n, origin, hn, horigin, haxis, hlen⟩ := hgeo
  rw [hs] at hn
  cases hn
  rw [hm] at horigin
  obtain ⟨sim1, np, ns, h0, hp, hn, a1, a2, a3, a4, a5, a6, a7, a8, a9, a10, a11, a12, a13,
      a14, a15⟩ :=
    SplitNeuriteElement_mechanics env sim this m s mo dp origin hs hm hmo hne
      (Simulation.lt_next_uid hfresh hs) (Simulation.lt_next_uid hfresh hmo) horigin
  have hsa : ns.spring_axis = Math.ScalarMult dp s.spring_axis := by
    rw [a3, a2, Math.Subtract_Subtract_ScalarMult]
  have hpa : np.spring_axis = Math.ScalarMult (1 - dp) s.spring_axis := by
    rw [a4, a2, haxis, Math.Subtract_ScalarMult_origin]
  have hsl : ns.actual_length = dp * s.actual_length := by
    rw [a5, hsa, Math.Norm_ScalarMult, abs_of_pos hdp0, hlen]
  have hpl : np.actual_length = (1 - dp) * s.actual_length := by
    rw [a6, hpa, Math.Norm_ScalarMult, abs_of_pos (by linarith), hlen]
  exact ⟨sim1, np, ns, h0, hp, hn, a1, a2, hsa, hsl, hpa, hpl, a7, a8, a9, a10, a11, a12, a13,
    a14, a15⟩

/-- Claim C34 (split geometry). For a segment `this` that satisfies the geometric
invariant, with spring axis `a` and length `L`, whose mother is another object, and a
distal portion `dp` in `(0, 1)`: `SplitNeuriteElement(dp)` returns the new segment `p`;
afterwards the `mass_location` of `this` is as before, `p.mass_location` is that point
minus `dp · a`, `this` has `spring_axis = dp · a` and `actual_length = dp · L`, `p` has
`spring_axis = (1 − dp) · a` and `actual_length = (1 − dp) · L`, the two lengths sum to
`L`, and `p` has the diameter and the branch order of `this`. -/
theorem C34_split_geometry (env : Env) (sim : Simulation) (this m : Nat)
    (s : NeuriteElement) (mo : SimObject) (dp : ℝ)
    (hs : sim.objects this = some (SimObject.neurite s)) (hm : s.mother = some m)
    (hmo : sim.objects m = some mo) (hne : m ≠ this) (hfresh : sim.Fresh)
    (hgeo : sim.Geometric this) (hdp0 : 0 < dp) (hdp1 : dp < 1) :
    ∃ p sim1 np ns, Op.SplitNeuriteElement env this dp sim = Result.ok p sim1 ∧
      sim1.objects p = some (SimObject.neurite np) ∧
      sim1.objects this = some (SimObject.neurite ns) ∧
      ns.mass_location = s.mass_location ∧
      np.mass_location = Math.Subtract s.mass_location (Math.ScalarMult dp s.spring_axis) ∧
      ns.spring_axis = Math.ScalarMult dp s.spring_axis ∧
      ns.actual_length = dp * s.actual_length ∧
      np.spring_axis = Math.ScalarMult (1 - dp) s.spring_axis ∧
      np.actual_length = (1 - dp) * s.actual_length ∧
      ns.actual_length + np.actual_length = s.actual_length ∧
      np.diameter = s.diameter ∧ np.branch_order = s.branch_order := by
  obtain ⟨sim1, np, ns, h0, hp, hn, a1, a2, a3, a4, a5, a6, -, -, -, -, -, a12, a13, -, -⟩ :=
    SplitNeuriteElement_axes env sim this m s mo dp hs hm hmo hne hfresh hgeo hdp0 hdp1
  refine ⟨_, sim1, np, ns, h0, hp, hn, a1, a2, a3, a4, a5, a6, ?_, a12, a13⟩
  rw [a4, a6]
  ring

/-- Claim C34, witness: the example segment (from the origin to `(1, 0, 0)`) split at the
distal portion 0.25. -/
theorem C34_split_geometry_witness :
    ∃ p sim1 np ns, Op.SplitNeuriteElement exampleEnv 1 0.25 exampleSim = Result.ok p sim1 ∧
      sim1.objects p = some (SimObject.neurite np) ∧
      sim1.objects 1 = some (SimObject.neurite ns) ∧
      ns.mass_location = exampleSegment.mass_location ∧
      np.mass_location =
        Math.Subtract exampleSegment.mass_location
          (Math.ScalarMult 0.25 exampleSegment.spring_axis) ∧
      ns.spring_axis = Math.ScalarMult 0.25 exampleSegment.spring_axis ∧
      ns.actual_length = 0.25 * exampleSegment.actual_length ∧
      np.spring_axis = Math.ScalarMult (1 - 0.25) exampleSegment.spring_axis ∧
      np.actual_length = (1 - 0.25) * exampleSegment.actual_length ∧
      ns.actual_length + np.actual_length = exampleSegment.actual_length ∧
      np.diameter = exampleSegment.diameter ∧
      np.branch_order = exampleSegment.branch_order :=
  C34_split_geometry exampleEnv exampleSim 1 0 exampleSegment (SimObject.soma exampleSoma)
    0.25 rfl rfl rfl (by decide) exampleSim_Fresh exampleSim_Geometric (by norm_num)
    (by norm_num)

/-- Claim C36 (split preserves tension). For a segment `this` that satisfies the
geometric invariant, with length `L`, resting length `R > 0` and spring constant `k`, whose mother
is another object, and a distal portion `dp` in `(0, 1)` with `|dp · (L − R)| > 1e-13`
and `|(1 − dp) · (L − R)| > 1e-13`: after `SplitNeuriteElement(dp)` the distal segment
`this` and the new proximal segment both have `tension = k · (L − R) / R`. (The
assumption `L > 0` of the claim is not needed.) -/
theorem C36_split_preserves_tension (env : Env) (sim : Simulation) (this m : Nat)
    (s : NeuriteElement) (mo : SimObject) (dp : ℝ)
    (hs : sim.objects this = some (SimObject.neurite s)) (hm : s.mother = some m)
    (hmo : sim.objects m = some mo) (hne : m ≠ this) (hfresh : sim.Fresh)
    (hgeo : sim.Geometric this) (hdp0 : 0 < dp) (hdp1 : dp < 1)
    (hR : 0 < s.resting_length)
    (hd : |dp * (s.actual_length - s.resting_length)| > 1e-13)
    (hp : |(1 - dp) * (s.actual_length - s.resting_length)| > 1e-13) :
    ∃ p sim1 np ns, Op.SplitNeuriteElement env this dp sim = Result.ok p sim1 ∧
      sim1.objects p = some (SimObject.neurite np) ∧
      sim1.objects this = some (SimObject.neurite ns) ∧
      ns.tension =
        s.spring_constant * (s.actual_length - s.resting_length) / s.resting_length ∧
      np.tension =
        s.spring_constant * (s.actual_length - s.resting_length) / s.resting_length := by
  obtain ⟨sim1, np, ns, h0, hp0, hn, -, -, -, a4, -, a6, a7, a8, -, -, -, -, -, a14, a15⟩ :=
    SplitNeuriteElement_axes env sim this m s mo dp hs hm hmo hne hfresh hgeo hdp0 hdp1
  have hdp1' : 0 < 1 - dp := by linarith
  refine ⟨_, sim1, np, ns, h0, hp0, hn, ?_, ?_⟩
  · rw [a14, a4, a7]
    have hcond : |dp * s.actual_length - s.resting_length * dp| > 1e-13 := by
      rw [show dp * s.actual_length - s.resting_length * dp =
        dp * (s.actual_length - s.resting_length) by ring]
      exact hd
    rw [if_pos hcond]
    field_simp
    ring
  · rw [a15, a6, a8]
    have hcond : |(1 - dp) * s.actual_length - (1 - dp) * s.resting_length| > 1e-13 := by
      rw [show (1 - dp) * s.actual_length - (1 - dp) * s.resting_length =
        (1 - dp) * (s.actual_length - s.resting_length) by ring]
      exact hp
    rw [if_pos hcond]
    field_simp
    ring

theorem exampleStretchedFork_Fresh : exampleStretchedFork.Fresh := by
  intro uid h
  have h4 : (4 : Nat) ≤ uid := h
  have h0 : uid ≠ 0 := by omega
  have h1 : uid ≠ 1 := by omega
  have h2 : uid ≠ 2 := by omega
  have h3 : uid ≠ 3 := by omega
  simp [exampleStretchedFork, h0, h1, h2, h3]

theorem exampleStretchedFork_Geometric : exampleStretchedFork.Geometric 2 := by
  refine ⟨exampleStretched, ⟨1, 0, 0⟩, rfl, ?_, ?_, ?_⟩
  · have h1 : exampleStretchedFork.objects 1 = some (SimObject.neurite exampleForked) := rfl
    simp [Op.OriginOf, Op.deref, exampleStretched, exampleTip, h1, exampleForked,
      exampleSegment]
  · simp [exampleStretched, exampleTip, exampleSegment, Math.Subtract]
    norm_num
  · simp [exampleStretched, exampleTip, exampleSegment, Math.Norm]

/-- Claim C36, witness: the stretched segment 2 of the example fork (`L = 1`, `R = 1/3`,
`k = 1`, tension 2) split in the middle. -/
theorem C36_split_preserves_tension_witness :
    ∃ p sim1 np ns, Op.SplitNeuriteElement exampleEnv 2 0.5 exampleStretchedFork =
        Result.ok p sim1 ∧
      sim1.objects p = some (SimObject.neurite np) ∧
      sim1.objects 2 = some (SimObject.neurite ns) ∧
      ns.tension =
        exampleStretched.spring_constant *
          (exampleStretched.actual_length - exampleStretched.resting_length) /
          exampleStretched.resting_length ∧
      np.tension =
        exampleStretched.spring_constant *
          (exampleStretched.actual_length - exampleStretched.resting_length) /
          exampleStretched.resting_length :=
  C36_split_preserves_tension exampleEnv exampleStretchedFork 2 1 exampleStretched
    (SimObject.neurite exampleForked) 0.5 rfl rfl rfl (by decide) exampleStretchedFork_Fresh
    exampleStretchedFork_Geometric (by norm_num) (by norm_num)
    (by norm_num [exampleStretched])
    (by norm_num [exampleStretched, exampleTip, exampleSegment, abs_of_pos])
    (by norm_num [exampleStretched, exampleTip, exampleSegment, abs_of_pos])

/-! ## Elongation only lengthens -/

theorem Math.Subtract_Add_assoc (v p o : Vec3) :
    Math.Subtract (Math.Add v p) o = Math.Add v (Math.Subtract p o) := by
  unfold Math.Subtract Math.Add
  ext <;> simp <;> ring

theorem Math.Dot_Add_self (v a : Vec3) :
    Math.Dot (Math.Add v a) (Math.Add v a) =
      Math.Dot a a + 2 * Math.Dot v a + Math.Dot v v := by
  unfold Math.Dot Math.Add
  simp only
  ring

/-- Adding a step `δ ≥ 0` along a direction that has a positive component along `a` does
not shorten `a`, and lengthens it when `δ > 0`. -/
theorem Math.Norm_step (a d : Vec3) (δ : ℝ) (hdot : 0 < Math.Dot d a) :
    (0 ≤ δ → Math.Norm a ≤ Math.Norm (Math.Add (Math.ScalarMult δ (Math.Normalize d)) a)) ∧
    (0 < δ → Math.Norm a < Math.Norm (Math.Add (Math.ScalarMult δ (Math.Normalize d)) a)) := by
  have hd : d ≠ ⟨0, 0, 0⟩ := by
    intro h
    rw [h] at hdot
    simp [Math.Dot] at hdot
  have hN : 0 < Math.Norm d := Math.Norm_pos hd
  have hua : 0 < Math.Dot (Math.Normalize d) a := by
    rw [Math.Normalize_eq, Math.Dot_ScalarMult_left]
    positivity
  have hkey : Math.Dot (Math.Add (Math.ScalarMult δ (Math.Normalize d)) a)
      (Math.Add (Math.ScalarMult δ (Math.Normalize d)) a) =
      Math.Dot a a + 2 * (δ * Math.Dot (Math.Normalize d) a) + δ * δ := by
    rw [Math.Dot_Add_self, Math.Dot_ScalarMult_left, Math.Dot_ScalarMult,
      Math.Dot_Normalize_self hd]
    ring
  rw [Math.Norm_eq_sqrt_Dot, Math.Norm_eq_sqrt_Dot, hkey]
  constructor
  · intro hδ
    apply Real.sqrt_le_sqrt
    nlinarith [mul_nonneg hδ (le_of_lt hua), mul_nonneg hδ hδ]
  · intro hδ
    apply Real.sqrt_lt_sqrt (Math.Dot_self_nonneg a)
    nlinarith [mul_pos hδ hua, mul_pos hδ hδ]

/-- The run of `MovePointMass` on a terminal segment whose mother can be dereferenced:
the new position and length. -/
theorem MovePointMass_run (env : Env) (sim : Simulation) (this m : Nat)
    (s : NeuriteElement) (mo : SimObject) (speed : ℝ) (direction origin : Vec3)
    (hs : sim.objects this = some (SimObject.neurite s)) (hterm : s.daughter_left = none)
    (hm : s.mother = some m) (hmo : sim.objects m = some mo)
    (horigin : Op.OriginOf (some m) this sim = Result.ok origin sim) :
    ∃ sim1 n1, Op.MovePointMass env this speed direction sim = Result.ok () sim1 ∧
      sim1.objects this = some (SimObject.neurite n1) ∧
      n1.actual_length =
        Math.Norm (Math.Subtract
          (Math.Add (Math.ScalarMult (speed * env.param.simulation_time_step)
            (Math.Normalize direction)) s.mass_location) origin) := by
  cases mo with
  | soma so =>
    simp [Op.OriginOf, Op.deref, hmo, NeuronSoma.OriginOf] at horigin
    simp [Op.MovePointMass, Op.modify, Op.getNeurite_apply, Op.setNeurite_apply,
      Op.setObject_apply, Op.UpdateLocalCoordinateAxis, Op.OriginOf, Op.deref, hs, hm, hmo,
      hterm, Function.update_apply, NeuriteElement.UpdateVolume,
      NeuriteElement.SetRestingLengthForDesiredTension, Math.Norm_eq_sqrt_Dot,
      NeuronSoma.OriginOf, horigin]
  | neurite mn =>
    simp [Op.OriginOf, Op.deref, hmo] at horigin
    simp [Op.MovePointMass, Op.modify, Op.getNeurite_apply, Op.setNeurite_apply,
      Op.setObject_apply, Op.UpdateLocalCoordinateAxis, Op.OriginOf, Op.deref, hs, hm, hmo,
      hterm, Function.update_apply, NeuriteElement.UpdateVolume,
      NeuriteElement.SetRestingLengthForDesiredTension, Math.Norm_eq_sqrt_Dot, horigin]

/-- Claim C35 (only elongation is possible). For a terminal segment `this` that
satisfies the geometric invariant, a speed and a direction, `ElongateTerminalEnd(speed,
direction)` returns; the `actual_length` afterwards is not smaller than before when
`speed · time_step ≥ 0`, and it is strictly greater when `speed · time_step > 0` and
`Dot(direction, spring_axis) > 0`. -/
theorem C35_only_elongation (env : Env) (sim : Simulation) (this m : Nat)
    (s : NeuriteElement) (mo : SimObject) (speed : ℝ) (direction : Vec3)
    (hs : sim.objects this = some (SimObject.neurite s)) (hterm : s.daughter_left = none)
    (hm : s.mother = some m) (hmo : sim.objects m = some mo)
    (hgeo : sim.Geometric this) :
    ∃ sim1 n1, Op.ElongateTerminalEnd env this speed direction sim = Result.ok () sim1 ∧
      sim1.objects this = some (SimObject.neurite n1) ∧
      (0 ≤ speed * env.param.simulation_time_step → s.actual_length ≤ n1.actual_length) ∧
      (0 < speed * env.param.simulation_time_step → 0 < Math.Dot direction s.spring_axis →
        s.actual_length < n1.actual_length) := by
  obtain ⟨n, origin, hn, horigin, haxis, hlen⟩ := hgeo
  rw [hs] at hn
  cases hn
  rw [hm] at horigin
  by_cases hdot : 0 < Math.Dot direction s.spring_axis
  · obtain ⟨sim1, n1, h0, h1, h2⟩ :=
      MovePointMass_run env sim this m s mo speed direction origin hs hterm hm hmo horigin
    have hstep := Math.Norm_step s.spring_axis direction
      (speed * env.param.simulation_time_step) hdot
    rw [Math.Subtract_Add_assoc, ← haxis] at h2
    refine ⟨sim1, n1, ?_, h1, ?_, ?_⟩
    · simp [Op.ElongateTerminalEnd, Op.getNeurite_apply, hs, hdot, h0]
    · intro hδ
      rw [h2, hlen]
      exact hstep.1 hδ
    · intro hδ _
      rw [h2, hlen]
      exact hstep.2 hδ
  · refine ⟨sim, s, ?_, hs, fun _ => le_refl _, fun _ h => absurd h hdot⟩
    simp [Op.ElongateTerminalEnd, Op.getNeurite_apply, hs, hdot]

/-- Claim C35, witness: the example segment (spring axis `(1, 0, 0)`, length 1) elongated
at speed 1 in the direction `(1, 1, 0)`, with time step 1. -/
theorem C35_only_elongation_witness :
    ∃ sim1 n1, Op.ElongateTerminalEnd exampleEnv 1 1 ⟨1, 1, 0⟩ exampleSim = Result.ok () sim1 ∧
      sim1.objects 1 = some (SimObject.neurite n1) ∧
      exampleSegment.actual_length < n1.actual_length := by
  obtain ⟨sim1, n1, h0, h1, -, h3⟩ :=
    C35_only_elongation exampleEnv exampleSim 1 0 exampleSegment (SimObject.soma exampleSoma)
      1 ⟨1, 1, 0⟩ rfl rfl rfl rfl exampleSim_Geometric
  exact ⟨sim1, n1, h0, h1,
    h3 (by norm_num [exampleEnv]) (by norm_num [Math.Dot, exampleSegment])⟩

/-! ## A new neurite on a soma -/

/-- The spherical direction in an orthonormal frame is a unit vector. -/
theorem NeuronSoma.Norm_Direction (so : NeuronSoma) (phi theta : ℝ)
    (horth : so.Orthonormal) : Math.Norm (so.Direction phi theta) = 1 := by
  obtain ⟨hxx, hyy, hzz, hxy, hxz, hyz⟩ := horth
  rw [Math.Norm_eq_one_iff]
  unfold NeuronSoma.Direction Math.Add Math.ScalarMult
  unfold Math.Dot at hxx hyy hzz hxy hxz hyz ⊢
  simp only
  linear_combination (Real.sin theta * Real.cos phi) ^ 2 * hxx +
    (Real.sin theta * Real.sin phi) ^ 2 * hyy + (Real.cos theta) ^ 2 * hzz +
    2 * (Real.sin theta * Real.cos phi) * (Real.sin theta * Real.sin phi) * hxy +
    2 * (Real.sin theta * Real.cos phi) * Real.cos theta * hxz +
    2 * (Real.sin theta * Real.sin phi) * Real.cos theta * hyz +
    (Real.sin theta) ^ 2 * Real.sin_sq_add_cos_sq phi + Real.sin_sq_add_cos_sq theta

namespace NeuriteElement

@[simp] theorem SetRestingLengthForDesiredTension_tension (self : NeuriteElement) (t : ℝ) :
    (self.SetRestingLengthForDesiredTension t).tension = t := by
  unfold SetRestingLengthForDesiredTension
  split <;> rfl

@[simp] theorem SetRestingLengthForDesiredTension_volume (self : NeuriteElement) (t : ℝ) :
    (self.SetRestingLengthForDesiredTension t).volume = self.volume := by
  unfold SetRestingLengthForDesiredTension
  split <;> rfl

end NeuriteElement

/-- The run of `InitializeNewNeuriteExtension` on a default-constructed element. -/
theorem InitializeNewNeuriteExtension_run (env : Env) (sim : Simulation) (this soma : Nat)
    (so : NeuronSoma) (diameter phi theta : ℝ)
    (hso : sim.objects soma = some (SimObject.soma so))
    (hnew : sim.objects this = some (SimObject.neurite (NeuriteElement.new env))) :
    ∃ sim1 n1,
      Op.InitializeNewNeuriteExtension env this soma diameter phi theta sim =
        Result.ok () sim1 ∧
      sim1.objects this = some (SimObject.neurite n1) ∧
      n1.mother = some soma ∧ n1.daughter_left = none ∧ n1.daughter_right = none ∧
      n1.diameter = diameter ∧
      n1.actual_length = env.param.neurite_default_actual_length ∧
      n1.spring_axis =
        Math.ScalarMult env.param.neurite_default_actual_length (so.Direction phi theta) ∧
      n1.mass_location =
        Math.Add (Math.Add so.position (Math.ScalarMult (0.5 * so.diameter)
          (so.Direction phi theta))) n1.spring_axis ∧
      n1.tension = env.param.neurite_default_tension ∧
      n1.volume = Math.kPi / 4 * diameter * diameter * n1.actual_length ∧
      (∀ uid, uid ≠ this → sim1.objects uid = sim.objects uid) := by
  have hne : soma ≠ this := by
    intro h
    rw [h, hnew] at hso
    cases hso
  have hdir : (⟨Real.sin theta * Real.cos phi * so.kXAxis.x +
        Real.sin theta * Real.sin phi * so.kYAxis.x + Real.cos theta * so.kZAxis.x,
      Real.sin theta * Real.cos phi * so.kXAxis.y +
        Real.sin theta * Real.sin phi * so.kYAxis.y + Real.cos theta * so.kZAxis.y,
      Real.sin theta * Real.cos phi * so.kXAxis.z +
        Real.sin theta * Real.sin phi * so.kYAxis.z + Real.cos theta * so.kZAxis.z⟩ : Vec3) =
      so.Direction phi theta := rfl
  simp [Op.InitializeNewNeuriteExtension, Op.modify, Op.getNeurite_apply, Op.setNeurite_apply,
    Op.setObject_apply, Op.UpdateLocalCoordinateAxis, Op.deref, hso, hnew, hne,
    Function.update_apply, hdir, NeuriteElement.SetMassLocation, NeuriteElement.UpdateVolume,
    NeuriteElement.SetDefaults, NeuriteElement.new]
  intro uid h1 h2
  exact absurd h2 h1

/-- Claim C32 (extension from a soma). For a soma with orthonormal axes and a
non-negative diameter, angles `φ`, `θ`, a diameter `d` and a non-negative default length:
`InitializeNewNeuriteExtension`, run by the event constructor on the new
(default-constructed) element, returns; the segment then has the soma as mother, no
daughters, `diameter = d`, `actual_length = ‖spring_axis‖` = the default length,
`spring_axis` = the default length times the unit vector `(sin θ cos φ, sin θ sin φ,
cos θ)` expressed in the soma's axes, its proximal end `mass_location − spring_axis` at
distance soma diameter / 2 from the soma position, `tension` = the default tension and
`volume = (π/4) · d² · actual_length`; the other objects are as before. -/
theorem C32_extension_from_soma (env : Env) (sim : Simulation) (this soma : Nat)
    (so : NeuronSoma) (diameter phi theta : ℝ)
    (hso : sim.objects soma = some (SimObject.soma so))
    (hnew : sim.objects this = some (SimObject.neurite (NeuriteElement.new env)))
    (horth : so.Orthonormal) (hdiam : 0 ≤ so.diameter)
    (hlen : 0 ≤ env.param.neurite_default_actual_length) :
    ∃ sim1 n1,
      Op.InitializeNewNeuriteExtension env this soma diameter phi theta sim =
        Result.ok () sim1 ∧
      sim1.objects this = some (SimObject.neurite n1) ∧
      n1.mother = some soma ∧ n1.daughter_left = none ∧ n1.daughter_right = none ∧
      n1.diameter = diameter ∧
      n1.actual_length = env.param.neurite_default_actual_length ∧
      Math.Norm n1.spring_axis = env.param.neurite_default_actual_length ∧
      n1.spring_axis =
        Math.ScalarMult env.param.neurite_default_actual_length (so.Direction phi theta) ∧
      Math.Norm (so.Direction phi theta) = 1 ∧
      Math.Norm (Math.Subtract (Math.Subtract n1.mass_location n1.spring_axis) so.position) =
        so.diameter / 2 ∧
      n1.tension = env.param.neurite_default_tension ∧
      n1.volume = Math.kPi / 4 * diameter * diameter * n1.actual_length ∧
      (∀ uid, uid ≠ this → sim1.objects uid = sim.objects uid) := by
  obtain ⟨sim1, n1, h0, h1, a1, a2, a3, a4, a5, a6, a7, a8, a9, hframe⟩ :=
    InitializeNewNeuriteExtension_run env sim this soma so diameter phi theta hso hnew
  have hunit := NeuronSoma.Norm_Direction so phi theta horth
  refine ⟨sim1, n1, h0, h1, a1, a2, a3, a4, a5, ?_, a6, hunit, ?_, a8, a9, hframe⟩
  · rw [a6, Math.Norm_ScalarMult, hunit, mul_one, abs_of_nonneg hlen]
  · have hprox : Math.Subtract (Math.Subtract n1.mass_location n1.spring_axis) so.position =
        Math.ScalarMult (0.5 * so.diameter) (so.Direction phi theta) := by
      rw [a7]
      unfold Math.Subtract Math.Add
      ext <;> simp
    rw [hprox, Math.Norm_ScalarMult, hunit, mul_one, abs_of_nonneg (by linarith)]
    ring

theorem exampleBud_Orthonormal :
    ({ exampleSoma with diameter := 2, daughters := [] } : NeuronSoma).Orthonormal := by
  simp [NeuronSoma.Orthonormal, exampleSoma, Math.Dot]

/-- Claim C32, witness: a new neurite of diameter 1 on the example soma of diameter 2,
with `φ = 0` and `θ = 0`. -/
theorem C32_extension_from_soma_witness :
    ∃ sim1 n1,
      Op.InitializeNewNeuriteExtension exampleEnv 1 0 1 0 0 exampleBud = Result.ok () sim1 ∧
      sim1.objects 1 = some (SimObject.neurite n1) ∧
      n1.mother = some 0 ∧ n1.daughter_left = none ∧ n1.daughter_right = none ∧
      n1.diameter = 1 ∧
      n1.actual_length = exampleEnv.param.neurite_default_actual_length ∧
      Math.Norm n1.spring_axis = exampleEnv.param.neurite_default_actual_length ∧
      Math.Norm (Math.Subtract (Math.Subtract n1.mass_location n1.spring_axis) ⟨0, 0, 0⟩) =
        2 / 2 ∧
      n1.tension = exampleEnv.param.neurite_default_tension ∧
      n1.volume = Math.kPi / 4 * 1 * 1 * n1.actual_length := by
  obtain ⟨sim1, n1, h0, h1, a1, a2, a3, a4, a5, a6, -, -, a9, a10, a11, -⟩ :=
    C32_extension_from_soma exampleEnv exampleBud 1 0
      { exampleSoma with diameter := 2, daughters := [] } 1 0 0 rfl rfl exampleBud_Orthonormal
      (by norm_num) (by norm_num [exampleEnv])
  exact ⟨sim1, n1, h0, h1, a1, a2, a3, a4, a5, a6, a9, a10, a11⟩

/-! ## Applying a displacement -/

/-- C31: on a segment of a well-formed tree (its mother is another object, its daughters
are other segments that have it as mother, and the two daughters differ)
`ApplyDisplacement` returns; the state it leaves is the state of the spec's words (add the
displacement to `mass_location`, then `UpdateDependentPhysicalVariables` and
`UpdateLocalCoordinateAxis` on the segment and on each existing daughter); the new
`mass_location` is the old one plus the displacement; `resting_length`, `diameter` and
`spring_constant` of the segment and of its daughters and the daughters' `mass_location`
are unchanged; no other object changes. The spring axes need not be non-zero. -/
theorem C31_ApplyDisplacement_updates (env : Env) (sim : Simulation) (this m : Nat)
    (s : NeuriteElement) (mo : SimObject) (displacement : Vec3)
    (hs : sim.objects this = some (SimObject.neurite s))
    (hm : s.mother = some m) (hmo : sim.objects m = some mo) (hne : m ≠ this)
    (hl : ∀ d, s.daughter_left = some d →
      ∃ nd, sim.objects d = some (SimObject.neurite nd) ∧ nd.mother = some this ∧ d ≠ this)
    (hr : ∀ d, s.daughter_right = some d →
      ∃ nd, sim.objects d = some (SimObject.neurite nd) ∧ nd.mother = some this ∧ d ≠ this)
    (hlr : s.daughter_left = none ∨ s.daughter_left ≠ s.daughter_right) :
    ∃ sim1 n1, Op.ApplyDisplacement env this displacement sim = Result.ok () sim1 ∧
      Op.ApplyDisplacementSpec env this displacement sim = Result.ok () sim1 ∧
      sim1.objects this = some (SimObject.neurite n1) ∧
      n1.mass_location = Math.Add s.mass_location displacement ∧
      n1.resting_length = s.resting_length ∧ n1.diameter = s.diameter ∧
      n1.spring_constant = s.spring_constant ∧
      (∀ d nd, s.daughter_left = some d ∨ s.daughter_right = some d →
        sim.objects d = some (SimObject.neurite nd) →
        ∃ nd1, sim1.objects d = some (SimObject.neurite nd1) ∧
          nd1.mass_location = nd.mass_location ∧ nd1.resting_length = nd.resting_length ∧
          nd1.diameter = nd.diameter ∧ nd1.spring_constant = nd.spring_constant) ∧
      (∀ uid, uid ≠ this → s.daughter_left ≠ some uid → s.daughter_right ≠ some uid →
        sim1.objects uid = sim.objects uid) := by
  have hne' : this ≠ m := fun h => hne h.symm
  cases hdl : s.daughter_left with
  | none =>
    cases hdr : s.daughter_right with
    | none =>
      cases mo <;>
      · simp [Op.ApplyDisplacement, Op.ApplyDisplacementSpec, Op.UpdateEach, Op.modify,
          Op.getNeurite_apply, Op.setNeurite_apply, Op.setObject_apply,
          Op.UpdateLocalCoordinateAxis, Op.UpdateDependentPhysicalVariables, Op.OriginOf,
          Op.deref, hs, hm, hmo, hne, hne', hdl, hdr, Function.update_apply,
          NeuriteElement.SetMassLocation]
        intro uid h1 h2
        exact absurd h2 h1
    | some dr =>
      obtain ⟨nr, hnr, hnrm, hrne⟩ := hr dr hdr
      have hrne' : this ≠ dr := fun h => hrne h.symm
      cases mo <;>
      · simp [Op.ApplyDisplacement, Op.ApplyDisplacementSpec, Op.UpdateEach, Op.modify,
          Op.getNeurite_apply, Op.setNeurite_apply, Op.setObject_apply,
          Op.UpdateLocalCoordinateAxis, Op.UpdateDependentPhysicalVariables, Op.OriginOf,
          Op.deref, hs, hm, hmo, hne, hne', hdl, hdr, hnr, hnrm, hrne, hrne',
          Function.update_apply, NeuriteElement.SetMassLocation]
        refine ⟨?_, ?_⟩
        · intro d nd hd hobj
          subst hd
          rw [hnr] at hobj
          simp only [Option.some.injEq, SimObject.neurite.injEq] at hobj
          subst hobj
          simp
        · intro uid h1 h2
          have h3 : ¬uid = dr := fun h => h2 h.symm
          simp [h1, h3]
  | some dl =>
    obtain ⟨nl, hnl, hnlm, hlne⟩ := hl dl hdl
    have hlne' : this ≠ dl := fun h => hlne h.symm
    cases hdr : s.daughter_right with
    | none =>
      cases mo <;>
      · simp [Op.ApplyDisplacement, Op.ApplyDisplacementSpec, Op.UpdateEach, Op.modify,
          Op.getNeurite_apply, Op.setNeurite_apply, Op.setObject_apply,
          Op.UpdateLocalCoordinateAxis, Op.UpdateDependentPhysicalVariables, Op.OriginOf,
          Op.deref, hs, hm, hmo, hne, hne', hdl, hdr, hnl, hnlm, hlne, hlne',
          Function.update_apply, NeuriteElement.SetMassLocation]
        refine ⟨?_, ?_⟩
        · intro d nd hd hobj
          subst hd
          rw [hnl] at hobj
          simp only [Option.some.injEq, SimObject.neurite.injEq] at hobj
          subst hobj
          simp
        · intro uid h1 h2
          have h3 : ¬uid = dl := fun h => h2 h.symm
          simp [h1, h3]
    | some dr =>
      obtain ⟨nr, hnr, hnrm, hrne⟩ := hr dr hdr
      have hrne' : this ≠ dr := fun h => hrne h.symm
      have hlr' : dl ≠ dr := by
        rcases hlr with h | h
        · rw [hdl] at h
          cases h
        · intro hc
          apply h
          rw [hdl, hdr, hc]
      have hrl' : dr ≠ dl := fun h => hlr' h.symm
      cases mo <;>
      · simp [Op.ApplyDisplacement, Op.ApplyDisplacementSpec, Op.UpdateEach, Op.modify,
          Op.getNeurite_apply, Op.setNeurite_apply, Op.setObject_apply,
          Op.UpdateLocalCoordinateAxis, Op.UpdateDependentPhysicalVariables, Op.OriginOf,
          Op.deref, hs, hm, hmo, hne, hne', hdl, hdr, hnl, hnlm, hlne, hlne', hnr, hnrm,
          hrne, hrne', hlr', hrl', Function.update_apply, NeuriteElement.SetMassLocation]
        refine ⟨?_, ?_⟩
        · intro d nd hd hobj
          rcases hd with hd | hd
          · subst hd
            rw [hnl] at hobj
            simp only [Option.some.injEq, SimObject.neurite.injEq] at hobj
            subst hobj
            simp [hlr']
          · subst hd
            rw [hnr] at hobj
            simp only [Option.some.injEq, SimObject.neurite.injEq] at hobj
            subst hobj
            simp
        · intro uid h1 h2 h3
          have h4 : ¬uid = dl := fun h => h2 h.symm
          have h5 : ¬uid = dr := fun h => h3 h.symm
          simp [h1, h4, h5]

/-- Witness of C31: the forked segment 1 of the example fork, moved by `(0, 1, 0)`. -/
theorem C31_ApplyDisplacement_updates_witness :
    ∃ sim1 n1, Op.ApplyDisplacement exampleEnv 1 ⟨0, 1, 0⟩ exampleFork = Result.ok () sim1 ∧
      Op.ApplyDisplacementSpec exampleEnv 1 ⟨0, 1, 0⟩ exampleFork = Result.ok () sim1 ∧
      sim1.objects 1 = some (SimObject.neurite n1) ∧
      n1.mass_location = Math.Add exampleForked.mass_location ⟨0, 1, 0⟩ ∧
      n1.resting_length = exampleForked.resting_length ∧
      n1.diameter = exampleForked.diameter ∧
      n1.spring_constant = exampleForked.spring_constant ∧
      (∀ d nd, exampleForked.daughter_left = some d ∨ exampleForked.daughter_right = some d →
        exampleFork.objects d = some (SimObject.neurite nd) →
        ∃ nd1, sim1.objects d = some (SimObject.neurite nd1) ∧
          nd1.mass_location = nd.mass_location ∧ nd1.resting_length = nd.resting_length ∧
          nd1.diameter = nd.diameter ∧ nd1.spring_constant = nd.spring_constant) ∧
      (∀ uid, uid ≠ 1 → exampleForked.daughter_left ≠ some uid →
        exampleForked.daughter_right ≠ some uid →
        sim1.objects uid = exampleFork.objects uid) :=
  C31_ApplyDisplacement_updates exampleEnv exampleFork 1 0 exampleForked
    (SimObject.soma exampleSoma) ⟨0, 1, 0⟩ (by simp [exampleFork]) rfl (by simp [exampleFork])
    (by decide)
    (by
      intro d hd
      simp only [exampleForked, Option.some.injEq] at hd
      subst hd
      exact ⟨exampleTip, by simp [exampleFork], rfl, by decide⟩)
    (by
      intro d hd
      simp only [exampleForked, Option.some.injEq] at hd
      subst hd
      exact ⟨exampleSide, by simp [exampleFork], rfl, by decide⟩)
    (Or.inr (by simp [exampleForked]))

/-! ## The neighbours of a segment only set a flag -/

namespace Op

/-- The visit of one neighbour sets the flag `has_neurite_neighbor` exactly when the
neighbour is a neurite element that the test of lines 664-667 lets through. -/
theorem calculate_neighbor_forces_flag (self : NeuriteElement) (acc : NeighborForces)
    (neighbor m : Nat) (sim : Simulation) (mo nb : SimObject)
    (hm : self.mother = some m) (hmo : sim.objects m = some mo)
    (hn : sim.objects neighbor = some nb) :
    ∃ b, calculate_neighbor_forces self acc neighbor sim =
        Result.ok { acc with has_neurite_neighbor := b } sim ∧
      (b = true ↔ acc.has_neurite_neighbor = true ∨ sim.ForeignNeurite self neighbor) := by
  unfold calculate_neighbor_forces IsExcludedRelative
  cases nb with
  | soma ns =>
    have hnot : ¬sim.ForeignNeurite self neighbor := by
      rintro ⟨⟨nn, h⟩, -⟩
      rw [hn] at h
      cases h
    refine ⟨acc.has_neurite_neighbor, ?_, by simp [hnot]⟩
    cases mo with
    | soma so =>
      by_cases hmn : m = neighbor
      · simp [deref, hn, hm, hmo, hmn]
      · simp [deref, hn, hm, hmo, hmn]
    | neurite mn => simp [deref, hn, hm, hmo]
  | neurite nn =>
    by_cases hd : self.daughter_left = some neighbor ∨ self.daughter_right = some neighbor
    · have hnot : ¬sim.ForeignNeurite self neighbor := by
        rintro ⟨-, h1, h2, -⟩
        rcases hd with h | h
        · exact h1 h
        · exact h2 h
      exact ⟨acc.has_neurite_neighbor, by simp [deref, hn, hd], by simp [hnot]⟩
    · have hd1 : self.daughter_left ≠ some neighbor := fun h => hd (Or.inl h)
      have hd2 : self.daughter_right ≠ some neighbor := fun h => hd (Or.inr h)
      cases mo with
      | soma so =>
        have hyes : sim.ForeignNeurite self neighbor := by
          refine ⟨⟨nn, hn⟩, hd1, hd2, ?_⟩
          intro h
          rw [hm] at h
          cases h
          rw [hn] at hmo
          cases hmo
        exact ⟨true, by simp [deref, hn, hm, hmo, hd, Math.ScalarMult4], by simp [hyes]⟩
      | neurite mn =>
        by_cases hmn : m = neighbor
        · have hnot : ¬sim.ForeignNeurite self neighbor := by
            rintro ⟨-, -, -, h⟩
            exact h (by rw [hm, hmn])
          exact ⟨acc.has_neurite_neighbor, by simp [deref, hn, hm, hmo, hd, hmn],
            by simp [hnot]⟩
        · have hyes : sim.ForeignNeurite self neighbor := by
            refine ⟨⟨nn, hn⟩, hd1, hd2, ?_⟩
            intro h
            rw [hm] at h
            cases h
            exact hmn rfl
          exact ⟨true, by simp [deref, hn, hm, hmo, hd, hmn, Math.ScalarMult4],
            by simp [hyes]⟩

/-- The visits of the neighbours set the flag `has_neurite_neighbor` exactly when one of
them is a neurite element that the test of lines 664-667 lets through; they change
nothing else. -/
theorem visit_neighbors_flag (self : NeuriteElement) (m : Nat) (sim : Simulation)
    (mo : SimObject) (hm : self.mother = some m) (hmo : sim.objects m = some mo)
    (neighbors : List Nat) :
    ∀ (acc : NeighborForces), (∀ nb ∈ neighbors, ∃ o, sim.objects nb = some o) →
      ∃ b, visit_neighbors self neighbors acc sim =
          Result.ok { acc with has_neurite_neighbor := b } sim ∧
        (b = true ↔ acc.has_neurite_neighbor = true ∨
          ∃ nb ∈ neighbors, sim.ForeignNeurite self nb) := by
  induction neighbors with
  | nil =>
    intro acc _
    exact ⟨acc.has_neurite_neighbor, rfl, by simp⟩
  | cons neighbor rest ih =>
    intro acc hall
    obtain ⟨nb, hn⟩ := hall neighbor (List.mem_cons_self _ _)
    obtain ⟨b, hb, hbi⟩ := calculate_neighbor_forces_flag self acc neighbor m sim mo nb hm hmo hn
    obtain ⟨c, hc, hci⟩ := ih { acc with has_neurite_neighbor := b }
      (fun x hx => hall x (List.mem_cons_of_mem _ hx))
    refine ⟨c, ?_, ?_⟩
    · unfold visit_neighbors
      rw [bind_apply, hb]
      exact hc
    · rw [hci]
      simp only [hbi, List.mem_cons, exists_eq_or_imp, or_assoc]

/-- Two neighbour lists that agree on whether they hold a neurite element that the test of
lines 664-667 lets through give the same result of the visits. -/
theorem visit_neighbors_congr (self : NeuriteElement) (m : Nat) (sim : Simulation)
    (mo : SimObject) (hm : self.mother = some m) (hmo : sim.objects m = some mo)
    (l1 l2 : List Nat) (acc : NeighborForces)
    (h1 : ∀ nb ∈ l1, ∃ o, sim.objects nb = some o)
    (h2 : ∀ nb ∈ l2, ∃ o, sim.objects nb = some o)
    (hagree : (∃ nb ∈ l1, sim.ForeignNeurite self nb) ↔ ∃ nb ∈ l2, sim.ForeignNeurite self nb) :
    visit_neighbors self l1 acc sim = visit_neighbors self l2 acc sim := by
  obtain ⟨b, hb, hbi⟩ := visit_neighbors_flag self m sim mo hm hmo l1 acc h1
  obtain ⟨c, hc, hci⟩ := visit_neighbors_flag self m sim mo hm hmo l2 acc h2
  have hbc : b = c := by
    rw [Bool.eq_iff_iff, hbi, hci, hagree]
  rw [hb, hc, hbc]

/-- The forces depend on the neighbours through the result of the visits only. -/
theorem ForceOnPointMass_congr (q1 q2 : Nat → ℝ → List Nat) (this : Nat) (r1 r2 : ℝ)
    (sim : Simulation) (s : NeuriteElement)
    (hs : sim.objects this = some (SimObject.neurite s))
    (hv : visit_neighbors s (q1 this r1)
        { force_from_neighbors := ⟨0, 0, 0⟩
          force_on_my_mothers_point_mass := ⟨0, 0, 0⟩
          has_neurite_neighbor := false } sim =
      visit_neighbors s (q2 this r2)
        { force_from_neighbors := ⟨0, 0, 0⟩
          force_on_my_mothers_point_mass := ⟨0, 0, 0⟩
          has_neurite_neighbor := false } sim) :
    ForceOnPointMass q1 this r1 sim = ForceOnPointMass q2 this r2 sim := by
  cases hdl : s.daughter_left with
  | none =>
    cases hdr : s.daughter_right with
    | none => simp [ForceOnPointMass, getNeurite_apply, hs, hdl, hdr, hv]
    | some dr =>
      rcases ForceTransmittedFromDaugtherToMother_cases dr this sim with ⟨f, h⟩ | h | h <;>
        simp [ForceOnPointMass, getNeurite_apply, hs, hdl, hdr, hv, h]
  | some dl =>
    rcases ForceTransmittedFromDaugtherToMother_cases dl this sim with ⟨f, h⟩ | h | h
    · cases hdr : s.daughter_right with
      | none => simp [ForceOnPointMass, getNeurite_apply, hs, hdl, hdr, hv, h]
      | some dr =>
        rcases ForceTransmittedFromDaugtherToMother_cases dr this sim with ⟨g, h'⟩ | h' | h' <;>
          simp [ForceOnPointMass, getNeurite_apply, hs, hdl, hdr, hv, h, h']
    · simp [ForceOnPointMass, getNeurite_apply, hs, hdl, h]
    · simp [ForceOnPointMass, getNeurite_apply, hs, hdl, h]

/-- A neurite neighbour that the test of lines 664-667 lets through scales the force on
the point mass by `h_over_m = 0.01` and adds nothing. -/
theorem ForceOnPointMass_scaled (q : Nat → ℝ → List Nat) (this m : Nat) (r : ℝ)
    (sim : Simulation) (s : NeuriteElement) (mo : SimObject) (F Fm : Vec3)
    (hs : sim.objects this = some (SimObject.neurite s))
    (hm : s.mother = some m) (hmo : sim.objects m = some mo)
    (hnb : ∀ nb ∈ q this r, ∃ o, sim.objects nb = some o)
    (hforeign : ∃ nb ∈ q this r, sim.ForeignNeurite s nb)
    (h0 : ForceOnPointMass (fun _ _ => []) this r sim = Result.ok (F, Fm) sim) :
    ForceOnPointMass q this r sim = Result.ok (Math.ScalarMult 0.01 F, Fm) sim := by
  obtain ⟨b, hb, hbi⟩ := visit_neighbors_flag s m sim mo hm hmo (q this r)
    { force_from_neighbors := ⟨0, 0, 0⟩
      force_on_my_mothers_point_mass := ⟨0, 0, 0⟩
      has_neurite_neighbor := false } hnb
  have hbt : b = true := hbi.mpr (Or.inr hforeign)
  subst hbt
  have hadd : ∀ v : Vec3, Math.Add (Math.ScalarMult 0.01 v) ⟨0, 0, 0⟩ =
      Math.ScalarMult 0.01 (Math.Add v ⟨0, 0, 0⟩) := by
    intro v
    simp [Math.Add, Math.ScalarMult]
  cases hdl : s.daughter_left with
  | none =>
    cases hdr : s.daughter_right with
    | none =>
      simp [ForceOnPointMass, getNeurite_apply, hs, hdl, hdr, visit_neighbors] at h0
      obtain ⟨hF, hFm⟩ := h0
      subst hF hFm
      simp [ForceOnPointMass, getNeurite_apply, hs, hdl, hdr, hb, hadd]
    | some dr =>
      rcases ForceTransmittedFromDaugtherToMother_cases dr this sim with ⟨f, h⟩ | h | h
      · simp [ForceOnPointMass, getNeurite_apply, hs, hdl, hdr, visit_neighbors, h] at h0
        obtain ⟨hF, hFm⟩ := h0
        subst hF hFm
        simp [ForceOnPointMass, getNeurite_apply, hs, hdl, hdr, hb, hadd, h]
      · simp [ForceOnPointMass, getNeurite_apply, hs, hdl, hdr, visit_neighbors, h] at h0
      · simp [ForceOnPointMass, getNeurite_apply, hs, hdl, hdr, visit_neighbors, h] at h0
  | some dl =>
    rcases ForceTransmittedFromDaugtherToMother_cases dl this sim with ⟨f, h⟩ | h | h
    · cases hdr : s.daughter_right with
      | none =>
        simp [ForceOnPointMass, getNeurite_apply, hs, hdl, hdr, visit_neighbors, h] at h0
        obtain ⟨hF, hFm⟩ := h0
        subst hF hFm
        simp [ForceOnPointMass, getNeurite_apply, hs, hdl, hdr, hb, hadd, h]
      | some dr =>
        rcases ForceTransmittedFromDaugtherToMother_cases dr this sim with ⟨g, h'⟩ | h' | h'
        · simp [ForceOnPointMass, getNeurite_apply, hs, hdl, hdr, visit_neighbors, h, h'] at h0
          obtain ⟨hF, hFm⟩ := h0
          subst hF hFm
          simp [ForceOnPointMass, getNeurite_apply, hs, hdl, hdr, hb, hadd, h, h']
        · simp [ForceOnPointMass, getNeurite_apply, hs, hdl, hdr, visit_neighbors, h, h'] at h0
        · simp [ForceOnPointMass, getNeurite_apply, hs, hdl, hdr, visit_neighbors, h, h'] at h0
    · simp [ForceOnPointMass, getNeurite_apply, hs, hdl, visit_neighbors, h] at h0
    · simp [ForceOnPointMass, getNeurite_apply, hs, hdl, visit_neighbors, h] at h0

end Op

/-- The neighbours act on `CalculateDisplacement` through one bit. For a segment whose
mother can be dereferenced and two neighbour lists of objects of the simulation that agree
on whether they hold a neurite element that is neither a daughter nor the mother of the
segment: the two calls end in the same way (the same displacement and state, or the same
failure); every normal return leaves the zero vector in
`force_to_transmit_to_proximal_mass`; and with `F` the force computed without neighbours,
the displacement is that of the force `0.01 · F` when such a neurite element is among the
neighbours and that of `F` when none is, whatever the neighbours are otherwise. -/
theorem CalculateDisplacement_neighbours_flag_only (env : Env) (q1 q2 : Nat → ℝ → List Nat)
    (this m : Nat) (r1 r2 : ℝ) (sim : Simulation) (s : NeuriteElement) (mo : SimObject)
    (hs : sim.objects this = some (SimObject.neurite s))
    (hm : s.mother = some m) (hmo : sim.objects m = some mo)
    (h1 : ∀ nb ∈ q1 this r1, ∃ o, sim.objects nb = some o)
    (h2 : ∀ nb ∈ q2 this r2, ∃ o, sim.objects nb = some o)
    (hagree : (∃ nb ∈ q1 this r1, sim.ForeignNeurite s nb) ↔
      ∃ nb ∈ q2 this r2, sim.ForeignNeurite s nb) :
    Op.CalculateDisplacement env q1 this r1 sim = Op.CalculateDisplacement env q2 this r2 sim ∧
    (∀ v sim1, Op.CalculateDisplacement env q1 this r1 sim = Result.ok v sim1 →
      ∃ n1, sim1.objects this = some (SimObject.neurite n1) ∧
        n1.force_to_transmit_to_proximal_mass = ⟨0, 0, 0⟩) ∧
    (∀ F Fm, Op.ForceOnPointMass (fun _ _ => []) this r1 sim = Result.ok (F, Fm) sim →
      ((∃ nb ∈ q1 this r1, sim.ForeignNeurite s nb) →
        ∃ sim1, Op.CalculateDisplacement env q1 this r1 sim =
          Result.ok (Op.DisplacementOfForce env s.adherence (Math.ScalarMult 0.01 F)) sim1) ∧
      ((¬∃ nb ∈ q1 this r1, sim.ForeignNeurite s nb) →
        ∃ sim1, Op.CalculateDisplacement env q1 this r1 sim =
          Result.ok (Op.DisplacementOfForce env s.adherence F) sim1)) := by
  refine ⟨?_, ?_, ?_⟩
  · have hF : Op.ForceOnPointMass q1 this r1 sim = Op.ForceOnPointMass q2 this r2 sim :=
      Op.ForceOnPointMass_congr q1 q2 this r1 r2 sim s hs
        (Op.visit_neighbors_congr s m sim mo hm hmo _ _ _ h1 h2 hagree)
    unfold Op.CalculateDisplacement
    rw [Op.bind_apply, Op.bind_apply, hF]
  · intro v sim1 h
    rcases Op.CalculateDisplacement_cases env q1 this r1 sim s hs with ⟨F, -, hc⟩ | ⟨e, hc⟩ | hc
    · rw [hc] at h
      cases h
      exact ⟨{ s with force_to_transmit_to_proximal_mass := ⟨0, 0, 0⟩ }, by simp, rfl⟩
    · rw [hc] at h
      cases h
    · rw [hc] at h
      cases h
  · intro F Fm h0
    constructor
    · intro hforeign
      have h := Op.CalculateDisplacement_of_forces env q1 this r1 sim s
        (Math.ScalarMult 0.01 F, Fm) hs
        (Op.ForceOnPointMass_scaled q1 this m r1 sim s mo F Fm hs hm hmo h1 hforeign h0)
      exact ⟨_, h⟩
    · intro hnone
      have hF : Op.ForceOnPointMass q1 this r1 sim =
          Op.ForceOnPointMass (fun _ _ => []) this r1 sim :=
        Op.ForceOnPointMass_congr q1 (fun _ _ => []) this r1 r1 sim s hs
          (Op.visit_neighbors_congr s m sim mo hm hmo _ _ _ h1 (fun nb h => by cases h)
            ⟨fun h => absurd h hnone, fun ⟨nb, h, _⟩ => by cases h⟩)
      rw [← hF] at h0
      have h := Op.CalculateDisplacement_of_forces env q1 this r1 sim s (F, Fm) hs h0
      exact ⟨_, h⟩

/-! ## The merge of a segment with its mother -/

/-- The run of `RemoveProximalNeuriteElement` when the mother `m` of the segment is a
neurite element without right daughter whose own mother `g` is a third object. -/
theorem RemoveProximalNeuriteElement_run (env : Env) (sim : Simulation)
    (this m g : Nat) (s mn : NeuriteElement) (go : SimObject)
    (hs : sim.objects this = some (SimObject.neurite s)) (hm : s.mother = some m)
    (hmn : sim.objects m = some (SimObject.neurite mn)) (hright : mn.daughter_right = none)
    (hg : mn.mother = some g) (hgo : sim.objects g = some go)
    (hne : m ≠ this) (hgm : g ≠ m) (hgt : g ≠ this) :
    ∃ sim1 n1, Op.RemoveProximalNeuriteElement env this sim = Result.ok () sim1 ∧
      sim1.objects this = some (SimObject.neurite n1) ∧ sim1.objects m = none ∧
      (∀ gn, go = SimObject.neurite gn →
        sim1.objects g = some (SimObject.neurite (gn.UpdateRelative m this))) ∧
      (∀ so, go = SimObject.soma so →
        sim1.objects g = some (SimObject.soma (so.UpdateRelative m this))) ∧
      (∀ uid, uid ≠ this → uid ≠ m → uid ≠ g → sim1.objects uid = sim.objects uid) ∧
      n1.mother = some g ∧ n1.mass_location = s.mass_location ∧ n1.tension = s.tension ∧
      n1.spring_constant = s.spring_constant ∧ n1.diameter = s.diameter ∧
      n1.daughter_left = s.daughter_left ∧ n1.daughter_right = s.daughter_right ∧
      (∀ origin, Op.OriginOf (some g) m sim = Result.ok origin sim →
        n1.spring_axis = Math.Subtract s.mass_location origin) ∧
      n1.actual_length = Math.Norm n1.spring_axis ∧
      n1.resting_length =
        s.spring_constant * n1.actual_length / (s.tension + s.spring_constant) := by
  have hne' : this ≠ m := fun h => hne h.symm
  have hgm' : m ≠ g := fun h => hgm h.symm
  have hgt' : this ≠ g := fun h => hgt h.symm
  cases go with
  | soma so =>
    simp [Op.RemoveProximalNeuriteElement, Op.modify,
      Op.getNeurite_apply, Op.setNeurite_apply, Op.setObject_apply,
      Op.UpdateLocalCoordinateAxis, Op.OriginOf, Op.deref, Op.UpdateRelative,
      Op.RemoveFromSimulation, hs, hm, hmn, hright, hg, hgo, hne, hne', hgm, hgm', hgt, hgt',
      Function.update_apply, NeuriteElement.UpdateVolume, NeuronSoma.UpdateRelative,
      NeuronSoma.OriginOf]
    intro uid h1 h2 h3
    simp [h1, h2, h3]
  | neurite gn =>
    simp [Op.RemoveProximalNeuriteElement, Op.modify,
      Op.getNeurite_apply, Op.setNeurite_apply, Op.setObject_apply,
      Op.UpdateLocalCoordinateAxis, Op.OriginOf, Op.deref, Op.UpdateRelative,
      Op.RemoveFromSimulation, hs, hm, hmn, hright, hg, hgo, hne, hne', hgm, hgm', hgt, hgt',
      Function.update_apply, NeuriteElement.UpdateVolume]
    intro uid h1 h2 h3
    simp [h1, h2, h3]

theorem Math.Dot_le_Norm_mul_Norm (a b : Vec3) : Math.Dot a b ≤ Math.Norm a * Math.Norm b := by
  have hcs : Math.Dot a b * Math.Dot a b ≤ Math.Dot a a * Math.Dot b b := by
    unfold Math.Dot
    nlinarith [sq_nonneg (a.x * b.y - a.y * b.x), sq_nonneg (a.x * b.z - a.z * b.x),
      sq_nonneg (a.y * b.z - a.z * b.y)]
  have hn : 0 ≤ Math.Norm a * Math.Norm b := mul_nonneg (Math.Norm_nonneg a) (Math.Norm_nonneg b)
  have hsq : (Math.Norm a * Math.Norm b) * (Math.Norm a * Math.Norm b) =
      Math.Dot a a * Math.Dot b b := by
    rw [← Math.Norm_mul_self a, ← Math.Norm_mul_self b]
    ring
  by_contra hlt
  push_neg at hlt
  nlinarith

/-- The triangle inequality for `Math::Norm`. -/
theorem Math.Norm_Add_le (a b : Vec3) :
    Math.Norm (Math.Add a b) ≤ Math.Norm a + Math.Norm b := by
  have hab := Math.Dot_le_Norm_mul_Norm a b
  have hsum : 0 ≤ Math.Norm a + Math.Norm b := add_nonneg (Math.Norm_nonneg a) (Math.Norm_nonneg b)
  have hexp : Math.Dot (Math.Add a b) (Math.Add a b) =
      Math.Dot a a + 2 * Math.Dot a b + Math.Dot b b := by
    simp only [Math.Dot, Math.Add]
    ring
  rw [Math.Norm_eq_sqrt_Dot (Math.Add a b)]
  apply Real.sqrt_le_iff.mpr
  refine ⟨hsum, ?_⟩
  rw [hexp]
  nlinarith [Math.Norm_mul_self a, Math.Norm_mul_self b]

theorem Math.Subtract_chain (a b c : Vec3) :
    Math.Subtract a c = Math.Add (Math.Subtract a b) (Math.Subtract b c) := by
  ext <;> simp [Math.Subtract, Math.Add]

/-- C38: the postcondition of the merge. For a segment `this` whose mother `m` is a
neurite element with no right daughter and with mother `g` (a third object), both `this`
and `m` satisfying the geometric invariant and `tension + spring_constant ≠ 0`:
`RemoveProximalNeuriteElement` returns; afterwards the mother of the segment is `g`, `g`
refers to the segment where it referred to `m`, `m` is removed and no other object has
changed; `mass_location` and `tension` of the segment are unchanged; its `spring_axis` is
the old one plus the `spring_axis` of `m`; `actual_length` is the norm `L'` of that axis,
at most the sum of the two old lengths; `resting_length = k · L' / (tension + k)`. When
the mother is a soma or has a right daughter the call returns in the state it was called
in. -/
theorem C38_merge_postcondition (env : Env) (sim : Simulation)
    (this m g : Nat) (s mn : NeuriteElement) (go : SimObject)
    (hs : sim.objects this = some (SimObject.neurite s)) (hm : s.mother = some m)
    (hmn : sim.objects m = some (SimObject.neurite mn)) (hright : mn.daughter_right = none)
    (hg : mn.mother = some g) (hgo : sim.objects g = some go)
    (hne : m ≠ this) (hgm : g ≠ m) (hgt : g ≠ this)
    (hgeo : sim.Geometric this) (hgeom : sim.Geometric m)
    (hk : s.tension + s.spring_constant ≠ 0) :
    (∃ sim1 n1, Op.RemoveProximalNeuriteElement env this sim = Result.ok () sim1 ∧
      sim1.objects this = some (SimObject.neurite n1) ∧ n1.mother = some g ∧
      (∀ gn, go = SimObject.neurite gn →
        sim1.objects g = some (SimObject.neurite (gn.UpdateRelative m this)) ∧
        (gn.mother ≠ some m →
          (gn.UpdateRelative m this).mother = gn.mother ∧
          (gn.daughter_left = some m →
            (gn.UpdateRelative m this).daughter_left = some this) ∧
          (gn.daughter_left ≠ some m → gn.daughter_right = some m →
            (gn.UpdateRelative m this).daughter_right = some this))) ∧
      (∀ so, go = SimObject.soma so →
        sim1.objects g = some (SimObject.soma (so.UpdateRelative m this)) ∧
        (so.UpdateRelative m this).daughters =
          so.daughters.map (fun d => if d = m then this else d)) ∧
      sim1.objects m = none ∧
      (∀ uid, uid ≠ this → uid ≠ m → uid ≠ g → sim1.objects uid = sim.objects uid) ∧
      n1.mass_location = s.mass_location ∧ n1.tension = s.tension ∧
      n1.spring_axis = Math.Add s.spring_axis mn.spring_axis ∧
      n1.actual_length = Math.Norm n1.spring_axis ∧
      n1.actual_length ≤ s.actual_length + mn.actual_length ∧
      n1.resting_length =
        s.spring_constant * n1.actual_length / (s.tension + s.spring_constant) ∧
      n1.resting_length * (s.tension + s.spring_constant) =
        s.spring_constant * n1.actual_length) ∧
    (∀ (sim0 : Simulation) (s0 : NeuriteElement) (m0 : Nat) (mo : SimObject),
      sim0.objects this = some (SimObject.neurite s0) → s0.mother = some m0 →
      sim0.objects m0 = some mo →
      ((∃ so, mo = SimObject.soma so) ∨
        ∃ mn0, mo = SimObject.neurite mn0 ∧ mn0.daughter_right ≠ none) →
      Op.RemoveProximalNeuriteElement env this sim0 = Result.ok () sim0) := by
  constructor
  · obtain ⟨sim1, n1, hrun, h1, h2, h3n, h3s, h4, h5, h6, h7, h8, -, -, -, h9, h10, h11⟩ :=
      RemoveProximalNeuriteElement_run env sim this m g s mn go hs hm hmn hright hg hgo hne hgm
        hgt
    obtain ⟨s', os, hs', hos, hsa, hsl⟩ := hgeo
    rw [hs] at hs'
    cases hs'
    obtain ⟨mn', om, hmn', hom, hma, hml⟩ := hgeom
    rw [hmn] at hmn'
    cases hmn'
    have hos' : os = mn.mass_location := by
      simp [Op.OriginOf, Op.deref, hm, hmn] at hos
      exact hos.symm
    rw [hg] at hom
    have haxis : n1.spring_axis = Math.Add s.spring_axis mn.spring_axis := by
      rw [h9 om hom, hsa, hma, hos']
      exact Math.Subtract_chain _ _ _
    refine ⟨sim1, n1, hrun, h1, h5, ?_, ?_, h2, h4, h6, h7, haxis, h10, ?_, h11, ?_⟩
    · intro gn hgn
      refine ⟨h3n gn hgn, fun hgmother => ⟨?_, ?_, ?_⟩⟩
      · simp only [NeuriteElement.UpdateRelative, if_neg hgmother]
        split_ifs <;> rfl
      · intro hl
        simp [NeuriteElement.UpdateRelative, hgmother, hl]
      · intro hl hr
        simp [NeuriteElement.UpdateRelative, hgmother, hl, hr]
    · intro so hso
      exact ⟨h3s so hso, rfl⟩
    · rw [h10, haxis, hsl, hml]
      exact Math.Norm_Add_le _ _
    · rw [h11]
      field_simp
  · intro sim0 s0 m0 mo hs0 hm0 hmo hcase
    rcases hcase with ⟨so, rfl⟩ | ⟨mn0, rfl, hr⟩
    · simp [Op.RemoveProximalNeuriteElement, Op.getNeurite_apply, Op.deref, hs0, hm0, hmo]
    · simp [Op.RemoveProximalNeuriteElement, Op.getNeurite_apply, Op.deref, hs0, hm0, hmo, hr]

theorem exampleChain_Geometric_tip : exampleChain.Geometric 2 := by
  refine ⟨exampleTip, ⟨1, 0, 0⟩, rfl, ?_, ?_, ?_⟩
  · have h1 : exampleChain.objects 1 = some (SimObject.neurite exampleMother) := rfl
    simp [Op.OriginOf, Op.deref, exampleTip, h1, exampleMother, exampleSegment]
  · simp [exampleTip, exampleSegment, Math.Subtract]
    norm_num
  · simp [exampleTip, exampleSegment, Math.Norm, Math.Dot]

theorem exampleChain_Geometric_mother : exampleChain.Geometric 1 := by
  refine ⟨exampleMother, ⟨0, 0, 0⟩, rfl, ?_, ?_, ?_⟩
  · have h0 : exampleChain.objects 0 = some (SimObject.soma exampleSoma) := rfl
    simp [Op.OriginOf, Op.deref, exampleMother, exampleSegment, h0, NeuronSoma.OriginOf,
      exampleSoma]
  · simp [exampleMother, exampleSegment, Math.Subtract]
  · simp [exampleMother, exampleSegment, Math.Norm, Math.Dot]

/-- Witness of C38: the terminal segment 2 of the example chain merges with its mother 1,
whose mother is the soma 0. -/
theorem C38_merge_postcondition_witness :
    ∃ sim1 n1, Op.RemoveProximalNeuriteElement exampleEnv 2 exampleChain = Result.ok () sim1 ∧
      sim1.objects 2 = some (SimObject.neurite n1) ∧ n1.mother = some 0 ∧
      sim1.objects 1 = none ∧
      n1.spring_axis = Math.Add exampleTip.spring_axis exampleMother.spring_axis ∧
      n1.actual_length ≤ exampleTip.actual_length + exampleMother.actual_length := by
  obtain ⟨⟨sim1, n1, h1, h2, h3, -, -, h4, -, -, -, h5, -, h6, -⟩, -⟩ :=
    C38_merge_postcondition exampleEnv exampleChain 2 1 0 exampleTip exampleMother
      (SimObject.soma exampleSoma) rfl rfl rfl rfl rfl rfl (by decide) (by decide) (by decide)
      exampleChain_Geometric_tip exampleChain_Geometric_mother
      (by norm_num [exampleTip, exampleSegment, NeuriteElement.new, exampleEnv,
        NeuriteElement.UpdateVolume])
  exact ⟨sim1, n1, h1, h2, h3, h4, h5, h6⟩

/-! ## Retraction terminates -/

theorem Simulation.Depth_neurite (sim : Simulation) (n uid : Nat) (h : sim.Depth n uid) :
    ∃ s m, sim.objects uid = some (SimObject.neurite s) ∧ s.mother = some m := by
  cases n with
  | zero =>
    obtain ⟨s, m, so, hs, hm, -⟩ := h
    exact ⟨s, m, hs, hm⟩
  | succ n =>
    obtain ⟨s, m, hs, hm, -⟩ := h
    exact ⟨s, m, hs, hm⟩

/-- The number of neurite elements between a segment and its soma is determined by the
segment. -/
theorem Simulation.Depth_unique (sim : Simulation) :
    ∀ (a b uid : Nat), sim.Depth a uid → sim.Depth b uid → a = b := by
  intro a
  induction a with
  | zero =>
    intro b uid ha hb
    cases b with
    | zero => rfl
    | succ b =>
      exfalso
      obtain ⟨s, m, so, hs, hm, hso⟩ := ha
      obtain ⟨s', m', hs', hm', hd⟩ := hb
      rw [hs] at hs'
      cases hs'
      rw [hm] at hm'
      cases hm'
      obtain ⟨s2, -, h2, -⟩ := sim.Depth_neurite b m hd
      rw [hso] at h2
      cases h2
  | succ a ih =>
    intro b uid ha hb
    obtain ⟨s, m, hs, hm, hd⟩ := ha
    cases b with
    | zero =>
      exfalso
      obtain ⟨s', m', so, hs', hm', hso⟩ := hb
      rw [hs] at hs'
      cases hs'
      rw [hm] at hm'
      cases hm'
      obtain ⟨s2, -, h2, -⟩ := sim.Depth_neurite a m hd
      rw [hso] at h2
      cases h2
    | succ b =>
      obtain ⟨s', m', hs', hm', hd'⟩ := hb
      rw [hs] at hs'
      cases hs'
      rw [hm] at hm'
      cases hm'
      rw [ih b m hd hd']

/-- The chain of mothers of a segment is still there in a state that keeps the kind and
the mother of every object outside the set `bad`, when no object of the chain is in
`bad`. -/
theorem Simulation.Depth_transfer (sim sim1 : Simulation) (bad : Nat → Prop)
    (hn : ∀ u s, ¬bad u → sim.objects u = some (SimObject.neurite s) →
      ∃ s1, sim1.objects u = some (SimObject.neurite s1) ∧ s1.mother = s.mother)
    (hso : ∀ u so, ¬bad u → sim.objects u = some (SimObject.soma so) →
      ∃ so1, sim1.objects u = some (SimObject.soma so1))
    (hsoma : ∀ u so, sim.objects u = some (SimObject.soma so) → ¬bad u) :
    ∀ (k uid : Nat), sim.Depth k uid → (∀ j u, j ≤ k → sim.Depth j u → ¬bad u) →
      sim1.Depth k uid := by
  intro k
  induction k with
  | zero =>
    intro uid hd hbad
    have hu := hbad 0 uid (le_refl _) hd
    obtain ⟨s, m, so, hs, hm, hmo⟩ := hd
    obtain ⟨s1, hs1, hm1⟩ := hn uid s hu hs
    obtain ⟨so1, hso1⟩ := hso m so (hsoma m so hmo) hmo
    exact ⟨s1, m, so1, hs1, by rw [hm1, hm], hso1⟩
  | succ k ih =>
    intro uid hd hbad
    have hu := hbad (k + 1) uid (le_refl _) hd
    obtain ⟨s, m, hs, hm, hdm⟩ := hd
    obtain ⟨s1, hs1, hm1⟩ := hn uid s hu hs
    exact ⟨s1, m, hs1, by rw [hm1, hm],
      ih m hdm (fun j u hj hdu => hbad j u (Nat.le_succ_of_le hj) hdu)⟩

theorem NeuriteElement.UpdateRelative_mother (self : NeuriteElement) (old_relative
    new_relative : Nat) (h : self.mother ≠ some old_relative) :
    (self.UpdateRelative old_relative new_relative).mother = self.mother := by
  simp only [NeuriteElement.UpdateRelative, if_neg h]
  split_ifs <;> rfl

/-- The merge takes one neurite element out of the chain of mothers of the segment. -/
theorem RemoveProximalNeuriteElement_Depth (env : Env) (sim : Simulation) (this m k : Nat)
    (s mn : NeuriteElement) (hd : sim.Depth (k + 1) this)
    (hs : sim.objects this = some (SimObject.neurite s)) (hm : s.mother = some m)
    (hmn : sim.objects m = some (SimObject.neurite mn)) (hright : mn.daughter_right = none) :
    ∃ sim1, Op.RemoveProximalNeuriteElement env this sim = Result.ok () sim1 ∧
      sim1.objects m = none ∧ sim1.Depth k this := by
  have hd0 := hd
  obtain ⟨s', m', hs', hm', hdm⟩ := hd
  rw [hs] at hs'
  cases hs'
  rw [hm] at hm'
  cases hm'
  have hmt : m ≠ this := by
    intro h
    rw [h] at hdm
    exact absurd (sim.Depth_unique _ _ _ hdm hd0) (by omega)
  cases k with
  | zero =>
    obtain ⟨mn', g, so, hmn', hg, hgo⟩ := hdm
    rw [hmn] at hmn'
    cases hmn'
    have hgm : g ≠ m := by
      intro h
      rw [h, hmn] at hgo
      cases hgo
    have hgt : g ≠ this := by
      intro h
      rw [h, hs] at hgo
      cases hgo
    obtain ⟨sim1, n1, hrun, h1, h2, -, h3s, -, h5, -⟩ :=
      RemoveProximalNeuriteElement_run env sim this m g s mn (SimObject.soma so) hs hm hmn
        hright hg hgo hmt hgm hgt
    exact ⟨sim1, hrun, h2, n1, g, _, h1, h5, h3s so rfl⟩
  | succ k =>
    have hdm0 := hdm
    obtain ⟨mn', g, hmn', hg, hdg⟩ := hdm
    rw [hmn] at hmn'
    cases hmn'
    obtain ⟨gn, gg, hgo, hgg⟩ := sim.Depth_neurite k g hdg
    have hgm : g ≠ m := by
      intro h
      rw [h] at hdg
      exact absurd (sim.Depth_unique _ _ _ hdg hdm0) (by omega)
    have hgt : g ≠ this := by
      intro h
      rw [h] at hdg
      exact absurd (sim.Depth_unique _ _ _ hdg hd0) (by omega)
    have hgmother : gn.mother ≠ some m := by
      intro h
      cases k with
      | zero =>
        obtain ⟨gn', gg', so, hgn', hgg', hso⟩ := hdg
        rw [hgo] at hgn'
        cases hgn'
        rw [h] at hgg'
        cases hgg'
        rw [hmn] at hso
        cases hso
      | succ k =>
        obtain ⟨gn', gg', hgn', hgg', hdgg⟩ := hdg
        rw [hgo] at hgn'
        cases hgn'
        rw [h] at hgg'
        cases hgg'
        exact absurd (sim.Depth_unique _ _ _ hdgg hdm0) (by omega)
    obtain ⟨sim1, n1, hrun, h1, h2, h3n, -, h4, h5, -⟩ :=
      RemoveProximalNeuriteElement_run env sim this m g s mn (SimObject.neurite gn) hs hm hmn
        hright hg hgo hmt hgm hgt
    refine ⟨sim1, hrun, h2, n1, g, h1, h5, ?_⟩
    refine Simulation.Depth_transfer sim sim1 (fun u => u = this ∨ u = m) ?_ ?_ ?_ k g hdg ?_
    · intro u s0 hbad hu
      have hut : u ≠ this := fun h => hbad (Or.inl h)
      have hum : u ≠ m := fun h => hbad (Or.inr h)
      by_cases hug : u = g
      · subst hug
        rw [hgo] at hu
        cases hu
        exact ⟨_, h3n gn rfl, NeuriteElement.UpdateRelative_mother gn m this hgmother⟩
      · exact ⟨s0, by rw [h4 u hut hum hug, hu], rfl⟩
    · intro u so hbad hu
      have hut : u ≠ this := fun h => hbad (Or.inl h)
      have hum : u ≠ m := fun h => hbad (Or.inr h)
      have hug : u ≠ g := by
        intro h
        rw [h, hgo] at hu
        cases hu
      exact ⟨so, by rw [h4 u hut hum hug, hu]⟩
    · intro u so hu hbad
      rcases hbad with h | h
      · rw [h, hs] at hu
        cases hu
      · rw [h, hmn] at hu
        cases hu
    · intro j u hj hdu hbad
      rcases hbad with h | h
      · rw [h] at hdu
        exact absurd (sim.Depth_unique _ _ _ hdu hd0) (by omega)
      · rw [h] at hdu
        exact absurd (sim.Depth_unique _ _ _ hdu hdm0) (by omega)

theorem Op.UpdateDependentPhysicalVariables_ne_out_of_fuel (uid : Nat) (sim : Simulation) :
    Op.UpdateDependentPhysicalVariables uid sim ≠ Result.out_of_fuel := by
  rcases h : sim.objects uid with _ | (so | n)
  · simp [Op.UpdateDependentPhysicalVariables, Op.getNeurite_apply, h]
  · simp [Op.UpdateDependentPhysicalVariables, Op.getNeurite_apply, h]
  · cases hm : n.mother with
    | none => simp [Op.UpdateDependentPhysicalVariables, Op.getNeurite_apply, h, Op.OriginOf,
        Op.deref, hm]
    | some g =>
      rcases hg : sim.objects g with _ | (so | gn) <;>
        simp [Op.UpdateDependentPhysicalVariables, Op.getNeurite_apply, h, Op.OriginOf,
          Op.deref, hm, hg, Op.setNeurite_apply, Op.setObject_apply]

/-- The recursive call of `RetractTerminalEnd` (line 274): it follows the merge of the
segment with its mother. -/
theorem RetractTerminalEnd_merge_step (env : Env) (sim sim1 : Simulation) (this m : Nat)
    (s mn : NeuriteElement) (speed : ℝ) (fuel : Nat)
    (hs : sim.objects this = some (SimObject.neurite s)) (hterm : s.daughter_left = none)
    (hm : s.mother = some m) (hmn : sim.objects m = some (SimObject.neurite mn))
    (hshort : ¬s.actual_length > speed * env.param.simulation_time_step + 0.1)
    (hright : mn.daughter_right = none)
    (hrun : Op.RemoveProximalNeuriteElement env this sim = Result.ok () sim1) :
    Op.RetractTerminalEnd env (fuel + 1) this speed sim =
      Op.RetractTerminalEnd env fuel this
        (speed * env.param.simulation_time_step / env.param.simulation_time_step) sim1 := by
  rw [Op.RetractTerminalEnd]
  simp [Op.getNeurite_apply, hs, hterm, Op.deref, hm, hmn, hshort, hright, hrun]

/-- Outside the merge branch `RetractTerminalEnd` makes no recursive call. -/
theorem RetractTerminalEnd_no_call (env : Env) (sim : Simulation) (this m : Nat)
    (s : NeuriteElement) (mo : SimObject) (speed : ℝ)
    (hs : sim.objects this = some (SimObject.neurite s))
    (hm : s.mother = some m) (hmo : sim.objects m = some mo)
    (hnr : s.daughter_left ≠ none ∨
      s.actual_length > speed * env.param.simulation_time_step + 0.1 ∨
      (∃ so, mo = SimObject.soma so) ∨
      ∃ mn, mo = SimObject.neurite mn ∧ mn.daughter_right ≠ none) :
    (∀ f1 f2, Op.RetractTerminalEnd env (f1 + 1) this speed sim =
      Op.RetractTerminalEnd env (f2 + 1) this speed sim) ∧
    ∀ f, Op.RetractTerminalEnd env (f + 1) this speed sim ≠ Result.out_of_fuel := by
  by_cases hterm : s.daughter_left = none
  · by_cases hlong : s.actual_length > speed * env.param.simulation_time_step + 0.1
    · constructor
      · intro f1 f2
        simp [Op.RetractTerminalEnd, Op.getNeurite_apply, hs, hterm, Op.deref, hm, hmo, hlong]
      · intro f
        cases mo <;>
          simp [Op.RetractTerminalEnd, Op.getNeurite_apply, hs, hterm, Op.deref, hm, hmo,
            hlong, Op.OriginOf, Op.modify, Op.setNeurite_apply, Op.setObject_apply]
    · rcases hnr with h | h | ⟨so, rfl⟩ | ⟨mn, rfl, hr⟩
      · exact absurd hterm h
      · exact absurd h hlong
      · constructor
        · intro f1 f2
          simp [Op.RetractTerminalEnd, Op.getNeurite_apply, hs, hterm, Op.deref, hm, hmo,
            hlong]
        · intro f
          cases hrd : so.RemoveDaughter this <;>
            simp [Op.RetractTerminalEnd, Op.getNeurite_apply, hs, hterm, Op.deref, hm, hmo,
              hlong, Op.RemoveDaughter, hrd, Op.setObject_apply, Op.RemoveFromSimulation]
      · constructor
        · intro f1 f2
          simp [Op.RetractTerminalEnd, Op.getNeurite_apply, hs, hterm, Op.deref, hm, hmo,
            hlong, hr]
        · intro f
          cases hrd : mn.RemoveDaughter this <;>
            simp [Op.RetractTerminalEnd, Op.getNeurite_apply, hs, hterm, Op.deref, hm, hmo,
              hlong, hr, Op.RemoveDaughter, hrd, Op.setNeurite_apply, Op.setObject_apply,
              Op.RemoveFromSimulation, Op.UpdateDependentPhysicalVariables_ne_out_of_fuel]
  · constructor
    · intro f1 f2
      simp [Op.RetractTerminalEnd, Op.getNeurite_apply, hs, hterm]
    · intro f
      simp [Op.RetractTerminalEnd, Op.getNeurite_apply, hs, hterm]

/-- With `n` neurite elements between the segment and the soma, the fuel `n + 1` (at most
`n` recursive calls) is enough for `RetractTerminalEnd`, and more fuel changes nothing. -/
theorem RetractTerminalEnd_enough_fuel (env : Env) :
    ∀ (n : Nat) (sim : Simulation) (this : Nat) (speed : ℝ), sim.Depth n this →
      Op.RetractTerminalEnd env (n + 1) this speed sim ≠ Result.out_of_fuel ∧
      ∀ k, Op.RetractTerminalEnd env (n + 1 + k) this speed sim =
        Op.RetractTerminalEnd env (n + 1) this speed sim := by
  intro n
  induction n with
  | zero =>
    intro sim this speed hd
    obtain ⟨s, m, so, hs, hm, hmo⟩ := hd
    obtain ⟨heq, hne⟩ := RetractTerminalEnd_no_call env sim this m s (SimObject.soma so) speed
      hs hm hmo (Or.inr (Or.inr (Or.inl ⟨so, rfl⟩)))
    refine ⟨hne 0, fun k => ?_⟩
    rw [show 0 + 1 + k = (0 + k) + 1 by omega]
    exact heq _ _
  | succ n ih =>
    intro sim this speed hd
    have hd0 := hd
    obtain ⟨s, m, hs, hm, hdm⟩ := hd
    obtain ⟨mn, -, hmn, -⟩ := sim.Depth_neurite n m hdm
    by_cases hrec : s.daughter_left = none ∧
        ¬s.actual_length > speed * env.param.simulation_time_step + 0.1 ∧
        mn.daughter_right = none
    · obtain ⟨hterm, hshort, hright⟩ := hrec
      obtain ⟨sim1, hrun, -, hd1⟩ :=
        RemoveProximalNeuriteElement_Depth env sim this m n s mn hd0 hs hm hmn hright
      have hstep := fun fuel => RetractTerminalEnd_merge_step env sim sim1 this m s mn speed
        fuel hs hterm hm hmn hshort hright hrun
      obtain ⟨hne, heq⟩ := ih sim1 this
        (speed * env.param.simulation_time_step / env.param.simulation_time_step) hd1
      refine ⟨?_, fun k => ?_⟩
      · rw [hstep (n + 1)]
        exact hne
      · rw [show n + 1 + 1 + k = (n + 1 + k) + 1 by omega, hstep (n + 1 + k), hstep (n + 1)]
        exact heq k
    · have hnr : s.daughter_left ≠ none ∨
          s.actual_length > speed * env.param.simulation_time_step + 0.1 ∨
          (∃ so, SimObject.neurite mn = SimObject.soma so) ∨
          ∃ mn0, SimObject.neurite mn = SimObject.neurite mn0 ∧ mn0.daughter_right ≠ none := by
        by_cases h1 : s.daughter_left = none
        · by_cases h2 : s.actual_length > speed * env.param.simulation_time_step + 0.1
          · exact Or.inr (Or.inl h2)
          · exact Or.inr (Or.inr (Or.inr ⟨mn, rfl, fun h3 => hrec ⟨h1, h2, h3⟩⟩))
        · exact Or.inl h1
      obtain ⟨heq, hne⟩ := RetractTerminalEnd_no_call env sim this m s (SimObject.neurite mn)
        speed hs hm hmn hnr
      refine ⟨hne _, fun k => ?_⟩
      rw [show n + 1 + 1 + k = (n + 1 + k) + 1 by omega]
      exact heq _ _

/-- C39: retraction terminates. For a segment that hangs on a soma through a chain of
mothers with `n` neurite elements between it and the soma, and for every speed,
`RetractTerminalEnd` ends with the fuel `n + 1`, that is, after at most `n` recursive
calls, and more fuel does not change its result. Every call either makes no recursive
call (the fuel 1 is enough) or makes its recursive call on the state the merge of
`RemoveProximalNeuriteElement` has left: the mother of the segment, a neurite element, is
removed there and one neurite element less stands between the segment and the soma. -/
theorem C39_retraction_terminates (env : Env) (n : Nat) (sim : Simulation) (this : Nat)
    (speed : ℝ) (hd : sim.Depth n this) :
    Op.RetractTerminalEnd env (n + 1) this speed sim ≠ Result.out_of_fuel ∧
    (∀ k, Op.RetractTerminalEnd env (n + 1 + k) this speed sim =
      Op.RetractTerminalEnd env (n + 1) this speed sim) ∧
    ((∀ fuel, Op.RetractTerminalEnd env (fuel + 1) this speed sim ≠ Result.out_of_fuel) ∨
      ∃ n1 s m mn sim1, n = n1 + 1 ∧ sim.objects this = some (SimObject.neurite s) ∧
        s.mother = some m ∧ sim.objects m = some (SimObject.neurite mn) ∧
        Op.RemoveProximalNeuriteElement env this sim = Result.ok () sim1 ∧
        sim1.objects m = none ∧ sim1.Depth n1 this ∧
        ∀ fuel, Op.RetractTerminalEnd env (fuel + 1) this speed sim =
          Op.RetractTerminalEnd env fuel this
            (speed * env.param.simulation_time_step / env.param.simulation_time_step)
            sim1) := by
  obtain ⟨hne, heq⟩ := RetractTerminalEnd_enough_fuel env n sim this speed hd
  refine ⟨hne, heq, ?_⟩
  obtain ⟨s, m, hs, hm⟩ := sim.Depth_neurite n this hd
  cases n with
  | zero =>
    obtain ⟨s', m', so, hs', hm', hmo⟩ := hd
    rw [hs] at hs'
    cases hs'
    rw [hm] at hm'
    cases hm'
    exact Or.inl (RetractTerminalEnd_no_call env sim this m s (SimObject.soma so) speed
      hs hm hmo (Or.inr (Or.inr (Or.inl ⟨so, rfl⟩)))).2
  | succ n =>
    have hd0 := hd
    obtain ⟨s', m', hs', hm', hdm⟩ := hd
    rw [hs] at hs'
    cases hs'
    rw [hm] at hm'
    cases hm'
    obtain ⟨mn, -, hmn, -⟩ := sim.Depth_neurite n m hdm
    by_cases hrec : s.daughter_left = none ∧
        ¬s.actual_length > speed * env.param.simulation_time_step + 0.1 ∧
        mn.daughter_right = none
    · obtain ⟨hterm, hshort, hright⟩ := hrec
      obtain ⟨sim1, hrun, hgone, hd1⟩ :=
        RemoveProximalNeuriteElement_Depth env sim this m n s mn hd0 hs hm hmn hright
      exact Or.inr ⟨n, s, m, mn, sim1, rfl, hs, hm, hmn, hrun, hgone, hd1,
        fun fuel => RetractTerminalEnd_merge_step env sim sim1 this m s mn speed fuel hs hterm
          hm hmn hshort hright hrun⟩
    · have hnr : s.daughter_left ≠ none ∨
          s.actual_length > speed * env.param.simulation_time_step + 0.1 ∨
          (∃ so, SimObject.neurite mn = SimObject.soma so) ∨
          ∃ mn0, SimObject.neurite mn = SimObject.neurite mn0 ∧ mn0.daughter_right ≠ none := by
        by_cases h1 : s.daughter_left = none
        · by_cases h2 : s.actual_length > speed * env.param.simulation_time_step + 0.1
          · exact Or.inr (Or.inl h2)
          · exact Or.inr (Or.inr (Or.inr ⟨mn, rfl, fun h3 => hrec ⟨h1, h2, h3⟩⟩))
        · exact Or.inl h1
      exact Or.inl (RetractTerminalEnd_no_call env sim this m s (SimObject.neurite mn) speed
        hs hm hmn hnr).2

/-- Witness of C39: the terminal segment 2 of the example chain has one neurite element,
its mother 1, between it and the soma 0; with the speed 1 it is too short to be shortened,
merges with the segment 1 and is shortened in the one recursive call. -/
theorem C39_retraction_terminates_witness :
    exampleChain.Depth 1 2 ∧
    Op.RetractTerminalEnd exampleEnv (1 + 1) 2 1 exampleChain ≠ Result.out_of_fuel :=
  ⟨⟨exampleTip, 1, rfl, rfl, exampleMother, 0, exampleSoma, rfl, rfl, rfl⟩,
    (C39_retraction_terminates exampleEnv 1 exampleChain 2 1
      ⟨exampleTip, 1, rfl, rfl, exampleMother, 0, exampleSoma, rfl, rfl, rfl⟩).1⟩

/-! ## A sibling among the neighbours -/

theorem exampleStretched_displacement :
    Op.DisplacementOfForce exampleEnv exampleStretched.adherence ⟨-2, 0, 0⟩ = ⟨-2, 0, 0⟩ := by
  have hadh : exampleStretched.adherence = 1 := rfl
  have hmax : exampleEnv.param.simulation_max_displacement = 3 := rfl
  unfold Op.DisplacementOfForce
  simp only [Math.Norm_x_axis, hadh, hmax]
  norm_num

theorem exampleStretched_displacement_scaled :
    Op.DisplacementOfForce exampleEnv exampleStretched.adherence ⟨-0.02, 0, 0⟩ =
      ⟨0, 0, 0⟩ := by
  have hadh : exampleStretched.adherence = 1 := rfl
  have hmax : exampleEnv.param.simulation_max_displacement = 3 := rfl
  have habs : |(-0.02 : ℝ)| = 0.02 := by
    rw [abs_of_neg (by norm_num)]
    norm_num
  unfold Op.DisplacementOfForce
  simp only [Math.Norm_x_axis, hadh, hmax, habs]
  norm_num

/-- C37 fails on the code for a sibling. In the example fork under tension the segment 3
is the sibling of the segment 2, a direct relative in the spec's words. The neighbour
lists `[3]` and `[]` of the segment 2 agree on whether they hold a neurite element that
is not a direct relative (neither does), yet `CalculateDisplacement` returns the zero
vector for the first and `(−2, 0, 0)` for the second: the sibling sets
`has_neurite_neighbor` and the internal force is scaled by `0.01`. -/
theorem C37_sibling_neighbour_scales_the_force :
    exampleStretchedFork.objects 2 = some (SimObject.neurite exampleStretched) ∧
    exampleStretchedFork.DirectRelative 2 exampleStretched 3 ∧
    (¬∃ nb ∈ ([3] : List Nat),
      (∃ nn, exampleStretchedFork.objects nb = some (SimObject.neurite nn)) ∧
        ¬exampleStretchedFork.DirectRelative 2 exampleStretched nb) ∧
    (¬∃ nb ∈ ([] : List Nat),
      (∃ nn, exampleStretchedFork.objects nb = some (SimObject.neurite nn)) ∧
        ¬exampleStretchedFork.DirectRelative 2 exampleStretched nb) ∧
    (∃ sim1, Op.CalculateDisplacement exampleEnv (fun _ _ => [3]) 2 1 exampleStretchedFork =
      Result.ok ⟨0, 0, 0⟩ sim1) ∧
    (∃ sim1, Op.CalculateDisplacement exampleEnv (fun _ _ => []) 2 1 exampleStretchedFork =
      Result.ok ⟨-2, 0, 0⟩ sim1) ∧
    (⟨0, 0, 0⟩ : Vec3) ≠ ⟨-2, 0, 0⟩ := by
  have hs : exampleStretchedFork.objects 2 = some (SimObject.neurite exampleStretched) := rfl
  have hrel : exampleStretchedFork.DirectRelative 2 exampleStretched 3 :=
    Or.inr (Or.inr (Or.inr ⟨by decide, 1, rfl, Or.inl ⟨exampleForked, rfl, Or.inr rfl⟩⟩))
  refine ⟨hs, hrel, ?_, ?_, ?_, ?_, ?_⟩
  · rintro ⟨nb, hnb, -, hnot⟩
    rw [List.mem_singleton] at hnb
    subst hnb
    exact hnot hrel
  · rintro ⟨nb, hnb, -⟩
    cases hnb
  · have h := Op.CalculateDisplacement_of_forces exampleEnv (fun _ _ => [3]) 2 1
      exampleStretchedFork exampleStretched _ hs exampleStretchedFork_forces_sibling
    rw [exampleStretched_displacement_scaled] at h
    exact ⟨_, h⟩
  · have h := Op.CalculateDisplacement_of_forces exampleEnv (fun _ _ => []) 2 1
      exampleStretchedFork exampleStretched _ hs exampleStretchedFork_forces
    rw [exampleStretched_displacement] at h
    exact ⟨_, h⟩
  · intro h
    have hx := congrArg Vec3.x h
    norm_num at hx

end bdm
